import Mathlib

/-!
# PurC eJSON tokenizer and tree builder

A shallow embedding of `Source/PurC/ejson/ejson.c`.

* A wide character (`wchar_t wc`) is a natural number, its code point.
* The input stream (`purc_rwstream_t rws`) is the list of characters that
  `purc_rwstream_read_utf8_char` still has to deliver; when the list is
  empty the read reports `len <= 0`.
* A temporary buffer (`tmp_buff`, `tmp_buff2`) is the list of bytes written
  since its last reset; the write position is the length of that list.
* The container stack (`pcutils_stack`) is a list whose head is the top.
* `pcinst_set_error` is modelled by returning the error code next to the
  token.
-/

namespace PurC

/-! ## Character classification -/

/-- Translation of `is_whitespace`: space, line feed, tab, form feed. -/
def is_whitespace (character : Nat) : Bool :=
  character == 32 || character == 10 || character == 9 || character == 12

/-- Translation of `to_ascii_lower_unchecked`: `character | 0x20`. -/
def to_ascii_lower_unchecked (character : Nat) : Nat :=
  character ||| 0x20

/-- Translation of `is_ascii_lower`: in the range a to z. -/
def is_ascii_lower (character : Nat) : Bool :=
  decide (97 ≤ character) && decide (character ≤ 122)

/-- Translation of `is_ascii_digit`: in the range 0 to 9. -/
def is_ascii_digit (character : Nat) : Bool :=
  decide (48 ≤ character) && decide (character ≤ 57)

/-- Translation of `is_ascii_binary_digit`. -/
def is_ascii_binary_digit (character : Nat) : Bool :=
  character == 48 || character == 49

/-- Translation of `is_ascii_hex_digit`. -/
def is_ascii_hex_digit (character : Nat) : Bool :=
  is_ascii_digit character ||
    (decide (97 ≤ to_ascii_lower_unchecked character)
      && decide (to_ascii_lower_unchecked character ≤ 102))

/-- Translation of `is_ascii_alpha`. -/
def is_ascii_alpha (character : Nat) : Bool :=
  is_ascii_lower (to_ascii_lower_unchecked character)

/-- Translation of `is_ascii_alpha_numeric`. -/
def is_ascii_alpha_numeric (character : Nat) : Bool :=
  is_ascii_digit character || is_ascii_alpha character

/-- Translation of `is_delimiter`: whitespace, closing brace, closing bracket, comma. -/
def is_delimiter (c : Nat) : Bool :=
  is_whitespace c || c == 125 || c == 93 || c == 44

/-! ## Data model -/

/-- The states of `enum ejson_state`, as listed by `pcejson_ejson_state_desc`. -/
inductive ejson_state
  | ejson_init_state
  | ejson_finished_state
  | ejson_object_state
  | ejson_after_object_state
  | ejson_array_state
  | ejson_after_array_state
  | ejson_before_name_state
  | ejson_after_name_state
  | ejson_before_value_state
  | ejson_after_value_state
  | ejson_name_unquoted_state
  | ejson_name_single_quoted_state
  | ejson_name_double_quoted_state
  | ejson_value_single_quoted_state
  | ejson_value_double_quoted_state
  | ejson_after_value_double_quoted_state
  | ejson_value_two_double_quoted_state
  | ejson_value_three_double_quoted_state
  | ejson_keyword_state
  | ejson_after_keyword_state
  | ejson_byte_sequence_state
  | ejson_after_byte_sequence_state
  | ejson_hex_byte_sequence_state
  | ejson_binary_byte_sequence_state
  | ejson_base64_byte_sequence_state
  | ejson_value_number_state
  | ejson_after_value_number_state
  | ejson_value_number_integer_state
  | ejson_value_number_fraction_state
  | ejson_value_number_exponent_state
  | ejson_value_number_exponent_integer_state
  | ejson_value_number_suffix_integer_state
  | ejson_string_escape_state
  | ejson_string_escape_four_hexadecimal_digits_state
  deriving DecidableEq, Repr

/-- The token kinds of `enum ejson_token_type` used by `ejson.c`. -/
inductive ejson_token_type
  | ejson_token_start_object
  | ejson_token_end_object
  | ejson_token_start_array
  | ejson_token_end_array
  | ejson_token_key
  | ejson_token_string
  | ejson_token_null
  | ejson_token_boolean
  | ejson_token_number
  | ejson_token_long_int
  | ejson_token_ulong_int
  | ejson_token_long_double
  | ejson_token_comma
  | ejson_token_text
  | ejson_token_byte_squence
  | ejson_token_eof
  deriving DecidableEq, Repr

/-- The error codes `ejson.c` passes to `pcinst_set_error`. -/
inductive pcejson_error
  | PCEJSON_UNEXPECTED_CHARACTER_PARSE_ERROR
  | PCEJSON_UNEXPECTED_NULL_CHARACTER_PARSE_ERROR
  | PCEJSON_UNEXPECTED_JSON_NUMBER_EXPONENT_PARSE_ERROR
  | PCEJSON_UNEXPECTED_JSON_NUMBER_FRACTION_PARSE_ERROR
  | PCEJSON_UNEXPECTED_JSON_NUMBER_INTEGER_PARSE_ERROR
  | PCEJSON_UNEXPECTED_JSON_NUMBER_PARSE_ERROR
  | PCEJSON_UNEXPECTED_RIGHT_BRACE_PARSE_ERROR
  | PCEJSON_UNEXPECTED_RIGHT_BRACKET_PARSE_ERROR
  | PCEJSON_UNEXPECTED_JSON_KEY_NAME_PARSE_ERROR
  | PCEJSON_UNEXPECTED_COMMA_PARSE_ERROR
  | PCEJSON_UNEXPECTED_JSON_KEYWORD_PARSE_ERROR
  | PCEJSON_UNEXPECTED_BASE64_PARSE_ERROR
  | PCEJSON_BAD_JSON_NUMBER_PARSE_ERROR
  | PCEJSON_BAD_JSON_PARSE_ERROR
  | PCEJSON_BAD_JSON_STRING_ESCAPE_ENTITY_PARSE_ERROR
  | PCEJSON_EOF_IN_STRING_PARSE_ERROR
  deriving DecidableEq, Repr

/-- A token, `struct pcejson_token`: its type and its text (`none` is a NULL `buf`). -/
structure pcejson_token where
  type : ejson_token_type
  buf : Option (List Nat)
  deriving DecidableEq, Repr

/-- The tokenizer, `struct pcejson`. -/
structure pcejson where
  state : ejson_state
  depth : Int
  flags : Nat
  stack : List Nat
  tmp_buff : List Nat
  tmp_buff2 : List Nat
  return_state : ejson_state
  deriving DecidableEq, Repr

/-- Translation of `pcejson_create`: state init, empty stack, empty buffers.
The zero-filled allocation leaves `return_state` at the first enumerator. -/
def pcejson_create (depth : Int) (flags : Nat) : pcejson :=
  { state := .ejson_init_state, depth := depth, flags := flags, stack := [],
    tmp_buff := [], tmp_buff2 := [], return_state := .ejson_init_state }

/-! ## Collaborators that are not part of the sources -/

/-- Modelled from the spec: `purc_rwstream_read_utf8_char` is not in the sources.
The spec says the stream is UTF-8 decoded one wide character per step; these are
the bytes `buf_utf8[0..len)` that the read hands over together with `wc`. -/
def utf8_bytes (wc : Nat) : List Nat :=
  if wc < 0x80 then [wc]
  else if wc < 0x800 then [0xC0 + wc / 64, 0x80 + wc % 64]
  else if wc < 0x10000 then [0xE0 + wc / 4096, 0x80 + wc / 64 % 64, 0x80 + wc % 64]
  else [0xF0 + wc / 262144, 0x80 + wc / 4096 % 64, 0x80 + wc / 64 % 64, 0x80 + wc % 64]

/-- Modelled from the spec: `pcutils_stack_top` is not in the sources. The top of
the open-container stack; an empty stack has no marker, rendered as 0. -/
def pcutils_stack_top (stack : List Nat) : Nat :=
  stack.headD 0

/-- Modelled from the spec: `pcutils_stack_pop` is not in the sources. Removes the
top marker; an empty stack stays empty. -/
def pcutils_stack_pop (stack : List Nat) : List Nat :=
  stack.tail

/-- Modelled from the spec: `pcutils_stack_push` is not in the sources. -/
def pcutils_stack_push (stack : List Nat) (e : Nat) : List Nat :=
  e :: stack

/-- Modelled from the spec: `pcutils_stack_is_empty` is not in the sources. -/
def pcutils_stack_is_empty (stack : List Nat) : Bool :=
  stack.isEmpty

/-! ## Temporary buffer -/

/-- The C string that starts at the buffer base: the bytes before the first NUL
(the memory behind the write position is zero after `pcejson_tmp_buff_reset`). -/
def c_string (bytes : List Nat) : List Nat :=
  bytes.takeWhile (fun b => b != 0)

/-- Translation of `pcejson_tmp_buff_reset`: zero the memory, seek to 0. -/
def pcejson_tmp_buff_reset (_rws : List Nat) : List Nat :=
  []

/-- Translation of `pcejson_tmp_buff_dup`: `strncpy` of the buffer. -/
def pcejson_tmp_buff_dup (rws : List Nat) : List Nat :=
  c_string rws

/-- Translation of `pcejson_tmp_buff_is_empty`: the write position is 0. -/
def pcejson_tmp_buff_is_empty (rws : List Nat) : Bool :=
  rws.length == 0

/-- Translation of `pcejson_tmp_buff_append`: write `sz` bytes at the position. -/
def pcejson_tmp_buff_append (rws : List Nat) (buf : List Nat) : List Nat :=
  rws ++ buf

/-- Translation of `pcejson_tmp_buff_length`: the write position. -/
def pcejson_tmp_buff_length (rws : List Nat) : Nat :=
  rws.length

/-- Translation of `pcejson_tmp_buff_remove_first_last`: duplicate, reset, write
`strlen(dup) - first - last` bytes from `dup + first`. The C subtraction is on
`size_t`; the function is only meaningful when `first + last` does not exceed
the length, where the truncated subtraction used here agrees with it. -/
def pcejson_tmp_buff_remove_first_last (rws : List Nat) (first last : Nat) : List Nat :=
  let dup := pcejson_tmp_buff_dup rws
  (dup.drop first).take (dup.length - first - last)

/-- Translation of `pcejson_tmp_buff_equal`: `strcmp` of the buffer with `s`. -/
def pcejson_tmp_buff_equal (rws : List Nat) (s : List Nat) : Bool :=
  c_string rws == s

/-- Translation of `pcejson_tmp_buff_end_with`: `strncmp` of the last `strlen(s)`
written bytes with `s`. The C code reads before the buffer when fewer bytes were
written; here that case answers false. -/
def pcejson_tmp_buff_end_with (rws : List Nat) (s : List Nat) : Bool :=
  decide (s.length ≤ rws.length) && (rws.drop (rws.length - s.length) == s)

/-- Translation of `pcejson_tmp_buff_last_char`: the byte before the write
position. The C code reads `p[-1]` on an empty buffer; here that case answers 0. -/
def pcejson_tmp_buff_last_char (rws : List Nat) : Nat :=
  rws.getLastD 0

/-! ## Control flow of `pcejson_next_token` -/

/-- What one pass through the `switch (ejson->state)` ends with. -/
inductive Outcome
  /-- Control went to `next_input`: the next character is read. -/
  | advance (ejson : pcejson)
  /-- The same character is dispatched again under the new state. -/
  | reconsume (ejson : pcejson)
  /-- The call returned: the token (`none` is NULL), the error code set on the way,
  and whether the current character was handed back to the stream. -/
  | ret (token : Option pcejson_token) (err : Option pcejson_error) (ejson : pcejson)
      (unread : Bool)
  deriving DecidableEq, Repr

/-- Modelled from the spec: the macro `ADVANCE_TO` is not in the sources. It sets
the state and loops for the next character. -/
def ADVANCE_TO (ejson : pcejson) (new_state : ejson_state) : Outcome :=
  .advance { ejson with state := new_state }

/-- Modelled from the spec: the macro `RETURN_TO` is not in the sources. It goes
back to the state that requested escaping and loops for the next character. -/
def RETURN_TO (ejson : pcejson) (new_state : ejson_state) : Outcome :=
  .advance { ejson with state := new_state }

/-- Modelled from the spec: the macro `RECONSUME_IN` is not in the sources. It sets
the state and dispatches the same character again without reading a new one. -/
def RECONSUME_IN (ejson : pcejson) (new_state : ejson_state) : Outcome :=
  .reconsume { ejson with state := new_state }

/-- Modelled from the spec: the macro `SWITCH_TO` is not in the sources. It sets
the state for the next call; the token is returned right after it. -/
def SWITCH_TO (ejson : pcejson) (new_state : ejson_state) : pcejson :=
  { ejson with state := new_state }

/-- A `return pcejson_token_new (type, buf)` that set no error. -/
def RETURN_TOKEN (ejson : pcejson) (type : ejson_token_type) (buf : Option (List Nat)) :
    Outcome :=
  .ret (some ⟨type, buf⟩) none ejson false

/-- Modelled from the spec: the macro `RECONSUME_IN_NEXT` is not in the sources. It
sets the state and leaves the current character to the next call; in `ejson.c` it
is always followed by the return of a token. -/
def RECONSUME_IN_NEXT (ejson : pcejson) (new_state : ejson_state)
    (type : ejson_token_type) (buf : Option (List Nat)) : Outcome :=
  .ret (some ⟨type, buf⟩) none { ejson with state := new_state } true

/-- The pair `pcinst_set_error (code); return NULL;`. -/
def PARSE_ERROR (ejson : pcejson) (code : pcejson_error) : Outcome :=
  .ret none (some code) ejson false

/-- The pair `pcinst_set_error (PCEJSON_EOF_IN_STRING_PARSE_ERROR); return` of an
EOF token. -/
def EOF_IN_STRING (ejson : pcejson) (buf : Option (List Nat)) : Outcome :=
  .ret (some ⟨.ejson_token_eof, buf⟩) (some .PCEJSON_EOF_IN_STRING_PARSE_ERROR) ejson false

/-- Leaving the `switch` through `break`: the final `return NULL`, no error set. -/
def RETURN_NULL (ejson : pcejson) : Outcome :=
  .ret none none ejson false

open ejson_state ejson_token_type pcejson_error

/-! ## The state handlers, one per `BEGIN_STATE` block -/

/-- Handler of `ejson_init_state`. -/
def init_state (ejson : pcejson) (wc : Nat) : Outcome :=
  if wc = 32 ∨ wc = 10 ∨ wc = 9 ∨ wc = 12 then ADVANCE_TO ejson ejson_init_state
  else if wc = 123 then RECONSUME_IN ejson ejson_object_state
  else if wc = 91 then RECONSUME_IN ejson ejson_object_state
  else if wc = 0 then RETURN_TOKEN ejson ejson_token_eof none
  else PARSE_ERROR ejson PCEJSON_UNEXPECTED_CHARACTER_PARSE_ERROR

/-- Handler of `ejson_finished_state`. -/
def finished_state (ejson : pcejson) (wc : Nat) : Outcome :=
  if wc = 32 ∨ wc = 10 ∨ wc = 9 ∨ wc = 12 then ADVANCE_TO ejson ejson_finished_state
  else if wc = 0 then RETURN_TOKEN ejson ejson_token_eof none
  else PARSE_ERROR ejson PCEJSON_UNEXPECTED_CHARACTER_PARSE_ERROR

/-- Handler of `ejson_object_state`. -/
def object_state (ejson : pcejson) (wc : Nat) : Outcome :=
  if wc = 32 ∨ wc = 10 ∨ wc = 9 ∨ wc = 12 then ADVANCE_TO ejson ejson_before_name_state
  else if wc = 123 then
    let ejson := { ejson with stack := pcutils_stack_push ejson.stack 123 }
    let ejson := { ejson with tmp_buff := pcejson_tmp_buff_reset ejson.tmp_buff }
    RETURN_TOKEN (SWITCH_TO ejson ejson_before_name_state) ejson_token_start_object none
  else PARSE_ERROR ejson PCEJSON_UNEXPECTED_CHARACTER_PARSE_ERROR

/-- Handler of `ejson_after_object_state`. -/
def after_object_state (ejson : pcejson) (wc : Nat) : Outcome :=
  if wc = 125 then
    let c := pcutils_stack_top ejson.stack
    if c = 123 then
      let ejson := { ejson with stack := pcutils_stack_pop ejson.stack }
      if pcutils_stack_is_empty ejson.stack then
        RETURN_TOKEN (SWITCH_TO ejson ejson_finished_state) ejson_token_end_object none
      else
        RETURN_TOKEN (SWITCH_TO ejson ejson_after_value_state) ejson_token_end_object none
    else PARSE_ERROR ejson PCEJSON_UNEXPECTED_RIGHT_BRACE_PARSE_ERROR
  else PARSE_ERROR ejson PCEJSON_UNEXPECTED_CHARACTER_PARSE_ERROR

/-- Handler of `ejson_array_state`. -/
def array_state (ejson : pcejson) (wc : Nat) : Outcome :=
  if wc = 32 ∨ wc = 10 ∨ wc = 9 ∨ wc = 12 then ADVANCE_TO ejson ejson_before_value_state
  else if wc = 91 then
    let ejson := { ejson with stack := pcutils_stack_push ejson.stack 91 }
    let ejson := { ejson with tmp_buff := pcejson_tmp_buff_reset ejson.tmp_buff }
    RETURN_TOKEN (SWITCH_TO ejson ejson_before_value_state) ejson_token_start_array none
  else PARSE_ERROR ejson PCEJSON_UNEXPECTED_CHARACTER_PARSE_ERROR

/-- Handler of `ejson_after_array_state`. -/
def after_array_state (ejson : pcejson) (wc : Nat) : Outcome :=
  if wc = 93 then
    let c := pcutils_stack_top ejson.stack
    if c = 91 then
      let ejson := { ejson with stack := pcutils_stack_pop ejson.stack }
      if pcutils_stack_is_empty ejson.stack then
        RETURN_TOKEN (SWITCH_TO ejson ejson_finished_state) ejson_token_end_array none
      else
        RETURN_TOKEN (SWITCH_TO ejson ejson_after_value_state) ejson_token_end_array none
    else PARSE_ERROR ejson PCEJSON_UNEXPECTED_RIGHT_BRACKET_PARSE_ERROR
  else PARSE_ERROR ejson PCEJSON_UNEXPECTED_CHARACTER_PARSE_ERROR

/-- The common part of the three name branches of `ejson_before_name_state`:
reset the buffer and push the colon marker when the top is an open brace. -/
def before_name_enter (ejson : pcejson) : pcejson :=
  let ejson := { ejson with tmp_buff := pcejson_tmp_buff_reset ejson.tmp_buff }
  let c := pcutils_stack_top ejson.stack
  if c = 123 then { ejson with stack := pcutils_stack_push ejson.stack 58 } else ejson

/-- Handler of `ejson_before_name_state`. -/
def before_name_state (ejson : pcejson) (wc : Nat) : Outcome :=
  if is_whitespace wc then ADVANCE_TO ejson ejson_before_name_state
  else if wc = 34 then RECONSUME_IN (before_name_enter ejson) ejson_name_double_quoted_state
  else if wc = 39 then RECONSUME_IN (before_name_enter ejson) ejson_name_single_quoted_state
  else if is_ascii_alpha wc then RECONSUME_IN (before_name_enter ejson) ejson_name_unquoted_state
  else if wc = 125 then RECONSUME_IN ejson ejson_after_object_state
  else PARSE_ERROR ejson PCEJSON_UNEXPECTED_CHARACTER_PARSE_ERROR

/-- Handler of `ejson_after_name_state`. -/
def after_name_state (ejson : pcejson) (wc : Nat) : Outcome :=
  if wc = 32 ∨ wc = 10 ∨ wc = 9 ∨ wc = 12 then ADVANCE_TO ejson ejson_after_name_state
  else if wc = 58 then
    if pcejson_tmp_buff_is_empty ejson.tmp_buff then
      PARSE_ERROR ejson PCEJSON_UNEXPECTED_JSON_KEY_NAME_PARSE_ERROR
    else
      RETURN_TOKEN (SWITCH_TO ejson ejson_before_value_state) ejson_token_key
        (some (pcejson_tmp_buff_dup ejson.tmp_buff))
  else PARSE_ERROR ejson PCEJSON_UNEXPECTED_CHARACTER_PARSE_ERROR

/-- The buffer reset done by the literal branches of `ejson_before_value_state`. -/
def before_value_enter (ejson : pcejson) : pcejson :=
  { ejson with tmp_buff := pcejson_tmp_buff_reset ejson.tmp_buff }

/-- Handler of `ejson_before_value_state`. -/
def before_value_state (ejson : pcejson) (wc : Nat) : Outcome :=
  if is_whitespace wc then ADVANCE_TO ejson ejson_before_value_state
  else if wc = 34 then RECONSUME_IN (before_value_enter ejson) ejson_value_double_quoted_state
  else if wc = 39 then RECONSUME_IN (before_value_enter ejson) ejson_value_single_quoted_state
  else if wc = 98 then RECONSUME_IN (before_value_enter ejson) ejson_byte_sequence_state
  else if wc = 116 ∨ wc = 102 ∨ wc = 110 then
    RECONSUME_IN (before_value_enter ejson) ejson_keyword_state
  else if is_ascii_digit wc ∨ wc = 45 then
    RECONSUME_IN (before_value_enter ejson) ejson_value_number_state
  else if wc = 123 then RECONSUME_IN ejson ejson_object_state
  else if wc = 91 then RECONSUME_IN ejson ejson_array_state
  else if wc = 93 then RECONSUME_IN ejson ejson_after_array_state
  else PARSE_ERROR ejson PCEJSON_UNEXPECTED_CHARACTER_PARSE_ERROR

/-- Handler of `ejson_after_value_state`. -/
def after_value_state (ejson : pcejson) (wc : Nat) : Outcome :=
  if is_whitespace wc then ADVANCE_TO ejson ejson_after_value_state
  else if wc = 34 ∨ wc = 39 then
    RETURN_TOKEN ejson ejson_token_string (some (pcejson_tmp_buff_dup ejson.tmp_buff))
  else if wc = 125 then
    RECONSUME_IN { ejson with stack := pcutils_stack_pop ejson.stack } ejson_after_object_state
  else if wc = 93 then RECONSUME_IN ejson ejson_after_array_state
  else if wc = 44 then
    let c := pcutils_stack_top ejson.stack
    if c = 123 then
      RETURN_TOKEN (SWITCH_TO ejson ejson_before_name_state) ejson_token_comma none
    else if c = 91 then
      RETURN_TOKEN (SWITCH_TO ejson ejson_before_value_state) ejson_token_comma none
    else if c = 58 then
      let ejson := { ejson with stack := pcutils_stack_pop ejson.stack }
      RETURN_TOKEN (SWITCH_TO ejson ejson_before_name_state) ejson_token_comma none
    else PARSE_ERROR ejson PCEJSON_UNEXPECTED_COMMA_PARSE_ERROR
  else PARSE_ERROR ejson PCEJSON_UNEXPECTED_CHARACTER_PARSE_ERROR

/-- Handler of `ejson_name_unquoted_state`. -/
def name_unquoted_state (ejson : pcejson) (wc : Nat) : Outcome :=
  if is_whitespace wc ∨ wc = 58 then RECONSUME_IN ejson ejson_after_name_state
  else if is_ascii_alpha wc ∨ is_ascii_digit wc ∨ wc = 45 ∨ wc = 95 then
    ADVANCE_TO { ejson with tmp_buff := pcejson_tmp_buff_append ejson.tmp_buff (utf8_bytes wc) }
      ejson_name_unquoted_state
  else PARSE_ERROR ejson PCEJSON_UNEXPECTED_CHARACTER_PARSE_ERROR

/-- Handler of `ejson_name_single_quoted_state`. -/
def name_single_quoted_state (ejson : pcejson) (wc : Nat) : Outcome :=
  if wc = 39 then
    let tmp_buf_len := pcejson_tmp_buff_length ejson.tmp_buff
    if tmp_buf_len ≥ 1 then ADVANCE_TO ejson ejson_after_name_state
    else ADVANCE_TO ejson ejson_name_single_quoted_state
  else if wc = 92 then
    ADVANCE_TO { ejson with return_state := ejson.state } ejson_string_escape_state
  else if wc = 0 then EOF_IN_STRING ejson none
  else
    ADVANCE_TO { ejson with tmp_buff := pcejson_tmp_buff_append ejson.tmp_buff (utf8_bytes wc) }
      ejson_name_single_quoted_state

/-- Handler of `ejson_name_double_quoted_state`. -/
def name_double_quoted_state (ejson : pcejson) (wc : Nat) : Outcome :=
  if wc = 34 then
    let tmp_buf_len := pcejson_tmp_buff_length ejson.tmp_buff
    if tmp_buf_len ≥ 1 then ADVANCE_TO ejson ejson_after_name_state
    else ADVANCE_TO ejson ejson_name_double_quoted_state
  else if wc = 92 then
    ADVANCE_TO { ejson with return_state := ejson.state } ejson_string_escape_state
  else if wc = 0 then EOF_IN_STRING ejson none
  else
    ADVANCE_TO { ejson with tmp_buff := pcejson_tmp_buff_append ejson.tmp_buff (utf8_bytes wc) }
      ejson_name_double_quoted_state

/-- Handler of `ejson_value_single_quoted_state`. -/
def value_single_quoted_state (ejson : pcejson) (wc : Nat) : Outcome :=
  if wc = 39 then
    let tmp_buf_len := pcejson_tmp_buff_length ejson.tmp_buff
    if tmp_buf_len ≥ 1 then RECONSUME_IN ejson ejson_after_value_state
    else ADVANCE_TO ejson ejson_value_single_quoted_state
  else if wc = 92 then
    ADVANCE_TO { ejson with return_state := ejson.state } ejson_string_escape_state
  else if wc = 0 then EOF_IN_STRING ejson none
  else
    ADVANCE_TO { ejson with tmp_buff := pcejson_tmp_buff_append ejson.tmp_buff (utf8_bytes wc) }
      ejson_value_single_quoted_state

/-- Handler of `ejson_value_double_quoted_state`. -/
def value_double_quoted_state (ejson : pcejson) (wc : Nat) : Outcome :=
  if wc = 34 then
    if pcejson_tmp_buff_is_empty ejson.tmp_buff then
      ADVANCE_TO { ejson with tmp_buff := pcejson_tmp_buff_append ejson.tmp_buff (utf8_bytes wc) }
        ejson_value_double_quoted_state
    else if pcejson_tmp_buff_equal ejson.tmp_buff [34] then
      RECONSUME_IN ejson ejson_value_two_double_quoted_state
    else RECONSUME_IN ejson ejson_after_value_double_quoted_state
  else if wc = 92 then
    ADVANCE_TO { ejson with return_state := ejson.state } ejson_string_escape_state
  else if wc = 0 then EOF_IN_STRING ejson none
  else
    ADVANCE_TO { ejson with tmp_buff := pcejson_tmp_buff_append ejson.tmp_buff (utf8_bytes wc) }
      ejson_value_double_quoted_state

/-- Handler of `ejson_after_value_double_quoted_state`. -/
def after_value_double_quoted_state (ejson : pcejson) (wc : Nat) : Outcome :=
  if wc = 34 then
    RECONSUME_IN
      { ejson with tmp_buff := pcejson_tmp_buff_remove_first_last ejson.tmp_buff 1 0 }
      ejson_after_value_state
  else PARSE_ERROR ejson PCEJSON_UNEXPECTED_CHARACTER_PARSE_ERROR

/-- Handler of `ejson_value_two_double_quoted_state`. -/
def value_two_double_quoted_state (ejson : pcejson) (wc : Nat) : Outcome :=
  if wc = 34 then
    if pcejson_tmp_buff_equal ejson.tmp_buff [34] then
      ADVANCE_TO { ejson with tmp_buff := pcejson_tmp_buff_append ejson.tmp_buff (utf8_bytes wc) }
        ejson_value_two_double_quoted_state
    else if pcejson_tmp_buff_equal ejson.tmp_buff [34, 34] then
      RECONSUME_IN ejson ejson_value_three_double_quoted_state
    else RETURN_NULL ejson
  else if wc = 0 then EOF_IN_STRING ejson none
  else
    RECONSUME_IN
      { ejson with tmp_buff := pcejson_tmp_buff_remove_first_last ejson.tmp_buff 1 1 }
      ejson_after_value_state

/-- Handler of `ejson_value_three_double_quoted_state`. -/
def value_three_double_quoted_state (ejson : pcejson) (wc : Nat) : Outcome :=
  if wc = 34 then
    let ejson :=
      { ejson with tmp_buff := pcejson_tmp_buff_append ejson.tmp_buff (utf8_bytes wc) }
    let buf_len := pcejson_tmp_buff_length ejson.tmp_buff
    if buf_len ≥ 6 ∧ pcejson_tmp_buff_end_with ejson.tmp_buff [34, 34, 34] then
      let ejson :=
        { ejson with tmp_buff := pcejson_tmp_buff_remove_first_last ejson.tmp_buff 3 3 }
      RETURN_TOKEN (SWITCH_TO ejson ejson_after_value_state) ejson_token_text
        (some (pcejson_tmp_buff_dup ejson.tmp_buff))
    else ADVANCE_TO ejson ejson_value_three_double_quoted_state
  else if wc = 0 then EOF_IN_STRING ejson (some (pcejson_tmp_buff_dup ejson.tmp_buff))
  else
    ADVANCE_TO { ejson with tmp_buff := pcejson_tmp_buff_append ejson.tmp_buff (utf8_bytes wc) }
      ejson_value_three_double_quoted_state

/-- The branch shared by the letter cases of `ejson_keyword_state`: append the
character when the guard holds, otherwise the keyword error. -/
def keyword_accept (ejson : pcejson) (wc : Nat) (guard : Bool) : Outcome :=
  if guard then
    ADVANCE_TO { ejson with tmp_buff := pcejson_tmp_buff_append ejson.tmp_buff (utf8_bytes wc) }
      ejson_keyword_state
  else PARSE_ERROR ejson PCEJSON_UNEXPECTED_JSON_KEYWORD_PARSE_ERROR

/-- Handler of `ejson_keyword_state`. -/
def keyword_state (ejson : pcejson) (wc : Nat) : Outcome :=
  if is_delimiter wc then RECONSUME_IN ejson ejson_after_keyword_state
  else if wc = 116 ∨ wc = 102 ∨ wc = 110 then
    keyword_accept ejson wc (pcejson_tmp_buff_is_empty ejson.tmp_buff)
  else if wc = 114 then
    keyword_accept ejson wc (pcejson_tmp_buff_equal ejson.tmp_buff [116])
  else if wc = 117 then
    keyword_accept ejson wc (pcejson_tmp_buff_equal ejson.tmp_buff [116, 114]
      || pcejson_tmp_buff_equal ejson.tmp_buff [110])
  else if wc = 101 then
    keyword_accept ejson wc (pcejson_tmp_buff_equal ejson.tmp_buff [116, 114, 117]
      || pcejson_tmp_buff_equal ejson.tmp_buff [102, 97, 108, 115])
  else if wc = 97 then
    keyword_accept ejson wc (pcejson_tmp_buff_equal ejson.tmp_buff [102])
  else if wc = 108 then
    keyword_accept ejson wc (pcejson_tmp_buff_equal ejson.tmp_buff [110, 117]
      || pcejson_tmp_buff_equal ejson.tmp_buff [110, 117, 108]
      || pcejson_tmp_buff_equal ejson.tmp_buff [102, 97])
  else if wc = 115 then
    keyword_accept ejson wc (pcejson_tmp_buff_equal ejson.tmp_buff [102, 97, 108])
  else PARSE_ERROR ejson PCEJSON_UNEXPECTED_CHARACTER_PARSE_ERROR

/-- Handler of `ejson_after_keyword_state`. -/
def after_keyword_state (ejson : pcejson) (wc : Nat) : Outcome :=
  if is_delimiter wc then
    if pcejson_tmp_buff_equal ejson.tmp_buff [116, 114, 117, 101]
        || pcejson_tmp_buff_equal ejson.tmp_buff [102, 97, 108, 115, 101] then
      RECONSUME_IN_NEXT ejson ejson_after_value_state ejson_token_boolean
        (some (pcejson_tmp_buff_dup ejson.tmp_buff))
    else if pcejson_tmp_buff_equal ejson.tmp_buff [110, 117, 108, 108] then
      RECONSUME_IN_NEXT ejson ejson_after_value_state ejson_token_null none
    else PARSE_ERROR ejson PCEJSON_UNEXPECTED_CHARACTER_PARSE_ERROR
  else PARSE_ERROR ejson PCEJSON_UNEXPECTED_CHARACTER_PARSE_ERROR

/-- Handler of `ejson_byte_sequence_state`. -/
def byte_sequence_state (ejson : pcejson) (wc : Nat) : Outcome :=
  if wc = 98 then
    if pcejson_tmp_buff_is_empty ejson.tmp_buff then
      ADVANCE_TO { ejson with tmp_buff := pcejson_tmp_buff_append ejson.tmp_buff (utf8_bytes wc) }
        ejson_byte_sequence_state
    else
      ADVANCE_TO { ejson with tmp_buff := pcejson_tmp_buff_append ejson.tmp_buff (utf8_bytes wc) }
        ejson_binary_byte_sequence_state
  else if wc = 120 then
    ADVANCE_TO { ejson with tmp_buff := pcejson_tmp_buff_append ejson.tmp_buff (utf8_bytes wc) }
      ejson_hex_byte_sequence_state
  else if wc = 54 then
    ADVANCE_TO { ejson with tmp_buff := pcejson_tmp_buff_append ejson.tmp_buff (utf8_bytes wc) }
      ejson_base64_byte_sequence_state
  else PARSE_ERROR ejson PCEJSON_UNEXPECTED_CHARACTER_PARSE_ERROR

/-- Handler of `ejson_after_byte_sequence_state`. -/
def after_byte_sequence_state (ejson : pcejson) (wc : Nat) : Outcome :=
  if is_delimiter wc then
    RECONSUME_IN_NEXT ejson ejson_after_value_state ejson_token_byte_squence
      (some (pcejson_tmp_buff_dup ejson.tmp_buff))
  else PARSE_ERROR ejson PCEJSON_UNEXPECTED_CHARACTER_PARSE_ERROR

/-- Handler of `ejson_hex_byte_sequence_state`. -/
def hex_byte_sequence_state (ejson : pcejson) (wc : Nat) : Outcome :=
  if is_delimiter wc then RECONSUME_IN ejson ejson_after_byte_sequence_state
  else if is_ascii_digit wc ∨ is_ascii_hex_digit wc then
    ADVANCE_TO { ejson with tmp_buff := pcejson_tmp_buff_append ejson.tmp_buff (utf8_bytes wc) }
      ejson_hex_byte_sequence_state
  else PARSE_ERROR ejson PCEJSON_UNEXPECTED_CHARACTER_PARSE_ERROR

/-- Handler of `ejson_binary_byte_sequence_state`. -/
def binary_byte_sequence_state (ejson : pcejson) (wc : Nat) : Outcome :=
  if is_delimiter wc then RECONSUME_IN ejson ejson_after_byte_sequence_state
  else if is_ascii_binary_digit wc then
    ADVANCE_TO { ejson with tmp_buff := pcejson_tmp_buff_append ejson.tmp_buff (utf8_bytes wc) }
      ejson_binary_byte_sequence_state
  else if wc = 46 then ADVANCE_TO ejson ejson_binary_byte_sequence_state
  else PARSE_ERROR ejson PCEJSON_UNEXPECTED_CHARACTER_PARSE_ERROR

/-- Handler of `ejson_base64_byte_sequence_state`. -/
def base64_byte_sequence_state (ejson : pcejson) (wc : Nat) : Outcome :=
  if is_delimiter wc then RECONSUME_IN ejson ejson_after_byte_sequence_state
  else if wc = 61 then
    ADVANCE_TO { ejson with tmp_buff := pcejson_tmp_buff_append ejson.tmp_buff (utf8_bytes wc) }
      ejson_base64_byte_sequence_state
  else if is_ascii_digit wc ∨ is_ascii_alpha wc ∨ wc = 43 ∨ wc = 45 then
    if ¬ pcejson_tmp_buff_end_with ejson.tmp_buff [61] then
      ADVANCE_TO { ejson with tmp_buff := pcejson_tmp_buff_append ejson.tmp_buff (utf8_bytes wc) }
        ejson_base64_byte_sequence_state
    else PARSE_ERROR ejson PCEJSON_UNEXPECTED_BASE64_PARSE_ERROR
  else PARSE_ERROR ejson PCEJSON_UNEXPECTED_CHARACTER_PARSE_ERROR

/-- Handler of `ejson_value_number_state`. -/
def value_number_state (ejson : pcejson) (wc : Nat) : Outcome :=
  if is_delimiter wc then RECONSUME_IN ejson ejson_after_value_number_state
  else if is_ascii_digit wc then RECONSUME_IN ejson ejson_value_number_integer_state
  else if wc = 45 then
    ADVANCE_TO { ejson with tmp_buff := pcejson_tmp_buff_append ejson.tmp_buff (utf8_bytes wc) }
      ejson_value_number_integer_state
  else PARSE_ERROR ejson PCEJSON_BAD_JSON_NUMBER_PARSE_ERROR

/-- Handler of `ejson_after_value_number_state`. A character that is no delimiter
leaves the block through `END_STATE` and reaches the final `return NULL`. -/
def after_value_number_state (ejson : pcejson) (wc : Nat) : Outcome :=
  if is_delimiter wc then
    if pcejson_tmp_buff_end_with ejson.tmp_buff [45]
        || pcejson_tmp_buff_end_with ejson.tmp_buff [69]
        || pcejson_tmp_buff_end_with ejson.tmp_buff [101] then
      PARSE_ERROR ejson PCEJSON_BAD_JSON_NUMBER_PARSE_ERROR
    else
      RECONSUME_IN_NEXT ejson ejson_after_value_state ejson_token_number
        (some (pcejson_tmp_buff_dup ejson.tmp_buff))
  else RETURN_NULL ejson

/-- Handler of `ejson_value_number_integer_state`. -/
def value_number_integer_state (ejson : pcejson) (wc : Nat) : Outcome :=
  if is_delimiter wc then RECONSUME_IN ejson ejson_after_value_number_state
  else if is_ascii_digit wc then
    ADVANCE_TO { ejson with tmp_buff := pcejson_tmp_buff_append ejson.tmp_buff (utf8_bytes wc) }
      ejson_value_number_integer_state
  else if wc = 69 ∨ wc = 101 then
    ADVANCE_TO { ejson with tmp_buff := pcejson_tmp_buff_append ejson.tmp_buff [101] }
      ejson_value_number_exponent_state
  else if wc = 46 ∨ wc = 70 then
    ADVANCE_TO { ejson with tmp_buff := pcejson_tmp_buff_append ejson.tmp_buff (utf8_bytes wc) }
      ejson_value_number_fraction_state
  else if wc = 85 ∨ wc = 76 then RECONSUME_IN ejson ejson_value_number_suffix_integer_state
  else PARSE_ERROR ejson PCEJSON_UNEXPECTED_JSON_NUMBER_INTEGER_PARSE_ERROR

/-- Handler of `ejson_value_number_fraction_state`. -/
def value_number_fraction_state (ejson : pcejson) (wc : Nat) : Outcome :=
  if is_delimiter wc then RECONSUME_IN ejson ejson_after_value_number_state
  else if is_ascii_digit wc then
    if pcejson_tmp_buff_end_with ejson.tmp_buff [70] then
      PARSE_ERROR ejson PCEJSON_BAD_JSON_NUMBER_PARSE_ERROR
    else
      ADVANCE_TO { ejson with tmp_buff := pcejson_tmp_buff_append ejson.tmp_buff (utf8_bytes wc) }
        ejson_value_number_fraction_state
  else if wc = 70 then
    ADVANCE_TO { ejson with tmp_buff := pcejson_tmp_buff_append ejson.tmp_buff (utf8_bytes wc) }
      ejson_value_number_fraction_state
  else if wc = 76 then
    if pcejson_tmp_buff_end_with ejson.tmp_buff [70] then
      let ejson :=
        { ejson with tmp_buff := pcejson_tmp_buff_append ejson.tmp_buff (utf8_bytes wc) }
      RETURN_TOKEN (SWITCH_TO ejson ejson_after_value_state) ejson_token_long_double
        (some (pcejson_tmp_buff_dup ejson.tmp_buff))
    else PARSE_ERROR ejson PCEJSON_UNEXPECTED_JSON_NUMBER_FRACTION_PARSE_ERROR
  else if wc = 69 ∨ wc = 101 then
    if pcejson_tmp_buff_end_with ejson.tmp_buff [46] then
      PARSE_ERROR ejson PCEJSON_UNEXPECTED_JSON_NUMBER_FRACTION_PARSE_ERROR
    else
      ADVANCE_TO { ejson with tmp_buff := pcejson_tmp_buff_append ejson.tmp_buff [101] }
        ejson_value_number_exponent_state
  else PARSE_ERROR ejson PCEJSON_UNEXPECTED_JSON_NUMBER_FRACTION_PARSE_ERROR

/-- Handler of `ejson_value_number_exponent_state`. -/
def value_number_exponent_state (ejson : pcejson) (wc : Nat) : Outcome :=
  if is_delimiter wc then RECONSUME_IN ejson ejson_after_value_number_state
  else if is_ascii_digit wc then RECONSUME_IN ejson ejson_value_number_exponent_integer_state
  else if wc = 43 ∨ wc = 45 then
    ADVANCE_TO { ejson with tmp_buff := pcejson_tmp_buff_append ejson.tmp_buff (utf8_bytes wc) }
      ejson_value_number_exponent_integer_state
  else PARSE_ERROR ejson PCEJSON_UNEXPECTED_JSON_NUMBER_EXPONENT_PARSE_ERROR

/-- Handler of `ejson_value_number_exponent_integer_state`. -/
def value_number_exponent_integer_state (ejson : pcejson) (wc : Nat) : Outcome :=
  if is_delimiter wc then RECONSUME_IN ejson ejson_after_value_number_state
  else if is_ascii_digit wc then
    if pcejson_tmp_buff_end_with ejson.tmp_buff [70] then
      PARSE_ERROR ejson PCEJSON_BAD_JSON_NUMBER_PARSE_ERROR
    else
      ADVANCE_TO { ejson with tmp_buff := pcejson_tmp_buff_append ejson.tmp_buff (utf8_bytes wc) }
        ejson_value_number_exponent_integer_state
  else if wc = 70 then
    ADVANCE_TO { ejson with tmp_buff := pcejson_tmp_buff_append ejson.tmp_buff (utf8_bytes wc) }
      ejson_value_number_exponent_integer_state
  else if wc = 76 then
    if pcejson_tmp_buff_end_with ejson.tmp_buff [70] then
      let ejson :=
        { ejson with tmp_buff := pcejson_tmp_buff_append ejson.tmp_buff (utf8_bytes wc) }
      RETURN_TOKEN (SWITCH_TO ejson ejson_after_value_number_state) ejson_token_long_double
        (some (pcejson_tmp_buff_dup ejson.tmp_buff))
    else PARSE_ERROR ejson PCEJSON_UNEXPECTED_JSON_NUMBER_EXPONENT_PARSE_ERROR
  else PARSE_ERROR ejson PCEJSON_UNEXPECTED_JSON_NUMBER_EXPONENT_PARSE_ERROR

/-- Handler of `ejson_value_number_suffix_integer_state`. -/
def value_number_suffix_integer_state (ejson : pcejson) (wc : Nat) : Outcome :=
  let last_c := pcejson_tmp_buff_last_char ejson.tmp_buff
  if is_delimiter wc then RECONSUME_IN ejson ejson_after_value_number_state
  else if wc = 85 then
    if is_ascii_digit last_c then
      ADVANCE_TO { ejson with tmp_buff := pcejson_tmp_buff_append ejson.tmp_buff (utf8_bytes wc) }
        ejson_value_number_suffix_integer_state
    else PARSE_ERROR ejson PCEJSON_UNEXPECTED_JSON_NUMBER_INTEGER_PARSE_ERROR
  else if wc = 76 then
    if is_ascii_digit last_c ∨ last_c = 85 then
      let ejson :=
        { ejson with tmp_buff := pcejson_tmp_buff_append ejson.tmp_buff (utf8_bytes wc) }
      if pcejson_tmp_buff_end_with ejson.tmp_buff [85, 76] then
        RETURN_TOKEN (SWITCH_TO ejson ejson_after_value_state) ejson_token_ulong_int
          (some (pcejson_tmp_buff_dup ejson.tmp_buff))
      else if pcejson_tmp_buff_end_with ejson.tmp_buff [76] then
        RETURN_TOKEN (SWITCH_TO ejson ejson_after_value_state) ejson_token_long_int
          (some (pcejson_tmp_buff_dup ejson.tmp_buff))
      else PARSE_ERROR ejson PCEJSON_UNEXPECTED_JSON_NUMBER_INTEGER_PARSE_ERROR
    else PARSE_ERROR ejson PCEJSON_UNEXPECTED_JSON_NUMBER_INTEGER_PARSE_ERROR
  else PARSE_ERROR ejson PCEJSON_UNEXPECTED_JSON_NUMBER_INTEGER_PARSE_ERROR

/-- Handler of `ejson_string_escape_state`. -/
def string_escape_state (ejson : pcejson) (wc : Nat) : Outcome :=
  if wc = 92 ∨ wc = 47 ∨ wc = 34 ∨ wc = 98 ∨ wc = 102 ∨ wc = 110 ∨ wc = 114 ∨ wc = 116 then
    let ejson := { ejson with tmp_buff := pcejson_tmp_buff_append ejson.tmp_buff [92] }
    let ejson :=
      { ejson with tmp_buff := pcejson_tmp_buff_append ejson.tmp_buff (utf8_bytes wc) }
    RETURN_TO ejson ejson.return_state
  else if wc = 117 then
    ADVANCE_TO { ejson with tmp_buff2 := pcejson_tmp_buff_reset ejson.tmp_buff2 }
      ejson_string_escape_four_hexadecimal_digits_state
  else PARSE_ERROR ejson PCEJSON_BAD_JSON_STRING_ESCAPE_ENTITY_PARSE_ERROR

/-- Handler of `ejson_string_escape_four_hexadecimal_digits_state`. After the
fourth digit the staging buffer is rewound and its four bytes are copied behind
the two bytes of the escape introducer. -/
def string_escape_four_hexadecimal_digits_state (ejson : pcejson) (wc : Nat) : Outcome :=
  if is_ascii_hex_digit wc then
    let ejson :=
      { ejson with tmp_buff2 := pcejson_tmp_buff_append ejson.tmp_buff2 (utf8_bytes wc) }
    let buf2_len := pcejson_tmp_buff_length ejson.tmp_buff2
    if buf2_len = 4 then
      let ejson := { ejson with tmp_buff := pcejson_tmp_buff_append ejson.tmp_buff [92, 117] }
      let ejson :=
        { ejson with tmp_buff := pcejson_tmp_buff_append ejson.tmp_buff (ejson.tmp_buff2.take 4) }
      RETURN_TO ejson ejson.return_state
    else ADVANCE_TO ejson ejson_string_escape_four_hexadecimal_digits_state
  else PARSE_ERROR ejson PCEJSON_BAD_JSON_STRING_ESCAPE_ENTITY_PARSE_ERROR

/-! ## The tokenizer -/

/-- One pass through `switch (ejson->state)` of `pcejson_next_token`. -/
def step (ejson : pcejson) (wc : Nat) : Outcome :=
  match ejson.state with
  | ejson_init_state => init_state ejson wc
  | ejson_finished_state => finished_state ejson wc
  | ejson_object_state => object_state ejson wc
  | ejson_after_object_state => after_object_state ejson wc
  | ejson_array_state => array_state ejson wc
  | ejson_after_array_state => after_array_state ejson wc
  | ejson_before_name_state => before_name_state ejson wc
  | ejson_after_name_state => after_name_state ejson wc
  | ejson_before_value_state => before_value_state ejson wc
  | ejson_after_value_state => after_value_state ejson wc
  | ejson_name_unquoted_state => name_unquoted_state ejson wc
  | ejson_name_single_quoted_state => name_single_quoted_state ejson wc
  | ejson_name_double_quoted_state => name_double_quoted_state ejson wc
  | ejson_value_single_quoted_state => value_single_quoted_state ejson wc
  | ejson_value_double_quoted_state => value_double_quoted_state ejson wc
  | ejson_after_value_double_quoted_state => after_value_double_quoted_state ejson wc
  | ejson_value_two_double_quoted_state => value_two_double_quoted_state ejson wc
  | ejson_value_three_double_quoted_state => value_three_double_quoted_state ejson wc
  | ejson_keyword_state => keyword_state ejson wc
  | ejson_after_keyword_state => after_keyword_state ejson wc
  | ejson_byte_sequence_state => byte_sequence_state ejson wc
  | ejson_after_byte_sequence_state => after_byte_sequence_state ejson wc
  | ejson_hex_byte_sequence_state => hex_byte_sequence_state ejson wc
  | ejson_binary_byte_sequence_state => binary_byte_sequence_state ejson wc
  | ejson_base64_byte_sequence_state => base64_byte_sequence_state ejson wc
  | ejson_value_number_state => value_number_state ejson wc
  | ejson_after_value_number_state => after_value_number_state ejson wc
  | ejson_value_number_integer_state => value_number_integer_state ejson wc
  | ejson_value_number_fraction_state => value_number_fraction_state ejson wc
  | ejson_value_number_exponent_state => value_number_exponent_state ejson wc
  | ejson_value_number_exponent_integer_state => value_number_exponent_integer_state ejson wc
  | ejson_value_number_suffix_integer_state => value_number_suffix_integer_state ejson wc
  | ejson_string_escape_state => string_escape_state ejson wc
  | ejson_string_escape_four_hexadecimal_digits_state =>
    string_escape_four_hexadecimal_digits_state ejson wc

/-- The longest chain of `RECONSUME_IN` jumps that is followed for one character;
there are 34 states and no chain visits a state twice. -/
def RECONSUME_LIMIT : Nat := 34

/-- Dispatch one character: run `step`, following `RECONSUME_IN` jumps. When the
limit is used up the pending jump is handed back unchanged. -/
def dispatch : Nat → pcejson → Nat → Outcome
  | 0, ejson, _ => .reconsume ejson
  | limit + 1, ejson, wc =>
    match step ejson wc with
    | .reconsume ejson1 => dispatch limit ejson1 wc
    | o => o

/-- What a call of `pcejson_next_token` leaves behind: the returned token (`none`
is NULL), the error code set during the call, the tokenizer, and the stream. -/
structure next_token_result where
  token : Option pcejson_token
  err : Option pcejson_error
  ejson : pcejson
  rws : List Nat
  deriving DecidableEq, Repr

/-- Translation of `pcejson_next_token`. The label `next_input` is the recursive
call; a read with `len <= 0` (the stream is used up) returns NULL. -/
def pcejson_next_token (ejson : pcejson) : List Nat → next_token_result
  | [] => ⟨none, none, ejson, []⟩
  | wc :: rws =>
    match dispatch RECONSUME_LIMIT ejson wc with
    | .advance ejson1 => pcejson_next_token ejson1 rws
    | .reconsume ejson1 => ⟨none, none, ejson1, rws⟩
    | .ret token err ejson1 unread => ⟨token, err, ejson1, if unread then wc :: rws else rws⟩

/-! ## The tree builder -/

/-- The node kinds `pcejson_token_to_pcvcm_node` creates. -/
inductive pcvcm_node_type
  | PCVCM_NODE_TYPE_OBJECT
  | PCVCM_NODE_TYPE_ARRAY
  | PCVCM_NODE_TYPE_KEY
  | PCVCM_NODE_TYPE_STRING
  | PCVCM_NODE_TYPE_NULL
  | PCVCM_NODE_TYPE_BOOLEAN
  | PCVCM_NODE_TYPE_NUMBER
  | PCVCM_NODE_TYPE_LONG_INT
  | PCVCM_NODE_TYPE_ULONG_INT
  | PCVCM_NODE_TYPE_LONG_DOUBLE
  | PCVCM_NODE_TYPE_BYTE_SEQUENCE
  deriving DecidableEq, Repr

open pcvcm_node_type

/-- A tree node, `struct pcvcm_node`: its type, its text and the pointers to its
children in order. A pointer is a positive number, 0 is NULL; the node behind
pointer `n` is entry `n - 1` of the list of allocated nodes. -/
structure pcvcm_node where
  type : pcvcm_node_type
  buf : Option (List Nat)
  children : List Nat
  deriving DecidableEq, Repr

/-- Modelled from the spec: `pcvcm_node_new` is not in the sources. A fresh node of
the given type that carries the given text and has no children. -/
def pcvcm_node_new (type : pcvcm_node_type) (buf : Option (List Nat)) : pcvcm_node :=
  ⟨type, buf, []⟩

/-- Modelled from the spec: `pctree_node_append_child` is not in the sources. The
child pointer becomes the last child of the node behind the parent pointer. -/
def pctree_node_append_child : List pcvcm_node → Nat → Nat → List pcvcm_node
  | [], _, _ => []
  | nd :: rest, 0, _ => nd :: rest
  | nd :: rest, 1, child => { nd with children := nd.children ++ [child] } :: rest
  | nd :: rest, parent + 2, child => nd :: pctree_node_append_child rest (parent + 1) child

/-- Translation of `pcejson_token_to_pcvcm_node`: the node to allocate, if any,
and the node stack after the call. -/
def pcejson_token_to_pcvcm_node (node_stack : List Nat) (token : pcejson_token) :
    Option pcvcm_node × List Nat :=
  let buf := token.buf
  match token.type with
  | ejson_token_start_object => (some (pcvcm_node_new PCVCM_NODE_TYPE_OBJECT none), node_stack)
  | ejson_token_end_object => (none, pcutils_stack_pop node_stack)
  | ejson_token_start_array => (some (pcvcm_node_new PCVCM_NODE_TYPE_ARRAY none), node_stack)
  | ejson_token_end_array => (none, pcutils_stack_pop node_stack)
  | ejson_token_key => (some (pcvcm_node_new PCVCM_NODE_TYPE_KEY buf), node_stack)
  | ejson_token_string => (some (pcvcm_node_new PCVCM_NODE_TYPE_STRING buf), node_stack)
  | ejson_token_null => (some (pcvcm_node_new PCVCM_NODE_TYPE_NULL buf), node_stack)
  | ejson_token_boolean => (some (pcvcm_node_new PCVCM_NODE_TYPE_BOOLEAN buf), node_stack)
  | ejson_token_number => (some (pcvcm_node_new PCVCM_NODE_TYPE_NUMBER buf), node_stack)
  | ejson_token_long_int => (some (pcvcm_node_new PCVCM_NODE_TYPE_LONG_INT buf), node_stack)
  | ejson_token_ulong_int => (some (pcvcm_node_new PCVCM_NODE_TYPE_ULONG_INT buf), node_stack)
  | ejson_token_long_double =>
    (some (pcvcm_node_new PCVCM_NODE_TYPE_LONG_DOUBLE buf), node_stack)
  | ejson_token_text => (some (pcvcm_node_new PCVCM_NODE_TYPE_STRING buf), node_stack)
  | ejson_token_byte_squence =>
    (some (pcvcm_node_new PCVCM_NODE_TYPE_BYTE_SEQUENCE buf), node_stack)
  | _ => (none, node_stack)

/-- The variables the loop of `pcejson_parse` works on: the allocated nodes, the
root pointer `*vcm_tree` and the stack of open container nodes. -/
structure tree_builder where
  nodes : List pcvcm_node
  vcm_tree : Nat
  node_stack : List Nat
  deriving DecidableEq, Repr

/-- The body of the `while (token)` loop of `pcejson_parse` for one token. -/
def parse_token (b : tree_builder) (token : pcejson_token) : tree_builder :=
  match pcejson_token_to_pcvcm_node b.node_stack token with
  | (none, node_stack) => { b with node_stack := node_stack }
  | (some nd, node_stack) =>
    let node := b.nodes.length + 1
    let nodes := b.nodes ++ [nd]
    let vcm_tree := if b.vcm_tree = 0 then node else b.vcm_tree
    let parent := pcutils_stack_top node_stack
    let nodes :=
      if parent ≠ 0 ∧ parent ≠ node then pctree_node_append_child nodes parent node else nodes
    let node_stack :=
      if nd.type = PCVCM_NODE_TYPE_OBJECT ∨ nd.type = PCVCM_NODE_TYPE_ARRAY then
        pcutils_stack_push node_stack node
      else node_stack
    { nodes := nodes, vcm_tree := vcm_tree, node_stack := node_stack }

/-- What `pcejson_parse` leaves behind: its return value, the tree, the last error
code set through `pcinst_set_error`, and the tokenizer and stream at the end. -/
structure parse_result where
  ret : Int
  tree : tree_builder
  error : Option pcejson_error
  ejson : pcejson
  rws : List Nat
  deriving DecidableEq, Repr

/-- The loop of `pcejson_parse`: ask for tokens until NULL comes back, then
`return 0`. The first argument bounds the number of calls; `none` means the
bound was too small. -/
def parse_loop : Nat → pcejson → List Nat → tree_builder → Option pcejson_error →
    Option parse_result
  | 0, _, _, _, _ => none
  | calls + 1, ejson, rws, b, error =>
    let r := pcejson_next_token ejson rws
    let error := if r.err.isSome then r.err else error
    match r.token with
    | none => some ⟨0, b, error, r.ejson, r.rws⟩
    | some token => parse_loop calls r.ejson r.rws (parse_token b token) error

/-- Translation of `pcejson_parse`; `vcm_tree` is the value of `*vcm_tree` at
entry. A call of the tokenizer either takes a character from the stream or hands
one back after having left a literal state, so twice the length of the stream
plus two bounds the number of calls. -/
def pcejson_parse (vcm_tree : Nat) (rws : List Nat) : Option parse_result :=
  parse_loop (2 * rws.length + 2) (pcejson_create 10 1) rws ⟨[], vcm_tree, []⟩ none

/-- The node behind a pointer, if the pointer is valid. -/
def node_at (nodes : List pcvcm_node) (ptr : Nat) : Option pcvcm_node :=
  if ptr = 0 then none else nodes.get? (ptr - 1)

/-- The input characters of an ASCII text. -/
def chars (s : String) : List Nat :=
  s.toList.map Char.toNat

/-! # The variable manager and named variables

Translation of `Source/PurC/interpreter/var-mgr.c` and of
`Source/PurC/interpreter/internal.c`. A C string is the list of its bytes before the
terminating NUL, so `strcmp (a, b) == 0` is equality of lists and a `const char *` that
may be NULL is an `Option`. A variant pointer (`purc_variant_t`) is a natural number: 0
is `PURC_VARIANT_INVALID`, and pointer `v` stands for entry `v - 1` of the list of
allocated variants, which the functions pass along. The last error of the instance is
passed along in the same way. -/

/-- Modelled from the spec: the variant kinds are not in the sources. -/
inductive purc_variant_type
  | PURC_VARIANT_TYPE_UNDEFINED
  | PURC_VARIANT_TYPE_NULL
  | PURC_VARIANT_TYPE_BOOLEAN
  | PURC_VARIANT_TYPE_NUMBER
  | PURC_VARIANT_TYPE_STRING
  | PURC_VARIANT_TYPE_BSEQUENCE
  | PURC_VARIANT_TYPE_NATIVE
  | PURC_VARIANT_TYPE_OBJECT
  | PURC_VARIANT_TYPE_ARRAY
  | PURC_VARIANT_TYPE_SET
  deriving DecidableEq, Repr

/-- Modelled from the spec: `struct purc_variant` is not in the sources. A value has a
kind, the bytes of a string, and the contents of a container: the members of an object
as pairs of key and value pointer in insertion order, the elements of an array or a set
as pairs with an empty key. -/
structure purc_variant where
  type : purc_variant_type
  text : List Nat
  members : List (List Nat × Nat)
  deriving DecidableEq, Repr

/-- The error codes the two files set. -/
inductive purc_error_code
  | PURC_ERROR_OK
  | PURC_ERROR_OUT_OF_MEMORY
  | PURC_ERROR_ARGUMENT_MISSED
  | PURC_ERROR_ENTITY_NOT_FOUND
  | PURC_ERROR_BAD_NAME
  | PCVARIANT_ERROR_NOT_FOUND
  deriving DecidableEq, Repr

/-- The last error of the instance: the code and the formatted extra text, if any. -/
structure purc_error where
  code : purc_error_code
  info : Option (List Nat)
  deriving DecidableEq, Repr

open purc_variant_type purc_error_code

/-- Modelled from the spec: `purc_clr_error` is not in the sources. -/
def purc_clr_error : purc_error :=
  ⟨PURC_ERROR_OK, none⟩

/-- Modelled from the spec: `purc_set_error` is not in the sources. -/
def purc_set_error (code : purc_error_code) : purc_error :=
  ⟨code, none⟩

/-- Modelled from the spec: `purc_set_error_with_info` is not in the sources; `info` is
the text after formatting. -/
def purc_set_error_with_info (code : purc_error_code) (info : List Nat) : purc_error :=
  ⟨code, some info⟩

/-- The variant behind a pointer, if the pointer is valid. -/
def variant_at (heap : List purc_variant) (v : Nat) : Option purc_variant :=
  if v = 0 then none else heap[v - 1]?

/-- Modelled from the spec: `purc_variant_is_undefined` is not in the sources. -/
def purc_variant_is_undefined (heap : List purc_variant) (v : Nat) : Bool :=
  match variant_at heap v with
  | some x => x.type == PURC_VARIANT_TYPE_UNDEFINED
  | none => false

/-- Modelled from the spec: `purc_variant_is_object` is not in the sources. -/
def purc_variant_is_object (heap : List purc_variant) (v : Nat) : Bool :=
  match variant_at heap v with
  | some x => x.type == PURC_VARIANT_TYPE_OBJECT
  | none => false

/-- The value a list of members binds a key to, 0 if there is none. -/
def members_get : List (List Nat × Nat) → List Nat → Nat
  | [], _ => 0
  | (k, v) :: rest, key => if k = key then v else members_get rest key

/-- Bind a key in a list of members: replace the value of the key, or add the pair at
the end. -/
def members_set : List (List Nat × Nat) → List Nat → Nat → List (List Nat × Nat)
  | [], key, value => [(key, value)]
  | (k, v) :: rest, key, value =>
    if k = key then (key, value) :: rest else (k, v) :: members_set rest key value

/-- Drop a key from a list of members. -/
def members_remove : List (List Nat × Nat) → List Nat → List (List Nat × Nat)
  | [], _ => []
  | (k, v) :: rest, key =>
    if k = key then members_remove rest key else (k, v) :: members_remove rest key

/-- Modelled from the spec: `purc_variant_object_get_by_ckey` (and
`purc_variant_object_get` with a string variant made from the same bytes) is not in the
sources. The value bound to the key, `PURC_VARIANT_INVALID` if the key is not bound or
the pointer is no object. An error the function may record on a miss is not modelled:
every caller translated here clears or overwrites the error after a miss. -/
def purc_variant_object_get_by_ckey (heap : List purc_variant) (obj : Nat) (key : List Nat) :
    Nat :=
  match variant_at heap obj with
  | some x => if x.type = PURC_VARIANT_TYPE_OBJECT then members_get x.members key else 0
  | none => 0

/-- Modelled from the spec: `purc_variant_object_set` is not in the sources. The key is
bound to the value in the object itself; false if the pointer is no object. -/
def purc_variant_object_set (heap : List purc_variant) (obj : Nat) (key : List Nat)
    (value : Nat) : List purc_variant × Bool :=
  match variant_at heap obj with
  | some x =>
    if x.type = PURC_VARIANT_TYPE_OBJECT then
      (heap.set (obj - 1) { x with members := members_set x.members key value }, true)
    else (heap, false)
  | none => (heap, false)

/-- The kinds `pcvarmgr_add` treats as containers. -/
def is_container (t : purc_variant_type) : Bool :=
  t == PURC_VARIANT_TYPE_OBJECT || t == PURC_VARIANT_TYPE_ARRAY || t == PURC_VARIANT_TYPE_SET

/-- Modelled from the spec: `purc_variant_container_displace` is not in the sources.
The contents of the container `dst` are replaced in place by the contents of the
container `src`; the variant `dst` stays the same variant. False, with nothing changed,
if one of the two is no container. -/
def purc_variant_container_displace (heap : List purc_variant) (dst src : Nat)
    (_silently : Bool) : List purc_variant × Bool :=
  match variant_at heap dst, variant_at heap src with
  | some d, some s =>
    if is_container d.type ∧ is_container s.type then
      (heap.set (dst - 1) { d with members := s.members }, true)
    else (heap, false)
  | _, _ => (heap, false)

/-- What the calls that change bindings leave behind: the return value, the allocated
variants and the last error. -/
structure varmgr_result where
  ret : Bool
  heap : List purc_variant
  error : purc_error
  deriving DecidableEq, Repr

/-- Modelled from the spec: `purc_variant_object_remove_by_static_ckey` is not in the
sources. A bound key is unbound; a key that is not bound gives true and no error when
`silently` is set and false with the not-found error otherwise. -/
def purc_variant_object_remove_by_static_ckey (heap : List purc_variant) (error : purc_error)
    (obj : Nat) (key : List Nat) (silently : Bool) : varmgr_result :=
  match variant_at heap obj with
  | some x =>
    if x.type = PURC_VARIANT_TYPE_OBJECT then
      if members_get x.members key ≠ 0 then
        ⟨true, heap.set (obj - 1) { x with members := members_remove x.members key }, error⟩
      else if silently then ⟨true, heap, error⟩
      else ⟨false, heap, purc_set_error PCVARIANT_ERROR_NOT_FOUND⟩
    else ⟨false, heap, error⟩
  | none => ⟨false, heap, error⟩

/-- The event kinds of `enum var_event_type`. -/
inductive var_event_type
  | VAR_EVENT_TYPE_ATTACHED
  | VAR_EVENT_TYPE_DETACHED
  | VAR_EVENT_TYPE_DISPLACED
  | VAR_EVENT_TYPE_EXCEPT
  deriving DecidableEq, Repr

open var_event_type

/-- An entry of the observer registry, `struct var_observe`; `stack` is the address of
the requesting stack. -/
structure var_observe where
  name : List Nat
  type : var_event_type
  stack : Nat
  deriving DecidableEq, Repr

/-- The manager, `struct pcvarmgr`: the binding object and the observer registry. -/
structure pcvarmgr where
  object : Nat
  var_observers : List var_observe
  deriving DecidableEq, Repr

/-- The constant `EVENT_ATTACHED`. -/
def EVENT_ATTACHED : List Nat := chars "change:attached"

/-- The constant `EVENT_DETACHED`. -/
def EVENT_DETACHED : List Nat := chars "change:detached"

/-- The constant `EVENT_DISPLACED`. -/
def EVENT_DISPLACED : List Nat := chars "change:displaced"

/-- The constant `EVENT_EXCEPT`. -/
def EVENT_EXCEPT : List Nat := chars "except:"

/-- Translation of `find_var_observe_idx`: the index of the first entry with the name,
the type and the stack; `none` is the result -1. -/
def find_var_observe_idx (mgr : pcvarmgr) (name : List Nat) (type : var_event_type)
    (stack : Nat) : Option Nat :=
  mgr.var_observers.findIdx? fun obs => name = obs.name ∧ obs.type = type ∧ obs.stack = stack

/-- Translation of `find_var_observe`. -/
def find_var_observe (mgr : pcvarmgr) (name : List Nat) (type : var_event_type)
    (stack : Nat) : Option var_observe :=
  match find_var_observe_idx mgr name type stack with
  | none => none
  | some idx => mgr.var_observers[idx]?

/-- Translation of `pcvarmgr_remove_ex`. -/
def pcvarmgr_remove_ex (heap : List purc_variant) (error : purc_error) (mgr : pcvarmgr)
    (name : Option (List Nat)) (silently : Bool) : varmgr_result :=
  match name with
  | some name => purc_variant_object_remove_by_static_ckey heap error mgr.object name silently
  | none => ⟨false, heap, error⟩

/-- Translation of `pcvarmgr_add`. The manager pointer is valid (its guard `mgr == NULL`
is never taken); `make_string_ok` says whether `purc_variant_make_string` gave a key. -/
def pcvarmgr_add (heap : List purc_variant) (error : purc_error) (mgr : pcvarmgr)
    (name : Option (List Nat)) (variant : Nat) (make_string_ok : Bool) : varmgr_result :=
  if purc_variant_is_undefined heap variant then pcvarmgr_remove_ex heap error mgr name true
  else
    match name with
    | none => ⟨false, heap, purc_set_error PURC_ERROR_ARGUMENT_MISSED⟩
    | some k =>
      if mgr.object = 0 ∨ variant = 0 then
        ⟨false, heap, purc_set_error PURC_ERROR_ARGUMENT_MISSED⟩
      else if ¬ make_string_ok then ⟨false, heap, error⟩
      else
        let v := purc_variant_object_get_by_ckey heap mgr.object k
        if v = 0 then
          let error := purc_clr_error
          let r := purc_variant_object_set heap mgr.object k variant
          ⟨r.2, r.1, error⟩
        else
          match variant_at heap v with
          | some x =>
            if x.type = PURC_VARIANT_TYPE_OBJECT ∨ x.type = PURC_VARIANT_TYPE_ARRAY
                ∨ x.type = PURC_VARIANT_TYPE_SET then
              let r := purc_variant_container_displace heap v variant false
              ⟨r.2, r.1, error⟩
            else
              let r := purc_variant_object_set heap mgr.object k variant
              ⟨r.2, r.1, error⟩
          | none =>
            let r := purc_variant_object_set heap mgr.object k variant
            ⟨r.2, r.1, error⟩

/-- What a lookup leaves behind: the value and the last error. -/
structure find_result where
  value : Nat
  error : purc_error
  deriving DecidableEq, Repr

/-- Translation of `pcvarmgr_get`, with a valid manager and name. -/
def pcvarmgr_get (heap : List purc_variant) (error : purc_error) (mgr : pcvarmgr)
    (name : List Nat) : find_result :=
  let v := purc_variant_object_get_by_ckey heap mgr.object name
  if v ≠ 0 then ⟨v, error⟩
  else ⟨0, purc_set_error_with_info PCVARIANT_ERROR_NOT_FOUND (chars "name:" ++ name)⟩

/-- What `pcvarmgr_add_observer` leaves behind: the returned variant, the manager and
the last error. -/
structure observer_result where
  ret : Nat
  mgr : pcvarmgr
  error : purc_error
  deriving DecidableEq, Repr

/-- The event kind `pcvarmgr_add_observer` derives from the event label. -/
def add_observer_event_type (event : List Nat) : var_event_type :=
  if event = EVENT_ATTACHED then VAR_EVENT_TYPE_ATTACHED
  else if event = EVENT_DETACHED then VAR_EVENT_TYPE_DETACHED
  else if event = EVENT_DISPLACED then VAR_EVENT_TYPE_DISPLACED
  else if event.take EVENT_EXCEPT.length = EVENT_EXCEPT then VAR_EVENT_TYPE_EXCEPT
  else VAR_EVENT_TYPE_ATTACHED

/-- Translation of `pcvarmgr_add_observer`. `stack` is what `pcintr_get_stack ()`
returns; `malloc_ok` and `push_ok` say whether `malloc` and `pcutils_array_push`
succeed. -/
def pcvarmgr_add_observer (error : purc_error) (mgr : pcvarmgr) (name event : List Nat)
    (stack : Nat) (malloc_ok push_ok : Bool) : observer_result :=
  let type := add_observer_event_type event
  match find_var_observe mgr name type stack with
  | some _ => ⟨mgr.object, mgr, error⟩
  | none =>
    if ¬ malloc_ok then ⟨0, mgr, purc_set_error PURC_ERROR_OUT_OF_MEMORY⟩
    else if push_ok then
      ⟨mgr.object, { mgr with var_observers := mgr.var_observers ++ [⟨name, type, stack⟩] },
        error⟩
    else ⟨0, mgr, error⟩

/-! ## Frames and elements

The structures below are not in the sources; they carry what the two files read. A
pointer to an element is the list made of the element and its ancestors, nearest first,
so `pcvdom_element_parent` is the tail and the empty list is NULL; a pointer to a frame
is the list made of the frame and its parent frames in the same way. -/

/-- Modelled from the spec: the node kinds of the vDOM tree are not in the sources. -/
inductive pcvdom_node_type
  | PCVDOM_NODE_DOCUMENT
  | PCVDOM_NODE_ELEMENT
  | PCVDOM_NODE_CONTENT
  | PCVDOM_NODE_COMMENT
  deriving DecidableEq, Repr

open pcvdom_node_type

/-- Modelled from the spec: `struct pcvdom_element` is not in the sources. A node has
its kind (`node.type`), the manager of its scope variables if it has one, and the value
its `id` attribute evaluates to (`none` without the attribute, 0 when the evaluation
fails). -/
structure pcvdom_element where
  type : pcvdom_node_type
  scope_variables : Option pcvarmgr
  id : Option Nat
  deriving DecidableEq, Repr

/-- Modelled from the spec: `struct pcintr_stack_frame` is not in the sources. A frame
has its scope element, its position, the silently mark and the temporary (exclamation)
variable. -/
structure pcintr_stack_frame where
  scope : List pcvdom_element
  pos : List pcvdom_element
  silently : Bool
  exclamation_var : Nat
  deriving DecidableEq, Repr

/-- Modelled from the spec: `struct pcintr_stack` is not in the sources. A stack has
its bottom frame (with the parent frames behind it) and the variables of its document,
`none` when `stack->vdom` is NULL. -/
structure pcintr_stack where
  bottom_frame : List pcintr_stack_frame
  vdom : Option pcvarmgr
  deriving DecidableEq, Repr

/-- Modelled from the spec: `pcintr_get_scope_variable` is not in the sources. The value
the variables of the element bind to the name. -/
def pcintr_get_scope_variable (heap : List purc_variant) (elem : pcvdom_element)
    (name : List Nat) : Nat :=
  match elem.scope_variables with
  | some mgr => purc_variant_object_get_by_ckey heap mgr.object name
  | none => 0

/-- Modelled from the spec: `pcvdom_document_get_variable` is not in the sources. The
value the variables of the document bind to the name. -/
def pcvdom_document_get_variable (heap : List purc_variant) (vdom : pcvarmgr)
    (name : List Nat) : Nat :=
  purc_variant_object_get_by_ckey heap vdom.object name

/-- The error `purc_set_error_with_info (PCVARIANT_ERROR_NOT_FOUND, "name:%s", name)`. -/
def name_not_found (name : List Nat) : purc_error :=
  purc_set_error_with_info PCVARIANT_ERROR_NOT_FOUND (chars "name:" ++ name)

/-- Translation of `_find_named_scope_var_in_vdom` with a valid name and no request
for the manager. -/
def _find_named_scope_var_in_vdom (heap : List purc_variant) (error : purc_error) :
    List pcvdom_element → List Nat → find_result
  | [], name => ⟨0, name_not_found name⟩
  | elem :: parent, name =>
    let v := pcintr_get_scope_variable heap elem name
    if v ≠ 0 then ⟨v, error⟩
    else _find_named_scope_var_in_vdom heap error parent name

/-- Translation of `_find_named_scope_var` with a valid name and no request for the
manager. The C function is entered with a valid frame; the empty list stands for the
parent frame that does not exist. -/
def _find_named_scope_var (heap : List purc_variant) (error : purc_error) :
    List pcintr_stack_frame → List Nat → find_result
  | [], name => ⟨0, name_not_found name⟩
  | frame :: parent, name =>
    if frame.scope ≠ [] then _find_named_scope_var_in_vdom heap error frame.scope name
    else
      match frame.pos with
      | [] => ⟨0, name_not_found name⟩
      | elem :: _ =>
        let v := pcintr_get_scope_variable heap elem name
        if v ≠ 0 then ⟨v, error⟩
        else _find_named_scope_var heap error parent name

/-- Translation of `find_doc_buildin_var`. -/
def find_doc_buildin_var (heap : List purc_variant) (error : purc_error)
    (vdom : Option pcvarmgr) (name : List Nat) : find_result :=
  match vdom with
  | none => ⟨0, name_not_found name⟩
  | some vdom =>
    let v := pcvdom_document_get_variable heap vdom name
    if v ≠ 0 then ⟨v, error⟩ else ⟨0, name_not_found name⟩

/-- Translation of `find_inst_var` with a valid name; `varmgr` is what
`pcinst_get_variables ()` returns. -/
def find_inst_var (heap : List purc_variant) (error : purc_error) (varmgr : Option pcvarmgr)
    (name : List Nat) : find_result :=
  match varmgr with
  | none => ⟨0, error⟩
  | some varmgr =>
    let r := pcvarmgr_get heap error varmgr name
    if r.value ≠ 0 then r else ⟨0, name_not_found name⟩

/-- Translation of `_find_named_temp_var`. -/
def _find_named_temp_var (heap : List purc_variant) (error : purc_error) :
    List pcintr_stack_frame → List Nat → find_result
  | [], _ => ⟨0, purc_set_error PURC_ERROR_ENTITY_NOT_FOUND⟩
  | p :: parent, name =>
    let tmp := p.exclamation_var
    if tmp = 0 then _find_named_temp_var heap error parent name
    else if purc_variant_is_object heap tmp = false then
      _find_named_temp_var heap error parent name
    else
      let v := purc_variant_object_get_by_ckey heap tmp name
      if v = 0 then _find_named_temp_var heap error parent name
      else ⟨v, error⟩

/-- Translation of `pcintr_find_named_var` with a valid stack and name; `varmgr` is what
`pcinst_get_variables ()` returns. -/
def pcintr_find_named_var (heap : List purc_variant) (error : purc_error)
    (varmgr : Option pcvarmgr) (stack : pcintr_stack) (name : List Nat) : find_result :=
  let frame := stack.bottom_frame
  let r := _find_named_temp_var heap error frame name
  if r.value ≠ 0 then ⟨r.value, purc_clr_error⟩
  else
    let r := _find_named_scope_var heap r.error frame name
    if r.value ≠ 0 then ⟨r.value, purc_clr_error⟩
    else
      let r := find_doc_buildin_var heap r.error stack.vdom name
      if r.value ≠ 0 then ⟨r.value, purc_clr_error⟩
      else
        let r := find_inst_var heap r.error varmgr name
        if r.value ≠ 0 then ⟨r.value, purc_clr_error⟩
        else ⟨0, name_not_found name⟩

/-! ## Binding a named variable (`internal.c`) -/

/-- Where a variable is bound: at an element, given by its pointer, or at the
coroutine. -/
inductive bind_place
  | at_element (elem : List pcvdom_element)
  | at_coroutine
  deriving DecidableEq, Repr

/-- A call of `pcintr_bind_scope_variable` or of `purc_coroutine_bind_variable`: the
place, the name and the value. -/
structure bind_call where
  place : bind_place
  name : List Nat
  val : Nat
  deriving DecidableEq, Repr

/-- What `pcintr_bind_named_variable` leaves behind: the return value, the binding call
that was made, if any, and the last error. -/
structure bind_result where
  ret : Int
  call : Option bind_call
  error : purc_error
  deriving DecidableEq, Repr

/-- Translation of `bind_at_element`. Modelled from the spec:
`pcintr_bind_scope_variable` is not in the sources; `bind_ok` says for every binding
call whether it succeeds. -/
def bind_at_element (error : purc_error) (bind_ok : bind_call → Bool)
    (elem : List pcvdom_element) (name : List Nat) (val : Nat) : bind_result :=
  ⟨if bind_ok ⟨.at_element elem, name, val⟩ then 0 else -1,
    some ⟨.at_element elem, name, val⟩, error⟩

/-- Translation of `bind_at_coroutine`. Modelled from the spec:
`purc_coroutine_bind_variable` is not in the sources; `bind_ok` says for every binding
call whether it succeeds. -/
def bind_at_coroutine (error : purc_error) (bind_ok : bind_call → Bool) (name : List Nat)
    (val : Nat) : bind_result :=
  ⟨if bind_ok ⟨.at_coroutine, name, val⟩ then 0 else -1, some ⟨.at_coroutine, name, val⟩,
    error⟩

/-- The text `no vdom element exists`. -/
def no_vdom_element_exists : List Nat := chars "no vdom element exists"

/-- Translation of `bind_by_level`. The loop that follows `pcvdom_element_parent` at most
`level` times and stops at NULL drops `level` entries from the pointer. -/
def bind_by_level (error : purc_error) (bind_ok : bind_call → Bool)
    (frame : pcintr_stack_frame) (name : List Nat) (val : Nat) (level : Nat) : bind_result :=
  let silently := frame.silently
  let p := frame.pos.drop level
  if p ≠ [] ∧ (p.head?.map fun e => e.type) ≠ some PCVDOM_NODE_DOCUMENT then
    bind_at_element error bind_ok p name val
  else if silently then bind_at_coroutine error bind_ok name val
  else ⟨-1, none, purc_set_error_with_info PURC_ERROR_ENTITY_NOT_FOUND no_vdom_element_exists⟩

/-- Translation of `bind_at_default`. -/
def bind_at_default (error : purc_error) (bind_ok : bind_call → Bool)
    (frame : pcintr_stack_frame) (name : List Nat) (val : Nat) : bind_result :=
  bind_by_level error bind_ok frame name val 1

/-- Modelled from the spec: `purc_variant_is_string` is not in the sources. -/
def purc_variant_is_string (heap : List purc_variant) (v : Nat) : Bool :=
  match variant_at heap v with
  | some x => x.type == PURC_VARIANT_TYPE_STRING
  | none => false

/-- Modelled from the spec: `purc_variant_get_string_const` is not in the sources. -/
def purc_variant_get_string_const (heap : List purc_variant) (v : Nat) : List Nat :=
  match variant_at heap v with
  | some x => x.text
  | none => []

/-- Translation of `match_id`: the answer and the last error, which is cleared once the
attribute has been evaluated. -/
def match_id (heap : List purc_variant) (error : purc_error) (elem : pcvdom_element)
    (id : List Nat) : Bool × purc_error :=
  if elem.type = PCVDOM_NODE_DOCUMENT then (false, error)
  else
    match elem.id with
    | none => (false, error)
    | some v =>
      let error := purc_clr_error
      if v = 0 then (false, error)
      else if ¬ purc_variant_is_string heap v then (false, error)
      else if purc_variant_get_string_const heap v = id then (true, error)
      else (false, error)

/-- The loop of `bind_by_elem_id`: the first element, from the given one upwards, whose
id matches (NULL if there is none), and the last error. -/
def find_dest (heap : List purc_variant) (error : purc_error) :
    List pcvdom_element → List Nat → List pcvdom_element × purc_error
  | [], _ => ([], error)
  | elem :: parent, id =>
    let r := match_id heap error elem id
    if r.1 then (elem :: parent, r.2) else find_dest heap r.2 parent id

/-- Translation of `bind_by_elem_id`. -/
def bind_by_elem_id (heap : List purc_variant) (error : purc_error)
    (bind_ok : bind_call → Bool) (frame : pcintr_stack_frame) (id name : List Nat)
    (val : Nat) : bind_result :=
  let r := find_dest heap error frame.pos id
  let dest := r.1
  let error := r.2
  if dest ≠ [] ∧ (dest.head?.map fun e => e.type) ≠ some PCVDOM_NODE_DOCUMENT then
    bind_at_element error bind_ok dest name val
  else if frame.silently then bind_at_default error bind_ok frame name val
  else ⟨-1, none, purc_set_error_with_info PURC_ERROR_ENTITY_NOT_FOUND no_vdom_element_exists⟩

/-- Modelled from the spec: the keyword table behind `PCHVML_KEYWORD_ENUM` is not in the
sources; these are the six keywords `bind_by_name_space` asks for. -/
inductive pchvml_keyword_enum
  | PCHVML_KEYWORD_HVML__PARENT
  | PCHVML_KEYWORD_HVML__GRANDPARENT
  | PCHVML_KEYWORD_HVML__ROOT
  | PCHVML_KEYWORD_HVML__LAST
  | PCHVML_KEYWORD_HVML__NEXTTOLAST
  | PCHVML_KEYWORD_HVML__TOPMOST
  deriving DecidableEq, Repr

open pchvml_keyword_enum

/-- Modelled from the spec: `pchvml_keyword` is not in the sources. The atom of a
keyword; atoms are positive and differ from keyword to keyword. -/
def pchvml_keyword : pchvml_keyword_enum → Nat
  | PCHVML_KEYWORD_HVML__PARENT => 1
  | PCHVML_KEYWORD_HVML__GRANDPARENT => 2
  | PCHVML_KEYWORD_HVML__ROOT => 3
  | PCHVML_KEYWORD_HVML__LAST => 4
  | PCHVML_KEYWORD_HVML__NEXTTOLAST => 5
  | PCHVML_KEYWORD_HVML__TOPMOST => 6

/-- Modelled from the spec: `PCHVML_KEYWORD_ATOM` is not in the sources. The atom of the
keyword with the given text, 0 if the text is none of the six keywords (a text that is
another keyword of the language has an atom that equals none of the six, which
`bind_by_name_space` treats like 0). -/
def PCHVML_KEYWORD_ATOM (ns : List Nat) : Nat :=
  if ns = chars "_parent" then pchvml_keyword PCHVML_KEYWORD_HVML__PARENT
  else if ns = chars "_grandparent" then pchvml_keyword PCHVML_KEYWORD_HVML__GRANDPARENT
  else if ns = chars "_root" then pchvml_keyword PCHVML_KEYWORD_HVML__ROOT
  else if ns = chars "_last" then pchvml_keyword PCHVML_KEYWORD_HVML__LAST
  else if ns = chars "_nexttolast" then pchvml_keyword PCHVML_KEYWORD_HVML__NEXTTOLAST
  else if ns = chars "_topmost" then pchvml_keyword PCHVML_KEYWORD_HVML__TOPMOST
  else 0

/-- Translation of `bind_by_name_space`. The text of the bad-name error is `at = '`, the
variable name and `'`. -/
def bind_by_name_space (error : purc_error) (bind_ok : bind_call → Bool)
    (frame : pcintr_stack_frame) (ns name : List Nat) (val : Nat) : bind_result :=
  let atom := PCHVML_KEYWORD_ATOM ns
  let not_found : bind_result :=
    if frame.silently then bind_at_default error bind_ok frame name val
    else ⟨-1, none,
      purc_set_error_with_info PURC_ERROR_BAD_NAME ([97, 116, 32, 61, 32, 39] ++ name ++ [39])⟩
  if atom = 0 then not_found
  else if pchvml_keyword PCHVML_KEYWORD_HVML__PARENT = atom then
    bind_by_level error bind_ok frame name val 1
  else if pchvml_keyword PCHVML_KEYWORD_HVML__GRANDPARENT = atom then
    bind_by_level error bind_ok frame name val 2
  else if pchvml_keyword PCHVML_KEYWORD_HVML__ROOT = atom then
    bind_at_coroutine error bind_ok name val
  else if pchvml_keyword PCHVML_KEYWORD_HVML__LAST = atom then
    bind_by_level error bind_ok frame name val 1
  else if pchvml_keyword PCHVML_KEYWORD_HVML__NEXTTOLAST = atom then
    bind_by_level error bind_ok frame name val 2
  else if pchvml_keyword PCHVML_KEYWORD_HVML__TOPMOST = atom then
    bind_at_coroutine error bind_ok name val
  else not_found

/-- Translation of `pcintr_bind_named_variable`. The pointer `at_value` is the argument
`at`; `level` is what `purc_variant_cast_to_ulongint (at, &level, true)` gives, `none`
when the cast fails. -/
def pcintr_bind_named_variable (heap : List purc_variant) (error : purc_error)
    (bind_ok : bind_call → Bool) (frame : pcintr_stack_frame) (name : List Nat)
    (at_value : Nat) (v : Nat) (level : Option Nat) : bind_result :=
  if at_value = 0 then bind_at_default error bind_ok frame name v
  else if purc_variant_is_string heap at_value then
    let s_at := purc_variant_get_string_const heap at_value
    if s_at.head? = some 35 then bind_by_elem_id heap error bind_ok frame s_at.tail name v
    else if s_at.head? = some 95 then bind_by_name_space error bind_ok frame s_at name v
    else
      match level with
      | some level => bind_by_level error bind_ok frame name v level
      | none => bind_at_coroutine error bind_ok name v
  else
    match level with
    | some level => bind_by_level error bind_ok frame name v level
    | none => bind_at_coroutine error bind_ok name v

/-- The event kind `pcvarmgr_remove_observer` derives from the event label. -/
def remove_observer_event_type (event : List Nat) : var_event_type :=
  if event = EVENT_ATTACHED then VAR_EVENT_TYPE_ATTACHED
  else if event = EVENT_DETACHED then VAR_EVENT_TYPE_DETACHED
  else if event = EVENT_DISPLACED then VAR_EVENT_TYPE_DISPLACED
  else VAR_EVENT_TYPE_ATTACHED

/-- Translation of `pcvarmgr_remove_observer`. `stack` is what `pcintr_get_stack ()`
returns. Modelled from the spec: `pcutils_array_delete` is not in the sources; it takes
the entry at the index out of the array. -/
def pcvarmgr_remove_observer (error : purc_error) (mgr : pcvarmgr) (name event : List Nat)
    (stack : Nat) : observer_result :=
  let type := remove_observer_event_type event
  match find_var_observe_idx mgr name type stack with
  | some idx =>
    ⟨mgr.object, { mgr with var_observers := mgr.var_observers.eraseIdx idx }, error⟩
  | none => ⟨0, mgr, error⟩

/-- The constant `MSG_TYPE_CHANGE`. -/
def MSG_TYPE_CHANGE : List Nat := chars "change"

/-- Modelled from the spec: `pcintr_dispatch_message_ex` is not in the sources. A call
is recorded with its arguments: the stack the message goes to, the source variant, the
texts of the type and the sub-type, and the extra variant. -/
structure dispatched_message where
  stack : Nat
  source : Nat
  type : List Nat
  sub_type : List Nat
  extra : Nat
  deriving DecidableEq, Repr

/-- The loop of `pcvarmgr_dispatch_except` over the registry, from the first entry on:
the messages dispatched, in the order of the calls. -/
def dispatch_except_loop (object : Nat) (name sub_type : List Nat) :
    List var_observe → List dispatched_message
  | [] => []
  | obs :: rest =>
    if name = obs.name ∧ obs.type = VAR_EVENT_TYPE_EXCEPT then
      ⟨obs.stack, object, MSG_TYPE_CHANGE, sub_type, 0⟩
        :: dispatch_except_loop object name sub_type rest
    else dispatch_except_loop object name sub_type rest

/-- What `pcvarmgr_dispatch_except` leaves behind: the return value, the manager and the
messages dispatched. -/
structure dispatch_result where
  ret : Bool
  mgr : pcvarmgr
  messages : List dispatched_message
  deriving DecidableEq, Repr

/-- Translation of `pcvarmgr_dispatch_except`; `type_ok` and `sub_type_ok` say whether
the two calls of `purc_variant_make_string` give a variant. -/
def pcvarmgr_dispatch_except (mgr : pcvarmgr) (name except : List Nat)
    (type_ok sub_type_ok : Bool) : dispatch_result :=
  if ¬ type_ok then ⟨false, mgr, []⟩
  else if ¬ sub_type_ok then ⟨false, mgr, []⟩
  else ⟨true, mgr, dispatch_except_loop mgr.object name except mgr.var_observers⟩

/-! ## Creation, listeners, unbinding and observed events (`var-mgr.c`) -/

/-- Translation of `pcvarmgr_create`. `object` is what `purc_variant_make_object`
returns (0 when it fails); the four flags say whether the three listeners can be
registered and the array of observers can be set up. The result `none` is NULL. A new
manager has an empty registry. -/
def pcvarmgr_create (object : Nat) (grow_ok shrink_ok change_ok array_ok : Bool) :
    Option pcvarmgr :=
  if object = 0 then none
  else if ¬ grow_ok then none
  else if ¬ shrink_ok then none
  else if ¬ change_ok then none
  else if ¬ array_ok then none
  else some ⟨object, []⟩

/-- The constant `SUB_TYPE_ATTACHED`. -/
def SUB_TYPE_ATTACHED : List Nat := chars "attached"

/-- The constant `SUB_TYPE_DETACHED`. -/
def SUB_TYPE_DETACHED : List Nat := chars "detached"

/-- The constant `SUB_TYPE_DISPLACED`. -/
def SUB_TYPE_DISPLACED : List Nat := chars "displaced"

/-- The loop the three listeners share word for word, up to the event kind they compare
with: the messages dispatched over the registry from the first entry on, in the order of
the calls. `name` is what `purc_variant_get_string_const (argv[0])` has returned, `none`
for NULL. Every pass calls `strcmp (name, obs->name)` first and looks at the kind of the
entry only when the names are equal; the result `none` stands for the call `strcmp (NULL,
obs->name)`, which has no defined result. The extra variant of every message is
`PURC_VARIANT_INVALID`. -/
def listener_loop (source : Nat) (name : Option (List Nat)) (sub_type : List Nat)
    (type : var_event_type) : List var_observe → Option (List dispatched_message)
  | [] => some []
  | obs :: rest =>
    match name with
    | none => none
    | some name =>
      if name = obs.name ∧ obs.type = type then
        (listener_loop source (some name) sub_type type rest).map
          (fun messages => ⟨obs.stack, source, MSG_TYPE_CHANGE, sub_type, 0⟩ :: messages)
      else listener_loop source (some name) sub_type type rest

/-- What a listener leaves behind: the return value, the manager behind `ctxt` and the
messages dispatched. -/
structure listener_result where
  ret : Bool
  ctxt : Option pcvarmgr
  messages : List dispatched_message
  deriving DecidableEq, Repr

/-- The C string `purc_variant_get_string_const` returns: the text of a string variant,
and NULL (`none`) for a variant that is no string. -/
def string_const_or_null (heap : List purc_variant) (v : Nat) : Option (List Nat) :=
  if purc_variant_is_string heap v then some (purc_variant_get_string_const heap v) else none

/-- Translation of `mgr_grow_handler`. `ctxt` is the manager the listener was registered
with (`none` is NULL), `argv` the arguments of the event, whose first entry is the name
of the variable; `type_ok` and `sub_type_ok` say whether the two calls of
`purc_variant_make_string` give a variant. The result `none` stands for a run that calls
`strcmp` with the NULL that `purc_variant_get_string_const` returns when `argv[0]` is no
string. -/
def mgr_grow_handler (heap : List purc_variant) (source : Nat) (ctxt : Option pcvarmgr)
    (argv : List Nat) (type_ok sub_type_ok : Bool) : Option listener_result :=
  match ctxt with
  | none => some ⟨true, none, []⟩
  | some mgr =>
    if ¬ type_ok then some ⟨false, some mgr, []⟩
    else if ¬ sub_type_ok then some ⟨false, some mgr, []⟩
    else
      let name := string_const_or_null heap (argv.headD 0)
      (listener_loop source name SUB_TYPE_ATTACHED VAR_EVENT_TYPE_ATTACHED
        mgr.var_observers).map (fun messages => ⟨true, some mgr, messages⟩)

/-- Translation of `mgr_shrink_handler`, with the parameters of `mgr_grow_handler`. -/
def mgr_shrink_handler (heap : List purc_variant) (source : Nat) (ctxt : Option pcvarmgr)
    (argv : List Nat) (type_ok sub_type_ok : Bool) : Option listener_result :=
  match ctxt with
  | none => some ⟨true, none, []⟩
  | some mgr =>
    if ¬ type_ok then some ⟨false, some mgr, []⟩
    else if ¬ sub_type_ok then some ⟨false, some mgr, []⟩
    else
      let name := string_const_or_null heap (argv.headD 0)
      (listener_loop source name SUB_TYPE_DETACHED VAR_EVENT_TYPE_DETACHED
        mgr.var_observers).map (fun messages => ⟨true, some mgr, messages⟩)

/-- Translation of `mgr_change_handler`, with the parameters of `mgr_grow_handler`. -/
def mgr_change_handler (heap : List purc_variant) (source : Nat) (ctxt : Option pcvarmgr)
    (argv : List Nat) (type_ok sub_type_ok : Bool) : Option listener_result :=
  match ctxt with
  | none => some ⟨true, none, []⟩
  | some mgr =>
    if ¬ type_ok then some ⟨false, some mgr, []⟩
    else if ¬ sub_type_ok then some ⟨false, some mgr, []⟩
    else
      let name := string_const_or_null heap (argv.headD 0)
      (listener_loop source name SUB_TYPE_DISPLACED VAR_EVENT_TYPE_DISPLACED
        mgr.var_observers).map (fun messages => ⟨true, some mgr, messages⟩)

/-- Modelled from the spec: `pcintr_unbind_scope_variable` is not in the sources. The
name is unbound in the variables of the element; false when it is not bound there. -/
def pcintr_unbind_scope_variable (heap : List purc_variant) (error : purc_error)
    (elem : pcvdom_element) (name : List Nat) : varmgr_result :=
  match elem.scope_variables with
  | some mgr => purc_variant_object_remove_by_static_ckey heap error mgr.object name false
  | none => ⟨false, heap, error⟩

/-- Modelled from the spec: `pcvdom_document_unbind_variable` is not in the sources. The
name is unbound in the variables of the document; false when it is not bound there. -/
def pcvdom_document_unbind_variable (heap : List purc_variant) (error : purc_error)
    (vdom : pcvarmgr) (name : List Nat) : varmgr_result :=
  purc_variant_object_remove_by_static_ckey heap error vdom.object name false

/-- Translation of `_unbind_named_temp_var`. -/
def _unbind_named_temp_var (heap : List purc_variant) (error : purc_error) :
    List pcintr_stack_frame → List Nat → varmgr_result
  | [], _ => ⟨false, heap, error⟩
  | p :: parent, name =>
    let tmp := p.exclamation_var
    if tmp = 0 then _unbind_named_temp_var heap error parent name
    else if purc_variant_is_object heap tmp = false then
      _unbind_named_temp_var heap error parent name
    else
      let v := purc_variant_object_get_by_ckey heap tmp name
      if v = 0 then _unbind_named_temp_var heap error parent name
      else purc_variant_object_remove_by_static_ckey heap error tmp name false

/-- Translation of `_unbind_named_scope_var`. -/
def _unbind_named_scope_var (heap : List purc_variant) (error : purc_error) :
    List pcvdom_element → List Nat → varmgr_result
  | [], _ => ⟨false, heap, error⟩
  | elem :: parent, name =>
    let v := pcintr_get_scope_variable heap elem name
    if v ≠ 0 then pcintr_unbind_scope_variable heap error elem name
    else
      match parent with
      | [] => ⟨false, heap, purc_clr_error⟩
      | _ :: _ => _unbind_named_scope_var heap error parent name

/-- Translation of `_unbind_doc_buildin_var`. Modelled from the spec:
`pcvdom_document_get_variable` is not in the sources; without a document it finds
nothing. -/
def _unbind_doc_buildin_var (heap : List purc_variant) (error : purc_error)
    (vdom : Option pcvarmgr) (name : List Nat) : varmgr_result :=
  match vdom with
  | none => ⟨false, heap, error⟩
  | some vdom =>
    let v := pcvdom_document_get_variable heap vdom name
    if v ≠ 0 then pcvdom_document_unbind_variable heap error vdom name
    else ⟨false, heap, error⟩

/-- What `pcintr_unbind_named_var` leaves behind: the returned code, the allocated
variants and the last error. -/
structure unbind_result where
  ret : purc_error_code
  heap : List purc_variant
  error : purc_error
  deriving DecidableEq, Repr

/-- Translation of `pcintr_unbind_named_var` with a valid stack and name. The position
of the bottom frame is NULL when the stack has no frame. -/
def pcintr_unbind_named_var (heap : List purc_variant) (error : purc_error)
    (stack : pcintr_stack) (name : List Nat) : unbind_result :=
  let frame := stack.bottom_frame
  let r := _unbind_named_temp_var heap error frame name
  if r.ret then ⟨PURC_ERROR_OK, r.heap, r.error⟩
  else
    let pos := match frame with
      | [] => []
      | f :: _ => f.pos
    let r := _unbind_named_scope_var r.heap r.error pos name
    if r.ret then ⟨PURC_ERROR_OK, r.heap, r.error⟩
    else
      let r := _unbind_doc_buildin_var r.heap r.error stack.vdom name
      if r.ret then ⟨PURC_ERROR_OK, r.heap, r.error⟩
      else ⟨PCVARIANT_ERROR_NOT_FOUND, r.heap, name_not_found name⟩

/-- The constant `KEY_FLAG`. -/
def KEY_FLAG : List Nat := chars "__name_observe"

/-- The constant `KEY_NAME`. -/
def KEY_NAME : List Nat := chars "name"

/-- The constant `KEY_MGR`. -/
def KEY_MGR : List Nat := chars "mgr"

/-- The observer entity, `struct pcvarmgr_named_variables_observe`: the name, the stack
and the element. -/
structure pcvarmgr_named_variables_observe where
  name : List Nat
  stack : pcintr_stack
  elem : List pcvdom_element
  deriving DecidableEq, Repr

/-- The address of a manager. A manager is told from another by its binding object, so
the pointer of that object stands for the address; NULL is 0. -/
def mgr_address (mgr : Option pcvarmgr) : Nat :=
  match mgr with
  | some mgr => mgr.object
  | none => 0

/-- Modelled from the spec: `purc_variant_make_object (0, ...)` is not in the sources.
A new empty object is allocated behind the variants that exist; the result is the list
of variants and the pointer of the new one. -/
def purc_variant_make_object (heap : List purc_variant) : List purc_variant × Nat :=
  (heap ++ [⟨PURC_VARIANT_TYPE_OBJECT, [], []⟩], heap.length + 1)

/-- Modelled from the spec: `purc_variant_make_boolean` is not in the sources. The truth
value is kept as the one byte of the text. -/
def purc_variant_make_boolean (heap : List purc_variant) (b : Bool) :
    List purc_variant × Nat :=
  (heap ++ [⟨PURC_VARIANT_TYPE_BOOLEAN, [if b then 1 else 0], []⟩], heap.length + 1)

/-- Modelled from the spec: `purc_variant_make_string` is not in the sources. -/
def purc_variant_make_string (heap : List purc_variant) (s : List Nat) :
    List purc_variant × Nat :=
  (heap ++ [⟨PURC_VARIANT_TYPE_STRING, s, []⟩], heap.length + 1)

/-- Modelled from the spec: `purc_variant_make_native` is not in the sources. The
address of the entity is kept as the one member of the variant, with an empty key. -/
def purc_variant_make_native (heap : List purc_variant) (entity : Nat) :
    List purc_variant × Nat :=
  (heap ++ [⟨PURC_VARIANT_TYPE_NATIVE, [], [([], entity)]⟩], heap.length + 1)

/-- Modelled from the spec: `purc_variant_is_native` is not in the sources. -/
def purc_variant_is_native (heap : List purc_variant) (v : Nat) : Bool :=
  match variant_at heap v with
  | some x => x.type == PURC_VARIANT_TYPE_NATIVE
  | none => false

/-- Modelled from the spec: `purc_variant_native_get_entity` is not in the sources. The
address of the entity of a native variant, NULL for any other variant. -/
def purc_variant_native_get_entity (heap : List purc_variant) (v : Nat) : Nat :=
  match variant_at heap v with
  | some x => if x.type = PURC_VARIANT_TYPE_NATIVE then members_get x.members [] else 0
  | none => 0

/-- Translation of `pcvarmgr_build_event_observed` when every variant can be made: the
variants after the call and the pointer of the object built (`PURC_VARIANT_INVALID` when
a member cannot be set). -/
def pcvarmgr_build_event_observed (heap : List purc_variant) (name : List Nat)
    (mgr : Option pcvarmgr) : List purc_variant × Nat :=
  let r := purc_variant_make_object heap
  let heap := r.1
  let v := r.2
  let r := purc_variant_make_boolean heap true
  let heap := r.1
  let flag := r.2
  let r := purc_variant_object_set heap v KEY_FLAG flag
  if ¬ r.2 then (r.1, 0)
  else
    let r := purc_variant_make_string r.1 name
    let heap := r.1
    let name_val := r.2
    let r := purc_variant_object_set heap v KEY_NAME name_val
    if ¬ r.2 then (r.1, 0)
    else
      let r := purc_variant_make_native r.1 (mgr_address mgr)
      let heap := r.1
      let mgr_val := r.2
      let r := purc_variant_object_set heap v KEY_NAME mgr_val
      if ¬ r.2 then (r.1, 0)
      else (r.1, v)

/-- The loop of `match_observe` over the element and its ancestors: every pass compares
the variables of `obs->elem`, the element the loop started at. -/
def match_observe_loop (obs_elem : List pcvdom_element) (comp : Nat) :
    List pcvdom_element → Bool
  | [] => false
  | _ :: parent =>
    if mgr_address (obs_elem.head?.bind fun e => e.scope_variables) = comp then true
    else match_observe_loop obs_elem comp parent

/-- Translation of `match_observe`. The result `none` stands for the call
`strcmp (obs->name, NULL)`, which has no defined result: it is made when the value under
the key `name` is no string. -/
def match_observe (heap : List purc_variant) (native_entity : pcvarmgr_named_variables_observe)
    (val : Nat) : Option Bool :=
  if ¬ purc_variant_is_object heap val then some false
  else
    let flag := purc_variant_object_get_by_ckey heap val KEY_FLAG
    if flag = 0 then some false
    else
      let obs := native_entity
      let name_val := purc_variant_object_get_by_ckey heap val KEY_NAME
      if name_val = 0 then some false
      else if ¬ purc_variant_is_string heap name_val then none
      else if obs.name ≠ purc_variant_get_string_const heap name_val then some false
      else
        let mgr_val := purc_variant_object_get_by_ckey heap val KEY_MGR
        if mgr_val = 0 ∨ purc_variant_is_native heap mgr_val then some false
        else
          let comp := purc_variant_native_get_entity heap mgr_val
          if match_observe_loop obs.elem comp obs.elem then some true
          else
            let mgr := mgr_address obs.stack.vdom
            if mgr = comp then some true else some false

/-- Translation of `pcintr_get_named_var_for_observed` when the allocations succeed:
the observer entity behind the native variant it returns. -/
def pcintr_get_named_var_for_observed (stack : pcintr_stack) (name : List Nat)
    (elem : List pcvdom_element) : pcvarmgr_named_variables_observe :=
  ⟨name, stack, elem⟩

/-- Translation of `pcintr_get_named_var_for_event`. -/
def pcintr_get_named_var_for_event (heap : List purc_variant) (stack : pcintr_stack)
    (name : List Nat) : List purc_variant × Nat :=
  let mgr := stack.vdom
  pcvarmgr_build_event_observed heap name mgr

/-- Translation of `pcejson_reset`: the state, the depth and the flags are set and the
two buffers are emptied; the container stack and `return_state` are not touched. -/
def pcejson_reset (parser : pcejson) (depth : Int) (flags : Nat) : pcejson :=
  { parser with
    state := ejson_init_state
    depth := depth
    flags := flags
    tmp_buff := pcejson_tmp_buff_reset parser.tmp_buff
    tmp_buff2 := pcejson_tmp_buff_reset parser.tmp_buff2 }

/-- The bytes of a character sequence in the stream's UTF-8 encoding. -/
def utf8_text : List Nat → List Nat
  | [] => []
  | c :: cs => utf8_bytes c ++ utf8_text cs

/-- One element of the content of a quoted string or name: an ordinary character, a
backslash escape of one character, or a backslash-u escape with four digits. -/
inductive string_item
  | ordinary (c : Nat)
  | escape (c : Nat)
  | unicode (h1 h2 h3 h4 : Nat)
  deriving DecidableEq, Repr

/-- The source characters of one element. -/
def string_item.source : string_item → List Nat
  | .ordinary c => [c]
  | .escape c => [92, c]
  | .unicode h1 h2 h3 h4 => [92, 117, h1, h2, h3, h4]

/-- An element is well formed inside quotes of the given kind: an ordinary character
is no NUL, no backslash and not the closing quote; an escaped character is one of
backslash, slash, double quote, b, f, n, r, t; the four digits are hex digits. -/
def string_item.valid (quote : Nat) : string_item → Bool
  | .ordinary c => c != 0 && c != 92 && c != quote
  | .escape c =>
    c == 92 || c == 47 || c == 34 || c == 98 || c == 102 || c == 110 || c == 114 || c == 116
  | .unicode h1 h2 h3 h4 =>
    is_ascii_hex_digit h1 && is_ascii_hex_digit h2 && is_ascii_hex_digit h3
      && is_ascii_hex_digit h4

/-- The source characters of a string content. -/
def string_source : List string_item → List Nat
  | [] => []
  | i :: is => i.source ++ string_source is

/-- The four quoted states: names and values, single and double quoted. -/
def quoted_state (s : ejson_state) (quote : Nat) : Prop :=
  (s = .ejson_name_single_quoted_state ∧ quote = 39)
  ∨ (s = .ejson_name_double_quoted_state ∧ quote = 34)
  ∨ (s = .ejson_value_single_quoted_state ∧ quote = 39)
  ∨ (s = .ejson_value_double_quoted_state ∧ quote = 34)

/-- A plain number literal: an optional minus sign followed by at least one digit. -/
def plain_number (v : List Nat) : Bool :=
  match v with
  | 45 :: ds => !ds.isEmpty && ds.all is_ascii_digit
  | ds => !ds.isEmpty && ds.all is_ascii_digit

/-- One member of an object document: the kind of quote around the key (34 for
double, 39 for single), the content of the key and the text of the number. -/
structure object_member where
  quote : Nat
  key : List string_item
  value : List Nat
  deriving DecidableEq, Repr

/-- A member is well formed: a quoted, non-empty, well-formed name and a plain number. -/
def object_member.valid (m : object_member) : Bool :=
  (m.quote == 34 || m.quote == 39) && !m.key.isEmpty
    && m.key.all (fun i => i.valid m.quote) && plain_number m.value

/-- The source text of a member: quoted key, colon, number. -/
def object_member.text (m : object_member) : List Nat :=
  m.quote :: string_source m.key ++ m.quote :: 58 :: m.value

/-- The members of an object separated by commas. -/
def members_text : List object_member → List Nat
  | [] => []
  | [m] => m.text
  | m :: ms => m.text ++ 44 :: members_text ms

/-- The object document with the given members, without any whitespace. -/
def object_text (ms : List object_member) : List Nat :=
  123 :: members_text ms ++ [125]

/-- The two leaves a member contributes: its KEY and, right behind it, its NUMBER. -/
def member_nodes (m : object_member) : List pcvcm_node :=
  [⟨.PCVCM_NODE_TYPE_KEY, some (utf8_text (string_source m.key)), []⟩,
   ⟨.PCVCM_NODE_TYPE_NUMBER, some m.value, []⟩]

/-- The leaves of all members in source order. -/
def members_nodes : List object_member → List pcvcm_node
  | [] => []
  | m :: ms => member_nodes m ++ members_nodes ms

/-- The children of the node behind a pointer, in order (`none` for a dangling
child pointer). -/
def children_of (nodes : List pcvcm_node) (ptr : Nat) : List (Option pcvcm_node) :=
  match node_at nodes ptr with
  | none => []
  | some nd => nd.children.map (node_at nodes)

/-- The exponent marker as the tokenizer buffers it: an upper-case `E` is written
as a lower-case `e`, every other character as it is. -/
def exponent_lower (c : Nat) : Nat :=
  if c = 69 then 101 else c

/-- The states in which the characters of a numeric literal are collected. -/
def number_state (s : ejson_state) : Prop :=
  s = .ejson_value_number_integer_state ∨ s = .ejson_value_number_fraction_state
    ∨ s = .ejson_value_number_exponent_state
    ∨ s = .ejson_value_number_exponent_integer_state
    ∨ s = .ejson_value_number_suffix_integer_state

/-- The token kinds of numeric literals. -/
def number_token (t : ejson_token_type) : Prop :=
  t = .ejson_token_number ∨ t = .ejson_token_long_int ∨ t = .ejson_token_ulong_int
    ∨ t = .ejson_token_long_double

/-- What one pass through the number state `s` with buffer `b` and character `c` may
end with: the character is buffered (with the exponent marker in lower case) and the
tokenizer stays in a number state, or a token with the buffer plus the character is
returned, or no token is returned, or the character is looked at again with the buffer
unchanged: a delimiter in the after-number state, `U` or `L` coming from the integer
state in the suffix state, a digit coming from the exponent state in the
exponent-digits state. -/
def step_in_number (s : ejson_state) (b : List Nat) (c : Nat) : Outcome → Prop
  | .advance p1 => number_state p1.state ∧ p1.tmp_buff = b ++ [exponent_lower c] ∧ c ≠ 0
  | .reconsume p1 =>
    p1.tmp_buff = b ∧
      ((p1.state = .ejson_after_value_number_state ∧ is_delimiter c = true)
        ∨ (s = .ejson_value_number_integer_state
            ∧ p1.state = .ejson_value_number_suffix_integer_state ∧ (c = 85 ∨ c = 76))
        ∨ (s = .ejson_value_number_exponent_state
            ∧ p1.state = .ejson_value_number_exponent_integer_state
            ∧ is_ascii_digit c = true))
  | .ret (some tok) _ _ u =>
    u = false ∧ tok.buf = some (b ++ [exponent_lower c]) ∧ number_token tok.type
  | .ret none _ _ _ => True

/-- What the dispatch of one character in a number state ends with, reconsume jumps
followed: as `step_in_number`, or the number token with the buffer as text is
returned and the character (a delimiter) is handed back. -/
def char_in_number (b : List Nat) (c : Nat) : Outcome → Prop
  | .advance p1 =>
    number_state p1.state ∧ p1.tmp_buff = b ++ [exponent_lower c] ∧ c ≠ 0
  | .reconsume _ => False
  | .ret (some tok) _ _ u =>
    number_token tok.type ∧
      ((u = false ∧ tok.buf = some (b ++ [exponent_lower c])) ∨ (u = true ∧ tok.buf = some b))
  | .ret none _ _ _ => True

/-- The buffer is an initial part of one of the keywords `true`, `false`, `null`. -/
def keyword_start (b : List Nat) : Bool :=
  b.isPrefixOf [116, 114, 117, 101] || b.isPrefixOf [102, 97, 108, 115, 101]
    || b.isPrefixOf [110, 117, 108, 108]

/-- The sequence KEY, value, KEY, value, ... over the children of an OBJECT node: a KEY
is followed by one child that is no KEY, and nothing else occurs. A dangling child
pointer (`none`) fits nowhere. -/
def key_value_alternating : List (Option pcvcm_node) → Bool
  | [] => true
  | some k :: some v :: rest =>
    k.type == .PCVCM_NODE_TYPE_KEY && v.type != .PCVCM_NODE_TYPE_KEY
      && key_value_alternating rest
  | _ => false

/-- Every OBJECT node among the allocated nodes has alternating children. -/
def objects_alternate (nodes : List pcvcm_node) : Bool :=
  nodes.all fun nd =>
    nd.type != .PCVCM_NODE_TYPE_OBJECT || key_value_alternating (nd.children.map (node_at nodes))

/-- A pass that returns with the current character left unread has put the tokenizer
into the after-value state. -/
def unread_to_after_value : Outcome → Bool
  | .ret _ _ ejson true => ejson.state == .ejson_after_value_state
  | _ => true

/-- The states in which a value or a container is closed. -/
def closing_state (s : ejson_state) : Bool :=
  s == .ejson_after_value_state || s == .ejson_after_object_state
    || s == .ejson_after_array_state

/-- A pass that does not return with the character unread and that jumps, if it jumps,
to a closing state. -/
def takes_character : Outcome → Bool
  | .ret _ _ _ true => false
  | .reconsume ejson => closing_state ejson.state
  | _ => true

/-- The quantity that gets smaller with every token `pcejson_parse` receives: twice the
length of the stream, plus one while the tokenizer is not in the after-value state. -/
def parse_measure (ejson : pcejson) (rws : List Nat) : Nat :=
  2 * rws.length + if ejson.state = .ejson_after_value_state then 0 else 1

/-- The value the temporary object of a frame binds to the name, if the frame has such
an object and it binds the name. -/
def temp_binding (heap : List purc_variant) (name : List Nat) (p : pcintr_stack_frame) :
    Option Nat :=
  if purc_variant_is_object heap p.exclamation_var = true
      ∧ purc_variant_object_get_by_ckey heap p.exclamation_var name ≠ 0 then
    some (purc_variant_object_get_by_ckey heap p.exclamation_var name)
  else none

/-- The elements whose scope variables stand on the lexical-scope chain of a frame: the
scope element of the frame with its ancestors if the frame has one; otherwise the
position of the frame, followed by the chain of the parent frame. -/
def scope_chain : List pcintr_stack_frame → List pcvdom_element
  | [] => []
  | frame :: parent =>
    if frame.scope ≠ [] then frame.scope
    else
      match frame.pos with
      | [] => []
      | elem :: _ => elem :: scope_chain parent

/-- The value the scope variables of an element bind to the name, if they bind it. -/
def scope_binding (heap : List purc_variant) (name : List Nat) (elem : pcvdom_element) :
    Option Nat :=
  if pcintr_get_scope_variable heap elem name ≠ 0 then
    some (pcintr_get_scope_variable heap elem name)
  else none

/-- The value a manager binds to the name, if there is a manager and it binds the
name. -/
def manager_binding (heap : List purc_variant) (name : List Nat) (mgr : Option pcvarmgr) :
    Option Nat :=
  match mgr with
  | some mgr =>
    if purc_variant_object_get_by_ckey heap mgr.object name ≠ 0 then
      some (purc_variant_object_get_by_ckey heap mgr.object name)
    else none
  | none => none

/-- The four levels in the order of the spec: the temporary objects of the bottom frame
and of its ancestor frames, the scope variables along the scope chain, the variables of
the document, the variables of the instance. -/
def binding_levels (heap : List purc_variant) (varmgr : Option pcvarmgr)
    (stack : pcintr_stack) (name : List Nat) : List (Option Nat) :=
  [stack.bottom_frame.findSome? (temp_binding heap name),
   (scope_chain stack.bottom_frame).findSome? (scope_binding heap name),
   manager_binding heap name stack.vdom,
   manager_binding heap name varmgr]

/-- The element `n` levels up from the position of a frame: the position itself for 0,
and the parent of the element one level less otherwise (NULL above the top). -/
def levels_up (frame : pcintr_stack_frame) (n : Nat) : List pcvdom_element :=
  frame.pos.drop n

/-- The pointer is a node that exists and is not the document node. -/
def bindable : List pcvdom_element → Bool
  | [] => false
  | elem :: _ => elem.type != .PCVDOM_NODE_DOCUMENT

/-- The variant behind the pointer is a string with the given text. -/
def is_string_with (heap : List purc_variant) (v : Nat) (s : List Nat) : Bool :=
  purc_variant_is_string heap v && purc_variant_get_string_const heap v == s

/-- The default location of `bind_at_default`: the element one level up when it is
bindable, the coroutine otherwise. -/
def default_place (frame : pcintr_stack_frame) : bind_place :=
  if bindable (levels_up frame 1) then .at_element (levels_up frame 1) else .at_coroutine

/-- The length of the longest chain of `RECONSUME_IN` jumps that can start in a state. -/
def reconsume_rank : ejson_state → Nat
  | .ejson_before_value_state => 4
  | .ejson_value_double_quoted_state => 3
  | .ejson_value_number_state => 3
  | .ejson_before_name_state => 2
  | .ejson_value_single_quoted_state => 2
  | .ejson_after_value_double_quoted_state => 2
  | .ejson_value_two_double_quoted_state => 2
  | .ejson_value_number_integer_state => 2
  | .ejson_value_number_exponent_state => 2
  | .ejson_init_state => 1
  | .ejson_after_value_state => 1
  | .ejson_name_unquoted_state => 1
  | .ejson_keyword_state => 1
  | .ejson_hex_byte_sequence_state => 1
  | .ejson_binary_byte_sequence_state => 1
  | .ejson_base64_byte_sequence_state => 1
  | .ejson_value_number_fraction_state => 1
  | .ejson_value_number_exponent_integer_state => 1
  | .ejson_value_number_suffix_integer_state => 1
  | _ => 0

/-- A pass that jumps, if it jumps, to a state of rank below `r`. -/
def jumps_below (r : Nat) : Outcome → Bool
  | .reconsume ejson => decide (reconsume_rank ejson.state < r)
  | _ => true

/-- A pass that returns neither a token nor an error code does so in one of the two
states that leave the `switch` without setting an error. -/
def silent_return : Outcome → Bool
  | .ret none none ejson _ =>
    ejson.state == .ejson_after_value_number_state
      || ejson.state == .ejson_value_two_double_quoted_state
  | _ => true

/-- The states a character is dispatched in, in order: the state of the tokenizer and
then the targets of the `RECONSUME_IN` jumps, at most `limit` states. -/
def reconsume_chain : Nat → pcejson → Nat → List ejson_state
  | 0, _, _ => []
  | limit + 1, ejson, wc =>
    ejson.state ::
      match step ejson wc with
      | .reconsume ejson1 => reconsume_chain limit ejson1 wc
      | _ => []


/-- The shape of the container stack, top first: only the markers `{`, `[` and `:`
occur, the bottom entry is `{` or `[`, a `:` lies directly above a `{`, and a `{` or `[`
that is not the bottom entry lies directly above a `:` or a `[`. -/
def stack_ok : List Nat → Bool
  | [] => true
  | [x] => x == 123 || x == 91
  | x :: y :: rest =>
    ((x == 58 && y == 123) || ((x == 123 || x == 91) && (y == 58 || y == 91)))
      && stack_ok (y :: rest)

/-- The top of the stack is `:` or `[`: a value is expected or has just been completed. -/
def value_top (stack : List Nat) : Bool :=
  pcutils_stack_top stack == 58 || pcutils_stack_top stack == 91

/-- What holds of the tokenizer between two characters: the stack has the right shape
and fits the state. The four states in the last group are only passed through on a
`RECONSUME_IN` jump. -/
def stack_invariant (ejson : pcejson) : Bool :=
  stack_ok ejson.stack &&
    match ejson.state with
    | .ejson_init_state | .ejson_finished_state => ejson.stack.isEmpty
    | .ejson_before_name_state => pcutils_stack_top ejson.stack == 123
    | .ejson_after_name_state | .ejson_name_unquoted_state | .ejson_name_single_quoted_state
    | .ejson_name_double_quoted_state => pcutils_stack_top ejson.stack == 58
    | .ejson_string_escape_state | .ejson_string_escape_four_hexadecimal_digits_state =>
      ((ejson.return_state == .ejson_name_single_quoted_state
          || ejson.return_state == .ejson_name_double_quoted_state)
        && pcutils_stack_top ejson.stack == 58)
      || ((ejson.return_state == .ejson_value_single_quoted_state
          || ejson.return_state == .ejson_value_double_quoted_state)
        && value_top ejson.stack)
    | .ejson_object_state | .ejson_array_state | .ejson_after_object_state
    | .ejson_after_array_state => false
    | _ => value_top ejson.stack

/-- What holds of the tokenizer while the character `wc` is dispatched: as between two
characters, except in the four states that are entered by a jump. -/
def dispatch_invariant (ejson : pcejson) (wc : Nat) : Bool :=
  match ejson.state with
  | .ejson_object_state =>
    stack_ok ejson.stack && (wc == 123 || wc == 91)
      && (ejson.stack.isEmpty || value_top ejson.stack)
  | .ejson_array_state => stack_ok ejson.stack && value_top ejson.stack
  | .ejson_after_object_state | .ejson_after_array_state => stack_ok ejson.stack
  | _ => stack_invariant ejson

/-- A pass that keeps the invariant: behind a pass that reads on or returns without an
error the invariant between characters holds, and behind a jump the invariant of the
dispatch. -/
def keeps_invariant (wc : Nat) : Outcome → Bool
  | .advance ejson => stack_invariant ejson
  | .reconsume ejson => dispatch_invariant ejson wc
  | .ret _ none ejson _ => stack_invariant ejson
  | .ret _ (some _) _ _ => true

/-- The tokenizers that a fresh parser can become without an error: a dispatch that reads
on, and a dispatch that returns with no error recorded, lead from one to the next. -/
inductive reachable : pcejson → Prop
  | fresh (depth : Int) (flags : Nat) : reachable (pcejson_create depth flags)
  | advance (ejson ejson1 : pcejson) (wc : Nat) :
    reachable ejson → dispatch RECONSUME_LIMIT ejson wc = .advance ejson1 → reachable ejson1
  | ret (ejson ejson1 : pcejson) (wc : Nat) (token : Option pcejson_token) (unread : Bool) :
    reachable ejson → dispatch RECONSUME_LIMIT ejson wc = .ret token none ejson1 unread →
    reachable ejson1


/-- The marker of the innermost open container: the first `{` or `[` from the top of the
container stack, 0 when there is none. -/
def innermost_container (stack : List Nat) : Nat :=
  (stack.find? (fun m => m == 123 || m == 91)).getD 0

/-- The open containers of a container stack: its markers without the colons, innermost
first. -/
def open_containers (stack : List Nat) : List Nat :=
  stack.filter (fun m => m != 58)

/-- What a token does to the list of open containers (innermost first): a start token
opens a container of its kind, an end token closes the innermost open container if that
is of its kind and is refused (`none`) otherwise, every other token leaves the list
alone. -/
def nest_token (open_marks : List Nat) (token : pcejson_token) : Option (List Nat) :=
  match token.type with
  | ejson_token_start_object => some (123 :: open_marks)
  | ejson_token_start_array => some (91 :: open_marks)
  | ejson_token_end_object =>
    match open_marks with
    | 123 :: rest => some rest
    | _ => none
  | ejson_token_end_array =>
    match open_marks with
    | 91 :: rest => some rest
    | _ => none
  | _ => some open_marks

/-- The open containers behind a sequence of tokens, `none` when an end token was
refused. The sequence is properly nested when it leads from no open container to no open
container. -/
def nesting : List Nat → List pcejson_token → Option (List Nat)
  | open_marks, [] => some open_marks
  | open_marks, token :: tokens =>
    match nest_token open_marks token with
    | none => none
    | some open_marks1 => nesting open_marks1 tokens

/-- The tokens the loop of `pcejson_parse` receives, in order: the calls of
`pcejson_next_token` up to the first NULL. The first argument bounds the number of calls
as in `parse_loop`. -/
def emitted_tokens : Nat → pcejson → List Nat → List pcejson_token
  | 0, _, _ => []
  | calls + 1, ejson, rws =>
    let r := pcejson_next_token ejson rws
    match r.token with
    | none => []
    | some token => token :: emitted_tokens calls r.ejson r.rws

/-- All child pointers of a list of nodes, parent by parent. -/
def all_children (nodes : List pcvcm_node) : List Nat :=
  (nodes.map (fun nd => nd.children)).flatten

/-- The tokenizer has emitted no container token yet: it is in the init state, or on the
way from there to the first start token. -/
def fresh_state (ejson : pcejson) : Bool :=
  match ejson.state with
  | .ejson_init_state => true
  | .ejson_object_state | .ejson_array_state => ejson.stack.isEmpty
  | _ => false

/-- The tokenizer is in the finished state. -/
def is_finished (ejson : pcejson) : Bool :=
  match ejson.state with
  | .ejson_finished_state => true
  | _ => false

/-- The after-object state was entered with a top marker that is not a brace. -/
def brace_refused (ejson : pcejson) : Bool :=
  match ejson.state with
  | .ejson_after_object_state => pcutils_stack_top ejson.stack != 123
  | _ => false

/-- A state in which a call of `pcejson_next_token` can begin or end: not one of the four
states that are only passed through by `RECONSUME_IN`. -/
def between_calls (ejson : pcejson) : Bool :=
  match ejson.state with
  | .ejson_object_state | .ejson_after_object_state | .ejson_array_state
  | .ejson_after_array_state => false
  | _ => true

/-- A start-object or start-array token. -/
def container_token (token : pcejson_token) : Bool :=
  match token.type with
  | ejson_token_start_object | ejson_token_start_array => true
  | _ => false

/-- A token for which `pcejson_token_to_pcvcm_node` makes a node that is no container. -/
def leaf_token (token : pcejson_token) : Bool :=
  match token.type with
  | ejson_token_key | ejson_token_string | ejson_token_null | ejson_token_boolean
  | ejson_token_number | ejson_token_long_int | ejson_token_ulong_int
  | ejson_token_long_double | ejson_token_text | ejson_token_byte_squence => true
  | _ => false

/-- The relation between the open containers before and after one pass of the switch. -/
def nest_step (ejson : pcejson) : Outcome → Bool
  | .advance ejson1 => open_containers ejson1.stack == open_containers ejson.stack
  | .reconsume ejson1 =>
    open_containers ejson1.stack == open_containers ejson.stack || brace_refused ejson1
  | .ret (some token) _ ejson1 _ =>
    nest_token (open_containers ejson.stack) token == some (open_containers ejson1.stack)
  | .ret none _ ejson1 _ => !is_finished ejson1 || ejson.stack.isEmpty

/-- What one pass of the switch keeps about the start of the document and about the
tokens it returns. -/
def fresh_step (ejson : pcejson) : Outcome → Bool
  | .advance ejson1 => !fresh_state ejson1 || fresh_state ejson
  | .reconsume ejson1 => !fresh_state ejson1 || fresh_state ejson
  | .ret (some token) err ejson1 _ =>
    (!fresh_state ejson1 || (fresh_state ejson && token.type == ejson_token_eof))
      && (!(container_token token && ejson.stack.isEmpty) || fresh_state ejson)
      && (!leaf_token token || !ejson.stack.isEmpty)
      && (err.isNone || (ejson1 == ejson && between_calls ejson))
  | .ret none _ _ _ => true

/-- The finished state is entered by an end token only, and not left. -/
def finished_step (ejson : pcejson) : Outcome → Bool
  | .advance ejson1 => !is_finished ejson1 || is_finished ejson
  | .reconsume ejson1 => !is_finished ejson1 || is_finished ejson
  | .ret (some token) _ ejson1 _ =>
    !is_finished ejson1 || is_finished ejson || token.type == ejson_token_end_object
      || token.type == ejson_token_end_array
  | .ret none _ ejson1 _ => !is_finished ejson1 || is_finished ejson

/-- What one dispatched character keeps: the invariant of the container stack, the open
containers up to the effect of the returned token, the start of the document and its
end. -/
def dispatch_sound (ejson : pcejson) : Outcome → Prop
  | .advance ejson1 =>
    stack_invariant ejson1 = true
      ∧ open_containers ejson1.stack = open_containers ejson.stack
      ∧ (fresh_state ejson1 = true → fresh_state ejson = true)
      ∧ (is_finished ejson1 = true → is_finished ejson = true)
  | .reconsume ejson1 =>
    is_finished ejson1 = true → open_containers ejson.stack = [] ∧ is_finished ejson = true
  | .ret (some token) _ ejson1 _ =>
    stack_invariant ejson1 = true
      ∧ nest_token (open_containers ejson.stack) token = some (open_containers ejson1.stack)
      ∧ (fresh_state ejson1 = true →
          fresh_state ejson = true ∧ token.type = ejson_token_eof)
      ∧ (container_token token = true → open_containers ejson.stack = [] →
          fresh_state ejson = true)
      ∧ (leaf_token token = true → open_containers ejson.stack ≠ [])
      ∧ (is_finished ejson1 = true → is_finished ejson = true
          ∨ token.type = ejson_token_end_object ∨ token.type = ejson_token_end_array)
  | .ret none _ ejson1 _ =>
    is_finished ejson1 = true → open_containers ejson.stack = [] ∧ is_finished ejson = true

/-- An end-object or end-array token. -/
def end_token (token : pcejson_token) : Bool :=
  match token.type with
  | ejson_token_end_object | ejson_token_end_array => true
  | _ => false

/-- The nodes after the loop body of `pcejson_parse` has allocated the node `nd` and
appended it to the node on top of the node stack, if there is one. -/
def attach_node (nodes : List pcvcm_node) (node_stack : List Nat) (nd : pcvcm_node) :
    List pcvcm_node :=
  let node := nodes.length + 1
  let parent := pcutils_stack_top node_stack
  if parent ≠ 0 ∧ parent ≠ node then pctree_node_append_child (nodes ++ [nd]) parent node
  else nodes ++ [nd]

/-- What the loop of `pcejson_parse` keeps about its tree between two tokens: the node
stack has one entry per open container, its entries are allocated nodes, no node exists
before the first start token and one exists in the finished state, every pointer from
the second node on occurs once among all children and no other number does, a child is
younger than its parent, and the root pointer is the first node unless it was set at
entry. -/
def tree_sound (ejson : pcejson) (b : tree_builder) (vcm_tree : Nat) : Prop :=
  b.node_stack.length = (open_containers ejson.stack).length
    ∧ (∀ q ∈ b.node_stack, 1 ≤ q ∧ q ≤ b.nodes.length)
    ∧ (fresh_state ejson = true → b.nodes = [])
    ∧ (is_finished ejson = true → b.nodes ≠ [])
    ∧ (∀ q, (all_children b.nodes).count q = if 2 ≤ q ∧ q ≤ b.nodes.length then 1 else 0)
    ∧ (∀ i nd, b.nodes[i]? = some nd → ∀ q ∈ nd.children, i + 1 < q)
    ∧ b.vcm_tree = (if vcm_tree = 0 then (if b.nodes = [] then 0 else 1) else vcm_tree)
/-- A call on the observer registry: `pcvarmgr_add_observer` with its name, event label,
calling stack and the outcome of its two allocations, or `pcvarmgr_remove_observer` with
its name, event label and calling stack. -/
inductive observer_call
  | add (name event : List Nat) (stack : Nat) (malloc_ok push_ok : Bool)
  | remove (name event : List Nat) (stack : Nat)
  deriving DecidableEq, Repr

/-- One call on the registry. -/
def run_observer_call (error : purc_error) (mgr : pcvarmgr) : observer_call → observer_result
  | .add name event stack malloc_ok push_ok =>
    pcvarmgr_add_observer error mgr name event stack malloc_ok push_ok
  | .remove name event stack => pcvarmgr_remove_observer error mgr name event stack

/-- A sequence of calls on the registry, each on the manager and the last error the call
before it left; the result is the manager at the end. -/
def run_observer_calls (error : purc_error) (mgr : pcvarmgr) : List observer_call → pcvarmgr
  | [] => mgr
  | call :: calls =>
    run_observer_calls (run_observer_call error mgr call).error
      (run_observer_call error mgr call).mgr calls

/-- The id attribute of the element evaluates to a string equal to `id`, and the element
is not the document node. -/
def id_matches (heap : List purc_variant) (elem : pcvdom_element) (id : List Nat) : Bool :=
  elem.type != PCVDOM_NODE_DOCUMENT &&
    match elem.id with
    | some v => v != 0 && purc_variant_is_string heap v
        && purc_variant_get_string_const heap v == id
    | none => false

/-- The binding object of the variables of an element, 0 for an element without
variables. -/
def scope_object (elem : pcvdom_element) : Nat :=
  match elem.scope_variables with
  | some mgr => mgr.object
  | none => 0

/-- The position of the bottom frame, NULL when there is no frame. -/
def bottom_pos (frames : List pcintr_stack_frame) : List pcvdom_element :=
  match frames with
  | [] => []
  | f :: _ => f.pos

/-- The binding object of the document as a list: empty without a document. -/
def document_objects (vdom : Option pcvarmgr) : List Nat :=
  match vdom with
  | some vdom => [vdom.object]
  | none => []

/-- The variants `pcintr_unbind_named_var` looks into, in its order: the temporary
variable of the bottom frame and of every frame behind it, the binding object of the
element at the bottom frame's position and of every ancestor of it, and the binding
object of the document. -/
def unbind_search (stack : pcintr_stack) : List Nat :=
  stack.bottom_frame.map (fun p => p.exclamation_var)
    ++ (bottom_pos stack.bottom_frame).map scope_object
    ++ document_objects stack.vdom

/-- The allocated variants after the name has been unbound in one object. -/
def unbind_at (heap : List purc_variant) (obj : Nat) (name : List Nat) : List purc_variant :=
  match variant_at heap obj with
  | some x => heap.set (obj - 1) { x with members := members_remove x.members name }
  | none => heap

/-- The domain of `pcejson_tmp_buff_last_char`: the byte `p[len - 1]` lies inside the
buffer, that is, at least one byte was written. -/
def last_char_domain (rws : List Nat) : Bool :=
  decide (1 ≤ pcejson_tmp_buff_length rws)

/-- The domain of `pcejson_tmp_buff_end_with`: the compared bytes start at
`p + len - strlen(s)`, which lies inside the buffer when the buffer is at least as long as
the suffix. -/
def end_with_domain (rws s : List Nat) : Bool :=
  decide (s.length ≤ pcejson_tmp_buff_length rws)

/-- The domain of `pcejson_tmp_buff_remove_first_last`: the count of bytes written back,
`strlen(dup) - first - last`, does not wrap around, so `first + last` exceeds neither the
length of the duplicated C string nor the number of bytes written. -/
def remove_first_last_domain (rws : List Nat) (first last : Nat) : Bool :=
  decide (first + last ≤ (pcejson_tmp_buff_dup rws).length)
    && decide (first + last ≤ pcejson_tmp_buff_length rws)

/-- The domain of `pcutils_stack_top` and `pcutils_stack_pop`: the stack is not empty. -/
def stack_domain (stack : List Nat) : Bool :=
  !pcutils_stack_is_empty stack

/-- One pass through `switch (ejson->state)` with the character `wc`, reduced to the
buffer and stack helpers it applies: every `pcejson_tmp_buff_last_char`,
`pcejson_tmp_buff_end_with`, `pcejson_tmp_buff_remove_first_last`, `pcutils_stack_top`
and `pcutils_stack_pop` that the handler of the state reaches is applied inside its
domain. The branches are those of the handlers, with the short-circuit of `&&` and `||`;
a handler that applies none of these helpers has nothing to check. -/
def helpers_in_domain (ejson : pcejson) (wc : Nat) : Bool :=
  match ejson.state with
  | .ejson_after_object_state =>
    if wc = 125 then stack_domain ejson.stack else true
  | .ejson_after_array_state =>
    if wc = 93 then stack_domain ejson.stack else true
  | .ejson_before_name_state =>
    if is_whitespace wc then true
    else if wc = 34 ∨ wc = 39 ∨ is_ascii_alpha wc then stack_domain ejson.stack
    else true
  | .ejson_after_value_state =>
    if is_whitespace wc then true
    else if wc = 34 ∨ wc = 39 then true
    else if wc = 125 then stack_domain ejson.stack
    else if wc = 93 then true
    else if wc = 44 then stack_domain ejson.stack
    else true
  | .ejson_after_value_double_quoted_state =>
    if wc = 34 then remove_first_last_domain ejson.tmp_buff 1 0 else true
  | .ejson_value_two_double_quoted_state =>
    if wc = 34 then true
    else if wc = 0 then true
    else remove_first_last_domain ejson.tmp_buff 1 1
  | .ejson_value_three_double_quoted_state =>
    if wc = 34 then
      let tmp_buff := pcejson_tmp_buff_append ejson.tmp_buff (utf8_bytes wc)
      if pcejson_tmp_buff_length tmp_buff ≥ 6 then
        end_with_domain tmp_buff [34, 34, 34]
          && (if pcejson_tmp_buff_end_with tmp_buff [34, 34, 34] then
                remove_first_last_domain tmp_buff 3 3
              else true)
      else true
    else true
  | .ejson_base64_byte_sequence_state =>
    if is_delimiter wc then true
    else if wc = 61 then true
    else if is_ascii_digit wc ∨ is_ascii_alpha wc ∨ wc = 43 ∨ wc = 45 then
      end_with_domain ejson.tmp_buff [61]
    else true
  | .ejson_after_value_number_state =>
    if is_delimiter wc then
      end_with_domain ejson.tmp_buff [45]
        && (pcejson_tmp_buff_end_with ejson.tmp_buff [45]
          || (end_with_domain ejson.tmp_buff [69]
            && (pcejson_tmp_buff_end_with ejson.tmp_buff [69]
              || end_with_domain ejson.tmp_buff [101])))
    else true
  | .ejson_value_number_fraction_state =>
    if is_delimiter wc then true
    else if is_ascii_digit wc then end_with_domain ejson.tmp_buff [70]
    else if wc = 70 then true
    else if wc = 76 then end_with_domain ejson.tmp_buff [70]
    else if wc = 69 ∨ wc = 101 then end_with_domain ejson.tmp_buff [46]
    else true
  | .ejson_value_number_exponent_integer_state =>
    if is_delimiter wc then true
    else if is_ascii_digit wc then end_with_domain ejson.tmp_buff [70]
    else if wc = 70 then true
    else if wc = 76 then end_with_domain ejson.tmp_buff [70]
    else true
  | .ejson_value_number_suffix_integer_state =>
    last_char_domain ejson.tmp_buff
      && (let last_c := pcejson_tmp_buff_last_char ejson.tmp_buff
          if is_delimiter wc then true
          else if wc = 85 then true
          else if wc = 76 then
            if is_ascii_digit last_c ∨ last_c = 85 then
              let tmp_buff := pcejson_tmp_buff_append ejson.tmp_buff (utf8_bytes wc)
              end_with_domain tmp_buff [85, 76]
                && (pcejson_tmp_buff_end_with tmp_buff [85, 76]
                  || end_with_domain tmp_buff [76])
            else true
          else true)
  | _ => true

/-- The passes of one `dispatch`: the helpers are applied inside their domain in the
state the character arrives in and in every state a `RECONSUME_IN` jump leads to. -/
def dispatch_in_domain : Nat → pcejson → Nat → Bool
  | 0, _, _ => true
  | limit + 1, ejson, wc =>
    helpers_in_domain ejson wc
      && match step ejson wc with
         | .reconsume ejson1 => dispatch_in_domain limit ejson1 wc
         | _ => true

/-- The passes of one call of `pcejson_next_token`: those of the dispatch of every
character the call reads. -/
def next_token_in_domain (ejson : pcejson) : List Nat → Bool
  | [] => true
  | wc :: rws =>
    dispatch_in_domain RECONSUME_LIMIT ejson wc
      && match dispatch RECONSUME_LIMIT ejson wc with
         | .advance ejson1 => next_token_in_domain ejson1 rws
         | _ => true

/-- The passes of a run of calls of `pcejson_next_token` on a stream, up to and including
the first call that records an error; the first argument bounds the number of calls. -/
def calls_in_domain : Nat → pcejson → List Nat → Bool
  | 0, _, _ => true
  | calls + 1, ejson, rws =>
    next_token_in_domain ejson rws
      && (let r := pcejson_next_token ejson rws
          match r.err with
          | some _ => true
          | none => calls_in_domain calls r.ejson r.rws)

/-- No byte of a buffer is NUL: the C string that starts at the buffer base is the
whole buffer. -/
def no_nul (rws : List Nat) : Bool :=
  rws.all (fun x => x != 0)

/-- The bottom marker of a non-empty container stack is an opening brace. -/
def bottom_brace (stack : List Nat) : Bool :=
  stack.getLastD 123 == 123

/-- What the state says about the buffer and the stack while the character `wc` is
dispatched. The states whose condition mentions `wc`, and the two closing states, are
entered by a `RECONSUME_IN` jump. -/
def state_domain (ejson : pcejson) (wc : Nat) : Bool :=
  match ejson.state with
  | .ejson_after_object_state | .ejson_after_array_state => !ejson.stack.isEmpty
  | .ejson_after_value_double_quoted_state => !ejson.tmp_buff.isEmpty
  | .ejson_value_two_double_quoted_state =>
    ejson.tmp_buff == [34, 34] || (wc == 34 && ejson.tmp_buff == [34])
  | .ejson_value_number_state => is_ascii_digit wc || wc == 45
  | .ejson_value_number_integer_state => !ejson.tmp_buff.isEmpty || is_ascii_digit wc
  | .ejson_base64_byte_sequence_state | .ejson_after_value_number_state
  | .ejson_value_number_fraction_state | .ejson_value_number_exponent_state
  | .ejson_value_number_exponent_integer_state
  | .ejson_value_number_suffix_integer_state => !ejson.tmp_buff.isEmpty
  | _ => true

/-- What the state says about the buffer and the stack between two characters. -/
def state_domain_between (ejson : pcejson) : Bool :=
  match ejson.state with
  | .ejson_after_object_state | .ejson_after_array_state => !ejson.stack.isEmpty
  | .ejson_after_value_double_quoted_state => !ejson.tmp_buff.isEmpty
  | .ejson_value_two_double_quoted_state => ejson.tmp_buff == [34, 34]
  | .ejson_value_number_state => false
  | .ejson_value_number_integer_state
  | .ejson_base64_byte_sequence_state | .ejson_after_value_number_state
  | .ejson_value_number_fraction_state | .ejson_value_number_exponent_state
  | .ejson_value_number_exponent_integer_state
  | .ejson_value_number_suffix_integer_state => !ejson.tmp_buff.isEmpty
  | _ => true

/-- The invariant behind the helper domains while `wc` is dispatched: no NUL byte in
either buffer, an opening brace at the bottom of the stack, and the condition of the
state. -/
def domain_invariant (ejson : pcejson) (wc : Nat) : Bool :=
  no_nul ejson.tmp_buff && no_nul ejson.tmp_buff2 && bottom_brace ejson.stack
    && state_domain ejson wc

/-- The invariant behind the helper domains between two characters. -/
def domain_between (ejson : pcejson) : Bool :=
  no_nul ejson.tmp_buff && no_nul ejson.tmp_buff2 && bottom_brace ejson.stack
    && state_domain_between ejson

/-- A pass that keeps the invariant of the helper domains. -/
def keeps_domain (wc : Nat) : Outcome → Bool
  | .advance ejson => domain_between ejson
  | .reconsume ejson => domain_invariant ejson wc
  | .ret _ none ejson _ => domain_between ejson
  | .ret _ (some _) _ _ => true

/-- The calls of `pcejson_next_token` that the loop of `pcejson_parse` makes, in order,
each given by the tokenizer and the stream it starts with: a call starts where the call
before it ended, and the call that returns no token is the last. The first argument
bounds the number of calls as in `parse_loop`. -/
def parse_calls : Nat → pcejson → List Nat → List (pcejson × List Nat)
  | 0, _, _ => []
  | calls + 1, ejson, rws =>
    (ejson, rws) ::
      match (pcejson_next_token ejson rws).token with
      | none => []
      | some _ =>
        parse_calls calls (pcejson_next_token ejson rws).ejson (pcejson_next_token ejson rws).rws

/-- A call of `pcejson_next_token` that ends because the stream is used up: every
character of the stream is dispatched and read on from, and the next read reports
`len <= 0`. -/
def reads_to_end (ejson : pcejson) : List Nat → Bool
  | [] => true
  | wc :: rws =>
    match dispatch RECONSUME_LIMIT ejson wc with
    | .advance ejson1 => reads_to_end ejson1 rws
    | _ => false

/-- One call follows another in a run: it starts with the tokenizer and the stream the
other has left. -/
def next_call (a b : pcejson × List Nat) : Prop :=
  b = ((pcejson_next_token a.1 a.2).ejson, (pcejson_next_token a.1 a.2).rws)

/-! ## Character classes -/

theorem is_whitespace_iff (c : Nat) :
    is_whitespace c = true ↔ (c = 32 ∨ c = 10 ∨ c = 9 ∨ c = 12) := by
  simp [is_whitespace, or_assoc]

theorem is_delimiter_iff (c : Nat) :
    is_delimiter c = true ↔ (c = 32 ∨ c = 10 ∨ c = 9 ∨ c = 12 ∨ c = 125 ∨ c = 93 ∨ c = 44) := by
  simp [is_delimiter, is_whitespace, or_assoc]

theorem is_ascii_digit_iff (c : Nat) : is_ascii_digit c = true ↔ (48 ≤ c ∧ c ≤ 57) := by
  simp [is_ascii_digit]

theorem lt_128_of_lor_lt (c : Nat) (h : c ||| 32 < 128) : c < 128 := by
  by_contra hc
  have hge : c ≥ 2 ^ 7 := by omega
  obtain ⟨i, hi, hb⟩ := Nat.ge_two_pow_implies_high_bit_true hge
  have hb2 : (c ||| 32).testBit i = true := by simp [hb]
  have h3 := Nat.testBit_implies_ge hb2
  have h4 : 2 ^ 7 ≤ 2 ^ i := Nat.pow_le_pow_right (by decide) hi
  omega

theorem is_ascii_hex_digit_iff (c : Nat) :
    is_ascii_hex_digit c = true ↔
      ((48 ≤ c ∧ c ≤ 57) ∨ (65 ≤ c ∧ c ≤ 70) ∨ (97 ≤ c ∧ c ≤ 102)) := by
  simp only [is_ascii_hex_digit, is_ascii_digit, to_ascii_lower_unchecked, Bool.or_eq_true,
    Bool.and_eq_true, decide_eq_true_eq]
  constructor
  · rintro (h | ⟨h1, h2⟩)
    · exact Or.inl h
    · have hc : c < 128 := lt_128_of_lor_lt c (by omega)
      interval_cases c <;> simp_all +decide
  · rintro (h | h | h)
    · exact Or.inl h
    · right
      obtain ⟨h1, h2⟩ := h
      interval_cases c <;> decide
    · right
      obtain ⟨h1, h2⟩ := h
      interval_cases c <;> decide

theorem not_delimiter_of (c : Nat)
    (h : c ≠ 32 ∧ c ≠ 10 ∧ c ≠ 9 ∧ c ≠ 12 ∧ c ≠ 125 ∧ c ≠ 93 ∧ c ≠ 44) :
    is_delimiter c = false := by
  rw [Bool.eq_false_iff, Ne, is_delimiter_iff]
  omega

theorem not_whitespace_of (c : Nat) (h : c ≠ 32 ∧ c ≠ 10 ∧ c ≠ 9 ∧ c ≠ 12) :
    is_whitespace c = false := by
  rw [Bool.eq_false_iff, Ne, is_whitespace_iff]
  omega

/-! ## Bytes and buffers -/

theorem utf8_bytes_ascii (c : Nat) (h : c < 128) : utf8_bytes c = [c] := by
  simp [utf8_bytes, h]

theorem utf8_bytes_ne_nil (c : Nat) : utf8_bytes c ≠ [] := by
  unfold utf8_bytes
  split_ifs <;> simp

theorem utf8_bytes_ne_zero (c : Nat) (hc : c ≠ 0) : ∀ b ∈ utf8_bytes c, b ≠ 0 := by
  intro b hb
  unfold utf8_bytes at hb
  split_ifs at hb <;> simp at hb <;> omega

theorem utf8_bytes_ne_quote (c : Nat) (hc : c ≠ 34) : ∀ b ∈ utf8_bytes c, b ≠ 34 := by
  unfold utf8_bytes
  split_ifs <;> simp <;> omega

theorem utf8_text_append (l1 l2 : List Nat) :
    utf8_text (l1 ++ l2) = utf8_text l1 ++ utf8_text l2 := by
  induction l1 with
  | nil => rfl
  | cons c cs ih => simp [utf8_text, ih]

theorem utf8_text_ascii (l : List Nat) (h : ∀ c ∈ l, c < 128) : utf8_text l = l := by
  induction l with
  | nil => rfl
  | cons c cs ih =>
    have hc : c < 128 := h c (List.mem_cons_self _ _)
    have hcs : ∀ x ∈ cs, x < 128 := fun x hx => h x (List.mem_cons_of_mem _ hx)
    simp [utf8_text, utf8_bytes_ascii c hc, ih hcs]

theorem utf8_text_ne_zero (l : List Nat) (h : ∀ c ∈ l, c ≠ 0) : ∀ b ∈ utf8_text l, b ≠ 0 := by
  induction l with
  | nil => simp [utf8_text]
  | cons c cs ih =>
    intro b hb
    simp only [utf8_text, List.mem_append] at hb
    rcases hb with hb | hb
    · exact utf8_bytes_ne_zero c (h c (List.mem_cons_self _ _)) b hb
    · exact ih (fun x hx => h x (List.mem_cons_of_mem _ hx)) b hb

theorem utf8_text_ne_quote (l : List Nat) (h : ∀ c ∈ l, c ≠ 34) :
    ∀ b ∈ utf8_text l, b ≠ 34 := by
  induction l with
  | nil => simp [utf8_text]
  | cons c cs ih =>
    intro b hb
    simp only [utf8_text, List.mem_append] at hb
    rcases hb with hb | hb
    · exact utf8_bytes_ne_quote c (h c (List.mem_cons_self _ _)) b hb
    · exact ih (fun x hx => h x (List.mem_cons_of_mem _ hx)) b hb

theorem utf8_text_ne_nil (l : List Nat) (h : l ≠ []) : utf8_text l ≠ [] := by
  cases l with
  | nil => exact absurd rfl h
  | cons c cs =>
    have := utf8_bytes_ne_nil c
    simp [utf8_text, this]

theorem c_string_of_ne_zero (l : List Nat) (h : ∀ b ∈ l, b ≠ 0) : c_string l = l := by
  unfold c_string
  rw [List.takeWhile_eq_self_iff]
  intro b hb
  simp [h b hb]

/-! ## Stepping the tokenizer -/

theorem dispatch_succ (n : Nat) (p : pcejson) (c : Nat) :
    dispatch (n + 1) p c
      = match step p c with
        | .reconsume p1 => dispatch n p1 c
        | o => o := rfl

theorem dispatch_advance (n : Nat) (p p1 : pcejson) (c : Nat) (h : step p c = .advance p1) :
    dispatch (n + 1) p c = .advance p1 := by
  simp [dispatch, h]

theorem dispatch_ret (n : Nat) (p p1 : pcejson) (c : Nat) (t : Option pcejson_token)
    (e : Option pcejson_error) (u : Bool) (h : step p c = .ret t e p1 u) :
    dispatch (n + 1) p c = .ret t e p1 u := by
  simp [dispatch, h]

theorem dispatch_reconsume (n : Nat) (p p1 : pcejson) (c : Nat)
    (h : step p c = .reconsume p1) : dispatch (n + 1) p c = dispatch n p1 c := by
  simp [dispatch, h]

theorem next_token_advance (p p1 : pcejson) (c : Nat) (cs : List Nat)
    (h : dispatch RECONSUME_LIMIT p c = .advance p1) :
    pcejson_next_token p (c :: cs) = pcejson_next_token p1 cs := by
  simp [pcejson_next_token, h]

theorem next_token_ret (p p1 : pcejson) (c : Nat) (cs : List Nat) (t : Option pcejson_token)
    (e : Option pcejson_error) (u : Bool) (h : dispatch RECONSUME_LIMIT p c = .ret t e p1 u) :
    pcejson_next_token p (c :: cs) = ⟨t, e, p1, if u then c :: cs else cs⟩ := by
  simp [pcejson_next_token, h]

/-- A state that appends every character of a class to the buffer and stays put
runs through a whole sequence of such characters. -/
theorem next_token_scan (s : ejson_state) (P : Nat → Prop) (Q : List Nat → Prop)
    (hstep : ∀ d f stk b b2 rs c, P c → Q b →
      step ⟨s, d, f, stk, b, b2, rs⟩ c = .advance ⟨s, d, f, stk, b ++ utf8_bytes c, b2, rs⟩
        ∧ Q (b ++ utf8_bytes c))
    (d : Int) (f : Nat) (stk b2 : List Nat) (rs : ejson_state) (rest : List Nat) :
    ∀ (l : List Nat) (b : List Nat), (∀ c ∈ l, P c) → Q b →
      pcejson_next_token ⟨s, d, f, stk, b, b2, rs⟩ (l ++ rest)
        = pcejson_next_token ⟨s, d, f, stk, b ++ utf8_text l, b2, rs⟩ rest := by
  intro l
  induction l with
  | nil => intro b _ _; simp [utf8_text]
  | cons c cs ih =>
    intro b hl hb
    have hc := hstep d f stk b b2 rs c (hl c (List.mem_cons_self _ _)) hb
    rw [List.cons_append, next_token_advance _ _ _ _ (dispatch_advance _ _ _ _ hc.1),
      ih _ (fun x hx => hl x (List.mem_cons_of_mem _ hx)) hc.2]
    simp [utf8_text, List.append_assoc]

theorem end_with_append (b s t : List Nat) (h : s.length = t.length) :
    pcejson_tmp_buff_end_with (b ++ s) t = (s == t) := by
  unfold pcejson_tmp_buff_end_with
  rw [List.length_append, h]
  have h1 : t.length ≤ b.length + t.length := by omega
  have h2 : b.length + t.length - t.length = b.length := by omega
  rw [h2]
  simp [h1]

theorem list_nil_or_snoc (l : List Nat) : l = [] ∨ ∃ l1 x, l = l1 ++ [x] := by
  rcases List.eq_nil_or_concat l with h | ⟨l1, x, h⟩
  · exact Or.inl h
  · exact Or.inr ⟨l1, x, by rw [h, List.concat_eq_append]⟩

theorem end_with_nil (t : List Nat) (h : t ≠ []) : pcejson_tmp_buff_end_with [] t = false := by
  cases t with
  | nil => exact absurd rfl h
  | cons x xs => simp [pcejson_tmp_buff_end_with]

theorem last_char_append (b : List Nat) (x : Nat) :
    pcejson_tmp_buff_last_char (b ++ [x]) = x := by
  simp [pcejson_tmp_buff_last_char]

theorem digit_facts (c : Nat) (h : is_ascii_digit c = true) :
    c < 128 ∧ c ≠ 0 ∧ is_delimiter c = false ∧ is_whitespace c = false ∧ 48 ≤ c ∧ c ≤ 57 := by
  rw [is_ascii_digit_iff] at h
  exact ⟨by omega, by omega, not_delimiter_of c (by omega), not_whitespace_of c (by omega),
    h.1, h.2⟩

theorem hex_digit_facts (c : Nat) (h : is_ascii_hex_digit c = true) :
    c < 128 ∧ c ≠ 0 ∧ is_delimiter c = false := by
  rw [is_ascii_hex_digit_iff] at h
  refine ⟨by omega, by omega, not_delimiter_of c (by omega)⟩

/-! ## Chains of reconsume jumps -/

theorem nt_adv (p p1 : pcejson) (c : Nat) (cs : List Nat) (h : step p c = .advance p1) :
    pcejson_next_token p (c :: cs) = pcejson_next_token p1 cs := by
  simp [pcejson_next_token, RECONSUME_LIMIT, dispatch, h]

theorem nt_re_adv (p p1 p2 : pcejson) (c : Nat) (cs : List Nat)
    (h1 : step p c = .reconsume p1) (h2 : step p1 c = .advance p2) :
    pcejson_next_token p (c :: cs) = pcejson_next_token p2 cs := by
  simp [pcejson_next_token, RECONSUME_LIMIT, dispatch, h1, h2]

theorem nt_re_re_adv (p p1 p2 p3 : pcejson) (c : Nat) (cs : List Nat)
    (h1 : step p c = .reconsume p1) (h2 : step p1 c = .reconsume p2)
    (h3 : step p2 c = .advance p3) :
    pcejson_next_token p (c :: cs) = pcejson_next_token p3 cs := by
  simp [pcejson_next_token, RECONSUME_LIMIT, dispatch, h1, h2, h3]

theorem nt_ret (p p1 : pcejson) (c : Nat) (cs : List Nat) (t : Option pcejson_token)
    (e : Option pcejson_error) (u : Bool) (h : step p c = .ret t e p1 u) :
    pcejson_next_token p (c :: cs) = ⟨t, e, p1, if u then c :: cs else cs⟩ := by
  simp [pcejson_next_token, RECONSUME_LIMIT, dispatch, h]

theorem nt_re_ret (p p1 p2 : pcejson) (c : Nat) (cs : List Nat) (t : Option pcejson_token)
    (e : Option pcejson_error) (u : Bool)
    (h1 : step p c = .reconsume p1) (h2 : step p1 c = .ret t e p2 u) :
    pcejson_next_token p (c :: cs) = ⟨t, e, p2, if u then c :: cs else cs⟩ := by
  simp [pcejson_next_token, RECONSUME_LIMIT, dispatch, h1, h2]

theorem nt_re_re_ret (p p1 p2 p3 : pcejson) (c : Nat) (cs : List Nat)
    (t : Option pcejson_token) (e : Option pcejson_error) (u : Bool)
    (h1 : step p c = .reconsume p1) (h2 : step p1 c = .reconsume p2)
    (h3 : step p2 c = .ret t e p3 u) :
    pcejson_next_token p (c :: cs) = ⟨t, e, p3, if u then c :: cs else cs⟩ := by
  simp [pcejson_next_token, RECONSUME_LIMIT, dispatch, h1, h2, h3]

/-! ## C4: triple-quoted text -/

theorem text_open (d : Int) (f : Nat) (stk b b2 : List Nat) (rs : ejson_state)
    (cs : List Nat) :
    pcejson_next_token ⟨ejson_before_value_state, d, f, stk, b, b2, rs⟩ (34 :: 34 :: 34 :: cs)
      = pcejson_next_token
          ⟨ejson_value_three_double_quoted_state, d, f, stk, [34, 34, 34], b2, rs⟩ cs := by
  rw [nt_re_adv _ ⟨ejson_value_double_quoted_state, d, f, stk, [], b2, rs⟩
      ⟨ejson_value_double_quoted_state, d, f, stk, [34], b2, rs⟩,
    nt_re_adv _ ⟨ejson_value_two_double_quoted_state, d, f, stk, [34], b2, rs⟩
      ⟨ejson_value_two_double_quoted_state, d, f, stk, [34, 34], b2, rs⟩,
    nt_re_adv _ ⟨ejson_value_three_double_quoted_state, d, f, stk, [34, 34], b2, rs⟩
      ⟨ejson_value_three_double_quoted_state, d, f, stk, [34, 34, 34], b2, rs⟩]
  · simp [step, value_two_double_quoted_state, pcejson_tmp_buff_equal, c_string, RECONSUME_IN]
  · simp [step, value_three_double_quoted_state, pcejson_tmp_buff_append, utf8_bytes,
      pcejson_tmp_buff_length, ADVANCE_TO]
  · simp [step, value_double_quoted_state, pcejson_tmp_buff_is_empty, pcejson_tmp_buff_equal,
      c_string, RECONSUME_IN]
  · simp [step, value_two_double_quoted_state, pcejson_tmp_buff_equal, c_string,
      pcejson_tmp_buff_append, utf8_bytes, ADVANCE_TO]
  · simp [step, before_value_state, before_value_enter, is_whitespace, RECONSUME_IN,
      pcejson_tmp_buff_reset]
  · simp [step, value_double_quoted_state, pcejson_tmp_buff_is_empty, pcejson_tmp_buff_append,
      utf8_bytes, ADVANCE_TO]

theorem text_step (d : Int) (f : Nat) (stk b b2 : List Nat) (rs : ejson_state) (c : Nat)
    (h : c ≠ 34 ∧ c ≠ 0) :
    step ⟨ejson_value_three_double_quoted_state, d, f, stk, b, b2, rs⟩ c
      = .advance
          ⟨ejson_value_three_double_quoted_state, d, f, stk, b ++ utf8_bytes c, b2, rs⟩ := by
  simp [step, value_three_double_quoted_state, h.1, h.2, ADVANCE_TO, pcejson_tmp_buff_append]

theorem text_scan (d : Int) (f : Nat) (stk b b2 : List Nat) (rs : ejson_state)
    (l rest : List Nat) (hl : ∀ c ∈ l, c ≠ 34 ∧ c ≠ 0) :
    pcejson_next_token ⟨ejson_value_three_double_quoted_state, d, f, stk, b, b2, rs⟩
        (l ++ rest)
      = pcejson_next_token
          ⟨ejson_value_three_double_quoted_state, d, f, stk, b ++ utf8_text l, b2, rs⟩ rest :=
  next_token_scan ejson_value_three_double_quoted_state (fun c => c ≠ 34 ∧ c ≠ 0)
    (fun _ => True) (fun d f stk b b2 rs c hc _ => ⟨text_step d f stk b b2 rs c hc, trivial⟩)
    d f stk b2 rs rest l b hl trivial

/-- A buffer whose byte before the last is no quote does not end with three quotes. -/
theorem end_with_three_quotes_false (l : List Nat) (y z : Nat) (hy : y ≠ 34) :
    pcejson_tmp_buff_end_with (l ++ [y, z]) [34, 34, 34] = false := by
  rcases list_nil_or_snoc l with rfl | ⟨l1, x, rfl⟩
  · simp [pcejson_tmp_buff_end_with]
  · have e : l1 ++ [x] ++ [y, z] = l1 ++ [x, y, z] := by simp
    rw [e, end_with_append l1 [x, y, z] [34, 34, 34] rfl]
    simp [hy]

theorem text_quote_continue (d : Int) (f : Nat) (stk b b2 : List Nat) (rs : ejson_state)
    (h : (b ++ [34]).length < 6 ∨ pcejson_tmp_buff_end_with (b ++ [34]) [34, 34, 34] = false) :
    step ⟨ejson_value_three_double_quoted_state, d, f, stk, b, b2, rs⟩ 34
      = .advance ⟨ejson_value_three_double_quoted_state, d, f, stk, b ++ [34], b2, rs⟩ := by
  have h34 : utf8_bytes 34 = [34] := by decide
  have hc : ¬ (pcejson_tmp_buff_length (b ++ [34]) ≥ 6
      ∧ pcejson_tmp_buff_end_with (b ++ [34]) [34, 34, 34] = true) := by
    rintro ⟨h1, h2⟩
    rcases h with h | h
    · unfold pcejson_tmp_buff_length at h1
      omega
    · rw [h] at h2
      exact absurd h2 (by decide)
  simp only [step, value_three_double_quoted_state, h34, pcejson_tmp_buff_append]
  rw [if_pos trivial, if_neg hc]
  rfl

theorem text_quote_close (d : Int) (f : Nat) (stk B b2 : List Nat) (rs : ejson_state)
    (hz : ∀ y ∈ B, y ≠ 0) :
    step ⟨ejson_value_three_double_quoted_state, d, f, stk, [34, 34, 34] ++ B ++ [34, 34], b2,
        rs⟩ 34
      = .ret (some ⟨ejson_token_text, some B⟩) none
          ⟨ejson_after_value_state, d, f, stk, B, b2, rs⟩ false := by
  have h34 : utf8_bytes 34 = [34] := by decide
  have e : [34, 34, 34] ++ B ++ [34, 34] ++ [34] = ([34, 34, 34] ++ B) ++ [34, 34, 34] := by
    simp
  have hlen : pcejson_tmp_buff_length (([34, 34, 34] ++ B) ++ [34, 34, 34]) ≥ 6 := by
    simp [pcejson_tmp_buff_length]
  have hend : pcejson_tmp_buff_end_with (([34, 34, 34] ++ B) ++ [34, 34, 34]) [34, 34, 34]
      = true := by
    rw [end_with_append ([34, 34, 34] ++ B) [34, 34, 34] [34, 34, 34] rfl]; rfl
  have hz3 : ∀ y ∈ ([34, 34, 34] ++ B) ++ [34, 34, 34], y ≠ 0 := by
    intro y hy
    simp only [List.mem_append, List.mem_cons, List.mem_singleton, List.not_mem_nil,
      or_false] at hy
    rcases hy with (hy | hy) | hy
    · omega
    · exact hz y hy
    · omega
  have hrem : pcejson_tmp_buff_remove_first_last (([34, 34, 34] ++ B) ++ [34, 34, 34]) 3 3
      = B := by
    unfold pcejson_tmp_buff_remove_first_last pcejson_tmp_buff_dup
    rw [c_string_of_ne_zero _ hz3]
    simp
  simp only [step, value_three_double_quoted_state, h34, pcejson_tmp_buff_append, e]
  rw [if_pos trivial, if_pos ⟨hlen, hend⟩]
  simp only [hrem, RETURN_TOKEN, SWITCH_TO, pcejson_tmp_buff_dup, c_string_of_ne_zero _ hz]

theorem text_close (d : Int) (f : Nat) (stk B b2 : List Nat) (rs : ejson_state)
    (rest : List Nat) (hz : ∀ y ∈ B, y ≠ 0) (hq : ∀ y ∈ B, y ≠ 34) :
    pcejson_next_token
        ⟨ejson_value_three_double_quoted_state, d, f, stk, [34, 34, 34] ++ B, b2, rs⟩
        (34 :: 34 :: 34 :: rest)
      = ⟨some ⟨ejson_token_text, some B⟩, none,
          ⟨ejson_after_value_state, d, f, stk, B, b2, rs⟩, rest⟩ := by
  have c1 : ([34, 34, 34] ++ B ++ [34]).length < 6
      ∨ pcejson_tmp_buff_end_with ([34, 34, 34] ++ B ++ [34]) [34, 34, 34] = false := by
    rcases list_nil_or_snoc B with rfl | ⟨B1, y, rfl⟩
    · left; simp
    · right
      have e : [34, 34, 34] ++ (B1 ++ [y]) ++ [34] = ([34, 34, 34] ++ B1) ++ [y, 34] := by simp
      rw [e]
      exact end_with_three_quotes_false _ y 34 (hq y (by simp))
  have c2 : ([34, 34, 34] ++ B ++ [34] ++ [34]).length < 6
      ∨ pcejson_tmp_buff_end_with ([34, 34, 34] ++ B ++ [34] ++ [34]) [34, 34, 34] = false := by
    rcases list_nil_or_snoc B with rfl | ⟨B1, y, rfl⟩
    · left; simp
    · right
      have e : [34, 34, 34] ++ (B1 ++ [y]) ++ [34] ++ [34]
          = ([34, 34, 34] ++ B1) ++ [y, 34, 34] := by simp
      rw [e, end_with_append ([34, 34, 34] ++ B1) [y, 34, 34] [34, 34, 34] rfl]
      have := hq y (by simp)
      simp [this]
  have e2 : [34, 34, 34] ++ B ++ [34] ++ [34] = [34, 34, 34] ++ B ++ [34, 34] := by simp
  rw [nt_adv _ _ _ _ (text_quote_continue d f stk _ b2 rs c1),
    nt_adv _ _ _ _ (text_quote_continue d f stk _ b2 rs c2), e2,
    nt_ret _ _ _ _ _ _ _ (text_quote_close d f stk B b2 rs hz)]
  simp

/-- C4: at a value position three quotes, a character sequence `s` without quote and
without NUL, and three quotes give exactly one TEXT token whose buffer is the bytes of
`s` (backslashes included, nothing decoded), and leave the tokenizer in the after-value
state with the stream behind the literal untouched. -/
theorem C4_triple_quoted_text (p : pcejson) (s rest : List Nat)
    (hp : p.state = ejson_before_value_state) (hs : ∀ c ∈ s, c ≠ 34 ∧ c ≠ 0) :
    pcejson_next_token p ([34, 34, 34] ++ s ++ [34, 34, 34] ++ rest)
      = ⟨some ⟨ejson_token_text, some (utf8_text s)⟩, none,
          { p with state := ejson_after_value_state, tmp_buff := utf8_text s }, rest⟩ := by
  obtain ⟨st, d, f, stk, b, b2, rs⟩ := p
  simp only at hp
  subst hp
  have e : [34, 34, 34] ++ s ++ [34, 34, 34] ++ rest
      = 34 :: 34 :: 34 :: (s ++ (34 :: 34 :: 34 :: rest)) := by simp
  rw [e, text_open, text_scan _ _ _ _ _ _ _ _ hs,
    text_close _ _ _ _ _ _ _ (utf8_text_ne_zero s (fun c hc => (hs c hc).2))
      (utf8_text_ne_quote s (fun c hc => (hs c hc).1))]

/-- C4 at the text `line1\nline2` (backslash and n as two characters). -/
theorem C4_triple_quoted_text_witness :
    pcejson_next_token ⟨ejson_before_value_state, 10, 1, [58, 123], [], [], ejson_init_state⟩
        ([34, 34, 34] ++ [108, 105, 110, 101, 49, 92, 110, 108, 105, 110, 101, 50]
          ++ [34, 34, 34] ++ [125])
      = ⟨some ⟨ejson_token_text,
            some (utf8_text [108, 105, 110, 101, 49, 92, 110, 108, 105, 110, 101, 50])⟩, none,
          ⟨ejson_after_value_state, 10, 1, [58, 123],
            utf8_text [108, 105, 110, 101, 49, 92, 110, 108, 105, 110, 101, 50], [],
            ejson_init_state⟩, [125]⟩ :=
  C4_triple_quoted_text ⟨ejson_before_value_state, 10, 1, [58, 123], [], [], ejson_init_state⟩
    [108, 105, 110, 101, 49, 92, 110, 108, 105, 110, 101, 50] [125] rfl (by decide)

/-! ## C5: quoted strings with escapes -/

theorem escape_step (d : Int) (f : Nat) (stk b b2 : List Nat) (rs : ejson_state) (c : Nat)
    (h : c = 92 ∨ c = 47 ∨ c = 34 ∨ c = 98 ∨ c = 102 ∨ c = 110 ∨ c = 114 ∨ c = 116) :
    step ⟨ejson_string_escape_state, d, f, stk, b, b2, rs⟩ c
      = .advance ⟨rs, d, f, stk, b ++ [92, c], b2, rs⟩ := by
  have h128 : c < 128 := by omega
  simp [step, string_escape_state, h, RETURN_TO, pcejson_tmp_buff_append,
    utf8_bytes_ascii c h128]

theorem escape_step_u (d : Int) (f : Nat) (stk b b2 : List Nat) (rs : ejson_state) :
    step ⟨ejson_string_escape_state, d, f, stk, b, b2, rs⟩ 117
      = .advance ⟨ejson_string_escape_four_hexadecimal_digits_state, d, f, stk, b, [], rs⟩ := by
  simp [step, string_escape_state, ADVANCE_TO, pcejson_tmp_buff_reset]

theorem hex4_step_more (d : Int) (f : Nat) (stk b b2 : List Nat) (rs : ejson_state) (c : Nat)
    (h : is_ascii_hex_digit c = true) (hlen : b2.length + 1 ≠ 4) :
    step ⟨ejson_string_escape_four_hexadecimal_digits_state, d, f, stk, b, b2, rs⟩ c
      = .advance ⟨ejson_string_escape_four_hexadecimal_digits_state, d, f, stk, b, b2 ++ [c],
          rs⟩ := by
  have h128 := (hex_digit_facts c h).1
  simp [step, string_escape_four_hexadecimal_digits_state, h, ADVANCE_TO,
    pcejson_tmp_buff_append, pcejson_tmp_buff_length, utf8_bytes_ascii c h128, hlen]

theorem hex4_step_last (d : Int) (f : Nat) (stk b b2 : List Nat) (rs : ejson_state) (c : Nat)
    (h : is_ascii_hex_digit c = true) (hlen : b2.length + 1 = 4) :
    step ⟨ejson_string_escape_four_hexadecimal_digits_state, d, f, stk, b, b2, rs⟩ c
      = .advance ⟨rs, d, f, stk, b ++ [92, 117] ++ (b2 ++ [c]).take 4, b2 ++ [c], rs⟩ := by
  have h128 := (hex_digit_facts c h).1
  simp [step, string_escape_four_hexadecimal_digits_state, h, RETURN_TO,
    pcejson_tmp_buff_append, pcejson_tmp_buff_length, utf8_bytes_ascii c h128, hlen]

theorem quoted_step_ordinary (s : ejson_state) (q : Nat) (hs : quoted_state s q)
    (d : Int) (f : Nat) (stk b b2 : List Nat) (rs : ejson_state) (c : Nat)
    (h : c ≠ 0 ∧ c ≠ 92 ∧ c ≠ q) :
    step ⟨s, d, f, stk, b, b2, rs⟩ c = .advance ⟨s, d, f, stk, b ++ utf8_bytes c, b2, rs⟩ := by
  obtain ⟨h0, h92, hq⟩ := h
  rcases hs with ⟨rfl, rfl⟩ | ⟨rfl, rfl⟩ | ⟨rfl, rfl⟩ | ⟨rfl, rfl⟩
  · simp [step, name_single_quoted_state, h0, h92, hq, ADVANCE_TO, pcejson_tmp_buff_append]
  · simp [step, name_double_quoted_state, h0, h92, hq, ADVANCE_TO, pcejson_tmp_buff_append]
  · simp [step, value_single_quoted_state, h0, h92, hq, ADVANCE_TO, pcejson_tmp_buff_append]
  · simp [step, value_double_quoted_state, h0, h92, hq, ADVANCE_TO, pcejson_tmp_buff_append]

theorem quoted_step_backslash (s : ejson_state) (q : Nat) (hs : quoted_state s q)
    (d : Int) (f : Nat) (stk b b2 : List Nat) (rs : ejson_state) :
    step ⟨s, d, f, stk, b, b2, rs⟩ 92
      = .advance ⟨ejson_string_escape_state, d, f, stk, b, b2, s⟩ := by
  rcases hs with ⟨rfl, rfl⟩ | ⟨rfl, rfl⟩ | ⟨rfl, rfl⟩ | ⟨rfl, rfl⟩
  · simp [step, name_single_quoted_state, ADVANCE_TO]
  · simp [step, name_double_quoted_state, ADVANCE_TO]
  · simp [step, value_single_quoted_state, ADVANCE_TO]
  · simp [step, value_double_quoted_state, ADVANCE_TO]

/-- One well-formed element is appended to the buffer in its source form and the
tokenizer is back in the quoted state it came from. -/
theorem quoted_item (s : ejson_state) (q : Nat) (hs : quoted_state s q)
    (d : Int) (f : Nat) (stk b b2 : List Nat) (rs : ejson_state) (i : string_item)
    (rest : List Nat) (hi : i.valid q = true) :
    ∃ b2n rsn, pcejson_next_token ⟨s, d, f, stk, b, b2, rs⟩ (i.source ++ rest)
      = pcejson_next_token ⟨s, d, f, stk, b ++ utf8_text i.source, b2n, rsn⟩ rest := by
  cases i with
  | ordinary c =>
    simp only [string_item.valid, Bool.and_eq_true, bne_iff_ne, ne_eq] at hi
    refine ⟨b2, rs, ?_⟩
    simp only [string_item.source, List.cons_append, List.nil_append, utf8_text,
      List.append_nil]
    exact nt_adv _ _ _ _ (quoted_step_ordinary s q hs d f stk b b2 rs c ⟨hi.1.1, hi.1.2, hi.2⟩)
  | escape c =>
    simp only [string_item.valid, Bool.or_eq_true, beq_iff_eq, or_assoc] at hi
    have h128 : c < 128 := by omega
    refine ⟨b2, s, ?_⟩
    simp only [string_item.source, List.cons_append, List.nil_append]
    rw [nt_adv _ _ _ _ (quoted_step_backslash s q hs d f stk b b2 rs),
      nt_adv _ _ _ _ (escape_step d f stk b b2 s c hi),
      utf8_text_ascii [92, c] (by intro x hx; simp at hx; omega)]
  | unicode h1 h2 h3 h4 =>
    simp only [string_item.valid, Bool.and_eq_true] at hi
    obtain ⟨⟨⟨e1, e2⟩, e3⟩, e4⟩ := hi
    refine ⟨[h1, h2, h3, h4], s, ?_⟩
    simp only [string_item.source, List.cons_append, List.nil_append]
    rw [nt_adv _ _ _ _ (quoted_step_backslash s q hs d f stk b b2 rs),
      nt_adv _ _ _ _ (escape_step_u d f stk b b2 s),
      nt_adv _ _ _ _ (hex4_step_more d f stk b [] s h1 e1 (by simp)),
      nt_adv _ _ _ _ (hex4_step_more d f stk b _ s h2 e2 (by simp)),
      nt_adv _ _ _ _ (hex4_step_more d f stk b _ s h3 e3 (by simp)),
      nt_adv _ _ _ _ (hex4_step_last d f stk b _ s h4 e4 (by simp)),
      utf8_text_ascii [92, 117, h1, h2, h3, h4] (by
        intro x hx
        simp only [List.mem_cons, List.mem_singleton, List.not_mem_nil, or_false] at hx
        have a1 := (hex_digit_facts h1 e1).1
        have a2 := (hex_digit_facts h2 e2).1
        have a3 := (hex_digit_facts h3 e3).1
        have a4 := (hex_digit_facts h4 e4).1
        omega)]
    simp

theorem quoted_items (s : ejson_state) (q : Nat) (hs : quoted_state s q)
    (d : Int) (f : Nat) (stk : List Nat) (rest : List Nat) :
    ∀ (items : List string_item) (b b2 : List Nat) (rs : ejson_state),
      (∀ i ∈ items, i.valid q = true) →
      ∃ b2n rsn, pcejson_next_token ⟨s, d, f, stk, b, b2, rs⟩ (string_source items ++ rest)
        = pcejson_next_token ⟨s, d, f, stk, b ++ utf8_text (string_source items), b2n, rsn⟩
            rest := by
  intro items
  induction items with
  | nil => intro b b2 rs _; exact ⟨b2, rs, by simp [string_source, utf8_text]⟩
  | cons i is ih =>
    intro b b2 rs hv
    obtain ⟨b2a, rsa, h1⟩ := quoted_item s q hs d f stk b b2 rs i (string_source is ++ rest)
      (hv i (List.mem_cons_self _ _))
    obtain ⟨b2b, rsb, h2⟩ := ih (b ++ utf8_text i.source) b2a rsa
      (fun j hj => hv j (List.mem_cons_of_mem _ hj))
    refine ⟨b2b, rsb, ?_⟩
    simp only [string_source, List.append_assoc, utf8_text_append]
    rw [h1, h2, List.append_assoc]

theorem string_item_source_facts (q : Nat) (i : string_item) (hi : i.valid q = true) :
    i.source ≠ [] ∧ ∀ c ∈ i.source, c ≠ 0 := by
  cases i with
  | ordinary c =>
    simp only [string_item.valid, Bool.and_eq_true, bne_iff_ne, ne_eq] at hi
    simp [string_item.source, hi.1.1]
  | escape c =>
    simp only [string_item.valid, Bool.or_eq_true, beq_iff_eq, or_assoc] at hi
    refine ⟨by simp [string_item.source], ?_⟩
    intro x hx
    simp only [string_item.source, List.mem_cons, List.mem_singleton, List.not_mem_nil,
      or_false] at hx
    omega
  | unicode h1 h2 h3 h4 =>
    simp only [string_item.valid, Bool.and_eq_true] at hi
    obtain ⟨⟨⟨e1, e2⟩, e3⟩, e4⟩ := hi
    refine ⟨by simp [string_item.source], ?_⟩
    intro x hx
    simp only [string_item.source, List.mem_cons, List.mem_singleton, List.not_mem_nil,
      or_false] at hx
    have a1 := (hex_digit_facts h1 e1).2.1
    have a2 := (hex_digit_facts h2 e2).2.1
    have a3 := (hex_digit_facts h3 e3).2.1
    have a4 := (hex_digit_facts h4 e4).2.1
    omega

theorem string_source_facts (q : Nat) (items : List string_item) (hne : items ≠ [])
    (hv : ∀ i ∈ items, i.valid q = true) :
    utf8_text (string_source items) ≠ [] ∧ ∀ b ∈ utf8_text (string_source items), b ≠ 0 := by
  have hz : ∀ c ∈ string_source items, c ≠ 0 := by
    clear hne
    induction items with
    | nil => simp [string_source]
    | cons i is ih =>
      intro c hc
      simp only [string_source, List.mem_append] at hc
      rcases hc with hc | hc
      · exact (string_item_source_facts q i (hv i (List.mem_cons_self _ _))).2 c hc
      · exact ih (fun j hj => hv j (List.mem_cons_of_mem _ hj)) c hc
  refine ⟨utf8_text_ne_nil _ ?_, utf8_text_ne_zero _ hz⟩
  cases items with
  | nil => exact absurd rfl hne
  | cons i is =>
    have := (string_item_source_facts q i (hv i (List.mem_cons_self _ _))).1
    simp [string_source, this]

theorem double_quoted_open (d : Int) (f : Nat) (stk b b2 : List Nat) (rs : ejson_state)
    (cs : List Nat) :
    pcejson_next_token ⟨ejson_before_value_state, d, f, stk, b, b2, rs⟩ (34 :: cs)
      = pcejson_next_token ⟨ejson_value_double_quoted_state, d, f, stk, [34], b2, rs⟩ cs := by
  apply nt_re_adv _ ⟨ejson_value_double_quoted_state, d, f, stk, [], b2, rs⟩
  · simp [step, before_value_state, before_value_enter, is_whitespace, RECONSUME_IN,
      pcejson_tmp_buff_reset]
  · simp [step, value_double_quoted_state, pcejson_tmp_buff_is_empty, pcejson_tmp_buff_append,
      utf8_bytes, ADVANCE_TO]

theorem single_quoted_open (d : Int) (f : Nat) (stk b b2 : List Nat) (rs : ejson_state)
    (cs : List Nat) :
    pcejson_next_token ⟨ejson_before_value_state, d, f, stk, b, b2, rs⟩ (39 :: cs)
      = pcejson_next_token ⟨ejson_value_single_quoted_state, d, f, stk, [], b2, rs⟩ cs := by
  apply nt_re_adv _ ⟨ejson_value_single_quoted_state, d, f, stk, [], b2, rs⟩
  · simp [step, before_value_state, before_value_enter, is_whitespace, RECONSUME_IN,
      pcejson_tmp_buff_reset]
  · simp [step, value_single_quoted_state, pcejson_tmp_buff_length, ADVANCE_TO]

theorem double_quoted_close (d : Int) (f : Nat) (stk T b2 : List Nat) (rs : ejson_state)
    (cs : List Nat) (hne : T ≠ []) (hz : ∀ y ∈ T, y ≠ 0) :
    pcejson_next_token ⟨ejson_value_double_quoted_state, d, f, stk, [34] ++ T, b2, rs⟩
        (34 :: cs)
      = ⟨some ⟨ejson_token_string, some T⟩, none,
          ⟨ejson_after_value_state, d, f, stk, T, b2, rs⟩, cs⟩ := by
  have hz1 : ∀ y ∈ [34] ++ T, y ≠ 0 := by
    intro y hy
    simp only [List.mem_append, List.mem_singleton] at hy
    rcases hy with rfl | hy
    · decide
    · exact hz y hy
  have hcs : c_string ([34] ++ T) = [34] ++ T := c_string_of_ne_zero _ hz1
  have hneq : pcejson_tmp_buff_equal ([34] ++ T) [34] = false := by
    unfold pcejson_tmp_buff_equal
    rw [hcs]
    cases T with
    | nil => exact absurd rfl hne
    | cons t ts => simp
  have hemp : pcejson_tmp_buff_is_empty ([34] ++ T) = false := by
    simp [pcejson_tmp_buff_is_empty]
  have hrem : pcejson_tmp_buff_remove_first_last ([34] ++ T) 1 0 = T := by
    unfold pcejson_tmp_buff_remove_first_last pcejson_tmp_buff_dup
    rw [hcs]
    simp
  rw [nt_re_re_ret _ ⟨ejson_after_value_double_quoted_state, d, f, stk, [34] ++ T, b2, rs⟩
    ⟨ejson_after_value_state, d, f, stk, T, b2, rs⟩
    ⟨ejson_after_value_state, d, f, stk, T, b2, rs⟩ _ _
    (some ⟨ejson_token_string, some T⟩) none false]
  · simp
  · simp only [step, value_double_quoted_state, hemp, hneq]
    simp [RECONSUME_IN]
  · simp only [step, after_value_double_quoted_state, hrem]
    simp [RECONSUME_IN]
  · simp [step, after_value_state, is_whitespace, RETURN_TOKEN, pcejson_tmp_buff_dup,
      c_string_of_ne_zero _ hz]

theorem single_quoted_close (d : Int) (f : Nat) (stk T b2 : List Nat) (rs : ejson_state)
    (cs : List Nat) (hne : T ≠ []) (hz : ∀ y ∈ T, y ≠ 0) :
    pcejson_next_token ⟨ejson_value_single_quoted_state, d, f, stk, T, b2, rs⟩ (39 :: cs)
      = ⟨some ⟨ejson_token_string, some T⟩, none,
          ⟨ejson_after_value_state, d, f, stk, T, b2, rs⟩, cs⟩ := by
  have hlen : pcejson_tmp_buff_length T ≥ 1 := by
    cases T with
    | nil => exact absurd rfl hne
    | cons t ts => simp [pcejson_tmp_buff_length]
  rw [nt_re_ret _ ⟨ejson_after_value_state, d, f, stk, T, b2, rs⟩
    ⟨ejson_after_value_state, d, f, stk, T, b2, rs⟩ _ _
    (some ⟨ejson_token_string, some T⟩) none false]
  · simp
  · simp [step, value_single_quoted_state, hlen, RECONSUME_IN]
  · simp [step, after_value_state, is_whitespace, RETURN_TOKEN, pcejson_tmp_buff_dup,
      c_string_of_ne_zero _ hz]

/-- C5: for a non-empty content of ordinary characters and valid escapes, the
double-quoted and the single-quoted value each give one STRING token whose text is the
source characters of the content (escapes in their escaped form, quotes not included);
no error is recorded, the stream behind the closing quote is untouched and the
tokenizer is in the after-value state with its container stack unchanged. -/
theorem C5_quoted_string (p : pcejson) (items : List string_item) (rest : List Nat)
    (hp : p.state = ejson_before_value_state) (hne : items ≠ []) :
    ((∀ i ∈ items, i.valid 34 = true) →
      (pcejson_next_token p (34 :: string_source items ++ 34 :: rest)).token
          = some ⟨ejson_token_string, some (utf8_text (string_source items))⟩
      ∧ (pcejson_next_token p (34 :: string_source items ++ 34 :: rest)).err = none
      ∧ (pcejson_next_token p (34 :: string_source items ++ 34 :: rest)).rws = rest
      ∧ (pcejson_next_token p (34 :: string_source items ++ 34 :: rest)).ejson.state
          = ejson_after_value_state
      ∧ (pcejson_next_token p (34 :: string_source items ++ 34 :: rest)).ejson.stack
          = p.stack)
    ∧ ((∀ i ∈ items, i.valid 39 = true) →
      (pcejson_next_token p (39 :: string_source items ++ 39 :: rest)).token
          = some ⟨ejson_token_string, some (utf8_text (string_source items))⟩
      ∧ (pcejson_next_token p (39 :: string_source items ++ 39 :: rest)).err = none
      ∧ (pcejson_next_token p (39 :: string_source items ++ 39 :: rest)).rws = rest
      ∧ (pcejson_next_token p (39 :: string_source items ++ 39 :: rest)).ejson.state
          = ejson_after_value_state
      ∧ (pcejson_next_token p (39 :: string_source items ++ 39 :: rest)).ejson.stack
          = p.stack) := by
  obtain ⟨st, d, f, stk, b, b2, rs⟩ := p
  simp only at hp
  subst hp
  constructor
  · intro hv
    obtain ⟨hT, hz⟩ := string_source_facts 34 items hne hv
    obtain ⟨b2n, rsn, h⟩ := quoted_items ejson_value_double_quoted_state 34
      (Or.inr (Or.inr (Or.inr ⟨rfl, rfl⟩))) d f stk (34 :: rest) items [34] b2 rs hv
    rw [List.cons_append, double_quoted_open, h, double_quoted_close _ _ _ _ _ _ _ hT hz]
    simp
  · intro hv
    obtain ⟨hT, hz⟩ := string_source_facts 39 items hne hv
    obtain ⟨b2n, rsn, h⟩ := quoted_items ejson_value_single_quoted_state 39
      (Or.inr (Or.inr (Or.inl ⟨rfl, rfl⟩))) d f stk (39 :: rest) items [] b2 rs hv
    rw [List.cons_append, single_quoted_open, h, List.nil_append,
      single_quoted_close _ _ _ _ _ _ _ hT hz]
    simp

/-- C5 at the double-quoted value `"x\ny\u00e9"` and the single-quoted value with the
same content. -/
theorem C5_quoted_string_witness :
    (pcejson_next_token ⟨ejson_before_value_state, 10, 1, [58, 123], [], [], ejson_init_state⟩
        (34 :: string_source
          [.ordinary 120, .escape 110, .ordinary 121, .unicode 48 48 101 57] ++ 34 :: [125])).token
        = some ⟨ejson_token_string, some (utf8_text (string_source
            [.ordinary 120, .escape 110, .ordinary 121, .unicode 48 48 101 57]))⟩
    ∧ (pcejson_next_token ⟨ejson_before_value_state, 10, 1, [58, 123], [], [], ejson_init_state⟩
        (39 :: string_source
          [.ordinary 120, .escape 110, .ordinary 121, .unicode 48 48 101 57] ++ 39 :: [125])).token
        = some ⟨ejson_token_string, some (utf8_text (string_source
            [.ordinary 120, .escape 110, .ordinary 121, .unicode 48 48 101 57]))⟩ :=
  ⟨((C5_quoted_string
      ⟨ejson_before_value_state, 10, 1, [58, 123], [], [], ejson_init_state⟩
      [.ordinary 120, .escape 110, .ordinary 121, .unicode 48 48 101 57] [125] rfl
      (by decide)).1 (by decide)).1,
   ((C5_quoted_string
      ⟨ejson_before_value_state, 10, 1, [58, 123], [], [], ejson_init_state⟩
      [.ordinary 120, .escape 110, .ordinary 121, .unicode 48 48 101 57] [125] rfl
      (by decide)).2 (by decide)).1⟩

/-! ## C6: hex byte sequences -/

theorem hex_step (d : Int) (f : Nat) (stk b b2 : List Nat) (rs : ejson_state) (c : Nat)
    (h : is_ascii_hex_digit c = true) :
    step ⟨ejson_hex_byte_sequence_state, d, f, stk, b, b2, rs⟩ c
      = .advance ⟨ejson_hex_byte_sequence_state, d, f, stk, b ++ utf8_bytes c, b2, rs⟩ := by
  obtain ⟨_, _, hd⟩ := hex_digit_facts c h
  simp [step, hex_byte_sequence_state, hd, h, ADVANCE_TO, pcejson_tmp_buff_append]

theorem hex_scan (d : Int) (f : Nat) (stk b b2 : List Nat) (rs : ejson_state)
    (l rest : List Nat) (hl : ∀ c ∈ l, is_ascii_hex_digit c = true) :
    pcejson_next_token ⟨ejson_hex_byte_sequence_state, d, f, stk, b, b2, rs⟩ (l ++ rest)
      = pcejson_next_token ⟨ejson_hex_byte_sequence_state, d, f, stk, b ++ l, b2, rs⟩ rest := by
  have h := next_token_scan ejson_hex_byte_sequence_state (fun c => is_ascii_hex_digit c = true)
    (fun _ => True) (fun d f stk b b2 rs c hc _ => ⟨hex_step d f stk b b2 rs c hc, trivial⟩)
    d f stk b2 rs rest l b hl trivial
  rw [h, utf8_text_ascii l (fun c hc => (hex_digit_facts c (hl c hc)).1)]

theorem byte_sequence_open (d : Int) (f : Nat) (stk b b2 : List Nat) (rs : ejson_state)
    (cs : List Nat) :
    pcejson_next_token ⟨ejson_before_value_state, d, f, stk, b, b2, rs⟩ (98 :: 120 :: cs)
      = pcejson_next_token ⟨ejson_hex_byte_sequence_state, d, f, stk, [98, 120], b2, rs⟩ cs := by
  simp [pcejson_next_token, RECONSUME_LIMIT, dispatch, step, before_value_state,
    before_value_enter, byte_sequence_state, is_whitespace, RECONSUME_IN, ADVANCE_TO,
    pcejson_tmp_buff_reset, pcejson_tmp_buff_is_empty, pcejson_tmp_buff_append, utf8_bytes]

/-- C6: at a value position, `bx` followed by hex digits `h` and a delimiter gives one
BYTE_SEQUENCE token whose text is `bx` followed by `h`, and the delimiter stays in the
stream for the next call; when instead a character follows that is neither a hex digit
nor a delimiter, no token is returned and the unexpected-character error is recorded. -/
theorem C6_hex_byte_sequence (p : pcejson) (h : List Nat) (c : Nat) (rest : List Nat)
    (hp : p.state = ejson_before_value_state)
    (hh : ∀ x ∈ h, is_ascii_hex_digit x = true) :
    (is_delimiter c = true →
      pcejson_next_token p (98 :: 120 :: h ++ c :: rest)
        = ⟨some ⟨ejson_token_byte_squence, some (98 :: 120 :: h)⟩, none,
            { p with state := ejson_after_value_state, tmp_buff := 98 :: 120 :: h },
            c :: rest⟩)
    ∧ (is_delimiter c = false → is_ascii_hex_digit c = false →
      pcejson_next_token p (98 :: 120 :: h ++ c :: rest)
        = ⟨none, some PCEJSON_UNEXPECTED_CHARACTER_PARSE_ERROR,
            { p with state := ejson_hex_byte_sequence_state, tmp_buff := 98 :: 120 :: h },
            rest⟩) := by
  obtain ⟨s, d, f, stk, b, b2, rs⟩ := p
  simp only at hp
  subst hp
  have hz : ∀ x ∈ 98 :: 120 :: h, x ≠ 0 := by
    intro x hx
    simp only [List.mem_cons] at hx
    rcases hx with rfl | rfl | hx
    · decide
    · decide
    · exact (hex_digit_facts x (hh x hx)).2.1
  have hrun : pcejson_next_token ⟨ejson_before_value_state, d, f, stk, b, b2, rs⟩
      (98 :: 120 :: h ++ c :: rest)
      = pcejson_next_token ⟨ejson_hex_byte_sequence_state, d, f, stk, 98 :: 120 :: h, b2, rs⟩
          (c :: rest) := by
    rw [List.cons_append, List.cons_append, byte_sequence_open, hex_scan _ _ _ _ _ _ _ _ hh]
    rfl
  constructor
  · intro hd
    rw [hrun]
    simp [pcejson_next_token, RECONSUME_LIMIT, dispatch, step, hex_byte_sequence_state,
      after_byte_sequence_state, hd, RECONSUME_IN, RECONSUME_IN_NEXT, pcejson_tmp_buff_dup,
      c_string_of_ne_zero _ hz]
  · intro hd hx
    rw [hrun]
    have hdig : is_ascii_digit c = false := by
      rw [Bool.eq_false_iff, Ne, is_ascii_hex_digit_iff] at hx
      rw [Bool.eq_false_iff, Ne, is_ascii_digit_iff]
      omega
    simp [pcejson_next_token, RECONSUME_LIMIT, dispatch, step, hex_byte_sequence_state, hd, hx,
      hdig, PARSE_ERROR]

/-- C6 at the inputs `bx1A2B,` and `bx1G`. -/
theorem C6_hex_byte_sequence_witness :
    (pcejson_next_token ⟨ejson_before_value_state, 10, 1, [58, 123], [], [], ejson_init_state⟩
        (98 :: 120 :: [49, 65, 50, 66] ++ 44 :: [])
        = ⟨some ⟨ejson_token_byte_squence, some (98 :: 120 :: [49, 65, 50, 66])⟩, none,
            ⟨ejson_after_value_state, 10, 1, [58, 123], 98 :: 120 :: [49, 65, 50, 66], [],
              ejson_init_state⟩, 44 :: []⟩)
    ∧ (pcejson_next_token ⟨ejson_before_value_state, 10, 1, [58, 123], [], [], ejson_init_state⟩
        (98 :: 120 :: [49] ++ 71 :: [])
        = ⟨none, some PCEJSON_UNEXPECTED_CHARACTER_PARSE_ERROR,
            ⟨ejson_hex_byte_sequence_state, 10, 1, [58, 123], 98 :: 120 :: [49], [],
              ejson_init_state⟩, []⟩) :=
  ⟨(C6_hex_byte_sequence ⟨ejson_before_value_state, 10, 1, [58, 123], [], [], ejson_init_state⟩
      [49, 65, 50, 66] 44 [] rfl (by decide)).1 (by decide),
   (C6_hex_byte_sequence ⟨ejson_before_value_state, 10, 1, [58, 123], [], [], ejson_init_state⟩
      [49] 71 [] rfl (by decide)).2 (by decide) (by decide)⟩

/-! ## Numbers: shared lemmas -/

theorem integer_step (d : Int) (f : Nat) (stk b b2 : List Nat) (rs : ejson_state) (c : Nat)
    (h : is_ascii_digit c = true) :
    step ⟨ejson_value_number_integer_state, d, f, stk, b, b2, rs⟩ c
      = .advance ⟨ejson_value_number_integer_state, d, f, stk, b ++ utf8_bytes c, b2, rs⟩ := by
  obtain ⟨_, _, hd, _⟩ := digit_facts c h
  simp [step, value_number_integer_state, hd, h, ADVANCE_TO, pcejson_tmp_buff_append]

theorem integer_scan (d : Int) (f : Nat) (stk b b2 : List Nat) (rs : ejson_state)
    (l rest : List Nat) (hl : ∀ c ∈ l, is_ascii_digit c = true) :
    pcejson_next_token ⟨ejson_value_number_integer_state, d, f, stk, b, b2, rs⟩ (l ++ rest)
      = pcejson_next_token ⟨ejson_value_number_integer_state, d, f, stk, b ++ l, b2, rs⟩
          rest := by
  have h := next_token_scan ejson_value_number_integer_state (fun c => is_ascii_digit c = true)
    (fun _ => True) (fun d f stk b b2 rs c hc _ => ⟨integer_step d f stk b b2 rs c hc, trivial⟩)
    d f stk b2 rs rest l b hl trivial
  rw [h, utf8_text_ascii l (fun c hc => (digit_facts c (hl c hc)).1)]

theorem number_open_digit (d : Int) (f : Nat) (stk b b2 : List Nat) (rs : ejson_state)
    (c : Nat) (cs : List Nat) (h : is_ascii_digit c = true) :
    pcejson_next_token ⟨ejson_before_value_state, d, f, stk, b, b2, rs⟩ (c :: cs)
      = pcejson_next_token ⟨ejson_value_number_integer_state, d, f, stk, [c], b2, rs⟩ cs := by
  obtain ⟨h128, _, hd, hw, h1, h2⟩ := digit_facts c h
  have e1 : c ≠ 34 := by omega
  have e2 : c ≠ 39 := by omega
  have e3 : c ≠ 98 := by omega
  have e4 : ¬ (c = 116 ∨ c = 102 ∨ c = 110) := by omega
  apply nt_re_re_adv _ ⟨ejson_value_number_state, d, f, stk, [], b2, rs⟩
    ⟨ejson_value_number_integer_state, d, f, stk, [], b2, rs⟩
  · simp [step, before_value_state, before_value_enter, hw, h, e1, e2, e3, e4, RECONSUME_IN,
      pcejson_tmp_buff_reset]
  · simp [step, value_number_state, hd, h, RECONSUME_IN]
  · simp [step, value_number_integer_state, hd, h, ADVANCE_TO, pcejson_tmp_buff_append,
      utf8_bytes_ascii c h128]

theorem number_open_minus (d : Int) (f : Nat) (stk b b2 : List Nat) (rs : ejson_state)
    (cs : List Nat) :
    pcejson_next_token ⟨ejson_before_value_state, d, f, stk, b, b2, rs⟩ (45 :: cs)
      = pcejson_next_token ⟨ejson_value_number_integer_state, d, f, stk, [45], b2, rs⟩ cs := by
  apply nt_re_adv _ ⟨ejson_value_number_state, d, f, stk, [], b2, rs⟩
  · simp [step, before_value_state, before_value_enter, is_whitespace, RECONSUME_IN,
      pcejson_tmp_buff_reset]
  · simp [step, value_number_state, is_delimiter, is_whitespace, is_ascii_digit, ADVANCE_TO,
      pcejson_tmp_buff_append, utf8_bytes]

/-- An optional minus sign followed by at least one digit takes the tokenizer from
the before-value state into the integer state with exactly these characters buffered. -/
theorem number_open (d : Int) (f : Nat) (stk b b2 : List Nat) (rs : ejson_state)
    (sign ds rest : List Nat) (hs : sign = [] ∨ sign = [45]) (hne : ds ≠ [])
    (hds : ∀ c ∈ ds, is_ascii_digit c = true) :
    pcejson_next_token ⟨ejson_before_value_state, d, f, stk, b, b2, rs⟩ (sign ++ ds ++ rest)
      = pcejson_next_token ⟨ejson_value_number_integer_state, d, f, stk, sign ++ ds, b2, rs⟩
          rest := by
  rcases hs with rfl | rfl
  · cases ds with
    | nil => exact absurd rfl hne
    | cons c cs =>
      have hc := hds c (List.mem_cons_self _ _)
      have hcs : ∀ x ∈ cs, is_ascii_digit x = true := fun x hx => hds x (List.mem_cons_of_mem _ hx)
      simp only [List.nil_append, List.cons_append]
      rw [number_open_digit _ _ _ _ _ _ _ _ hc, integer_scan _ _ _ _ _ _ _ _ hcs]
      rfl
  · simp only [List.cons_append, List.nil_append]
    rw [number_open_minus, integer_scan _ _ _ _ _ _ _ _ hds]
    rfl

theorem number_text_ne_zero (sign ds : List Nat) (hs : sign = [] ∨ sign = [45])
    (hds : ∀ c ∈ ds, is_ascii_digit c = true) : ∀ x ∈ sign ++ ds, x ≠ 0 := by
  intro x hx
  rw [List.mem_append] at hx
  rcases hx with hx | hx
  · rcases hs with rfl | rfl
    · simp at hx
    · simp only [List.mem_singleton] at hx
      omega
  · exact (digit_facts x (hds x hx)).2.1

theorem last_char_digits (sign ds : List Nat) (hne : ds ≠ [])
    (hds : ∀ c ∈ ds, is_ascii_digit c = true) :
    is_ascii_digit (pcejson_tmp_buff_last_char (sign ++ ds)) = true := by
  rcases list_nil_or_snoc ds with h | ⟨l, x, rfl⟩
  · exact absurd h hne
  · rw [← List.append_assoc, last_char_append]
    exact hds x (by simp)

theorem ne_zero_snoc (l : List Nat) (x : Nat) (hl : ∀ y ∈ l, y ≠ 0) (hx : x ≠ 0) :
    ∀ y ∈ l ++ [x], y ≠ 0 := by
  intro y hy
  rw [List.mem_append, List.mem_singleton] at hy
  rcases hy with hy | rfl
  · exact hl y hy
  · exact hx

/-- In the suffix state an `L` behind a digit or a `U` returns the token. -/
theorem suffix_step_L (d : Int) (f : Nat) (stk b b2 : List Nat) (rs : ejson_state) (x : Nat)
    (hx : is_ascii_digit x = true ∨ x = 85) (hz : ∀ y ∈ b ++ [x], y ≠ 0) :
    step ⟨ejson_value_number_suffix_integer_state, d, f, stk, b ++ [x], b2, rs⟩ 76
      = .ret (some ⟨if x = 85 then ejson_token_ulong_int else ejson_token_long_int,
            some (b ++ [x] ++ [76])⟩) none
          ⟨ejson_after_value_state, d, f, stk, b ++ [x] ++ [76], b2, rs⟩ false := by
  have hz2 := ne_zero_snoc _ 76 hz (by decide)
  have e1 : pcejson_tmp_buff_end_with (b ++ [x] ++ [76]) [85, 76] = decide (x = 85) := by
    have e : b ++ [x] ++ [76] = b ++ [x, 76] := by simp
    rw [e, end_with_append b [x, 76] [85, 76] rfl]
    by_cases h : x = 85 <;> simp [h]
  have e2 : pcejson_tmp_buff_end_with (b ++ [x] ++ [76]) [76] = true := by
    rw [end_with_append (b ++ [x]) [76] [76] rfl]; rfl
  have hcond : (is_ascii_digit x = true ∨ x = 85) := hx
  have hd : pcejson_tmp_buff_dup (b ++ [x] ++ [76]) = b ++ [x] ++ [76] :=
    c_string_of_ne_zero _ hz2
  have h76 : utf8_bytes 76 = [76] := by decide
  have hnd : is_delimiter 76 = false := by decide
  simp only [step, value_number_suffix_integer_state, last_char_append, hnd, h76,
    pcejson_tmp_buff_append, e1, e2, hd, RETURN_TOKEN, SWITCH_TO]
  by_cases h : x = 85
  · simp [h]
  · simp [h, hcond.resolve_right h]

theorem integer_to_suffix (d : Int) (f : Nat) (stk b b2 : List Nat) (rs : ejson_state)
    (c : Nat) (hc : c = 85 ∨ c = 76) :
    step ⟨ejson_value_number_integer_state, d, f, stk, b, b2, rs⟩ c
      = .reconsume ⟨ejson_value_number_suffix_integer_state, d, f, stk, b, b2, rs⟩ := by
  rcases hc with rfl | rfl <;>
  simp [step, value_number_integer_state, is_delimiter, is_whitespace, is_ascii_digit,
    RECONSUME_IN]

theorem suffix_step_U_err (d : Int) (f : Nat) (stk b b2 : List Nat) (rs : ejson_state)
    (h : is_ascii_digit (pcejson_tmp_buff_last_char b) = false) :
    step ⟨ejson_value_number_suffix_integer_state, d, f, stk, b, b2, rs⟩ 85
      = .ret none (some PCEJSON_UNEXPECTED_JSON_NUMBER_INTEGER_PARSE_ERROR)
          ⟨ejson_value_number_suffix_integer_state, d, f, stk, b, b2, rs⟩ false := by
  have hnd : is_delimiter 85 = false := by decide
  simp [step, value_number_suffix_integer_state, hnd, h, PARSE_ERROR]

theorem suffix_step_L_err (d : Int) (f : Nat) (stk b b2 : List Nat) (rs : ejson_state)
    (h : is_ascii_digit (pcejson_tmp_buff_last_char b) = false)
    (h2 : pcejson_tmp_buff_last_char b ≠ 85) :
    step ⟨ejson_value_number_suffix_integer_state, d, f, stk, b, b2, rs⟩ 76
      = .ret none (some PCEJSON_UNEXPECTED_JSON_NUMBER_INTEGER_PARSE_ERROR)
          ⟨ejson_value_number_suffix_integer_state, d, f, stk, b, b2, rs⟩ false := by
  have hnd : is_delimiter 76 = false := by decide
  simp [step, value_number_suffix_integer_state, hnd, h, h2, PARSE_ERROR]

/-! ## C7: integer suffixes -/

/-- C7: an optional minus sign and a non-empty digit sequence followed by `UL` gives one
unsigned-long-int token, and followed by `L` one long-int token, with the whole literal
as text, returned when the `L` is read (the stream behind it is untouched); in the
integer and suffix states a `U` whose predecessor in the buffer is no digit, and an `L`
whose predecessor is neither a digit nor `U`, return no token and record the
integer-number parse error. -/
theorem C7_integer_suffix (p : pcejson) (sign ds rest : List Nat)
    (hp : p.state = ejson_before_value_state) (hs : sign = [] ∨ sign = [45]) (hne : ds ≠ [])
    (hds : ∀ c ∈ ds, is_ascii_digit c = true) :
    pcejson_next_token p (sign ++ ds ++ 85 :: 76 :: rest)
        = ⟨some ⟨ejson_token_ulong_int, some (sign ++ ds ++ [85, 76])⟩, none,
            { p with state := ejson_after_value_state, tmp_buff := sign ++ ds ++ [85, 76] },
            rest⟩
    ∧ pcejson_next_token p (sign ++ ds ++ 76 :: rest)
        = ⟨some ⟨ejson_token_long_int, some (sign ++ ds ++ [76])⟩, none,
            { p with state := ejson_after_value_state, tmp_buff := sign ++ ds ++ [76] },
            rest⟩
    ∧ (∀ q : pcejson,
        (q.state = ejson_value_number_integer_state
          ∨ q.state = ejson_value_number_suffix_integer_state) →
        q.tmp_buff ≠ [] →
        (is_ascii_digit (pcejson_tmp_buff_last_char q.tmp_buff) = false →
          (pcejson_next_token q (85 :: rest)).token = none
          ∧ (pcejson_next_token q (85 :: rest)).err
              = some PCEJSON_UNEXPECTED_JSON_NUMBER_INTEGER_PARSE_ERROR)
        ∧ (is_ascii_digit (pcejson_tmp_buff_last_char q.tmp_buff) = false →
            pcejson_tmp_buff_last_char q.tmp_buff ≠ 85 →
          (pcejson_next_token q (76 :: rest)).token = none
          ∧ (pcejson_next_token q (76 :: rest)).err
              = some PCEJSON_UNEXPECTED_JSON_NUMBER_INTEGER_PARSE_ERROR)) := by
  obtain ⟨s, d, f, stk, b, b2, rs⟩ := p
  simp only at hp
  subst hp
  have hz := number_text_ne_zero sign ds hs hds
  have hnd85 : is_delimiter 85 = false := by decide
  have hnd76 : is_delimiter 76 = false := by decide
  have hdg85 : is_ascii_digit 85 = false := by decide
  have hdg76 : is_ascii_digit 76 = false := by decide
  obtain ⟨l, x, hlx⟩ : ∃ l x, sign ++ ds = l ++ [x] := by
    rcases list_nil_or_snoc ds with h | ⟨l, x, rfl⟩
    · exact absurd h hne
    · exact ⟨sign ++ l, x, by simp⟩
  have hxd : is_ascii_digit x = true := by
    have := last_char_digits sign ds hne hds
    rwa [hlx, last_char_append] at this
  have hx85 : x ≠ 85 := by
    intro h; rw [h] at hxd; exact absurd hxd (by decide)
  refine ⟨?_, ?_, ?_⟩
  · rw [number_open _ _ _ _ _ _ _ _ _ hs hne hds, hlx]
    rw [nt_re_adv _ ⟨ejson_value_number_suffix_integer_state, d, f, stk, l ++ [x], b2, rs⟩
      ⟨ejson_value_number_suffix_integer_state, d, f, stk, l ++ [x] ++ [85], b2, rs⟩]
    · rw [nt_ret _ _ _ _ _ _ _ (suffix_step_L d f stk (l ++ [x]) b2 rs 85 (Or.inr rfl)
        (ne_zero_snoc _ 85 (hlx ▸ hz) (by decide)))]
      simp
    · exact integer_to_suffix d f stk _ b2 rs 85 (Or.inl rfl)
    · simp [step, value_number_suffix_integer_state, hnd85, last_char_append, hxd, ADVANCE_TO,
        pcejson_tmp_buff_append, utf8_bytes]
  · rw [number_open _ _ _ _ _ _ _ _ _ hs hne hds, hlx]
    rw [nt_re_ret _ ⟨ejson_value_number_suffix_integer_state, d, f, stk, l ++ [x], b2, rs⟩ _ _ _
      _ _ _ _ (suffix_step_L d f stk l b2 rs x (Or.inl hxd) (hlx ▸ hz))]
    · simp [hx85]
    · exact integer_to_suffix d f stk _ b2 rs 76 (Or.inr rfl)
  · intro q hq _
    obtain ⟨s, d, f, stk, b, b2, rs⟩ := q
    simp only at hq
    constructor
    · intro hnd
      simp only at hnd
      have h2 := suffix_step_U_err d f stk b b2 rs hnd
      rcases hq with rfl | rfl
      · rw [nt_re_ret _ _ _ _ _ _ _ _ (integer_to_suffix d f stk b b2 rs 85 (Or.inl rfl)) h2]
        exact ⟨rfl, rfl⟩
      · rw [nt_ret _ _ _ _ _ _ _ h2]
        exact ⟨rfl, rfl⟩
    · intro hnd hnu
      simp only at hnd hnu
      have h2 := suffix_step_L_err d f stk b b2 rs hnd hnu
      rcases hq with rfl | rfl
      · rw [nt_re_ret _ _ _ _ _ _ _ _ (integer_to_suffix d f stk b b2 rs 76 (Or.inr rfl)) h2]
        exact ⟨rfl, rfl⟩
      · rw [nt_ret _ _ _ _ _ _ _ h2]
        exact ⟨rfl, rfl⟩

/-- C7 at the input `123UL`. -/
theorem C7_integer_suffix_witness :
    pcejson_next_token ⟨ejson_before_value_state, 10, 1, [58, 123], [], [], ejson_init_state⟩
        ([] ++ [49, 50, 51] ++ 85 :: 76 :: [125])
      = ⟨some ⟨ejson_token_ulong_int, some ([] ++ [49, 50, 51] ++ [85, 76])⟩, none,
          ⟨ejson_after_value_state, 10, 1, [58, 123], [] ++ [49, 50, 51] ++ [85, 76], [],
            ejson_init_state⟩, [125]⟩ :=
  (C7_integer_suffix ⟨ejson_before_value_state, 10, 1, [58, 123], [], [], ejson_init_state⟩
    [] [49, 50, 51] [125] rfl (Or.inl rfl) (by decide) (by decide)).1

/-! ## C8: fractions with the `FL` suffix -/

theorem integer_to_fraction (d : Int) (f : Nat) (stk b b2 : List Nat) (rs : ejson_state) :
    step ⟨ejson_value_number_integer_state, d, f, stk, b, b2, rs⟩ 46
      = .advance ⟨ejson_value_number_fraction_state, d, f, stk, b ++ [46], b2, rs⟩ := by
  simp [step, value_number_integer_state, is_delimiter, is_whitespace, is_ascii_digit,
    ADVANCE_TO, pcejson_tmp_buff_append, utf8_bytes]

theorem fraction_step_digit (d : Int) (f : Nat) (stk b b2 : List Nat) (rs : ejson_state)
    (c : Nat) (h : is_ascii_digit c = true) (hb : pcejson_tmp_buff_end_with b [70] = false) :
    step ⟨ejson_value_number_fraction_state, d, f, stk, b, b2, rs⟩ c
        = .advance ⟨ejson_value_number_fraction_state, d, f, stk, b ++ utf8_bytes c, b2, rs⟩
      ∧ pcejson_tmp_buff_end_with (b ++ utf8_bytes c) [70] = false := by
  obtain ⟨h128, _, hd, _, h1, h2⟩ := digit_facts c h
  constructor
  · simp [step, value_number_fraction_state, hd, h, hb, ADVANCE_TO, pcejson_tmp_buff_append]
  · rw [utf8_bytes_ascii c h128, end_with_append b [c] [70] rfl]
    have : c ≠ 70 := by omega
    simp [this]

theorem fraction_scan (d : Int) (f : Nat) (stk b b2 : List Nat) (rs : ejson_state)
    (l rest : List Nat) (hl : ∀ c ∈ l, is_ascii_digit c = true)
    (hb : pcejson_tmp_buff_end_with b [70] = false) :
    pcejson_next_token ⟨ejson_value_number_fraction_state, d, f, stk, b, b2, rs⟩ (l ++ rest)
      = pcejson_next_token ⟨ejson_value_number_fraction_state, d, f, stk, b ++ l, b2, rs⟩
          rest := by
  have h := next_token_scan ejson_value_number_fraction_state (fun c => is_ascii_digit c = true)
    (fun b => pcejson_tmp_buff_end_with b [70] = false)
    (fun d f stk b b2 rs c hc hq => fraction_step_digit d f stk b b2 rs c hc hq)
    d f stk b2 rs rest l b hl hb
  rw [h, utf8_text_ascii l (fun c hc => (digit_facts c (hl c hc)).1)]

theorem fraction_step_F (d : Int) (f : Nat) (stk b b2 : List Nat) (rs : ejson_state) :
    step ⟨ejson_value_number_fraction_state, d, f, stk, b, b2, rs⟩ 70
      = .advance ⟨ejson_value_number_fraction_state, d, f, stk, b ++ [70], b2, rs⟩ := by
  simp [step, value_number_fraction_state, is_delimiter, is_whitespace, is_ascii_digit,
    ADVANCE_TO, pcejson_tmp_buff_append, utf8_bytes]

theorem fraction_step_L (d : Int) (f : Nat) (stk b b2 : List Nat) (rs : ejson_state)
    (hz : ∀ y ∈ b, y ≠ 0) :
    step ⟨ejson_value_number_fraction_state, d, f, stk, b ++ [70], b2, rs⟩ 76
      = .ret (some ⟨ejson_token_long_double, some (b ++ [70] ++ [76])⟩) none
          ⟨ejson_after_value_state, d, f, stk, b ++ [70] ++ [76], b2, rs⟩ false := by
  have hz2 := ne_zero_snoc _ 76 (ne_zero_snoc _ 70 hz (by decide)) (by decide)
  have e1 : pcejson_tmp_buff_end_with (b ++ [70]) [70] = true := by
    rw [end_with_append b [70] [70] rfl]; rfl
  have hd : pcejson_tmp_buff_dup (b ++ [70, 76]) = b ++ [70, 76] := by
    have e : b ++ [70, 76] = b ++ [70] ++ [76] := by simp
    rw [e]
    exact c_string_of_ne_zero _ hz2
  have h76 : utf8_bytes 76 = [76] := by decide
  have hnd : is_delimiter 76 = false := by decide
  have hdg : is_ascii_digit 76 = false := by decide
  simp [step, value_number_fraction_state, hnd, hdg, h76, pcejson_tmp_buff_append, e1, hd,
    RETURN_TOKEN, SWITCH_TO]

theorem fraction_step_L_err (d : Int) (f : Nat) (stk b b2 : List Nat) (rs : ejson_state)
    (hb : pcejson_tmp_buff_end_with b [70] = false) :
    step ⟨ejson_value_number_fraction_state, d, f, stk, b, b2, rs⟩ 76
      = .ret none (some PCEJSON_UNEXPECTED_JSON_NUMBER_FRACTION_PARSE_ERROR)
          ⟨ejson_value_number_fraction_state, d, f, stk, b, b2, rs⟩ false := by
  have hnd : is_delimiter 76 = false := by decide
  have hdg : is_ascii_digit 76 = false := by decide
  simp [step, value_number_fraction_state, hnd, hdg, hb, PARSE_ERROR]

/-- C8: an optional minus sign, a non-empty digit sequence, a dot and further digits
followed by `FL` give one long-double token whose text is the whole literal including
`FL`, and the tokenizer is then in the after-value state; in the fraction state an `L`
whose predecessor in the buffer is no `F` returns no token and records the
fraction-number parse error. -/
theorem C8_fraction_long_double (p : pcejson) (sign ip fp rest : List Nat)
    (hp : p.state = ejson_before_value_state) (hs : sign = [] ∨ sign = [45]) (hne : ip ≠ [])
    (hip : ∀ c ∈ ip, is_ascii_digit c = true) (hfp : ∀ c ∈ fp, is_ascii_digit c = true) :
    pcejson_next_token p (sign ++ ip ++ 46 :: fp ++ 70 :: 76 :: rest)
        = ⟨some ⟨ejson_token_long_double, some (sign ++ ip ++ 46 :: fp ++ [70, 76])⟩, none,
            { p with state := ejson_after_value_state,
                     tmp_buff := sign ++ ip ++ 46 :: fp ++ [70, 76] },
            rest⟩
    ∧ (∀ q : pcejson, q.state = ejson_value_number_fraction_state → q.tmp_buff ≠ [] →
        pcejson_tmp_buff_end_with q.tmp_buff [70] = false →
        pcejson_next_token q (76 :: rest)
          = ⟨none, some PCEJSON_UNEXPECTED_JSON_NUMBER_FRACTION_PARSE_ERROR, q, rest⟩) := by
  obtain ⟨s, d, f, stk, b, b2, rs⟩ := p
  simp only at hp
  subst hp
  constructor
  · have hz : ∀ y ∈ sign ++ ip ++ [46] ++ fp, y ≠ 0 := by
      intro y hy
      rw [List.mem_append, List.mem_append] at hy
      rcases hy with (hy | hy) | hy
      · exact number_text_ne_zero sign ip hs hip y hy
      · simp only [List.mem_singleton] at hy
        omega
      · exact (digit_facts y (hfp y hy)).2.1
    have e0 : sign ++ ip ++ 46 :: fp ++ 70 :: 76 :: rest
        = sign ++ ip ++ (46 :: (fp ++ (70 :: 76 :: rest))) := by simp
    have e1 : sign ++ ip ++ 46 :: fp ++ [70, 76] = sign ++ ip ++ [46] ++ fp ++ [70] ++ [76] := by
      simp
    have hdot : pcejson_tmp_buff_end_with (sign ++ ip ++ [46]) [70] = false := by
      rw [end_with_append (sign ++ ip) [46] [70] rfl]; rfl
    rw [e0, number_open _ _ _ _ _ _ _ _ _ hs hne hip, nt_adv _ _ _ _ (integer_to_fraction _ _ _ _ _ _),
      fraction_scan _ _ _ _ _ _ _ _ hfp hdot, nt_adv _ _ _ _ (fraction_step_F _ _ _ _ _ _),
      nt_ret _ _ _ _ _ _ _ (fraction_step_L _ _ _ _ _ _ hz), e1]
    simp
  · intro q hq _ hb
    obtain ⟨s, d, f, stk, b, b2, rs⟩ := q
    simp only at hq hb
    subst hq
    rw [nt_ret _ _ _ _ _ _ _ (fraction_step_L_err d f stk b b2 rs hb)]
    simp

/-- C8 at the input `1.5FL`. -/
theorem C8_fraction_long_double_witness :
    pcejson_next_token ⟨ejson_before_value_state, 10, 1, [58, 123], [], [], ejson_init_state⟩
        ([] ++ [49] ++ 46 :: [53] ++ 70 :: 76 :: [125])
      = ⟨some ⟨ejson_token_long_double, some ([] ++ [49] ++ 46 :: [53] ++ [70, 76])⟩, none,
          ⟨ejson_after_value_state, 10, 1, [58, 123], [] ++ [49] ++ 46 :: [53] ++ [70, 76], [],
            ejson_init_state⟩, [125]⟩ :=
  (C8_fraction_long_double
    ⟨ejson_before_value_state, 10, 1, [58, 123], [], [], ejson_init_state⟩
    [] [49] [53] [125] rfl (Or.inl rfl) (by decide) (by decide) (by decide)).1

/-! ## C1: object documents -/

theorem plain_number_split (v : List Nat) (h : plain_number v = true) :
    ∃ sign ds, v = sign ++ ds ∧ (sign = [] ∨ sign = [45]) ∧ ds ≠ []
      ∧ ∀ c ∈ ds, is_ascii_digit c = true := by
  unfold plain_number at h
  split at h
  · rename_i ds
    simp only [Bool.and_eq_true, Bool.not_eq_true', List.isEmpty_eq_false, List.all_eq_true]
      at h
    exact ⟨[45], ds, rfl, Or.inr rfl, by
      intro hnil; rw [hnil] at h; simp at h, h.2⟩
  · simp only [Bool.and_eq_true, Bool.not_eq_true', List.all_eq_true] at h
    refine ⟨[], v, rfl, Or.inl rfl, ?_, h.2⟩
    intro hnil
    rw [hnil] at h
    simp at h

/-- A plain number followed by a delimiter gives a NUMBER token and leaves the
delimiter in the stream. -/
theorem plain_number_token (d : Int) (f : Nat) (stk b b2 : List Nat) (rs : ejson_state)
    (v : List Nat) (c : Nat) (rest : List Nat) (hv : plain_number v = true)
    (hc : is_delimiter c = true) :
    pcejson_next_token ⟨ejson_before_value_state, d, f, stk, b, b2, rs⟩ (v ++ c :: rest)
      = ⟨some ⟨ejson_token_number, some v⟩, none,
          ⟨ejson_after_value_state, d, f, stk, v, b2, rs⟩, c :: rest⟩ := by
  obtain ⟨sign, ds, rfl, hs, hne, hds⟩ := plain_number_split v hv
  obtain ⟨l, x, hlx⟩ : ∃ l x, sign ++ ds = l ++ [x] := by
    rcases list_nil_or_snoc ds with h | ⟨l, x, rfl⟩
    · exact absurd h hne
    · exact ⟨sign ++ l, x, by simp⟩
  have hxd : is_ascii_digit x = true := by
    have := last_char_digits sign ds hne hds
    rwa [hlx, last_char_append] at this
  obtain ⟨_, _, _, _, x1, x2⟩ := digit_facts x hxd
  have hz := number_text_ne_zero sign ds hs hds
  have e1 : pcejson_tmp_buff_end_with (sign ++ ds) [45] = false := by
    rw [hlx, end_with_append l [x] [45] rfl]
    have : x ≠ 45 := by omega
    simp [this]
  have e2 : pcejson_tmp_buff_end_with (sign ++ ds) [69] = false := by
    rw [hlx, end_with_append l [x] [69] rfl]
    have : x ≠ 69 := by omega
    simp [this]
  have e3 : pcejson_tmp_buff_end_with (sign ++ ds) [101] = false := by
    rw [hlx, end_with_append l [x] [101] rfl]
    have : x ≠ 101 := by omega
    simp [this]
  rw [number_open _ _ _ _ _ _ _ _ _ hs hne hds,
    nt_re_ret _ ⟨ejson_after_value_number_state, d, f, stk, sign ++ ds, b2, rs⟩
      ⟨ejson_after_value_state, d, f, stk, sign ++ ds, b2, rs⟩ _ _
      (some ⟨ejson_token_number, some (sign ++ ds)⟩) none true]
  · simp
  · simp [step, value_number_integer_state, hc, RECONSUME_IN]
  · simp [step, after_value_number_state, hc, e1, e2, e3, RECONSUME_IN_NEXT,
      pcejson_tmp_buff_dup, c_string_of_ne_zero _ hz]

/-- A quoted, well-formed, non-empty name followed by a colon gives a KEY token whose
text is the source of the name; the colon marker is pushed on the open brace. -/
theorem quoted_key_token (d : Int) (f : Nat) (stk b b2 : List Nat) (rs : ejson_state)
    (q : Nat) (key : List string_item) (rest : List Nat) (hq : q = 34 ∨ q = 39)
    (hne : key ≠ []) (hv : ∀ i ∈ key, i.valid q = true) :
    ∃ b2n rsn,
      pcejson_next_token ⟨ejson_before_name_state, d, f, 123 :: stk, b, b2, rs⟩
          (q :: string_source key ++ q :: 58 :: rest)
        = ⟨some ⟨ejson_token_key, some (utf8_text (string_source key))⟩, none,
            ⟨ejson_before_value_state, d, f, 58 :: 123 :: stk, utf8_text (string_source key),
              b2n, rsn⟩, rest⟩ := by
  obtain ⟨hT, hz⟩ := string_source_facts q key hne hv
  have hlen : pcejson_tmp_buff_length (utf8_text (string_source key)) ≥ 1 := by
    unfold pcejson_tmp_buff_length
    exact List.length_pos.mpr hT
  have hemp : pcejson_tmp_buff_is_empty (utf8_text (string_source key)) = false := by
    unfold pcejson_tmp_buff_is_empty pcejson_tmp_buff_length at *
    simp only [beq_eq_false_iff_ne, ne_eq]
    omega
  rcases hq with rfl | rfl
  · obtain ⟨b2n, rsn, h⟩ := quoted_items ejson_name_double_quoted_state 34
      (Or.inr (Or.inl ⟨rfl, rfl⟩)) d f (58 :: 123 :: stk) (34 :: 58 :: rest) key [] b2 rs hv
    refine ⟨b2n, rsn, ?_⟩
    rw [List.cons_append,
      nt_re_adv _ ⟨ejson_name_double_quoted_state, d, f, 58 :: 123 :: stk, [], b2, rs⟩
        ⟨ejson_name_double_quoted_state, d, f, 58 :: 123 :: stk, [], b2, rs⟩,
      h, List.nil_append,
      nt_adv _ ⟨ejson_after_name_state, d, f, 58 :: 123 :: stk, utf8_text (string_source key),
        b2n, rsn⟩,
      nt_ret _ ⟨ejson_before_value_state, d, f, 58 :: 123 :: stk,
        utf8_text (string_source key), b2n, rsn⟩ _ _
        (some ⟨ejson_token_key, some (utf8_text (string_source key))⟩) none false]
    · simp
    · simp [step, after_name_state, hemp, RETURN_TOKEN, SWITCH_TO, pcejson_tmp_buff_dup,
        c_string_of_ne_zero _ hz]
    · simp [step, name_double_quoted_state, hlen, ADVANCE_TO]
    · simp [step, before_name_state, before_name_enter, is_whitespace, RECONSUME_IN,
        pcejson_tmp_buff_reset, pcutils_stack_top, pcutils_stack_push]
    · simp [step, name_double_quoted_state, pcejson_tmp_buff_length, ADVANCE_TO]
  · obtain ⟨b2n, rsn, h⟩ := quoted_items ejson_name_single_quoted_state 39
      (Or.inl ⟨rfl, rfl⟩) d f (58 :: 123 :: stk) (39 :: 58 :: rest) key [] b2 rs hv
    refine ⟨b2n, rsn, ?_⟩
    rw [List.cons_append,
      nt_re_adv _ ⟨ejson_name_single_quoted_state, d, f, 58 :: 123 :: stk, [], b2, rs⟩
        ⟨ejson_name_single_quoted_state, d, f, 58 :: 123 :: stk, [], b2, rs⟩,
      h, List.nil_append,
      nt_adv _ ⟨ejson_after_name_state, d, f, 58 :: 123 :: stk, utf8_text (string_source key),
        b2n, rsn⟩,
      nt_ret _ ⟨ejson_before_value_state, d, f, 58 :: 123 :: stk,
        utf8_text (string_source key), b2n, rsn⟩ _ _
        (some ⟨ejson_token_key, some (utf8_text (string_source key))⟩) none false]
    · simp
    · simp [step, after_name_state, hemp, RETURN_TOKEN, SWITCH_TO, pcejson_tmp_buff_dup,
        c_string_of_ne_zero _ hz]
    · simp [step, name_single_quoted_state, hlen, ADVANCE_TO]
    · simp [step, before_name_state, before_name_enter, is_whitespace, RECONSUME_IN,
        pcejson_tmp_buff_reset, pcutils_stack_top, pcutils_stack_push]
    · simp [step, name_single_quoted_state, pcejson_tmp_buff_length, ADVANCE_TO]

theorem comma_token (d : Int) (f : Nat) (stk b b2 : List Nat) (rs : ejson_state)
    (rest : List Nat) :
    pcejson_next_token ⟨ejson_after_value_state, d, f, 58 :: stk, b, b2, rs⟩ (44 :: rest)
      = ⟨some ⟨ejson_token_comma, none⟩, none,
          ⟨ejson_before_name_state, d, f, stk, b, b2, rs⟩, rest⟩ := by
  rw [nt_ret _ ⟨ejson_before_name_state, d, f, stk, b, b2, rs⟩ _ _
    (some ⟨ejson_token_comma, none⟩) none false]
  · simp
  · simp [step, after_value_state, is_whitespace, pcutils_stack_top, pcutils_stack_pop,
      RETURN_TOKEN, SWITCH_TO]

theorem end_object_token (d : Int) (f : Nat) (b b2 : List Nat) (rs : ejson_state)
    (rest : List Nat) :
    pcejson_next_token ⟨ejson_after_value_state, d, f, [58, 123], b, b2, rs⟩ (125 :: rest)
      = ⟨some ⟨ejson_token_end_object, none⟩, none,
          ⟨ejson_finished_state, d, f, [], b, b2, rs⟩, rest⟩ := by
  rw [nt_re_ret _ ⟨ejson_after_object_state, d, f, [123], b, b2, rs⟩
    ⟨ejson_finished_state, d, f, [], b, b2, rs⟩ _ _
    (some ⟨ejson_token_end_object, none⟩) none false]
  · simp
  · simp [step, after_value_state, is_whitespace, pcutils_stack_pop, RECONSUME_IN]
  · simp [step, after_object_state, pcutils_stack_top, pcutils_stack_pop,
      pcutils_stack_is_empty, RETURN_TOKEN, SWITCH_TO]

theorem empty_object_token (d : Int) (f : Nat) (b b2 : List Nat) (rs : ejson_state)
    (rest : List Nat) :
    pcejson_next_token ⟨ejson_before_name_state, d, f, [123], b, b2, rs⟩ (125 :: rest)
      = ⟨some ⟨ejson_token_end_object, none⟩, none,
          ⟨ejson_finished_state, d, f, [], b, b2, rs⟩, rest⟩ := by
  rw [nt_re_ret _ ⟨ejson_after_object_state, d, f, [123], b, b2, rs⟩
    ⟨ejson_finished_state, d, f, [], b, b2, rs⟩ _ _
    (some ⟨ejson_token_end_object, none⟩) none false]
  · simp
  · simp [step, before_name_state, is_whitespace, is_ascii_alpha, is_ascii_lower,
      to_ascii_lower_unchecked, RECONSUME_IN]
  · simp [step, after_object_state, pcutils_stack_top, pcutils_stack_pop,
      pcutils_stack_is_empty, RETURN_TOKEN, SWITCH_TO]

theorem start_object_token (rest : List Nat) :
    pcejson_next_token (pcejson_create 10 1) (123 :: rest)
      = ⟨some ⟨ejson_token_start_object, none⟩, none,
          ⟨ejson_before_name_state, 10, 1, [123], [], [], ejson_init_state⟩, rest⟩ := by
  rw [pcejson_create, nt_re_ret _ ⟨ejson_object_state, 10, 1, [], [], [], ejson_init_state⟩
    ⟨ejson_before_name_state, 10, 1, [123], [], [], ejson_init_state⟩ _ _
    (some ⟨ejson_token_start_object, none⟩) none false]
  · simp
  · simp [step, init_state, RECONSUME_IN]
  · simp [step, object_state, pcutils_stack_push, pcejson_tmp_buff_reset, RETURN_TOKEN,
      SWITCH_TO]

/-! ### The loop of `pcejson_parse` -/

theorem parse_loop_token (n : Nat) (p p1 : pcejson) (rws rws1 : List Nat) (b : tree_builder)
    (err : Option pcejson_error) (t : pcejson_token)
    (h : pcejson_next_token p rws = ⟨some t, none, p1, rws1⟩) :
    parse_loop (n + 1) p rws b err = parse_loop n p1 rws1 (parse_token b t) err := by
  simp [parse_loop, h]

theorem parse_loop_end (n : Nat) (p : pcejson) (b : tree_builder) :
    parse_loop (n + 1) p [] b none = some ⟨0, b, none, p, []⟩ := by
  simp [parse_loop, pcejson_next_token]

theorem parse_token_leaf (cs : List Nat) (leaves : List pcvcm_node) (t : pcejson_token)
    (ty : pcvcm_node_type)
    (h : (t.type = ejson_token_key ∧ ty = PCVCM_NODE_TYPE_KEY)
      ∨ (t.type = ejson_token_number ∧ ty = PCVCM_NODE_TYPE_NUMBER)) :
    parse_token ⟨⟨PCVCM_NODE_TYPE_OBJECT, none, cs⟩ :: leaves, 1, [1]⟩ t
      = ⟨⟨PCVCM_NODE_TYPE_OBJECT, none, cs ++ [leaves.length + 2]⟩
          :: (leaves ++ [⟨ty, t.buf, []⟩]), 1, [1]⟩ := by
  obtain ⟨tt, tb⟩ := t
  simp only at h
  rcases h with ⟨rfl, rfl⟩ | ⟨rfl, rfl⟩ <;>
  simp [parse_token, pcejson_token_to_pcvcm_node, pcvcm_node_new, pcutils_stack_top,
    pctree_node_append_child]

theorem parse_token_comma (b : tree_builder) :
    parse_token b ⟨ejson_token_comma, none⟩ = b := by
  simp [parse_token, pcejson_token_to_pcvcm_node]

theorem parse_token_end_object (nodes : List pcvcm_node) (r x : Nat) :
    parse_token ⟨nodes, r, [x]⟩ ⟨ejson_token_end_object, none⟩ = ⟨nodes, r, []⟩ := by
  simp [parse_token, pcejson_token_to_pcvcm_node, pcutils_stack_pop]

theorem parse_token_start_object :
    parse_token ⟨[], 0, []⟩ ⟨ejson_token_start_object, none⟩
      = ⟨[⟨PCVCM_NODE_TYPE_OBJECT, none, []⟩], 1, [1]⟩ := by
  simp [parse_token, pcejson_token_to_pcvcm_node, pcvcm_node_new, pcutils_stack_top,
    pcutils_stack_push]

theorem object_member_valid_iff (m : object_member) (h : m.valid = true) :
    (m.quote = 34 ∨ m.quote = 39) ∧ m.key ≠ [] ∧ (∀ i ∈ m.key, i.valid m.quote = true)
      ∧ plain_number m.value = true := by
  simp only [object_member.valid, Bool.and_eq_true, Bool.or_eq_true, beq_iff_eq,
    Bool.not_eq_true', List.isEmpty_eq_false, List.all_eq_true] at h
  exact ⟨h.1.1.1, h.1.1.2, h.1.2, h.2⟩

/-- The loop over the members of an object: from the before-name state inside the
open object, with `3 * n + 1` calls left for `n` members, every member appends its KEY
and its NUMBER to the children of the object node, and the closing brace ends the
parse in the finished state. -/
theorem parse_members (ms : List object_member) :
    ms ≠ [] → (∀ m ∈ ms, m.valid = true) →
    ∀ (k : Nat) (b b2 : List Nat) (rs : ejson_state) (cs : List Nat)
      (leaves : List pcvcm_node),
      ∃ pf, parse_loop (k + (3 * ms.length + 1))
          ⟨ejson_before_name_state, 10, 1, [123], b, b2, rs⟩ (members_text ms ++ [125])
          ⟨⟨PCVCM_NODE_TYPE_OBJECT, none, cs⟩ :: leaves, 1, [1]⟩ none
        = some ⟨0, ⟨⟨PCVCM_NODE_TYPE_OBJECT, none,
              cs ++ List.range' (leaves.length + 2) (2 * ms.length)⟩
              :: (leaves ++ members_nodes ms), 1, []⟩, none, pf, []⟩
        ∧ pf.state = ejson_finished_state := by
  induction ms with
  | nil => intro h; exact absurd rfl h
  | cons m ms ih =>
    intro _ hv k b b2 rs cs leaves
    obtain ⟨hq, hkne, hkv, hnum⟩ := object_member_valid_iff m (hv m (List.mem_cons_self _ _))
    have hfuel : k + (3 * (m :: ms).length + 1) = (k + (3 * ms.length + 1)) + 1 + 1 + 1 := by
      simp only [List.length_cons]; omega
    have hrange : List.range' (leaves.length + 2) (2 * (m :: ms).length)
        = [leaves.length + 2, leaves.length + 3]
          ++ List.range' (leaves.length + 4) (2 * ms.length) := by
      have e : 2 * (m :: ms).length = 2 * ms.length + 1 + 1 := by
        simp only [List.length_cons]; omega
      rw [e, List.range'_succ, List.range'_succ]
      rfl
    cases ms with
    | nil =>
      obtain ⟨b2n, rsn, hkey⟩ := quoted_key_token 10 1 [] b b2 rs m.quote m.key
        (m.value ++ [125]) hq hkne hkv
      have hnumt := plain_number_token 10 1 [58, 123] (utf8_text (string_source m.key)) b2n rsn
        m.value 125 [] hnum (by decide)
      refine ⟨⟨ejson_finished_state, 10, 1, [], m.value, b2n, rsn⟩, ?_, rfl⟩
      have etext : members_text [m] ++ [125]
          = m.quote :: string_source m.key ++ m.quote :: 58 :: (m.value ++ [125]) := by
        simp [members_text, object_member.text]
      rw [hfuel, etext, parse_loop_token _ _ _ _ _ _ _ _ hkey,
        parse_token_leaf cs leaves _ PCVCM_NODE_TYPE_KEY (Or.inl ⟨rfl, rfl⟩),
        parse_loop_token _ _ _ _ _ _ _ _ hnumt,
        parse_token_leaf _ _ _ PCVCM_NODE_TYPE_NUMBER (Or.inr ⟨rfl, rfl⟩),
        parse_loop_token _ _ _ _ _ _ _ _ (end_object_token 10 1 m.value b2n rsn []),
        parse_token_end_object]
      simp [parse_loop_end, members_nodes, member_nodes, List.range'_succ]
    | cons m2 ms2 =>
      obtain ⟨b2n, rsn, hkey⟩ := quoted_key_token 10 1 [] b b2 rs m.quote m.key
        (m.value ++ 44 :: (members_text (m2 :: ms2) ++ [125])) hq hkne hkv
      have hnumt := plain_number_token 10 1 [58, 123] (utf8_text (string_source m.key)) b2n rsn
        m.value 44 (members_text (m2 :: ms2) ++ [125]) hnum (by decide)
      obtain ⟨pf, hpf, hfin⟩ := ih (by simp) (fun x hx => hv x (List.mem_cons_of_mem _ hx)) k
        m.value b2n rsn (cs ++ [leaves.length + 2] ++ [leaves.length + 3])
        (leaves ++ [⟨PCVCM_NODE_TYPE_KEY, some (utf8_text (string_source m.key)), []⟩]
          ++ [⟨PCVCM_NODE_TYPE_NUMBER, some m.value, []⟩])
      refine ⟨pf, ?_, hfin⟩
      have etext : members_text (m :: m2 :: ms2) ++ [125]
          = m.quote :: string_source m.key ++ m.quote :: 58
              :: (m.value ++ 44 :: (members_text (m2 :: ms2) ++ [125])) := by
        simp [members_text, object_member.text]
      rw [hfuel, etext, parse_loop_token _ _ _ _ _ _ _ _ hkey,
        parse_token_leaf cs leaves _ PCVCM_NODE_TYPE_KEY (Or.inl ⟨rfl, rfl⟩),
        parse_loop_token _ _ _ _ _ _ _ _ hnumt,
        parse_token_leaf _ _ _ PCVCM_NODE_TYPE_NUMBER (Or.inr ⟨rfl, rfl⟩),
        parse_loop_token _ _ _ _ _ _ _ _ (comma_token 10 1 [123] m.value b2n rsn _),
        parse_token_comma]
      simp only [List.length_append, List.length_singleton] at hpf ⊢
      rw [hpf, hrange]
      simp [members_nodes, member_nodes, List.append_assoc]

theorem members_text_length (ms : List object_member) :
    3 * ms.length ≤ (members_text ms).length := by
  induction ms with
  | nil => simp
  | cons m ms ih =>
    cases ms with
    | nil => simp [members_text, object_member.text]; omega
    | cons m2 ms2 =>
      simp only [members_text, object_member.text, List.length_append, List.length_cons]
        at ih ⊢
      omega

theorem members_nodes_length (ms : List object_member) :
    (members_nodes ms).length = 2 * ms.length := by
  induction ms with
  | nil => rfl
  | cons m ms ih => simp [members_nodes, member_nodes, ih]; omega

theorem children_of_root (x : pcvcm_node) (L : List pcvcm_node) (n : Nat)
    (hx : x.children = List.range' 2 n) (hn : n = L.length) :
    children_of (x :: L) 1 = L.map some := by
  have h1 : node_at (x :: L) 1 = some x := by simp [node_at]
  simp only [children_of, h1, hx]
  apply List.ext_getElem?
  intro i
  rw [List.getElem?_map, List.getElem?_map]
  by_cases hi : i < n
  · have hi2 : i < L.length := by omega
    have e : 1 + i = i + 1 := by omega
    rw [List.getElem?_range' 2 1 hi, List.getElem?_eq_getElem hi2]
    simp [node_at, e, List.getElem?_eq_getElem hi2]
  · have hi2 : L.length ≤ i := by omega
    have hi3 : (List.range' 2 n).length ≤ i := by simp; omega
    rw [List.getElem?_eq_none hi2, List.getElem?_eq_none hi3]
    rfl

/-- C1: for every object document `{k1:v1,...,kn:vn}` without whitespace whose keys are
quoted, non-empty, well-formed names and whose values are plain numbers, `pcejson_parse`
returns 0 having read the whole stream with no error, and the tree it built has the
OBJECT node as root (pointer 1), an empty node stack, and exactly the nodes KEY k1,
NUMBER v1, ..., KEY kn, NUMBER vn behind the root, which are the children of the root
in this order; the commas contribute no node. -/
theorem C1_object_document (ms : List object_member) (hv : ∀ m ∈ ms, m.valid = true) :
    ∃ r, pcejson_parse 0 (object_text ms) = some r
      ∧ r.ret = 0 ∧ r.error = none ∧ r.rws = [] ∧ r.ejson.state = ejson_finished_state
      ∧ r.tree = ⟨⟨PCVCM_NODE_TYPE_OBJECT, none, List.range' 2 (2 * ms.length)⟩
          :: members_nodes ms, 1, []⟩
      ∧ children_of r.tree.nodes r.tree.vcm_tree = (members_nodes ms).map some := by
  have hch : children_of (⟨PCVCM_NODE_TYPE_OBJECT, none, List.range' 2 (2 * ms.length)⟩
      :: members_nodes ms) 1 = (members_nodes ms).map some :=
    children_of_root _ _ (2 * ms.length) rfl (members_nodes_length ms).symm
  have hlen := members_text_length ms
  obtain ⟨k, hk⟩ : ∃ k, 2 * (object_text ms).length + 2 = (k + (3 * ms.length + 1)) + 1 :=
    ⟨2 * (object_text ms).length + 2 - (3 * ms.length + 2), by
      simp only [object_text, List.length_cons, List.length_append, List.length_singleton]
      omega⟩
  unfold pcejson_parse
  rw [hk]
  have etext : object_text ms = 123 :: (members_text ms ++ [125]) := by simp [object_text]
  rw [etext, parse_loop_token _ _ _ _ _ _ _ _ (start_object_token _), parse_token_start_object]
  by_cases hne : ms = []
  · subst hne
    have e3 : k + (3 * ([] : List object_member).length + 1) = k + 1 := by simp
    rw [e3]
    cases k with
    | zero => simp [object_text, members_text] at hk
    | succ k =>
      have e4 : members_text [] ++ [125] = [125] := by simp [members_text]
      rw [e4, parse_loop_token _ _ _ _ _ _ _ _ (empty_object_token 10 1 [] [] _ []),
        parse_token_end_object, parse_loop_end]
      exact ⟨_, rfl, rfl, rfl, rfl, rfl, rfl, hch⟩
  · obtain ⟨pf, hpf, hfin⟩ := parse_members ms hne hv k [] [] ejson_init_state [] []
    rw [hpf]
    refine ⟨_, rfl, rfl, rfl, rfl, hfin, ?_, ?_⟩
    · simp
    · simpa using hch

/-- C1 at the document `{"a":1,"b":2}`. -/
theorem C1_object_document_witness :
    ∃ r, pcejson_parse 0
        (object_text [⟨34, [.ordinary 97], [49]⟩, ⟨34, [.ordinary 98], [50]⟩]) = some r
      ∧ r.ret = 0 ∧ r.error = none ∧ r.rws = [] ∧ r.ejson.state = ejson_finished_state
      ∧ r.tree = ⟨⟨PCVCM_NODE_TYPE_OBJECT, none,
            List.range' 2 (2 * [(⟨34, [.ordinary 97], [49]⟩ : object_member),
              ⟨34, [.ordinary 98], [50]⟩].length)⟩
          :: members_nodes [⟨34, [.ordinary 97], [49]⟩, ⟨34, [.ordinary 98], [50]⟩], 1, []⟩
      ∧ children_of r.tree.nodes r.tree.vcm_tree
          = (members_nodes [⟨34, [.ordinary 97], [49]⟩, ⟨34, [.ordinary 98], [50]⟩]).map some :=
  C1_object_document [⟨34, [.ordinary 97], [49]⟩, ⟨34, [.ordinary 98], [50]⟩] (by decide)

/-- The document of the witness is `{"a":1,"b":2}` and its tree is OBJECT with the four
children KEY a, NUMBER 1, KEY b, NUMBER 2. -/
theorem C1_example_tree :
    object_text [⟨34, [.ordinary 97], [49]⟩, ⟨34, [.ordinary 98], [50]⟩]
        = [123, 34, 97, 34, 58, 49, 44, 34, 98, 34, 58, 50, 125]
    ∧ (pcejson_parse 0 [123, 34, 97, 34, 58, 49, 44, 34, 98, 34, 58, 50, 125]).map
        (fun r => r.tree)
      = some ⟨[⟨PCVCM_NODE_TYPE_OBJECT, none, [2, 3, 4, 5]⟩,
          ⟨PCVCM_NODE_TYPE_KEY, some [97], []⟩, ⟨PCVCM_NODE_TYPE_NUMBER, some [49], []⟩,
          ⟨PCVCM_NODE_TYPE_KEY, some [98], []⟩, ⟨PCVCM_NODE_TYPE_NUMBER, some [50], []⟩],
          1, []⟩ := by
  decide

/-! ## C9: the text of numeric tokens -/

theorem dup_snoc (b : List Nat) (x : Nat) (hz : ∀ y ∈ b, y ≠ 0) (hx : x ≠ 0) :
    pcejson_tmp_buff_dup (b ++ [x]) = b ++ [x] :=
  c_string_of_ne_zero _ (ne_zero_snoc b x hz hx)

theorem step_integer_spec (d : Int) (f : Nat) (stk b b2 : List Nat) (rs : ejson_state)
    (c : Nat) :
    step_in_number ejson_value_number_integer_state b c (step ⟨ejson_value_number_integer_state, d, f, stk, b, b2, rs⟩ c) := by
  by_cases hd : is_delimiter c = true
  · simp [step, value_number_integer_state, hd, RECONSUME_IN, step_in_number]
  by_cases hg : is_ascii_digit c = true
  · obtain ⟨h128, h0, _, _, c1, c2⟩ := digit_facts c hg
    have hl : exponent_lower c = c := by unfold exponent_lower; rw [if_neg (by omega)]
    simp [step, value_number_integer_state, hd, hg, ADVANCE_TO, pcejson_tmp_buff_append,
      utf8_bytes_ascii c h128, step_in_number, number_state, hl, h0]
  by_cases he : c = 69 ∨ c = 101
  · have hl : exponent_lower c = 101 := by unfold exponent_lower; split_ifs <;> omega
    have h0 : c ≠ 0 := by omega
    simp [step, value_number_integer_state, hd, hg, he, ADVANCE_TO, pcejson_tmp_buff_append,
      step_in_number, number_state, hl, h0]
  by_cases hf : c = 46 ∨ c = 70
  · have h128 : c < 128 := by omega
    have hl : exponent_lower c = c := by unfold exponent_lower; rw [if_neg (by omega)]
    have h0 : c ≠ 0 := by omega
    simp [step, value_number_integer_state, hd, hg, he, hf, ADVANCE_TO,
      pcejson_tmp_buff_append, utf8_bytes_ascii c h128, step_in_number, number_state, hl, h0]
  by_cases hu : c = 85 ∨ c = 76
  · simp [step, value_number_integer_state, hd, hg, he, hf, hu, RECONSUME_IN, step_in_number]
  · simp [step, value_number_integer_state, hd, hg, he, hf, hu, PARSE_ERROR, step_in_number]

theorem step_fraction_spec (d : Int) (f : Nat) (stk b b2 : List Nat) (rs : ejson_state)
    (c : Nat) (hz : ∀ y ∈ b, y ≠ 0) :
    step_in_number ejson_value_number_fraction_state b c (step ⟨ejson_value_number_fraction_state, d, f, stk, b, b2, rs⟩ c) := by
  by_cases hd : is_delimiter c = true
  · simp [step, value_number_fraction_state, hd, RECONSUME_IN, step_in_number]
  by_cases hg : is_ascii_digit c = true
  · obtain ⟨h128, h0, _, _, c1, c2⟩ := digit_facts c hg
    have hl : exponent_lower c = c := by unfold exponent_lower; rw [if_neg (by omega)]
    by_cases hF : pcejson_tmp_buff_end_with b [70] = true
    · simp [step, value_number_fraction_state, hd, hg, hF, PARSE_ERROR, step_in_number]
    · simp [step, value_number_fraction_state, hd, hg, hF, ADVANCE_TO,
        pcejson_tmp_buff_append, utf8_bytes_ascii c h128, step_in_number, number_state, hl, h0]
  by_cases hf : c = 70
  · subst hf
    simp [step, value_number_fraction_state, is_delimiter, is_whitespace, is_ascii_digit,
      ADVANCE_TO, pcejson_tmp_buff_append, utf8_bytes, step_in_number, number_state,
      exponent_lower]
  by_cases hL : c = 76
  · subst hL
    by_cases hF : pcejson_tmp_buff_end_with b [70] = true
    · simp [step, value_number_fraction_state, is_delimiter, is_whitespace, is_ascii_digit,
        hF, RETURN_TOKEN, SWITCH_TO, pcejson_tmp_buff_append, utf8_bytes, step_in_number,
        number_token, exponent_lower, dup_snoc b 76 hz (by decide)]
    · simp [step, value_number_fraction_state, is_delimiter, is_whitespace, is_ascii_digit,
        hF, PARSE_ERROR, step_in_number]
  by_cases he : c = 69 ∨ c = 101
  · have hl : exponent_lower c = 101 := by unfold exponent_lower; split_ifs <;> omega
    have h0 : c ≠ 0 := by omega
    by_cases hdot : pcejson_tmp_buff_end_with b [46] = true
    · simp [step, value_number_fraction_state, hd, hg, hf, hL, he, hdot, PARSE_ERROR,
        step_in_number]
    · simp [step, value_number_fraction_state, hd, hg, hf, hL, he, hdot, ADVANCE_TO,
        pcejson_tmp_buff_append, step_in_number, number_state, hl, h0]
  · simp [step, value_number_fraction_state, hd, hg, hf, hL, he, PARSE_ERROR, step_in_number]

theorem step_exponent_spec (d : Int) (f : Nat) (stk b b2 : List Nat) (rs : ejson_state)
    (c : Nat) :
    step_in_number ejson_value_number_exponent_state b c (step ⟨ejson_value_number_exponent_state, d, f, stk, b, b2, rs⟩ c) := by
  by_cases hd : is_delimiter c = true
  · simp [step, value_number_exponent_state, hd, RECONSUME_IN, step_in_number]
  by_cases hg : is_ascii_digit c = true
  · simp [step, value_number_exponent_state, hd, hg, RECONSUME_IN, step_in_number]
  by_cases hs : c = 43 ∨ c = 45
  · have h128 : c < 128 := by omega
    have hl : exponent_lower c = c := by unfold exponent_lower; rw [if_neg (by omega)]
    have h0 : c ≠ 0 := by omega
    simp [step, value_number_exponent_state, hd, hg, hs, ADVANCE_TO, pcejson_tmp_buff_append,
      utf8_bytes_ascii c h128, step_in_number, number_state, hl, h0]
  · simp [step, value_number_exponent_state, hd, hg, hs, PARSE_ERROR, step_in_number]

theorem step_exponent_integer_spec (d : Int) (f : Nat) (stk b b2 : List Nat)
    (rs : ejson_state) (c : Nat) (hz : ∀ y ∈ b, y ≠ 0) :
    step_in_number ejson_value_number_exponent_integer_state b c
      (step ⟨ejson_value_number_exponent_integer_state, d, f, stk, b, b2, rs⟩ c) := by
  by_cases hd : is_delimiter c = true
  · simp [step, value_number_exponent_integer_state, hd, RECONSUME_IN, step_in_number]
  by_cases hg : is_ascii_digit c = true
  · obtain ⟨h128, h0, _, _, c1, c2⟩ := digit_facts c hg
    have hl : exponent_lower c = c := by unfold exponent_lower; rw [if_neg (by omega)]
    by_cases hF : pcejson_tmp_buff_end_with b [70] = true
    · simp [step, value_number_exponent_integer_state, hd, hg, hF, PARSE_ERROR,
        step_in_number]
    · simp [step, value_number_exponent_integer_state, hd, hg, hF, ADVANCE_TO,
        pcejson_tmp_buff_append, utf8_bytes_ascii c h128, step_in_number, number_state, hl, h0]
  by_cases hf : c = 70
  · subst hf
    simp [step, value_number_exponent_integer_state, is_delimiter, is_whitespace,
      is_ascii_digit, ADVANCE_TO, pcejson_tmp_buff_append, utf8_bytes, step_in_number,
      number_state, exponent_lower]
  by_cases hL : c = 76
  · subst hL
    by_cases hF : pcejson_tmp_buff_end_with b [70] = true
    · simp [step, value_number_exponent_integer_state, is_delimiter, is_whitespace,
        is_ascii_digit, hF, RETURN_TOKEN, SWITCH_TO, pcejson_tmp_buff_append, utf8_bytes,
        step_in_number, number_token, exponent_lower, dup_snoc b 76 hz (by decide)]
    · simp [step, value_number_exponent_integer_state, is_delimiter, is_whitespace,
        is_ascii_digit, hF, PARSE_ERROR, step_in_number]
  · simp [step, value_number_exponent_integer_state, hd, hg, hf, hL, PARSE_ERROR,
      step_in_number]

theorem step_suffix_spec (d : Int) (f : Nat) (stk b b2 : List Nat) (rs : ejson_state)
    (c : Nat) (hz : ∀ y ∈ b, y ≠ 0) :
    step_in_number ejson_value_number_suffix_integer_state b c
      (step ⟨ejson_value_number_suffix_integer_state, d, f, stk, b, b2, rs⟩ c) := by
  by_cases hd : is_delimiter c = true
  · simp [step, value_number_suffix_integer_state, hd, RECONSUME_IN, step_in_number]
  by_cases hU : c = 85
  · subst hU
    by_cases hg : is_ascii_digit (pcejson_tmp_buff_last_char b) = true
    · simp [step, value_number_suffix_integer_state, is_delimiter, is_whitespace, hg,
        ADVANCE_TO, pcejson_tmp_buff_append, utf8_bytes, step_in_number, number_state,
        exponent_lower]
    · simp [step, value_number_suffix_integer_state, is_delimiter, is_whitespace, hg,
        PARSE_ERROR, step_in_number]
  by_cases hL : c = 76
  · subst hL
    have hdup := dup_snoc b 76 hz (by decide)
    have h76 : utf8_bytes 76 = [76] := by decide
    have hnd : is_delimiter 76 = false := by decide
    by_cases hcond : is_ascii_digit (pcejson_tmp_buff_last_char b) = true
        ∨ pcejson_tmp_buff_last_char b = 85
    · by_cases e1 : pcejson_tmp_buff_end_with (b ++ [76]) [85, 76] = true
      · simp [step, value_number_suffix_integer_state, hnd, h76, pcejson_tmp_buff_append,
          hdup, hcond, e1, RETURN_TOKEN, SWITCH_TO, step_in_number, number_token,
          exponent_lower]
      · by_cases e2 : pcejson_tmp_buff_end_with (b ++ [76]) [76] = true
        · simp [step, value_number_suffix_integer_state, hnd, h76, pcejson_tmp_buff_append,
            hdup, hcond, e1, e2, RETURN_TOKEN, SWITCH_TO, step_in_number, number_token,
            exponent_lower]
        · simp [step, value_number_suffix_integer_state, hnd, h76, pcejson_tmp_buff_append,
            hcond, e1, e2, PARSE_ERROR, step_in_number]
    · simp [step, value_number_suffix_integer_state, hnd, hcond, PARSE_ERROR, step_in_number]
  · simp [step, value_number_suffix_integer_state, hd, hU, hL, PARSE_ERROR, step_in_number]

theorem step_number_spec (p : pcejson) (c : Nat) (hs : number_state p.state)
    (hz : ∀ y ∈ p.tmp_buff, y ≠ 0) : step_in_number p.state p.tmp_buff c (step p c) := by
  obtain ⟨s, d, f, stk, b, b2, rs⟩ := p
  simp only at hs hz
  rcases hs with rfl | rfl | rfl | rfl | rfl
  · exact step_integer_spec d f stk b b2 rs c
  · exact step_fraction_spec d f stk b b2 rs c hz
  · exact step_exponent_spec d f stk b b2 rs c
  · exact step_exponent_integer_spec d f stk b b2 rs c hz
  · exact step_suffix_spec d f stk b b2 rs c hz

theorem step_after_number_spec (d : Int) (f : Nat) (stk b b2 : List Nat) (rs : ejson_state)
    (c : Nat) (hz : ∀ y ∈ b, y ≠ 0) (hd : is_delimiter c = true) :
    char_in_number b c (step ⟨ejson_after_value_number_state, d, f, stk, b, b2, rs⟩ c) := by
  have hdup : pcejson_tmp_buff_dup b = b := c_string_of_ne_zero _ hz
  simp only [step, after_value_number_state, hd, hdup, RECONSUME_IN_NEXT, PARSE_ERROR]
  split_ifs <;> simp [char_in_number, number_token]

theorem dispatch_of_char_in_number (n : Nat) (p : pcejson) (b : List Nat) (c : Nat)
    (h : char_in_number b c (step p c)) : dispatch (n + 1) p c = step p c := by
  rw [dispatch_succ]
  cases hstep : step p c with
  | advance p1 => rfl
  | reconsume p1 => rw [hstep] at h; exact absurd h (by simp [char_in_number])
  | ret t e p1 u => rfl

theorem char_of_step_in_number (s : ejson_state) (b : List Nat) (c : Nat) (o : Outcome)
    (h : step_in_number s b c o) (hr : ∀ p1, o ≠ .reconsume p1) : char_in_number b c o := by
  cases o with
  | advance p1 => exact h
  | reconsume p1 => exact absurd rfl (hr p1)
  | ret t e p1 u =>
    cases t with
    | none => trivial
    | some tok => exact ⟨h.2.2, Or.inl ⟨h.1, h.2.1⟩⟩

/-- One character in a number state: reconsume jumps followed, the character is
buffered, or a numeric token is returned whose text is the buffer (the character, a
delimiter, handed back) or the buffer plus the character, or no token is returned. -/
theorem dispatch_number_spec (n : Nat) (p : pcejson) (c : Nat) (hs : number_state p.state)
    (hz : ∀ y ∈ p.tmp_buff, y ≠ 0) : char_in_number p.tmp_buff c (dispatch (n + 2) p c) := by
  have hA := step_number_spec p c hs hz
  rw [dispatch_succ]
  cases hstep : step p c with
  | advance p1 => rw [hstep] at hA; exact hA
  | ret t e p1 u =>
    rw [hstep] at hA
    exact char_of_step_in_number _ _ _ _ hA (by intro p2; simp)
  | reconsume p1 =>
    rw [hstep] at hA
    obtain ⟨hb, hcase⟩ := hA
    obtain ⟨s1, d1, f1, stk1, b1, b21, rs1⟩ := p1
    simp only at hb hcase
    subst hb
    simp only
    rcases hcase with ⟨rfl, hd⟩ | ⟨_, rfl, hc⟩ | ⟨_, rfl, hg⟩
    · have hB := step_after_number_spec d1 f1 stk1 p.tmp_buff b21 rs1 c hz hd
      rw [dispatch_of_char_in_number n _ _ _ hB]
      exact hB
    · have hS := step_suffix_spec d1 f1 stk1 p.tmp_buff b21 rs1 c hz
      have hnd : is_delimiter c = false := by rcases hc with rfl | rfl <;> decide
      have hC := char_of_step_in_number _ _ _ _ hS (by
        intro p2 h2
        rw [h2] at hS
        simp [step_in_number, hnd] at hS)
      rw [dispatch_of_char_in_number n _ _ _ hC]
      exact hC
    · have hS := step_exponent_integer_spec d1 f1 stk1 p.tmp_buff b21 rs1 c hz
      have hnd : is_delimiter c = false := (digit_facts c hg).2.2.1
      have hC := char_of_step_in_number _ _ _ _ hS (by
        intro p2 h2
        rw [h2] at hS
        simp [step_in_number, hnd] at hS)
      rw [dispatch_of_char_in_number n _ _ _ hC]
      exact hC

theorem exponent_lower_ne_zero (c : Nat) (h : c ≠ 0) : exponent_lower c ≠ 0 := by
  unfold exponent_lower
  split_ifs <;> omega

/-- A run of the tokenizer that starts in a number state and returns a token: the
token is numeric and its text is the buffer at the start followed by the characters
taken from the stream, the exponent marker in lower case. -/
theorem number_run (cs : List Nat) :
    ∀ (p : pcejson) (tok : pcejson_token), number_state p.state →
      (∀ y ∈ p.tmp_buff, y ≠ 0) → (pcejson_next_token p cs).token = some tok →
      ∃ lit, cs = lit ++ (pcejson_next_token p cs).rws
        ∧ tok.buf = some (p.tmp_buff ++ lit.map exponent_lower)
        ∧ number_token tok.type := by
  induction cs with
  | nil => intro p tok _ _ h; simp [pcejson_next_token] at h
  | cons c cs ih =>
    intro p tok hs hz htok
    have hD := dispatch_number_spec 32 p c hs hz
    have e34 : RECONSUME_LIMIT = 32 + 2 := rfl
    unfold pcejson_next_token at htok ⊢
    rw [e34] at htok ⊢
    cases hdis : dispatch (32 + 2) p c with
    | advance p1 =>
      rw [hdis] at hD htok
      obtain ⟨hs1, hb1, hc0⟩ := hD
      simp only at htok ⊢
      have hz1 : ∀ y ∈ p1.tmp_buff, y ≠ 0 := by
        rw [hb1]
        exact ne_zero_snoc _ _ hz (exponent_lower_ne_zero c hc0)
      obtain ⟨lit, h1, h2, h3⟩ := ih p1 tok hs1 hz1 htok
      refine ⟨c :: lit, ?_, ?_, h3⟩
      · rw [List.cons_append, ← h1]
      · rw [h2, hb1]; simp
    | reconsume p1 => rw [hdis] at hD; exact absurd hD (by simp [char_in_number])
    | ret t e p1 u =>
      rw [hdis] at hD htok
      simp only at htok ⊢
      subst htok
      obtain ⟨hty, ⟨hu, hb⟩ | ⟨hu, hb⟩⟩ := hD
      · subst hu
        exact ⟨[c], by simp, by simp [hb], hty⟩
      · subst hu
        exact ⟨[], by simp, by simp [hb], hty⟩

theorem before_value_skip (d : Int) (f : Nat) (stk b b2 : List Nat) (rs : ejson_state)
    (rest : List Nat) :
    ∀ ws : List Nat, (∀ w ∈ ws, is_whitespace w = true) →
      pcejson_next_token ⟨ejson_before_value_state, d, f, stk, b, b2, rs⟩ (ws ++ rest)
        = pcejson_next_token ⟨ejson_before_value_state, d, f, stk, b, b2, rs⟩ rest := by
  intro ws
  induction ws with
  | nil => intro _; rfl
  | cons w ws ih =>
    intro h
    have hw := h w (List.mem_cons_self _ _)
    rw [List.cons_append, nt_adv _ ⟨ejson_before_value_state, d, f, stk, b, b2, rs⟩ _ _
      (by simp [step, before_value_state, hw, ADVANCE_TO])]
    exact ih (fun x hx => h x (List.mem_cons_of_mem _ hx))

theorem map_exponent_lower_of_not_mem (lit : List Nat) (h : 69 ∉ lit) :
    lit.map exponent_lower = lit := by
  induction lit with
  | nil => rfl
  | cons x xs ih =>
    simp only [List.mem_cons, not_or] at h
    have hx : exponent_lower x = x := by
      unfold exponent_lower
      rw [if_neg (fun e => h.1 e.symm)]
    simp [hx, ih h.2]

/-- C9, amended: when a call at a value position meets, after optional whitespace, a
digit or a minus sign and returns a token, the token is numeric and its text is the
characters the call took from the stream (the literal), with an upper-case exponent
marker `E` written as lower-case `e` and every other character unchanged; for a literal
without an upper-case `E` the text is exactly the source characters. -/
theorem C9_numeric_token_text (p : pcejson) (ws : List Nat) (c : Nat) (cs : List Nat)
    (tok : pcejson_token) (hp : p.state = ejson_before_value_state)
    (hws : ∀ w ∈ ws, is_whitespace w = true) (hc : is_ascii_digit c = true ∨ c = 45)
    (htok : (pcejson_next_token p (ws ++ c :: cs)).token = some tok) :
    number_token tok.type
      ∧ ∃ lit, c :: cs = lit ++ (pcejson_next_token p (ws ++ c :: cs)).rws
          ∧ tok.buf = some (lit.map exponent_lower)
          ∧ (69 ∉ lit → tok.buf = some lit) := by
  obtain ⟨s, d, f, stk, b, b2, rs⟩ := p
  simp only at hp
  subst hp
  have hopen : pcejson_next_token ⟨ejson_before_value_state, d, f, stk, b, b2, rs⟩
      (ws ++ c :: cs)
      = pcejson_next_token ⟨ejson_value_number_integer_state, d, f, stk, [c], b2, rs⟩ cs := by
    rw [before_value_skip _ _ _ _ _ _ _ ws hws]
    rcases hc with hc | rfl
    · exact number_open_digit _ _ _ _ _ _ _ _ hc
    · exact number_open_minus _ _ _ _ _ _ _
  have hc0 : c ≠ 0 ∧ exponent_lower c = c := by
    rcases hc with hc | rfl
    · obtain ⟨_, h0, _, _, c1, c2⟩ := digit_facts c hc
      refine ⟨h0, ?_⟩
      unfold exponent_lower
      rw [if_neg (by omega)]
    · decide
  rw [hopen] at htok ⊢
  obtain ⟨lit, h1, h2, h3⟩ := number_run cs
    ⟨ejson_value_number_integer_state, d, f, stk, [c], b2, rs⟩ tok
    (Or.inl rfl) (by intro y hy; simp only [List.mem_singleton] at hy; omega) htok
  have h4 : tok.buf = some ((c :: lit).map exponent_lower) := by
    rw [h2]; simp [hc0.2]
  refine ⟨h3, c :: lit, by rw [List.cons_append, ← h1], h4, ?_⟩
  intro hE
  rw [h4, map_exponent_lower_of_not_mem _ hE]

/-- C9, amended, at the input `1E5,`: the NUMBER token carries `1e5`. -/
theorem C9_numeric_token_text_witness :
    number_token (⟨ejson_token_number, some [49, 101, 53]⟩ : pcejson_token).type
      ∧ ∃ lit, 49 :: [69, 53, 44] = lit
            ++ (pcejson_next_token
                ⟨ejson_before_value_state, 10, 1, [58, 123], [], [], ejson_init_state⟩
                ([] ++ 49 :: [69, 53, 44])).rws
          ∧ (⟨ejson_token_number, some [49, 101, 53]⟩ : pcejson_token).buf
              = some (lit.map exponent_lower)
          ∧ (69 ∉ lit → (⟨ejson_token_number, some [49, 101, 53]⟩ : pcejson_token).buf
              = some lit) :=
  C9_numeric_token_text ⟨ejson_before_value_state, 10, 1, [58, 123], [], [], ejson_init_state⟩
    [] 49 [69, 53, 44] ⟨ejson_token_number, some [49, 101, 53]⟩ rfl (by decide)
    (Or.inl (by decide)) (by decide)

/-- C9 as stated fails: at a value position the accepted literal `1E5` (followed by a
comma) gives a NUMBER token whose text is `1e5`, which differs from the source
characters `1E5`. -/
theorem C9_counterexample :
    pcejson_next_token ⟨ejson_before_value_state, 10, 1, [58, 123], [], [], ejson_init_state⟩
        [49, 69, 53, 44]
      = ⟨some ⟨ejson_token_number, some [49, 101, 53]⟩, none,
          ⟨ejson_after_value_state, 10, 1, [58, 123], [49, 101, 53], [], ejson_init_state⟩,
          [44]⟩
    ∧ ([49, 101, 53] : List Nat) ≠ [49, 69, 53] := by
  decide

/-! ## C2: a top-level array -/

/-- C2 fails on the code: for the document `[1,2,[3,4]]` the init state sends the
opening bracket to the object state, which rejects it; `pcejson_parse` returns 0 with
no node built, the root pointer still NULL and the unexpected-character error
recorded. The same array behind a key, `{"a":[1,2,[3,4]]}`, is parsed into nested
ARRAY nodes, because the before-value state sends the bracket to the array state. -/
theorem C2_top_level_array_rejected :
    step (pcejson_create 10 1) 91
        = .reconsume { pcejson_create 10 1 with state := ejson_object_state }
    ∧ step { pcejson_create 10 1 with state := ejson_object_state } 91
        = .ret none (some PCEJSON_UNEXPECTED_CHARACTER_PARSE_ERROR)
            { pcejson_create 10 1 with state := ejson_object_state } false
    ∧ (pcejson_parse 0 [91, 49, 44, 50, 44, 91, 51, 44, 52, 93, 93]).map
          (fun r => (r.ret, r.tree, r.error))
        = some (0, ⟨[], 0, []⟩, some PCEJSON_UNEXPECTED_CHARACTER_PARSE_ERROR)
    ∧ (pcejson_parse 0
          [123, 34, 97, 34, 58, 91, 49, 44, 50, 44, 91, 51, 44, 52, 93, 93, 125]).map
          (fun r => (r.ret, r.tree, r.error))
        = some (0, ⟨[⟨PCVCM_NODE_TYPE_OBJECT, none, [2, 3]⟩,
              ⟨PCVCM_NODE_TYPE_KEY, some [97], []⟩,
              ⟨PCVCM_NODE_TYPE_ARRAY, none, [4, 5, 6]⟩,
              ⟨PCVCM_NODE_TYPE_NUMBER, some [49], []⟩,
              ⟨PCVCM_NODE_TYPE_NUMBER, some [50], []⟩,
              ⟨PCVCM_NODE_TYPE_ARRAY, none, [7, 8]⟩,
              ⟨PCVCM_NODE_TYPE_NUMBER, some [51], []⟩,
              ⟨PCVCM_NODE_TYPE_NUMBER, some [52], []⟩], 1, []⟩, none) := by
  decide

/-! ## C3: two double quotes with no content -/

/-- C3 fails on the code: at a value position two double quotes followed by a
delimiter give no STRING token. The two-quotes state strips both quotes from the buffer
and looks at the delimiter again in the after-value state, which returns a STRING token
only for a quote character: behind a key, `""}` makes the call return the END_OBJECT
token and `"",` the COMMA token, and the tree of `{"a":""}` is OBJECT with the single
child KEY a. A non-empty string, `"x"}`, does give its STRING token. -/
theorem C3_empty_string_skipped :
    pcejson_next_token ⟨ejson_before_value_state, 10, 1, [58, 123], [], [], ejson_init_state⟩
        [34, 34, 125]
      = ⟨some ⟨ejson_token_end_object, none⟩, none,
          ⟨ejson_finished_state, 10, 1, [], [], [], ejson_init_state⟩, []⟩
    ∧ pcejson_next_token
        ⟨ejson_before_value_state, 10, 1, [58, 123], [], [], ejson_init_state⟩ [34, 34, 44]
      = ⟨some ⟨ejson_token_comma, none⟩, none,
          ⟨ejson_before_name_state, 10, 1, [123], [], [], ejson_init_state⟩, []⟩
    ∧ (pcejson_parse 0 [123, 34, 97, 34, 58, 34, 34, 125]).map
          (fun r => (r.ret, r.tree, r.error))
        = some (0, ⟨[⟨PCVCM_NODE_TYPE_OBJECT, none, [2]⟩,
              ⟨PCVCM_NODE_TYPE_KEY, some [97], []⟩], 1, []⟩, none)
    ∧ pcejson_next_token
        ⟨ejson_before_value_state, 10, 1, [58, 123], [], [], ejson_init_state⟩ [34, 120, 34, 125]
      = ⟨some ⟨ejson_token_string, some [120]⟩, none,
          ⟨ejson_after_value_state, 10, 1, [58, 123], [120], [], ejson_init_state⟩, [125]⟩ := by
  decide

/-! ## C10: rejected numeric literals -/

/-- C10 fails on the code for a plus sign: `1e+` followed by a delimiter is not
rejected, the call returns a NUMBER token with the text `1e+` and records no error,
because the after-number state tests the buffer for a trailing minus sign and a
trailing exponent marker only. The other cases of the claim are rejected with the
bad-number error: a trailing minus sign (`-,`), a bare exponent marker (`1e,` and
`1E,`), a minus sign alone behind the marker (`1e-,`), and a digit right behind `F`
(`1F2`, `1.5F2`, `1e5F2`). -/
theorem C10_exponent_plus_accepted :
    pcejson_next_token ⟨ejson_before_value_state, 10, 1, [58, 123], [], [], ejson_init_state⟩
        [49, 101, 43, 44]
      = ⟨some ⟨ejson_token_number, some [49, 101, 43]⟩, none,
          ⟨ejson_after_value_state, 10, 1, [58, 123], [49, 101, 43], [], ejson_init_state⟩,
          [44]⟩
    ∧ (∀ cs ∈ [[45, 44], [49, 101, 44], [49, 69, 44], [49, 101, 45, 44], [49, 70, 50],
          [49, 46, 53, 70, 50], [49, 101, 53, 70, 50]],
        (pcejson_next_token
            ⟨ejson_before_value_state, 10, 1, [58, 123], [], [], ejson_init_state⟩ cs).token
          = none
        ∧ (pcejson_next_token
            ⟨ejson_before_value_state, 10, 1, [58, 123], [], [], ejson_init_state⟩ cs).err
          = some PCEJSON_BAD_JSON_NUMBER_PARSE_ERROR) := by
  decide

/-! ## C11: keywords -/

theorem keyword_start_cases (b : List Nat) (h : keyword_start b = true) :
    b = [] ∨ b = [116] ∨ b = [116, 114] ∨ b = [116, 114, 117] ∨ b = [116, 114, 117, 101]
      ∨ b = [102] ∨ b = [102, 97] ∨ b = [102, 97, 108] ∨ b = [102, 97, 108, 115]
      ∨ b = [102, 97, 108, 115, 101]
      ∨ b = [110] ∨ b = [110, 117] ∨ b = [110, 117, 108] ∨ b = [110, 117, 108, 108] := by
  simp only [keyword_start, Bool.or_eq_true, List.isPrefixOf_iff_prefix, ← List.mem_inits] at h
  simp [List.inits] at h
  tauto

/-- The keyword state on one of the nine letters: the handler's guard decides. -/
theorem keyword_step_letter (d : Int) (f : Nat) (stk b b2 : List Nat) (rs : ejson_state)
    (c : Nat) (hb : keyword_start b = true)
    (hc : c ∈ [116, 102, 110, 114, 117, 101, 97, 108, 115]) :
    step ⟨ejson_keyword_state, d, f, stk, b, b2, rs⟩ c
      = if keyword_start (b ++ [c]) then
          .advance ⟨ejson_keyword_state, d, f, stk, b ++ [c], b2, rs⟩
        else .ret none (some PCEJSON_UNEXPECTED_JSON_KEYWORD_PARSE_ERROR)
            ⟨ejson_keyword_state, d, f, stk, b, b2, rs⟩ false := by
  simp only [List.mem_cons, List.mem_singleton, List.not_mem_nil, or_false] at hc
  rcases hc with h | h | h | h | h | h | h | h | h <;> subst h <;>
    simp only [step, keyword_state, keyword_accept, PARSE_ERROR, ADVANCE_TO,
      pcejson_tmp_buff_is_empty, pcejson_tmp_buff_equal, pcejson_tmp_buff_append] <;>
    rcases keyword_start_cases b hb with h | h | h | h | h | h | h | h | h | h | h | h | h | h <;>
    subst h <;> simp [keyword_start, utf8_bytes, c_string, is_delimiter, is_whitespace]

theorem keyword_start_last (b : List Nat) (c : Nat) (h : keyword_start (b ++ [c]) = true) :
    c ∈ [116, 102, 110, 114, 117, 101, 97, 108, 115] := by
  rcases keyword_start_cases _ h with h | h | h | h | h | h | h | h | h | h | h | h | h | h <;>
    have h1 := congrArg List.getLast? h <;> simp at h1 <;> simp [h1]

theorem keyword_step_other (d : Int) (f : Nat) (stk b b2 : List Nat) (rs : ejson_state)
    (c : Nat) (hd : is_delimiter c = false)
    (hc : c ∉ [116, 102, 110, 114, 117, 101, 97, 108, 115]) :
    step ⟨ejson_keyword_state, d, f, stk, b, b2, rs⟩ c
      = .ret none (some PCEJSON_UNEXPECTED_CHARACTER_PARSE_ERROR)
          ⟨ejson_keyword_state, d, f, stk, b, b2, rs⟩ false := by
  simp only [List.mem_cons, List.mem_singleton, List.not_mem_nil, or_false, not_or] at hc
  simp [step, keyword_state, hd, hc, PARSE_ERROR]

theorem keyword_step_delimiter (d : Int) (f : Nat) (stk b b2 : List Nat) (rs : ejson_state)
    (c : Nat) (hd : is_delimiter c = true) :
    step ⟨ejson_keyword_state, d, f, stk, b, b2, rs⟩ c
      = .reconsume ⟨ejson_after_keyword_state, d, f, stk, b, b2, rs⟩ := by
  simp [step, keyword_state, hd, RECONSUME_IN]

theorem after_keyword_step (d : Int) (f : Nat) (stk b b2 : List Nat) (rs : ejson_state)
    (c : Nat) (hb : keyword_start b = true) (hd : is_delimiter c = true) :
    step ⟨ejson_after_keyword_state, d, f, stk, b, b2, rs⟩ c
      = if b = [116, 114, 117, 101] ∨ b = [102, 97, 108, 115, 101] then
          .ret (some ⟨ejson_token_boolean, some b⟩) none
            ⟨ejson_after_value_state, d, f, stk, b, b2, rs⟩ true
        else if b = [110, 117, 108, 108] then
          .ret (some ⟨ejson_token_null, none⟩) none
            ⟨ejson_after_value_state, d, f, stk, b, b2, rs⟩ true
        else .ret none (some PCEJSON_UNEXPECTED_CHARACTER_PARSE_ERROR)
            ⟨ejson_after_keyword_state, d, f, stk, b, b2, rs⟩ false := by
  simp only [step, after_keyword_state, hd, PARSE_ERROR, RECONSUME_IN_NEXT,
    pcejson_tmp_buff_equal, pcejson_tmp_buff_dup]
  rcases keyword_start_cases b hb with h | h | h | h | h | h | h | h | h | h | h | h | h | h <;>
    subst h <;> simp [c_string]

theorem before_value_keyword_step (d : Int) (f : Nat) (stk b b2 : List Nat)
    (rs : ejson_state) (c : Nat) (hc : c = 116 ∨ c = 102 ∨ c = 110) :
    step ⟨ejson_before_value_state, d, f, stk, b, b2, rs⟩ c
      = .reconsume ⟨ejson_keyword_state, d, f, stk, [], b2, rs⟩ := by
  rcases hc with h | h | h <;> subst h <;>
    simp [step, before_value_state, before_value_enter, pcejson_tmp_buff_reset, RECONSUME_IN,
      is_whitespace]

/-- C11: in a value position `t`, `f` and `n` open the keyword state with the letter as
the whole buffer. In the keyword state, with a buffer that is an initial part of `true`,
`false` or `null`, a character that is no delimiter is consumed and appended exactly when
the buffer stays such an initial part; otherwise the call returns no token and records
the keyword error (for one of the nine keyword letters) or the unexpected-character
error, and the buffer is unchanged. At a delimiter, which stays unread, the call returns
a BOOLEAN token whose text is the buffer exactly when the buffer is `true` or `false`,
a NULL token without text exactly when it is `null`, and otherwise no token with the
unexpected-character error. -/
theorem C11_keyword_letters (d : Int) (f : Nat) (stk b b2 : List Nat) (rs : ejson_state)
    (c : Nat) (rest : List Nat) (hb : keyword_start b = true) :
    (∀ q : pcejson, q.state = ejson_before_value_state → (c = 116 ∨ c = 102 ∨ c = 110) →
      keyword_start [c] = true ∧
      pcejson_next_token q (c :: rest)
        = pcejson_next_token { q with state := ejson_keyword_state, tmp_buff := [c] } rest)
    ∧ (is_delimiter c = false → keyword_start (b ++ [c]) = true →
        pcejson_next_token ⟨ejson_keyword_state, d, f, stk, b, b2, rs⟩ (c :: rest)
          = pcejson_next_token ⟨ejson_keyword_state, d, f, stk, b ++ [c], b2, rs⟩ rest)
    ∧ (is_delimiter c = false → keyword_start (b ++ [c]) = false →
        ∃ e, (e = PCEJSON_UNEXPECTED_JSON_KEYWORD_PARSE_ERROR
              ∨ e = PCEJSON_UNEXPECTED_CHARACTER_PARSE_ERROR)
          ∧ (e = PCEJSON_UNEXPECTED_JSON_KEYWORD_PARSE_ERROR
              ↔ c ∈ [116, 102, 110, 114, 117, 101, 97, 108, 115])
          ∧ pcejson_next_token ⟨ejson_keyword_state, d, f, stk, b, b2, rs⟩ (c :: rest)
              = ⟨none, some e, ⟨ejson_keyword_state, d, f, stk, b, b2, rs⟩, rest⟩)
    ∧ (is_delimiter c = true →
        pcejson_next_token ⟨ejson_keyword_state, d, f, stk, b, b2, rs⟩ (c :: rest)
          = if b = [116, 114, 117, 101] ∨ b = [102, 97, 108, 115, 101] then
              ⟨some ⟨ejson_token_boolean, some b⟩, none,
                ⟨ejson_after_value_state, d, f, stk, b, b2, rs⟩, c :: rest⟩
            else if b = [110, 117, 108, 108] then
              ⟨some ⟨ejson_token_null, none⟩, none,
                ⟨ejson_after_value_state, d, f, stk, b, b2, rs⟩, c :: rest⟩
            else
              ⟨none, some PCEJSON_UNEXPECTED_CHARACTER_PARSE_ERROR,
                ⟨ejson_after_keyword_state, d, f, stk, b, b2, rs⟩, rest⟩) := by
  refine ⟨?_, ?_, ?_, ?_⟩
  · rintro ⟨s, d1, f1, stk1, b1, b21, rs1⟩ hq hc
    simp only at hq
    subst hq
    have hl : c ∈ [116, 102, 110, 114, 117, 101, 97, 108, 115] := by
      rcases hc with h | h | h <;> subst h <;> decide
    have hk : keyword_start [c] = true := by
      rcases hc with h | h | h <;> subst h <;> decide
    refine ⟨hk, ?_⟩
    have h2 := keyword_step_letter d1 f1 stk1 [] b21 rs1 c (by decide) hl
    rw [List.nil_append, hk, if_pos rfl] at h2
    exact nt_re_adv _ _ _ _ _ (before_value_keyword_step d1 f1 stk1 b1 b21 rs1 c hc) h2
  · intro _ hk
    have h2 := keyword_step_letter d f stk b b2 rs c hb (keyword_start_last b c hk)
    rw [hk, if_pos rfl] at h2
    exact nt_adv _ _ _ _ h2
  · intro hd hk
    by_cases hl : c ∈ [116, 102, 110, 114, 117, 101, 97, 108, 115]
    · have h2 := keyword_step_letter d f stk b b2 rs c hb hl
      rw [hk, if_neg (by simp)] at h2
      refine ⟨_, Or.inl rfl, ⟨fun _ => hl, fun _ => rfl⟩, ?_⟩
      rw [nt_ret _ _ _ _ _ _ _ h2]
      rfl
    · have h2 := keyword_step_other d f stk b b2 rs c hd hl
      refine ⟨_, Or.inr rfl, ⟨fun h => (by cases h), fun h => absurd h hl⟩, ?_⟩
      rw [nt_ret _ _ _ _ _ _ _ h2]
      rfl
  · intro hd
    have h1 := keyword_step_delimiter d f stk b b2 rs c hd
    have h2 := after_keyword_step d f stk b b2 rs c hb hd
    split_ifs with h3 h4
    · rw [if_pos h3] at h2
      rw [nt_re_ret _ _ _ _ _ _ _ _ h1 h2]
      rfl
    · rw [if_neg h3, if_pos h4] at h2
      rw [nt_re_ret _ _ _ _ _ _ _ _ h1 h2]
      rfl
    · rw [if_neg h3, if_neg h4] at h2
      rw [nt_re_ret _ _ _ _ _ _ _ _ h1 h2]
      rfl

/-- C11 at the buffer `tru`: the letter `e` is appended, the letter `x` is rejected. -/
theorem C11_keyword_letters_witness :
    pcejson_next_token ⟨ejson_keyword_state, 10, 1, [58, 123], [116, 114, 117], [],
        ejson_init_state⟩ (101 :: [125])
      = pcejson_next_token ⟨ejson_keyword_state, 10, 1, [58, 123], [116, 114, 117] ++ [101],
          [], ejson_init_state⟩ [125] :=
  (C11_keyword_letters 10 1 [58, 123] [116, 114, 117] [] ejson_init_state 101 [125]
    (by decide)).2.1 (by decide) (by decide)

/-- The keywords inside a document: `true` and `null` are accepted, `tru` and `nul1` are
not. -/
theorem C11_examples :
    ((pcejson_parse 0 (chars "\x7b\"a\":true,\"b\":null,\"c\":false\x7d")).map
        (fun r => (r.error, r.tree.nodes.map (fun n => (n.type, n.buf)))))
      = some (none,
          [(PCVCM_NODE_TYPE_OBJECT, none), (PCVCM_NODE_TYPE_KEY, some (chars "a")),
           (PCVCM_NODE_TYPE_BOOLEAN, some (chars "true")),
           (PCVCM_NODE_TYPE_KEY, some (chars "b")), (PCVCM_NODE_TYPE_NULL, none),
           (PCVCM_NODE_TYPE_KEY, some (chars "c")),
           (PCVCM_NODE_TYPE_BOOLEAN, some (chars "false"))])
    ∧ ((pcejson_parse 0 (chars "\x7b\"a\":tru\x7d")).bind (fun r => r.error))
        = some PCEJSON_UNEXPECTED_CHARACTER_PARSE_ERROR
    ∧ ((pcejson_parse 0 (chars "\x7b\"a\":trux\x7d")).bind (fun r => r.error))
        = some PCEJSON_UNEXPECTED_CHARACTER_PARSE_ERROR
    ∧ ((pcejson_parse 0 (chars "\x7b\"a\":tt\x7d")).bind (fun r => r.error))
        = some PCEJSON_UNEXPECTED_JSON_KEYWORD_PARSE_ERROR := by
  decide
/-! ## C12: the children of an OBJECT node -/

/-- C12 fails on the code: the document `{"a":""}` is accepted (the tokenizer ends in the
finished state with the container stack empty, the input used up and no error recorded),
and in its tree the OBJECT node has the single child KEY a, a KEY that no value follows,
because the two quotes produce no STRING token. The document `{"a":"x""}` is accepted as
well and gives KEY a, STRING x, STRING x: a value that no KEY precedes, because the
after-value state returns a STRING token for a further quote. A document without these
shapes, `{"a":1,"b":{"c":[2,"x"]}}`, does give alternating children. -/
theorem C12_key_without_value :
    (pcejson_parse 0 (chars "\x7b\"a\":\"\"\x7d")).map
        (fun r => (r.error, r.ejson.state, r.ejson.stack, r.rws))
      = some (none, ejson_finished_state, [], [])
    ∧ (pcejson_parse 0 (chars "\x7b\"a\":\"\"\x7d")).map
        (fun r => (r.tree.nodes, objects_alternate r.tree.nodes))
      = some ([⟨PCVCM_NODE_TYPE_OBJECT, none, [2]⟩,
          ⟨PCVCM_NODE_TYPE_KEY, some (chars "a"), []⟩], false)
    ∧ (pcejson_parse 0 (chars "\x7b\"a\":\"x\"\"\x7d")).map
        (fun r => (r.error, r.ejson.state, r.ejson.stack, r.rws))
      = some (none, ejson_finished_state, [], [])
    ∧ (pcejson_parse 0 (chars "\x7b\"a\":\"x\"\"\x7d")).map
        (fun r => (r.tree.nodes, objects_alternate r.tree.nodes))
      = some ([⟨PCVCM_NODE_TYPE_OBJECT, none, [2, 3, 4]⟩,
           ⟨PCVCM_NODE_TYPE_KEY, some (chars "a"), []⟩,
           ⟨PCVCM_NODE_TYPE_STRING, some (chars "x"), []⟩,
           ⟨PCVCM_NODE_TYPE_STRING, some (chars "x"), []⟩], false)
    ∧ (pcejson_parse 0 (chars "\x7b\"a\":1,\"b\":\x7b\"c\":[2,\"x\"]\x7d\x7d")).map
        (fun r => (r.error, r.ejson.state, objects_alternate r.tree.nodes))
      = some (none, ejson_finished_state, true) :=
  ⟨by decide, by decide, by decide, by decide, by decide⟩
/-! ## C13: the result of `pcejson_parse` -/

theorem unread_advance (p : pcejson) : unread_to_after_value (.advance p) = true := rfl

theorem unread_reconsume (p : pcejson) : unread_to_after_value (.reconsume p) = true := rfl

theorem unread_ret_false (t : Option pcejson_token) (e : Option pcejson_error) (p : pcejson) :
    unread_to_after_value (.ret t e p false) = true := rfl

theorem unread_ret_true (t : Option pcejson_token) (e : Option pcejson_error) (p : pcejson) :
    unread_to_after_value (.ret t e p true) = (p.state == ejson_after_value_state) := rfl

theorem step_unread (p : pcejson) (c : Nat) : unread_to_after_value (step p c) = true := by
  obtain ⟨s, d, f, stk, b, b2, rs⟩ := p
  cases s <;>
    simp only [step, init_state, finished_state, object_state, after_object_state, array_state,
      after_array_state, before_name_enter, before_name_state, after_name_state,
      before_value_enter, before_value_state, after_value_state, name_unquoted_state,
      name_single_quoted_state, name_double_quoted_state, value_single_quoted_state,
      value_double_quoted_state, after_value_double_quoted_state,
      value_two_double_quoted_state, value_three_double_quoted_state, keyword_accept,
      keyword_state, after_keyword_state, byte_sequence_state, after_byte_sequence_state,
      hex_byte_sequence_state, binary_byte_sequence_state, base64_byte_sequence_state,
      value_number_state, after_value_number_state, value_number_integer_state,
      value_number_fraction_state, value_number_exponent_state,
      value_number_exponent_integer_state, value_number_suffix_integer_state,
      string_escape_state, string_escape_four_hexadecimal_digits_state,
      ADVANCE_TO, RETURN_TO, RECONSUME_IN, SWITCH_TO, RETURN_TOKEN, RECONSUME_IN_NEXT,
      PARSE_ERROR, EOF_IN_STRING, RETURN_NULL, apply_ite unread_to_after_value,
      unread_advance, unread_reconsume, unread_ret_false, unread_ret_true,
      beq_self_eq_true, ite_self]

theorem takes_advance (p : pcejson) : takes_character (.advance p) = true := rfl

theorem takes_reconsume (p : pcejson) :
    takes_character (.reconsume p) = closing_state p.state := rfl

theorem takes_ret_false (t : Option pcejson_token) (e : Option pcejson_error) (p : pcejson) :
    takes_character (.ret t e p false) = true := rfl

theorem step_closing (p : pcejson) (c : Nat) (h : closing_state p.state = true) :
    takes_character (step p c) = true := by
  obtain ⟨s, d, f, stk, b, b2, rs⟩ := p
  cases s <;> simp [closing_state] at h <;>
    simp only [step, after_object_state, after_array_state, after_value_state,
      ADVANCE_TO, RECONSUME_IN, SWITCH_TO, RETURN_TOKEN, PARSE_ERROR,
      apply_ite takes_character, takes_advance, takes_reconsume, takes_ret_false,
      closing_state, beq_self_eq_true, Bool.or_true, Bool.true_or, ite_self]

theorem dispatch_unread (n : Nat) (p : pcejson) (c : Nat) :
    unread_to_after_value (dispatch n p c) = true := by
  induction n generalizing p with
  | zero => rfl
  | succ n ih =>
    have h := step_unread p c
    rw [dispatch]
    cases hs : step p c with
    | advance p1 => rfl
    | reconsume p1 => exact ih p1
    | ret t e p1 u => rw [hs] at h; exact h

theorem dispatch_closing (n : Nat) (p : pcejson) (c : Nat)
    (hp : closing_state p.state = true) :
    ∀ t e p1, dispatch n p c ≠ .ret t e p1 true := by
  induction n generalizing p with
  | zero => intro t e p1 h; simp [dispatch] at h
  | succ n ih =>
    have h := step_closing p c hp
    intro t e p1
    rw [dispatch]
    cases hs : step p c with
    | advance p2 => simp
    | reconsume p2 =>
      rw [hs, takes_reconsume] at h
      exact ih p2 h t e p1
    | ret t2 e2 p2 u =>
      rw [hs] at h
      cases u with
      | false => simp
      | true => simp [takes_character] at h

/-- Every call of the tokenizer that returns a token lowers the measure. -/
theorem next_token_measure (rws : List Nat) (p : pcejson)
    (h : (pcejson_next_token p rws).token ≠ none) :
    parse_measure (pcejson_next_token p rws).ejson (pcejson_next_token p rws).rws
      < parse_measure p rws := by
  induction rws generalizing p with
  | nil => simp [pcejson_next_token] at h
  | cons c rws ih =>
    have hu := dispatch_unread RECONSUME_LIMIT p c
    have hc := dispatch_closing RECONSUME_LIMIT p c
    rw [pcejson_next_token] at h ⊢
    cases hd : dispatch RECONSUME_LIMIT p c with
    | advance p1 =>
      rw [hd] at h
      have := ih p1 h
      simp only [parse_measure, List.length_cons] at this ⊢
      split_ifs at this ⊢ <;> omega
    | reconsume p1 => rw [hd] at h; simp at h
    | ret t e p1 u =>
      cases u with
      | false =>
        simp only [parse_measure, List.length_cons, Bool.false_eq_true, if_false]
        split_ifs <;> omega
      | true =>
        rw [hd, unread_ret_true] at hu
        have hs1 : p1.state = ejson_after_value_state := by simpa using hu
        have hs : p.state ≠ ejson_after_value_state := by
          intro hp
          exact hc (by simp [closing_state, hp]) t e p1 hd
        simp [parse_measure, hs1, hs]

theorem parse_loop_total (calls : Nat) (p : pcejson) (rws : List Nat) (b : tree_builder)
    (error : Option pcejson_error) (h : parse_measure p rws < calls) :
    ∃ r, parse_loop calls p rws b error = some r ∧ r.ret = 0
      ∧ ∃ p1 rws1, (pcejson_next_token p1 rws1).token = none
          ∧ r.ejson = (pcejson_next_token p1 rws1).ejson
          ∧ r.rws = (pcejson_next_token p1 rws1).rws
          ∧ ((pcejson_next_token p1 rws1).err ≠ none
              → r.error = (pcejson_next_token p1 rws1).err) := by
  induction calls generalizing p rws b error with
  | zero => omega
  | succ n ih =>
    rw [parse_loop]
    cases ht : (pcejson_next_token p rws).token with
    | none =>
      refine ⟨_, rfl, rfl, p, rws, ht, rfl, rfl, ?_⟩
      intro he
      cases hx : (pcejson_next_token p rws).err with
      | none => exact absurd hx he
      | some e => simp
    | some token =>
      have hm := next_token_measure rws p (by rw [ht]; simp)
      exact ih _ _ _ _ (by omega)

theorem last_error_fold (α : Type) (f : α → Option pcejson_error) (l : List α) :
    ∀ e0 : Option pcejson_error,
      l.foldl (fun e c => if (f c).isSome then f c else e) e0
        = match (l.filterMap f).getLast? with
          | some e => some e
          | none => e0 := by
  induction l with
  | nil => intro e0; rfl
  | cons x l ih =>
    intro e0
    rw [List.foldl_cons, ih]
    cases hx : f x with
    | none => simp [List.filterMap_cons, hx]
    | some y =>
      simp only [List.filterMap_cons, hx, Option.isSome_some, if_true]
      cases hl : (l.filterMap f).getLast? with
      | none =>
        have : l.filterMap f = [] := by simpa using hl
        simp [this]
      | some e =>
        obtain ⟨z, t, hz⟩ : ∃ z t, l.filterMap f = z :: t := by
          cases hf : l.filterMap f with
          | nil => simp [hf] at hl
          | cons z t => exact ⟨z, t, rfl⟩
        rw [hz] at hl ⊢
        rw [List.getLast?_cons_cons, hl]

theorem reads_to_end_result (rws : List Nat) (p : pcejson) (h : reads_to_end p rws = true) :
    (pcejson_next_token p rws).token = none ∧ (pcejson_next_token p rws).err = none
      ∧ (pcejson_next_token p rws).rws = [] := by
  induction rws generalizing p with
  | nil => exact ⟨rfl, rfl, rfl⟩
  | cons c rws ih =>
    rw [reads_to_end] at h
    rw [pcejson_next_token]
    cases hd : dispatch RECONSUME_LIMIT p c with
    | advance p1 =>
      rw [hd] at h
      exact ih p1 h
    | reconsume p1 => rw [hd] at h; simp at h
    | ret t e p1 u => rw [hd] at h; simp at h

theorem parse_calls_chain (calls : Nat) (p : pcejson) (rws : List Nat) :
    List.Chain' next_call (parse_calls calls p rws)
      ∧ ∀ a ∈ (parse_calls calls p rws).head?, a = (p, rws) := by
  induction calls generalizing p rws with
  | zero => exact ⟨List.chain'_nil, by simp [parse_calls]⟩
  | succ n ih =>
    rw [parse_calls]
    refine ⟨?_, by simp⟩
    cases ht : (pcejson_next_token p rws).token with
    | none => exact List.chain'_singleton _
    | some t =>
      simp only []
      rw [List.chain'_cons']
      refine ⟨?_, (ih _ _).1⟩
      intro b hb
      rw [(ih _ _).2 b hb]
      rfl

theorem parse_loop_run (calls : Nat) (p : pcejson) (rws : List Nat) (b : tree_builder)
    (error : Option pcejson_error) (h : parse_measure p rws < calls) :
    ∃ cs p1 rws1, parse_calls calls p rws = cs ++ [(p1, rws1)]
      ∧ (∀ c ∈ cs, (pcejson_next_token c.1 c.2).token ≠ none)
      ∧ (pcejson_next_token p1 rws1).token = none
      ∧ parse_loop calls p rws b error
        = some ⟨0,
            (cs.filterMap (fun c => (pcejson_next_token c.1 c.2).token)).foldl parse_token b,
            (cs ++ [(p1, rws1)]).foldl
              (fun e c =>
                if (pcejson_next_token c.1 c.2).err.isSome then (pcejson_next_token c.1 c.2).err
                else e) error,
            (pcejson_next_token p1 rws1).ejson, (pcejson_next_token p1 rws1).rws⟩ := by
  induction calls generalizing p rws b error with
  | zero => omega
  | succ n ih =>
    rw [parse_loop, parse_calls]
    cases ht : (pcejson_next_token p rws).token with
    | none =>
      exact ⟨[], p, rws, rfl, by simp, ht, by simp⟩
    | some token =>
      have hm := next_token_measure rws p (by rw [ht]; simp)
      obtain ⟨cs, p1, rws1, h1, h2, h3, h4⟩ :=
        ih (pcejson_next_token p rws).ejson (pcejson_next_token p rws).rws
          (parse_token b token)
          (if (pcejson_next_token p rws).err.isSome then (pcejson_next_token p rws).err
           else error) (by omega)
      refine ⟨(p, rws) :: cs, p1, rws1, ?_, ?_, h3, ?_⟩
      · simp only [h1, List.cons_append]
      · intro c hc
        rcases List.mem_cons.1 hc with hc | hc
        · subst hc
          rw [ht]
          simp
        · exact h2 c hc
      · simp only [h4, List.filterMap_cons, ht, List.foldl_cons, List.cons_append]

/-- C13 as the code has it: for every value of `*vcm_tree` and every input
`pcejson_parse` returns, and returns 0; there is no other return value. It makes a run
of calls of `pcejson_next_token`: the first starts with the parser of `pcejson_create
(10, 1)` and the input, each further call starts where the call before it ended, every
call but the last returns a token and the last returns none. The tree behind
`*vcm_tree` is what the loop body builds from the tokens of the calls before the last,
in order; the tokenizer and the stream are left as the last call left them. The
recorded error is the error set last by a call of the run: the code of the last call
when it set one, and otherwise what the calls before it have left. A last call that
ends because the stream is used up sets no error code. -/
theorem C13_parse_returns_zero (vcm_tree : Nat) (rws : List Nat) :
    ∃ r cs p1 rws1, pcejson_parse vcm_tree rws = some r ∧ r.ret = 0
      ∧ (cs ++ [(p1, rws1)]).head? = some (pcejson_create 10 1, rws)
      ∧ List.Chain' next_call (cs ++ [(p1, rws1)])
      ∧ (∀ c ∈ cs, (pcejson_next_token c.1 c.2).token ≠ none)
      ∧ (pcejson_next_token p1 rws1).token = none
      ∧ r.tree
        = (cs.filterMap (fun c => (pcejson_next_token c.1 c.2).token)).foldl parse_token
            ⟨[], vcm_tree, []⟩
      ∧ r.ejson = (pcejson_next_token p1 rws1).ejson
      ∧ r.rws = (pcejson_next_token p1 rws1).rws
      ∧ r.error
        = ((cs ++ [(p1, rws1)]).filterMap
            (fun c => (pcejson_next_token c.1 c.2).err)).getLast?
      ∧ ((pcejson_next_token p1 rws1).err ≠ none →
          r.error = (pcejson_next_token p1 rws1).err)
      ∧ ((pcejson_next_token p1 rws1).err = none →
          r.error = (cs.filterMap (fun c => (pcejson_next_token c.1 c.2).err)).getLast?)
      ∧ (reads_to_end p1 rws1 = true →
          (pcejson_next_token p1 rws1).err = none ∧ (pcejson_next_token p1 rws1).rws = []) := by
  obtain ⟨cs, p1, rws1, h1, h2, h3, h4⟩ :=
    parse_loop_run (2 * rws.length + 2) (pcejson_create 10 1) rws ⟨[], vcm_tree, []⟩ none
      (by simp [parse_measure, pcejson_create])
  have hc := parse_calls_chain (2 * rws.length + 2) (pcejson_create 10 1) rws
  rw [h1] at hc
  have he := last_error_fold _ (fun c : pcejson × List Nat => (pcejson_next_token c.1 c.2).err)
    (cs ++ [(p1, rws1)]) none
  have hhead : (cs ++ [(p1, rws1)]).head? = some (pcejson_create 10 1, rws) := by
    cases hh : (cs ++ [(p1, rws1)]).head? with
    | none => simp at hh
    | some a => rw [hc.2 a (by simp [hh])]
  have herr : (cs ++ [(p1, rws1)]).foldl
      (fun e c =>
        if (pcejson_next_token c.1 c.2).err.isSome then (pcejson_next_token c.1 c.2).err
        else e) none
      = ((cs ++ [(p1, rws1)]).filterMap
          (fun c => (pcejson_next_token c.1 c.2).err)).getLast? := by
    rw [he]
    cases ((cs ++ [(p1, rws1)]).filterMap
      (fun c => (pcejson_next_token c.1 c.2).err)).getLast? <;> rfl
  refine ⟨_, cs, p1, rws1, h4, rfl, hhead, hc.1, h2, h3, rfl, rfl, rfl, herr, ?_, ?_, ?_⟩
  · intro hne
    simp only [herr]
    cases hx : (pcejson_next_token p1 rws1).err with
    | none => exact absurd hx hne
    | some e => simp [List.filterMap_append, hx]
  · intro hn
    simp only [herr]
    simp [List.filterMap_append, hn]
  · intro hr
    exact ⟨(reads_to_end_result rws1 p1 hr).2.1, (reads_to_end_result rws1 p1 hr).2.2⟩

/-- The claim of a failure result does not hold: the document `{"a":bx1G}` stops the
tokenizer with the unexpected-character error and the document `{"a":1` ends inside the
object; in both cases `pcejson_parse` returns 0 and leaves the partial tree OBJECT, KEY
a behind the root pointer, in the second case with no error recorded at all. -/
theorem C13_counterexample :
    (pcejson_parse 0 (chars "\x7b\"a\":bx1G\x7d")).map
        (fun r => (r.ret, r.error, r.tree.vcm_tree, r.tree.nodes))
      = some (0, some PCEJSON_UNEXPECTED_CHARACTER_PARSE_ERROR, 1,
          [⟨PCVCM_NODE_TYPE_OBJECT, none, [2]⟩, ⟨PCVCM_NODE_TYPE_KEY, some (chars "a"), []⟩])
    ∧ (pcejson_parse 0 (chars "\x7b\"a\":1")).map
        (fun r => (r.ret, r.error, r.tree.vcm_tree, r.tree.nodes))
      = some (0, none, 1,
          [⟨PCVCM_NODE_TYPE_OBJECT, none, [2]⟩, ⟨PCVCM_NODE_TYPE_KEY, some (chars "a"), []⟩])
    ∧ (pcejson_parse 0 (chars "\x7b\"a\":1")).map (fun r => r.ejson.state)
      = some ejson_value_number_integer_state :=
  ⟨by decide, by decide, by decide⟩
/-! ## C14: registering an observer twice -/

theorem find_var_observe_none (mgr : pcvarmgr) (name : List Nat) (type : var_event_type)
    (stack : Nat) (h : (⟨name, type, stack⟩ : var_observe) ∉ mgr.var_observers) :
    find_var_observe mgr name type stack = none := by
  have h1 : find_var_observe_idx mgr name type stack = none := by
    rw [find_var_observe_idx, List.findIdx?_eq_none_iff]
    intro x hx
    simp only [decide_eq_false_iff_not]
    rintro ⟨h1, h2, h3⟩
    apply h
    obtain ⟨n, t, s⟩ := x
    simp only at h1 h2 h3
    subst h1 h2 h3
    exact hx
  simp [find_var_observe, h1]

theorem find_var_observe_some (mgr : pcvarmgr) (name : List Nat) (type : var_event_type)
    (stack : Nat) (h : (⟨name, type, stack⟩ : var_observe) ∈ mgr.var_observers) :
    ∃ obs, find_var_observe mgr name type stack = some obs := by
  cases h1 : find_var_observe_idx mgr name type stack with
  | none =>
    rw [find_var_observe_idx, List.findIdx?_eq_none_iff] at h1
    have := h1 _ h
    simp at this
  | some i =>
    have h2 := h1
    rw [find_var_observe_idx, List.findIdx?_eq_some_iff_getElem] at h2
    obtain ⟨hi, -, -⟩ := h2
    exact ⟨mgr.var_observers[i], by simp [find_var_observe, h1, List.getElem?_eq_getElem hi]⟩

/-- C14: on a registry without duplicate entries, two calls of `pcvarmgr_add_observer`
with the same name and event label from the same stack (the allocations of the first
call succeeding) both return the manager's binding object; the second call changes
nothing, and afterwards the registry holds exactly one entry for the name, the event
kind of the label and the stack. The registry is the old one, with that entry added at
the end if it was not there. -/
theorem C14_add_observer_twice (error : purc_error) (mgr : pcvarmgr) (name event : List Nat)
    (stack : Nat) (malloc_ok push_ok : Bool) (hu : mgr.var_observers.Nodup) :
    (pcvarmgr_add_observer error mgr name event stack true true).ret = mgr.object
    ∧ (pcvarmgr_add_observer (pcvarmgr_add_observer error mgr name event stack true true).error
        (pcvarmgr_add_observer error mgr name event stack true true).mgr name event stack
        malloc_ok push_ok)
      = pcvarmgr_add_observer error mgr name event stack true true
    ∧ (pcvarmgr_add_observer error mgr name event stack true true).mgr.var_observers.count
        ⟨name, add_observer_event_type event, stack⟩ = 1
    ∧ (pcvarmgr_add_observer error mgr name event stack true true).mgr.var_observers.Nodup
    ∧ (pcvarmgr_add_observer error mgr name event stack true true).mgr.var_observers
        = if (⟨name, add_observer_event_type event, stack⟩ : var_observe) ∈ mgr.var_observers
          then mgr.var_observers
          else mgr.var_observers ++ [⟨name, add_observer_event_type event, stack⟩] := by
  by_cases hm : (⟨name, add_observer_event_type event, stack⟩ : var_observe) ∈ mgr.var_observers
  · obtain ⟨obs, ho⟩ := find_var_observe_some mgr name _ stack hm
    have h1 : pcvarmgr_add_observer error mgr name event stack true true
        = ⟨mgr.object, mgr, error⟩ := by
      simp [pcvarmgr_add_observer, ho]
    have h2 : pcvarmgr_add_observer error mgr name event stack malloc_ok push_ok
        = ⟨mgr.object, mgr, error⟩ := by
      simp [pcvarmgr_add_observer, ho]
    rw [h1]
    exact ⟨rfl, h2, List.count_eq_one_of_mem hu hm, hu, (if_pos hm).symm⟩
  · have hn := find_var_observe_none mgr name _ stack hm
    have h1 : pcvarmgr_add_observer error mgr name event stack true true
        = ⟨mgr.object,
            ⟨mgr.object, mgr.var_observers ++ [⟨name, add_observer_event_type event, stack⟩]⟩,
            error⟩ := by
      simp [pcvarmgr_add_observer, hn]
    have hm2 : (⟨name, add_observer_event_type event, stack⟩ : var_observe)
        ∈ mgr.var_observers ++ [⟨name, add_observer_event_type event, stack⟩] := by simp
    obtain ⟨obs, ho⟩ := find_var_observe_some
      ⟨mgr.object, mgr.var_observers ++ [⟨name, add_observer_event_type event, stack⟩]⟩
      name _ stack hm2
    have h2 : pcvarmgr_add_observer error
        ⟨mgr.object, mgr.var_observers ++ [⟨name, add_observer_event_type event, stack⟩]⟩
        name event stack malloc_ok push_ok
        = ⟨mgr.object,
            ⟨mgr.object, mgr.var_observers ++ [⟨name, add_observer_event_type event, stack⟩]⟩,
            error⟩ := by
      simp [pcvarmgr_add_observer, ho]
    have hnd : (mgr.var_observers
        ++ [(⟨name, add_observer_event_type event, stack⟩ : var_observe)]).Nodup := by
      rw [List.nodup_append]
      refine ⟨hu, List.nodup_singleton _, ?_⟩
      intro a ha hb
      rw [List.mem_singleton] at hb
      subst hb
      exact hm ha
    rw [h1]
    exact ⟨rfl, h2, List.count_eq_one_of_mem hnd hm2, hnd, (if_neg hm).symm⟩

/-- C14 on a new manager: the label `change:attached` for the name `x` from stack 7,
registered twice, is in the registry once. -/
theorem C14_add_observer_twice_witness :
    (pcvarmgr_add_observer purc_clr_error ⟨1, []⟩ (chars "x") EVENT_ATTACHED 7 true true).ret = 1
    ∧ (pcvarmgr_add_observer
        (pcvarmgr_add_observer purc_clr_error ⟨1, []⟩ (chars "x") EVENT_ATTACHED 7 true true).error
        (pcvarmgr_add_observer purc_clr_error ⟨1, []⟩ (chars "x") EVENT_ATTACHED 7 true true).mgr
        (chars "x") EVENT_ATTACHED 7 false false)
      = pcvarmgr_add_observer purc_clr_error ⟨1, []⟩ (chars "x") EVENT_ATTACHED 7 true true :=
  ⟨(C14_add_observer_twice purc_clr_error ⟨1, []⟩ (chars "x") EVENT_ATTACHED 7 false false
      List.nodup_nil).1,
   (C14_add_observer_twice purc_clr_error ⟨1, []⟩ (chars "x") EVENT_ATTACHED 7 false false
      List.nodup_nil).2.1⟩
/-! ## Bindings of an object -/

theorem members_get_remove_same (m : List (List Nat × Nat)) (k : List Nat) :
    members_get (members_remove m k) k = 0 := by
  induction m with
  | nil => simp [members_remove, members_get]
  | cons a rest ih =>
    obtain ⟨k1, v1⟩ := a
    by_cases h : k1 = k <;> simp [members_remove, members_get, h, ih]

theorem members_get_remove_other (m : List (List Nat × Nat)) (k k1 : List Nat)
    (h : k1 ≠ k) : members_get (members_remove m k) k1 = members_get m k1 := by
  induction m with
  | nil => simp [members_remove, members_get]
  | cons a rest ih =>
    obtain ⟨k2, v2⟩ := a
    by_cases h2 : k2 = k
    · subst h2
      simp [members_remove, members_get, Ne.symm h, ih]
    · by_cases h3 : k2 = k1
      · subst h3
        simp [members_remove, members_get, h2]
      · simp [members_remove, members_get, h2, h3, ih]

theorem variant_at_ne_zero (heap : List purc_variant) (v : Nat) (x : purc_variant)
    (h : variant_at heap v = some x) : v ≠ 0 := by
  intro h0
  simp [variant_at, h0] at h

theorem variant_at_set_self (heap : List purc_variant) (v : Nat) (x y : purc_variant)
    (h : variant_at heap v = some x) : variant_at (heap.set (v - 1) y) v = some y := by
  have h0 := variant_at_ne_zero heap v x h
  simp only [variant_at, h0, if_false] at h ⊢
  have hlt : v - 1 < heap.length := by
    by_contra hc
    rw [List.getElem?_eq_none (by omega)] at h
    cases h
  simp [List.getElem?_set, hlt]

theorem variant_at_set_other (heap : List purc_variant) (v w : Nat) (y : purc_variant)
    (hv : v ≠ 0) (hw : w ≠ v) : variant_at (heap.set (v - 1) y) w = variant_at heap w := by
  by_cases h0 : w = 0
  · simp [variant_at, h0]
  · simp only [variant_at, h0, if_false]
    rw [List.getElem?_set_ne (by omega)]

theorem object_set_other_cell (heap : List purc_variant) (obj : Nat) (k : List Nat)
    (v w : Nat) (hw : w ≠ obj) :
    variant_at (purc_variant_object_set heap obj k v).1 w = variant_at heap w := by
  cases ho : variant_at heap obj with
  | none => simp [purc_variant_object_set, ho]
  | some o =>
    by_cases ht : o.type = PURC_VARIANT_TYPE_OBJECT
    · simp [purc_variant_object_set, ho, ht,
        variant_at_set_other heap obj w _ (variant_at_ne_zero heap obj o ho) hw]
    · simp [purc_variant_object_set, ho, ht]

theorem object_get_congr (heap heap1 : List purc_variant) (obj : Nat) (k : List Nat)
    (h : variant_at heap1 obj = variant_at heap obj) :
    purc_variant_object_get_by_ckey heap1 obj k = purc_variant_object_get_by_ckey heap obj k := by
  simp [purc_variant_object_get_by_ckey, h]

/-! ## C15: binding a name -/

/-- The three cases of C15 evaluated: an unbound name gets the value, a name bound to a
number is bound anew, and a name bound to an array keeps the array. -/
theorem C15_examples :
    (pcvarmgr_add
        [⟨PURC_VARIANT_TYPE_OBJECT, [], [(chars "a", 2), (chars "n", 3)]⟩,
         ⟨PURC_VARIANT_TYPE_ARRAY, [], [([], 3)]⟩,
         ⟨PURC_VARIANT_TYPE_NUMBER, chars "1", []⟩,
         ⟨PURC_VARIANT_TYPE_ARRAY, [], [([], 3), ([], 3)]⟩]
        purc_clr_error ⟨1, []⟩ (some (chars "z")) 4 true).heap
      = [⟨PURC_VARIANT_TYPE_OBJECT, [], [(chars "a", 2), (chars "n", 3), (chars "z", 4)]⟩,
         ⟨PURC_VARIANT_TYPE_ARRAY, [], [([], 3)]⟩,
         ⟨PURC_VARIANT_TYPE_NUMBER, chars "1", []⟩,
         ⟨PURC_VARIANT_TYPE_ARRAY, [], [([], 3), ([], 3)]⟩]
    ∧ (pcvarmgr_add
        [⟨PURC_VARIANT_TYPE_OBJECT, [], [(chars "a", 2), (chars "n", 3)]⟩,
         ⟨PURC_VARIANT_TYPE_ARRAY, [], [([], 3)]⟩,
         ⟨PURC_VARIANT_TYPE_NUMBER, chars "1", []⟩,
         ⟨PURC_VARIANT_TYPE_ARRAY, [], [([], 3), ([], 3)]⟩]
        purc_clr_error ⟨1, []⟩ (some (chars "n")) 4 true).heap
      = [⟨PURC_VARIANT_TYPE_OBJECT, [], [(chars "a", 2), (chars "n", 4)]⟩,
         ⟨PURC_VARIANT_TYPE_ARRAY, [], [([], 3)]⟩,
         ⟨PURC_VARIANT_TYPE_NUMBER, chars "1", []⟩,
         ⟨PURC_VARIANT_TYPE_ARRAY, [], [([], 3), ([], 3)]⟩]
    ∧ (pcvarmgr_add
        [⟨PURC_VARIANT_TYPE_OBJECT, [], [(chars "a", 2), (chars "n", 3)]⟩,
         ⟨PURC_VARIANT_TYPE_ARRAY, [], [([], 3)]⟩,
         ⟨PURC_VARIANT_TYPE_NUMBER, chars "1", []⟩,
         ⟨PURC_VARIANT_TYPE_ARRAY, [], [([], 3), ([], 3)]⟩]
        purc_clr_error ⟨1, []⟩ (some (chars "a")) 4 true).heap
      = [⟨PURC_VARIANT_TYPE_OBJECT, [], [(chars "a", 2), (chars "n", 3)]⟩,
         ⟨PURC_VARIANT_TYPE_ARRAY, [], [([], 3), ([], 3)]⟩,
         ⟨PURC_VARIANT_TYPE_NUMBER, chars "1", []⟩,
         ⟨PURC_VARIANT_TYPE_ARRAY, [], [([], 3), ([], 3)]⟩] :=
  ⟨by decide, by decide, by decide⟩

theorem remove_silently (heap : List purc_variant) (error : purc_error) (obj : Nat)
    (k : List Nat) :
    (purc_variant_object_remove_by_static_ckey heap error obj k true).error = error
    ∧ purc_variant_object_get_by_ckey
        (purc_variant_object_remove_by_static_ckey heap error obj k true).heap obj k = 0
    ∧ (∀ k1, k1 ≠ k →
        purc_variant_object_get_by_ckey
            (purc_variant_object_remove_by_static_ckey heap error obj k true).heap obj k1
          = purc_variant_object_get_by_ckey heap obj k1)
    ∧ (∀ w, w ≠ obj →
        variant_at (purc_variant_object_remove_by_static_ckey heap error obj k true).heap w
          = variant_at heap w)
    ∧ (purc_variant_object_get_by_ckey heap obj k = 0 →
        (purc_variant_object_remove_by_static_ckey heap error obj k true).heap = heap)
    ∧ (purc_variant_is_object heap obj = true →
        (purc_variant_object_remove_by_static_ckey heap error obj k true).ret = true) := by
  cases ho : variant_at heap obj with
  | none =>
    simp [purc_variant_object_remove_by_static_ckey, purc_variant_object_get_by_ckey,
      purc_variant_is_object, ho]
  | some x =>
    have h0 := variant_at_ne_zero heap obj x ho
    by_cases ht : x.type = PURC_VARIANT_TYPE_OBJECT
    · by_cases hb : members_get x.members k = 0
      · simp [purc_variant_object_remove_by_static_ckey, purc_variant_object_get_by_ckey,
          purc_variant_is_object, ho, ht, hb]
      · have hs := fun y => variant_at_set_self heap obj x y ho
        refine ⟨?_, ?_, ?_, ?_, ?_, ?_⟩
        · simp [purc_variant_object_remove_by_static_ckey, ho, ht, hb]
        · simp [purc_variant_object_remove_by_static_ckey, purc_variant_object_get_by_ckey,
            ho, ht, hb, hs, members_get_remove_same]
        · intro k1 hk
          simp [purc_variant_object_remove_by_static_ckey, purc_variant_object_get_by_ckey,
            ho, ht, hb, hs, members_get_remove_other _ _ _ hk]
        · intro w hw
          simp [purc_variant_object_remove_by_static_ckey, ho, ht, hb,
            variant_at_set_other heap obj w _ h0 hw]
        · intro hg
          simp [purc_variant_object_get_by_ckey, ho, ht] at hg
          exact absurd hg hb
        · intro _
          simp [purc_variant_object_remove_by_static_ckey, ho, ht, hb]
    · simp [purc_variant_object_remove_by_static_ckey, purc_variant_object_get_by_ckey,
        purc_variant_is_object, ho, ht]

/-- C16: when `v` is the undefined value, `pcvarmgr_add (mgr, name, v)` leaves behind
exactly what `pcvarmgr_remove_ex (mgr, name, true)` leaves behind: the same return
value, the same variants and the same last error. With a name given, the name is unbound
afterwards, the bindings of the other names and all other variants are what they were,
the last error is the one from before the call, nothing at all changes when the name was
not bound, and the return value is true when the binding object is an object. With no
name the call returns false and changes nothing. -/
theorem C16_add_undefined_removes (heap : List purc_variant) (error : purc_error)
    (mgr : pcvarmgr) (name : Option (List Nat)) (variant : Nat) (make_string_ok : Bool)
    (hu : purc_variant_is_undefined heap variant = true) :
    pcvarmgr_add heap error mgr name variant make_string_ok
      = pcvarmgr_remove_ex heap error mgr name true
    ∧ (pcvarmgr_add heap error mgr name variant make_string_ok).error = error
    ∧ (∀ k, name = some k →
        (pcvarmgr_get (pcvarmgr_add heap error mgr name variant make_string_ok).heap
            (pcvarmgr_add heap error mgr name variant make_string_ok).error mgr k).value = 0
        ∧ (∀ k1, k1 ≠ k →
            purc_variant_object_get_by_ckey
                (pcvarmgr_add heap error mgr name variant make_string_ok).heap mgr.object k1
              = purc_variant_object_get_by_ckey heap mgr.object k1)
        ∧ (∀ w, w ≠ mgr.object →
            variant_at (pcvarmgr_add heap error mgr name variant make_string_ok).heap w
              = variant_at heap w)
        ∧ (purc_variant_object_get_by_ckey heap mgr.object k = 0 →
            (pcvarmgr_add heap error mgr name variant make_string_ok).heap = heap)
        ∧ (purc_variant_is_object heap mgr.object = true →
            (pcvarmgr_add heap error mgr name variant make_string_ok).ret = true))
    ∧ (name = none →
        pcvarmgr_add heap error mgr name variant make_string_ok = ⟨false, heap, error⟩) := by
  have h1 : pcvarmgr_add heap error mgr name variant make_string_ok
      = pcvarmgr_remove_ex heap error mgr name true := by
    simp [pcvarmgr_add, hu]
  rw [h1]
  cases name with
  | none => simp [pcvarmgr_remove_ex]
  | some k =>
    have h := remove_silently heap error mgr.object k
    refine ⟨rfl, h.1, ?_, by simp⟩
    intro k2 hk
    cases hk
    refine ⟨?_, h.2.2.1, h.2.2.2.1, h.2.2.2.2.1, h.2.2.2.2.2⟩
    simp only [pcvarmgr_remove_ex, pcvarmgr_get, h.2.1, ne_eq, not_true_eq_false, if_false]

/-- C16 on a manager whose object binds `a` and `n`: adding the undefined value under `a`
is the silent removal of `a`. -/
theorem C16_add_undefined_removes_witness :
    pcvarmgr_add
        [⟨PURC_VARIANT_TYPE_OBJECT, [], [(chars "a", 2), (chars "n", 3)]⟩,
         ⟨PURC_VARIANT_TYPE_ARRAY, [], [([], 3)]⟩,
         ⟨PURC_VARIANT_TYPE_NUMBER, chars "1", []⟩,
         ⟨PURC_VARIANT_TYPE_UNDEFINED, [], []⟩]
        purc_clr_error ⟨1, []⟩ (some (chars "a")) 4 true
      = pcvarmgr_remove_ex
        [⟨PURC_VARIANT_TYPE_OBJECT, [], [(chars "a", 2), (chars "n", 3)]⟩,
         ⟨PURC_VARIANT_TYPE_ARRAY, [], [([], 3)]⟩,
         ⟨PURC_VARIANT_TYPE_NUMBER, chars "1", []⟩,
         ⟨PURC_VARIANT_TYPE_UNDEFINED, [], []⟩]
        purc_clr_error ⟨1, []⟩ (some (chars "a")) true :=
  (C16_add_undefined_removes
    [⟨PURC_VARIANT_TYPE_OBJECT, [], [(chars "a", 2), (chars "n", 3)]⟩,
     ⟨PURC_VARIANT_TYPE_ARRAY, [], [([], 3)]⟩,
     ⟨PURC_VARIANT_TYPE_NUMBER, chars "1", []⟩,
     ⟨PURC_VARIANT_TYPE_UNDEFINED, [], []⟩]
    purc_clr_error ⟨1, []⟩ (some (chars "a")) 4 true (by decide)).1

/-- The removal evaluated: a bound name is dropped, a name that is not bound leaves
everything as it was and records no error, and a removal that is not silent records the
not-found error for it. -/
theorem C16_examples :
    pcvarmgr_add
        [⟨PURC_VARIANT_TYPE_OBJECT, [], [(chars "a", 2), (chars "n", 3)]⟩,
         ⟨PURC_VARIANT_TYPE_ARRAY, [], [([], 3)]⟩,
         ⟨PURC_VARIANT_TYPE_NUMBER, chars "1", []⟩,
         ⟨PURC_VARIANT_TYPE_UNDEFINED, [], []⟩]
        purc_clr_error ⟨1, []⟩ (some (chars "a")) 4 true
      = ⟨true,
        [⟨PURC_VARIANT_TYPE_OBJECT, [], [(chars "n", 3)]⟩,
         ⟨PURC_VARIANT_TYPE_ARRAY, [], [([], 3)]⟩,
         ⟨PURC_VARIANT_TYPE_NUMBER, chars "1", []⟩,
         ⟨PURC_VARIANT_TYPE_UNDEFINED, [], []⟩], purc_clr_error⟩
    ∧ pcvarmgr_add
        [⟨PURC_VARIANT_TYPE_OBJECT, [], [(chars "a", 2), (chars "n", 3)]⟩,
         ⟨PURC_VARIANT_TYPE_ARRAY, [], [([], 3)]⟩,
         ⟨PURC_VARIANT_TYPE_NUMBER, chars "1", []⟩,
         ⟨PURC_VARIANT_TYPE_UNDEFINED, [], []⟩]
        purc_clr_error ⟨1, []⟩ (some (chars "z")) 4 true
      = ⟨true,
        [⟨PURC_VARIANT_TYPE_OBJECT, [], [(chars "a", 2), (chars "n", 3)]⟩,
         ⟨PURC_VARIANT_TYPE_ARRAY, [], [([], 3)]⟩,
         ⟨PURC_VARIANT_TYPE_NUMBER, chars "1", []⟩,
         ⟨PURC_VARIANT_TYPE_UNDEFINED, [], []⟩], purc_clr_error⟩
    ∧ pcvarmgr_remove_ex
        [⟨PURC_VARIANT_TYPE_OBJECT, [], [(chars "a", 2), (chars "n", 3)]⟩,
         ⟨PURC_VARIANT_TYPE_ARRAY, [], [([], 3)]⟩,
         ⟨PURC_VARIANT_TYPE_NUMBER, chars "1", []⟩,
         ⟨PURC_VARIANT_TYPE_UNDEFINED, [], []⟩]
        purc_clr_error ⟨1, []⟩ (some (chars "z")) false
      = ⟨false,
        [⟨PURC_VARIANT_TYPE_OBJECT, [], [(chars "a", 2), (chars "n", 3)]⟩,
         ⟨PURC_VARIANT_TYPE_ARRAY, [], [([], 3)]⟩,
         ⟨PURC_VARIANT_TYPE_NUMBER, chars "1", []⟩,
         ⟨PURC_VARIANT_TYPE_UNDEFINED, [], []⟩],
        purc_set_error PCVARIANT_ERROR_NOT_FOUND⟩ :=
  ⟨by decide, by decide, by decide⟩
/-! ## C17 and C18: looking a name up -/

theorem temp_binding_ne_zero (heap : List purc_variant) (name : List Nat)
    (frames : List pcintr_stack_frame) (v : Nat)
    (h : frames.findSome? (temp_binding heap name) = some v) : v ≠ 0 := by
  obtain ⟨p, -, hp⟩ := List.exists_of_findSome?_eq_some h
  unfold temp_binding at hp
  split_ifs at hp with hc
  cases hp
  exact hc.2

theorem scope_binding_ne_zero (heap : List purc_variant) (name : List Nat)
    (elems : List pcvdom_element) (v : Nat)
    (h : elems.findSome? (scope_binding heap name) = some v) : v ≠ 0 := by
  obtain ⟨p, -, hp⟩ := List.exists_of_findSome?_eq_some h
  unfold scope_binding at hp
  split_ifs at hp with hc
  cases hp
  exact hc

theorem manager_binding_ne_zero (heap : List purc_variant) (name : List Nat)
    (mgr : Option pcvarmgr) (v : Nat) (h : manager_binding heap name mgr = some v) :
    v ≠ 0 := by
  unfold manager_binding at h
  cases mgr with
  | none => cases h
  | some m =>
    simp only at h
    split_ifs at h with hc
    cases h
    exact hc

theorem find_named_temp_var_spec (heap : List purc_variant) (error : purc_error)
    (frames : List pcintr_stack_frame) (name : List Nat) :
    _find_named_temp_var heap error frames name
      = match frames.findSome? (temp_binding heap name) with
        | some v => ⟨v, error⟩
        | none => ⟨0, purc_set_error PURC_ERROR_ENTITY_NOT_FOUND⟩ := by
  induction frames with
  | nil => rfl
  | cons p parent ih =>
    rw [_find_named_temp_var, List.findSome?_cons]
    by_cases h0 : p.exclamation_var = 0
    · have : temp_binding heap name p = none := by
        simp [temp_binding, h0, purc_variant_is_object, variant_at]
      simp only [h0, if_true, this, ih]
    · by_cases h1 : purc_variant_is_object heap p.exclamation_var = false
      · have : temp_binding heap name p = none := by simp [temp_binding, h1]
        simp only [h0, if_false, h1, if_true, this, ih]
      · by_cases h2 : purc_variant_object_get_by_ckey heap p.exclamation_var name = 0
        · have : temp_binding heap name p = none := by simp [temp_binding, h2]
          simp only [Bool.not_eq_false] at h1
          simp [h0, h1, h2, this, ih]
        · have : temp_binding heap name p
              = some (purc_variant_object_get_by_ckey heap p.exclamation_var name) := by
            simp only [Bool.not_eq_false] at h1
            simp [temp_binding, h1, h2]
          simp only [Bool.not_eq_false] at h1
          simp [h0, h1, h2, this]

theorem find_named_scope_var_in_vdom_spec (heap : List purc_variant) (error : purc_error)
    (elems : List pcvdom_element) (name : List Nat) :
    _find_named_scope_var_in_vdom heap error elems name
      = match elems.findSome? (scope_binding heap name) with
        | some v => ⟨v, error⟩
        | none => ⟨0, name_not_found name⟩ := by
  induction elems with
  | nil => rfl
  | cons e parent ih =>
    rw [_find_named_scope_var_in_vdom, List.findSome?_cons]
    by_cases h : pcintr_get_scope_variable heap e name = 0
    · have : scope_binding heap name e = none := by simp [scope_binding, h]
      simp only [h, ne_eq, not_true_eq_false, if_false, this, ih]
    · have : scope_binding heap name e = some (pcintr_get_scope_variable heap e name) := by
        simp [scope_binding, h]
      simp only [ne_eq, h, not_false_eq_true, if_true, this]

theorem find_named_scope_var_spec (heap : List purc_variant) (error : purc_error)
    (frames : List pcintr_stack_frame) (name : List Nat) :
    _find_named_scope_var heap error frames name
      = match (scope_chain frames).findSome? (scope_binding heap name) with
        | some v => ⟨v, error⟩
        | none => ⟨0, name_not_found name⟩ := by
  induction frames with
  | nil => rfl
  | cons f parent ih =>
    rw [_find_named_scope_var, scope_chain]
    by_cases hs : f.scope ≠ []
    · rw [if_pos hs, if_pos hs, find_named_scope_var_in_vdom_spec]
    · rw [if_neg hs, if_neg hs]
      cases hp : f.pos with
      | nil => rfl
      | cons e rest =>
        simp only [List.findSome?_cons]
        by_cases h : pcintr_get_scope_variable heap e name = 0
        · have : scope_binding heap name e = none := by simp [scope_binding, h]
          simp only [h, ne_eq, not_true_eq_false, if_false, this, ih]
        · have : scope_binding heap name e = some (pcintr_get_scope_variable heap e name) := by
            simp [scope_binding, h]
          simp only [ne_eq, h, not_false_eq_true, if_true, this]

theorem find_doc_buildin_var_spec (heap : List purc_variant) (error : purc_error)
    (vdom : Option pcvarmgr) (name : List Nat) :
    find_doc_buildin_var heap error vdom name
      = match manager_binding heap name vdom with
        | some v => ⟨v, error⟩
        | none => ⟨0, name_not_found name⟩ := by
  cases vdom with
  | none => rfl
  | some m =>
    by_cases h : purc_variant_object_get_by_ckey heap m.object name = 0 <;>
      simp [find_doc_buildin_var, manager_binding, pcvdom_document_get_variable, h]

theorem find_inst_var_spec (heap : List purc_variant) (error : purc_error)
    (varmgr : Option pcvarmgr) (name : List Nat) :
    (find_inst_var heap error varmgr name).value
      = (manager_binding heap name varmgr).getD 0 := by
  cases varmgr with
  | none => rfl
  | some m =>
    by_cases h : purc_variant_object_get_by_ckey heap m.object name = 0 <;>
      simp [find_inst_var, manager_binding, pcvarmgr_get, h]

/-- The result of `pcintr_find_named_var` in terms of the four levels. -/
theorem find_named_var_spec (heap : List purc_variant) (error : purc_error)
    (varmgr : Option pcvarmgr) (stack : pcintr_stack) (name : List Nat) :
    pcintr_find_named_var heap error varmgr stack name
      = match (binding_levels heap varmgr stack name).findSome? id with
        | some v => ⟨v, purc_clr_error⟩
        | none => ⟨0, name_not_found name⟩ := by
  unfold pcintr_find_named_var binding_levels
  simp only [find_named_temp_var_spec, find_named_scope_var_spec, find_doc_buildin_var_spec,
    find_inst_var_spec, List.findSome?_cons, List.findSome?_nil, id]
  cases h1 : stack.bottom_frame.findSome? (temp_binding heap name) with
  | some v => simp [temp_binding_ne_zero heap name _ v h1]
  | none =>
    cases h2 : (scope_chain stack.bottom_frame).findSome? (scope_binding heap name) with
    | some v => simp [scope_binding_ne_zero heap name _ v h2]
    | none =>
      cases h3 : manager_binding heap name stack.vdom with
      | some v => simp [manager_binding_ne_zero heap name _ v h3]
      | none =>
        cases h4 : manager_binding heap name varmgr with
        | some v => simp [manager_binding_ne_zero heap name _ v h4]
        | none => simp

/-- C17: `pcintr_find_named_var` returns the value of the first of the four levels that
binds the name, in the order temporary objects (bottom frame first, then its ancestor
frames), scope variables along the scope chain, document variables, instance variables;
on such a hit the value is valid and the last error is cleared. In particular a name
bound in a temporary object gives that value whatever the other levels bind. -/
theorem C17_find_named_var_order (heap : List purc_variant) (error : purc_error)
    (varmgr : Option pcvarmgr) (stack : pcintr_stack) (name : List Nat) :
    (pcintr_find_named_var heap error varmgr stack name).value
      = ((binding_levels heap varmgr stack name).findSome? id).getD 0
    ∧ (∀ v, (binding_levels heap varmgr stack name).findSome? id = some v →
        v ≠ 0 ∧ pcintr_find_named_var heap error varmgr stack name = ⟨v, purc_clr_error⟩)
    ∧ (∀ v, stack.bottom_frame.findSome? (temp_binding heap name) = some v →
        pcintr_find_named_var heap error varmgr stack name = ⟨v, purc_clr_error⟩) := by
  rw [find_named_var_spec]
  refine ⟨?_, ?_, ?_⟩
  · cases (binding_levels heap varmgr stack name).findSome? id <;> rfl
  · intro v hv
    rw [hv]
    refine ⟨?_, rfl⟩
    simp only [binding_levels, List.findSome?_cons, List.findSome?_nil, id] at hv
    cases h1 : stack.bottom_frame.findSome? (temp_binding heap name) with
    | some x =>
      rw [h1] at hv
      cases hv
      exact temp_binding_ne_zero heap name _ v h1
    | none =>
      rw [h1] at hv
      cases h2 : (scope_chain stack.bottom_frame).findSome? (scope_binding heap name) with
      | some x =>
        rw [h2] at hv
        cases hv
        exact scope_binding_ne_zero heap name _ v h2
      | none =>
        rw [h2] at hv
        cases h3 : manager_binding heap name stack.vdom with
        | some x =>
          rw [h3] at hv
          cases hv
          exact manager_binding_ne_zero heap name _ v h3
        | none =>
          rw [h3] at hv
          cases h4 : manager_binding heap name varmgr with
          | some x =>
            rw [h4] at hv
            cases hv
            exact manager_binding_ne_zero heap name _ v h4
          | none =>
            rw [h4] at hv
            cases hv
  · intro v hv
    simp [binding_levels, hv]

/-- C17 on a stack whose bottom frame has a temporary object binding `x` to the value 5
and stands on an element whose scope variables bind `x` to the value 6: the value 5 is
returned and the error is cleared. -/
theorem C17_find_named_var_order_witness :
    pcintr_find_named_var
        [⟨PURC_VARIANT_TYPE_OBJECT, [], [(chars "x", 5)]⟩,
         ⟨PURC_VARIANT_TYPE_OBJECT, [], [(chars "x", 6)]⟩]
        (purc_set_error PURC_ERROR_BAD_NAME) none
        ⟨[⟨[], [⟨PCVDOM_NODE_ELEMENT, some ⟨2, []⟩, none⟩], false, 1⟩], none⟩ (chars "x")
      = ⟨5, purc_clr_error⟩ :=
  (C17_find_named_var_order
    [⟨PURC_VARIANT_TYPE_OBJECT, [], [(chars "x", 5)]⟩,
     ⟨PURC_VARIANT_TYPE_OBJECT, [], [(chars "x", 6)]⟩]
    (purc_set_error PURC_ERROR_BAD_NAME) none
    ⟨[⟨[], [⟨PCVDOM_NODE_ELEMENT, some ⟨2, []⟩, none⟩], false, 1⟩], none⟩ (chars "x")).2.2 5
    (by decide)

/-- The order of the levels evaluated on one stack: the temporary object of the parent
frame binds `t`, the element of the bottom frame binds `s` and `t`, the document binds
`d` and `s`, the instance binds `i` and `d`. -/
theorem C17_examples :
    ∀ q ∈ [(chars "t", 10), (chars "s", 11), (chars "d", 12), (chars "i", 13)],
      pcintr_find_named_var
        [⟨PURC_VARIANT_TYPE_OBJECT, [], [(chars "t", 10)]⟩,
         ⟨PURC_VARIANT_TYPE_OBJECT, [], [(chars "s", 11), (chars "t", 21)]⟩,
         ⟨PURC_VARIANT_TYPE_OBJECT, [], [(chars "d", 12), (chars "s", 22)]⟩,
         ⟨PURC_VARIANT_TYPE_OBJECT, [], [(chars "i", 13), (chars "d", 23)]⟩]
        (purc_set_error PURC_ERROR_BAD_NAME) (some ⟨4, []⟩)
        ⟨[⟨[], [⟨PCVDOM_NODE_ELEMENT, some ⟨2, []⟩, none⟩], false, 0⟩,
          ⟨[], [], false, 1⟩], some ⟨3, []⟩⟩ q.1
      = ⟨q.2, purc_clr_error⟩ := by
  decide
/-- C18: when no frame's temporary object binds the name, no element on the scope chain
binds it, and neither the document variables nor the instance variables bind it,
`pcintr_find_named_var` returns the invalid value and the last error is the not-found
error whose text is `name:` followed by the requested name; the entity-not-found error
that the search of the temporary objects had recorded is not what remains. -/
theorem C18_find_named_var_miss (heap : List purc_variant) (error : purc_error)
    (varmgr : Option pcvarmgr) (stack : pcintr_stack) (name : List Nat)
    (h1 : ∀ p ∈ stack.bottom_frame, temp_binding heap name p = none)
    (h2 : ∀ elem ∈ scope_chain stack.bottom_frame, scope_binding heap name elem = none)
    (h3 : manager_binding heap name stack.vdom = none)
    (h4 : manager_binding heap name varmgr = none) :
    pcintr_find_named_var heap error varmgr stack name
      = ⟨0, ⟨PCVARIANT_ERROR_NOT_FOUND, some (chars "name:" ++ name)⟩⟩
    ∧ (_find_named_temp_var heap error stack.bottom_frame name).error
      = ⟨PURC_ERROR_ENTITY_NOT_FOUND, none⟩ := by
  have h5 : stack.bottom_frame.findSome? (temp_binding heap name) = none := by
    rw [List.findSome?_eq_none_iff]
    exact h1
  have h6 : (scope_chain stack.bottom_frame).findSome? (scope_binding heap name) = none := by
    rw [List.findSome?_eq_none_iff]
    exact h2
  rw [find_named_var_spec, find_named_temp_var_spec, h5]
  simp [binding_levels, h5, h6, h3, h4, name_not_found, purc_set_error_with_info,
    purc_set_error]

/-- C18 on a stack whose levels bind other names only: the lookup of `x` fails with the
not-found error for `x`. -/
theorem C18_find_named_var_miss_witness :
    pcintr_find_named_var
        [⟨PURC_VARIANT_TYPE_OBJECT, [], [(chars "t", 10)]⟩,
         ⟨PURC_VARIANT_TYPE_OBJECT, [], [(chars "s", 11)]⟩,
         ⟨PURC_VARIANT_TYPE_OBJECT, [], [(chars "d", 12)]⟩,
         ⟨PURC_VARIANT_TYPE_OBJECT, [], [(chars "i", 13)]⟩]
        purc_clr_error (some ⟨4, []⟩)
        ⟨[⟨[], [⟨PCVDOM_NODE_ELEMENT, some ⟨2, []⟩, none⟩], false, 1⟩], some ⟨3, []⟩⟩
        (chars "x")
      = ⟨0, ⟨PCVARIANT_ERROR_NOT_FOUND, some (chars "name:" ++ chars "x")⟩⟩ :=
  (C18_find_named_var_miss
    [⟨PURC_VARIANT_TYPE_OBJECT, [], [(chars "t", 10)]⟩,
     ⟨PURC_VARIANT_TYPE_OBJECT, [], [(chars "s", 11)]⟩,
     ⟨PURC_VARIANT_TYPE_OBJECT, [], [(chars "d", 12)]⟩,
     ⟨PURC_VARIANT_TYPE_OBJECT, [], [(chars "i", 13)]⟩]
    purc_clr_error (some ⟨4, []⟩)
    ⟨[⟨[], [⟨PCVDOM_NODE_ELEMENT, some ⟨2, []⟩, none⟩], false, 1⟩], some ⟨3, []⟩⟩
    (chars "x") (by decide) (by decide) (by decide) (by decide)).1
/-! ## Binding by level -/

theorem bindable_iff (p : List pcvdom_element) :
    (p ≠ [] ∧ (p.head?.map fun e => e.type) ≠ some PCVDOM_NODE_DOCUMENT)
      ↔ bindable p = true := by
  cases p with
  | nil => simp [bindable]
  | cons e rest => simp [bindable]

theorem bind_by_level_bindable (error : purc_error) (bind_ok : bind_call → Bool)
    (frame : pcintr_stack_frame) (name : List Nat) (val : Nat) (level : Nat)
    (h : bindable (levels_up frame level) = true) :
    bind_by_level error bind_ok frame name val level
      = bind_at_element error bind_ok (levels_up frame level) name val := by
  unfold bind_by_level
  simp only [levels_up] at h ⊢
  rw [if_pos ((bindable_iff _).2 h)]

theorem bind_by_level_past (error : purc_error) (bind_ok : bind_call → Bool)
    (frame : pcintr_stack_frame) (name : List Nat) (val : Nat) (level : Nat)
    (h : bindable (levels_up frame level) = false) :
    bind_by_level error bind_ok frame name val level
      = if frame.silently then bind_at_coroutine error bind_ok name val
        else ⟨-1, none,
          purc_set_error_with_info PURC_ERROR_ENTITY_NOT_FOUND no_vdom_element_exists⟩ := by
  unfold bind_by_level
  simp only [levels_up] at h ⊢
  rw [if_neg (fun hc => by rw [bindable_iff] at hc; rw [hc] at h; cases h)]

theorem is_string_with_iff (heap : List purc_variant) (v : Nat) (s : List Nat)
    (h : is_string_with heap v s = true) :
    v ≠ 0 ∧ purc_variant_is_string heap v = true ∧ purc_variant_get_string_const heap v = s := by
  simp only [is_string_with, Bool.and_eq_true, beq_iff_eq] at h
  refine ⟨?_, h.1, h.2⟩
  intro h0
  have := h.1
  simp [purc_variant_is_string, variant_at, h0] at this

/-! ## C19: the binding target -/

/-- C19: `pcintr_bind_named_variable` makes its binding call as follows. Without `at`, and
for the strings `_parent` and `_last`, at the element one level up from the position of
the frame; for `_grandparent` and `_nexttolast` at the element two levels up; for `_root`
and `_topmost` at the coroutine; for a value that is no string, or a string that starts
with neither `#` nor `_`, at the element `n` levels up when the value converts to the
unsigned integer `n`, and at the coroutine when it does not convert. A binding so many
levels up is made at that element whenever it exists and is not the document node. Level
0 is the position itself and each further level is the parent of the one before. -/
theorem C19_bind_target (heap : List purc_variant) (error : purc_error)
    (bind_ok : bind_call → Bool) (frame : pcintr_stack_frame) (name : List Nat)
    (at_value : Nat) (v : Nat) (level : Option Nat) :
    (at_value = 0 → bindable (levels_up frame 1) = true →
      pcintr_bind_named_variable heap error bind_ok frame name at_value v level
        = bind_at_element error bind_ok (levels_up frame 1) name v)
    ∧ (∀ s, is_string_with heap at_value s = true →
        ((s = chars "_parent" ∨ s = chars "_last") → bindable (levels_up frame 1) = true →
          pcintr_bind_named_variable heap error bind_ok frame name at_value v level
            = bind_at_element error bind_ok (levels_up frame 1) name v)
        ∧ ((s = chars "_grandparent" ∨ s = chars "_nexttolast") →
            bindable (levels_up frame 2) = true →
          pcintr_bind_named_variable heap error bind_ok frame name at_value v level
            = bind_at_element error bind_ok (levels_up frame 2) name v)
        ∧ ((s = chars "_root" ∨ s = chars "_topmost") →
          pcintr_bind_named_variable heap error bind_ok frame name at_value v level
            = bind_at_coroutine error bind_ok name v))
    ∧ (at_value ≠ 0 →
        (purc_variant_is_string heap at_value = false
          ∨ ((purc_variant_get_string_const heap at_value).head? ≠ some 35
            ∧ (purc_variant_get_string_const heap at_value).head? ≠ some 95)) →
        (∀ n, level = some n → bindable (levels_up frame n) = true →
          pcintr_bind_named_variable heap error bind_ok frame name at_value v level
            = bind_at_element error bind_ok (levels_up frame n) name v)
        ∧ (level = none →
          pcintr_bind_named_variable heap error bind_ok frame name at_value v level
            = bind_at_coroutine error bind_ok name v))
    ∧ levels_up frame 0 = frame.pos
    ∧ (∀ n, levels_up frame (n + 1) = (levels_up frame n).tail) := by
  refine ⟨?_, ?_, ?_, rfl, ?_⟩
  · intro h0 hb
    simp only [pcintr_bind_named_variable, h0, if_true, bind_at_default]
    exact bind_by_level_bindable error bind_ok frame name v 1 hb
  · intro s hs
    obtain ⟨h0, h1, h2⟩ := is_string_with_iff heap at_value s hs
    refine ⟨?_, ?_, ?_⟩
    · intro hk hb
      rw [← bind_by_level_bindable error bind_ok frame name v 1 hb]
      rcases hk with hk | hk <;> subst hk <;>
        simp [pcintr_bind_named_variable, h0, h1, h2, bind_by_name_space, chars,
          PCHVML_KEYWORD_ATOM, pchvml_keyword]
    · intro hk hb
      rw [← bind_by_level_bindable error bind_ok frame name v 2 hb]
      rcases hk with hk | hk <;> subst hk <;>
        simp [pcintr_bind_named_variable, h0, h1, h2, bind_by_name_space, chars,
          PCHVML_KEYWORD_ATOM, pchvml_keyword]
    · intro hk
      rcases hk with hk | hk <;> subst hk <;>
        simp [pcintr_bind_named_variable, h0, h1, h2, bind_by_name_space, chars,
          PCHVML_KEYWORD_ATOM, pchvml_keyword]
  · intro h0 hs
    refine ⟨?_, ?_⟩
    · intro n hn hb
      subst hn
      rw [← bind_by_level_bindable error bind_ok frame name v n hb]
      rcases hs with hs | ⟨hs1, hs2⟩
      · simp [pcintr_bind_named_variable, h0, hs]
      · by_cases h1 : purc_variant_is_string heap at_value = true
        · simp [pcintr_bind_named_variable, h0, h1, hs1, hs2]
        · simp [pcintr_bind_named_variable, h0, h1]
    · intro hn
      subst hn
      rcases hs with hs | ⟨hs1, hs2⟩
      · simp [pcintr_bind_named_variable, h0, hs]
      · by_cases h1 : purc_variant_is_string heap at_value = true
        · simp [pcintr_bind_named_variable, h0, h1, hs1, hs2]
        · simp [pcintr_bind_named_variable, h0, h1]
  · intro n
    simp [levels_up, List.tail_drop]

/-- C19 for `at` = `_grandparent` on a frame three elements below the document node: the
binding call is made at the element two levels up. -/
theorem C19_bind_target_witness :
    pcintr_bind_named_variable [⟨PURC_VARIANT_TYPE_STRING, chars "_grandparent", []⟩]
        purc_clr_error (fun _ => true)
        ⟨[], [⟨PCVDOM_NODE_ELEMENT, none, none⟩, ⟨PCVDOM_NODE_ELEMENT, none, none⟩,
              ⟨PCVDOM_NODE_ELEMENT, none, none⟩, ⟨PCVDOM_NODE_DOCUMENT, none, none⟩],
          false, 0⟩ (chars "x") 1 9 none
      = bind_at_element purc_clr_error (fun _ => true)
          (levels_up
            ⟨[], [⟨PCVDOM_NODE_ELEMENT, none, none⟩, ⟨PCVDOM_NODE_ELEMENT, none, none⟩,
                  ⟨PCVDOM_NODE_ELEMENT, none, none⟩, ⟨PCVDOM_NODE_DOCUMENT, none, none⟩],
              false, 0⟩ 2) (chars "x") 9 :=
  ((C19_bind_target [⟨PURC_VARIANT_TYPE_STRING, chars "_grandparent", []⟩]
      purc_clr_error (fun _ => true)
      ⟨[], [⟨PCVDOM_NODE_ELEMENT, none, none⟩, ⟨PCVDOM_NODE_ELEMENT, none, none⟩,
            ⟨PCVDOM_NODE_ELEMENT, none, none⟩, ⟨PCVDOM_NODE_DOCUMENT, none, none⟩],
        false, 0⟩ (chars "x") 1 9 none).2.1 (chars "_grandparent") (by decide)).2.1
    (Or.inl rfl) (by decide)

/-! ## C20: targets that cannot be resolved -/

theorem find_dest_none (heap : List purc_variant) (id : List Nat)
    (p : List pcvdom_element) (error : purc_error)
    (h : ∀ elem ∈ p, ∀ e, (match_id heap e elem id).1 = false) :
    (find_dest heap error p id).1 = [] := by
  induction p generalizing error with
  | nil => rfl
  | cons elem parent ih =>
    rw [find_dest]
    simp only [h elem (List.mem_cons_self _ _) error, Bool.false_eq_true, if_false]
    exact ih _ (fun x hx => h x (List.mem_cons_of_mem _ hx))

theorem bind_at_default_silently (error : purc_error) (bind_ok : bind_call → Bool)
    (frame : pcintr_stack_frame) (name : List Nat) (val : Nat)
    (hs : frame.silently = true) :
    bind_at_default error bind_ok frame name val
      = ⟨if bind_ok ⟨default_place frame, name, val⟩ then 0 else -1,
          some ⟨default_place frame, name, val⟩, error⟩ := by
  unfold bind_at_default default_place
  by_cases hb : bindable (levels_up frame 1) = true
  · rw [bind_by_level_bindable error bind_ok frame name val 1 hb]
    simp [hb, bind_at_element]
  · simp only [Bool.not_eq_true] at hb
    rw [bind_by_level_past error bind_ok frame name val 1 hb]
    simp [hb, hs, bind_at_coroutine]

theorem keyword_atom_unknown (s : List Nat)
    (h : s ∉ [chars "_parent", chars "_grandparent", chars "_root", chars "_last",
      chars "_nexttolast", chars "_topmost"]) :
    PCHVML_KEYWORD_ATOM s = 0 := by
  simp only [List.mem_cons, List.mem_singleton, List.not_mem_nil, or_false, not_or] at h
  simp [PCHVML_KEYWORD_ATOM, h]

/-- C20 as the code has it. For a frame marked silently: when `at` is `#id` and no
element from the position upwards matches the id, or `at` is a string starting with `_`
that is none of the six keywords, the binding call is made at the default location,
which is the element one level up from the position when that element exists and is not
the document node, and the coroutine otherwise; when `at` gives a level whose element
does not exist or is the document node, the binding call is made at the coroutine. For
a frame not marked silently the same three situations return -1 with no binding call
made, recording entity-not-found for the id and for the level and bad-name for the
keyword. -/
theorem C20_unresolved_target (heap : List purc_variant) (error : purc_error)
    (bind_ok : bind_call → Bool) (frame : pcintr_stack_frame) (name : List Nat)
    (at_value : Nat) (v : Nat) (level : Option Nat) :
    (∀ id, is_string_with heap at_value (35 :: id) = true →
      (∀ elem ∈ frame.pos, ∀ e, (match_id heap e elem id).1 = false) →
      (frame.silently = true →
        (pcintr_bind_named_variable heap error bind_ok frame name at_value v level).call
            = some ⟨default_place frame, name, v⟩
        ∧ (pcintr_bind_named_variable heap error bind_ok frame name at_value v level).ret
            = if bind_ok ⟨default_place frame, name, v⟩ then 0 else -1)
      ∧ (frame.silently = false →
        pcintr_bind_named_variable heap error bind_ok frame name at_value v level
          = ⟨-1, none, ⟨PURC_ERROR_ENTITY_NOT_FOUND, some no_vdom_element_exists⟩⟩))
    ∧ (∀ s, is_string_with heap at_value s = true → s.head? = some 95 →
      s ∉ [chars "_parent", chars "_grandparent", chars "_root", chars "_last",
        chars "_nexttolast", chars "_topmost"] →
      (frame.silently = true →
        pcintr_bind_named_variable heap error bind_ok frame name at_value v level
          = ⟨if bind_ok ⟨default_place frame, name, v⟩ then 0 else -1,
              some ⟨default_place frame, name, v⟩, error⟩)
      ∧ (frame.silently = false →
        (pcintr_bind_named_variable heap error bind_ok frame name at_value v level).ret = -1
        ∧ (pcintr_bind_named_variable heap error bind_ok frame name at_value v level).call
            = none
        ∧ (pcintr_bind_named_variable heap error bind_ok frame name at_value v level).error.code
            = PURC_ERROR_BAD_NAME))
    ∧ (∀ n, at_value ≠ 0 →
      (purc_variant_is_string heap at_value = false
        ∨ ((purc_variant_get_string_const heap at_value).head? ≠ some 35
          ∧ (purc_variant_get_string_const heap at_value).head? ≠ some 95)) →
      level = some n → bindable (levels_up frame n) = false →
      (frame.silently = true →
        pcintr_bind_named_variable heap error bind_ok frame name at_value v level
          = bind_at_coroutine error bind_ok name v)
      ∧ (frame.silently = false →
        pcintr_bind_named_variable heap error bind_ok frame name at_value v level
          = ⟨-1, none, ⟨PURC_ERROR_ENTITY_NOT_FOUND, some no_vdom_element_exists⟩⟩)) := by
  refine ⟨?_, ?_, ?_⟩
  · intro id hs hid
    obtain ⟨h0, h1, h2⟩ := is_string_with_iff heap at_value _ hs
    have hd := find_dest_none heap id frame.pos error hid
    have hR : pcintr_bind_named_variable heap error bind_ok frame name at_value v level
        = if frame.silently then
            bind_at_default (find_dest heap error frame.pos id).2 bind_ok frame name v
          else ⟨-1, none, ⟨PURC_ERROR_ENTITY_NOT_FOUND, some no_vdom_element_exists⟩⟩ := by
      simp [pcintr_bind_named_variable, h0, h1, h2, bind_by_elem_id, hd,
        purc_set_error_with_info]
    rw [hR]
    refine ⟨?_, ?_⟩
    · intro hsil
      rw [if_pos hsil, bind_at_default_silently _ bind_ok frame name v hsil]
      exact ⟨rfl, rfl⟩
    · intro hsil
      rw [if_neg (by simp [hsil])]
  · intro s hs h95 hk
    obtain ⟨h0, h1, h2⟩ := is_string_with_iff heap at_value _ hs
    have ha := keyword_atom_unknown s hk
    have h35 : s.head? ≠ some 35 := by rw [h95]; decide
    have hR : pcintr_bind_named_variable heap error bind_ok frame name at_value v level
        = if frame.silently then bind_at_default error bind_ok frame name v
          else ⟨-1, none, purc_set_error_with_info PURC_ERROR_BAD_NAME
            ([97, 116, 32, 61, 32, 39] ++ name ++ [39])⟩ := by
      simp [pcintr_bind_named_variable, h0, h1, h2, h35, h95, bind_by_name_space, ha]
    rw [hR]
    refine ⟨?_, ?_⟩
    · intro hsil
      rw [if_pos hsil, bind_at_default_silently _ bind_ok frame name v hsil]
    · intro hsil
      rw [if_neg (by simp [hsil])]
      exact ⟨rfl, rfl, rfl⟩
  · intro n h0 hs hn hb
    subst hn
    have hR : pcintr_bind_named_variable heap error bind_ok frame name at_value v (some n)
        = bind_by_level error bind_ok frame name v n := by
      rcases hs with hs | ⟨hs1, hs2⟩
      · simp [pcintr_bind_named_variable, h0, hs]
      · by_cases h1 : purc_variant_is_string heap at_value = true
        · simp [pcintr_bind_named_variable, h0, h1, hs1, hs2]
        · simp [pcintr_bind_named_variable, h0, h1]
    rw [hR, bind_by_level_past error bind_ok frame name v n hb]
    refine ⟨?_, ?_⟩
    · intro hsil
      rw [if_pos hsil]
    · intro hsil
      rw [if_neg (by simp [hsil])]
      rfl

/-- C20 for the unknown keyword `_foo` on a frame marked silently that stands two
elements below the document node: the binding call is made one level up. -/
theorem C20_unresolved_target_witness :
    pcintr_bind_named_variable [⟨PURC_VARIANT_TYPE_STRING, chars "_foo", []⟩]
        purc_clr_error (fun _ => true)
        ⟨[], [⟨PCVDOM_NODE_ELEMENT, none, none⟩, ⟨PCVDOM_NODE_ELEMENT, none, none⟩,
              ⟨PCVDOM_NODE_DOCUMENT, none, none⟩], true, 0⟩ (chars "x") 1 9 none
      = ⟨0, some ⟨.at_element
            [⟨PCVDOM_NODE_ELEMENT, none, none⟩, ⟨PCVDOM_NODE_DOCUMENT, none, none⟩],
          chars "x", 9⟩, purc_clr_error⟩ :=
  ((C20_unresolved_target [⟨PURC_VARIANT_TYPE_STRING, chars "_foo", []⟩]
      purc_clr_error (fun _ => true)
      ⟨[], [⟨PCVDOM_NODE_ELEMENT, none, none⟩, ⟨PCVDOM_NODE_ELEMENT, none, none⟩,
            ⟨PCVDOM_NODE_DOCUMENT, none, none⟩], true, 0⟩ (chars "x") 1 9 none).2.1
    (chars "_foo") (by decide) (by decide) (by decide)).1 rfl

/-- The claim does not hold for a level: on a frame marked silently that stands two
elements below the document node, with `at` a number that converts to the level 5, the
binding call is made at the coroutine, although the default location, the element one
level up, exists and is not the document node. Without the mark the same call returns -1
with entity-not-found and makes no binding call. -/
theorem C20_counterexample :
    pcintr_bind_named_variable [⟨PURC_VARIANT_TYPE_NUMBER, chars "5", []⟩]
        purc_clr_error (fun _ => true)
        ⟨[], [⟨PCVDOM_NODE_ELEMENT, none, none⟩, ⟨PCVDOM_NODE_ELEMENT, none, none⟩,
              ⟨PCVDOM_NODE_DOCUMENT, none, none⟩], true, 0⟩ (chars "x") 1 9 (some 5)
      = ⟨0, some ⟨.at_coroutine, chars "x", 9⟩, purc_clr_error⟩
    ∧ default_place
        ⟨[], [⟨PCVDOM_NODE_ELEMENT, none, none⟩, ⟨PCVDOM_NODE_ELEMENT, none, none⟩,
              ⟨PCVDOM_NODE_DOCUMENT, none, none⟩], true, 0⟩
      = .at_element [⟨PCVDOM_NODE_ELEMENT, none, none⟩, ⟨PCVDOM_NODE_DOCUMENT, none, none⟩]
    ∧ pcintr_bind_named_variable [⟨PURC_VARIANT_TYPE_NUMBER, chars "5", []⟩]
        purc_clr_error (fun _ => true)
        ⟨[], [⟨PCVDOM_NODE_ELEMENT, none, none⟩, ⟨PCVDOM_NODE_ELEMENT, none, none⟩,
              ⟨PCVDOM_NODE_DOCUMENT, none, none⟩], false, 0⟩ (chars "x") 1 9 (some 5)
      = ⟨-1, none, ⟨PURC_ERROR_ENTITY_NOT_FOUND, some no_vdom_element_exists⟩⟩ :=
  ⟨by decide, by decide, by decide⟩
/-! ## C21: registering and removing an observer -/

theorem find_var_observe_idx_append (mgr : pcvarmgr) (name : List Nat)
    (type : var_event_type) (stack : Nat)
    (h : (⟨name, type, stack⟩ : var_observe) ∉ mgr.var_observers) :
    find_var_observe_idx ⟨mgr.object, mgr.var_observers ++ [⟨name, type, stack⟩]⟩ name type
        stack
      = some mgr.var_observers.length := by
  have h1 : mgr.var_observers.findIdx?
      (fun obs => decide (name = obs.name ∧ obs.type = type ∧ obs.stack = stack)) = none := by
    rw [List.findIdx?_eq_none_iff]
    intro x hx
    simp only [decide_eq_false_iff_not]
    rintro ⟨h1, h2, h3⟩
    apply h
    obtain ⟨n, t, s⟩ := x
    simp only at h1 h2 h3
    subst h1 h2 h3
    exact hx
  unfold find_var_observe_idx
  simp only []
  rw [List.findIdx?_append, h1]
  simp [List.findIdx?_cons]

/-- For the three change labels the add and the remove agree on the event kind, and
removing what was just added gives the registry back. -/
theorem add_remove_change_label (error : purc_error) (mgr : pcvarmgr)
    (name event : List Nat) (stack : Nat)
    (he : event = EVENT_ATTACHED ∨ event = EVENT_DETACHED ∨ event = EVENT_DISPLACED)
    (h : (⟨name, add_observer_event_type event, stack⟩ : var_observe) ∉ mgr.var_observers) :
    remove_observer_event_type event = add_observer_event_type event
    ∧ (pcvarmgr_add_observer error mgr name event stack true true).ret = mgr.object
    ∧ pcvarmgr_remove_observer error
        (pcvarmgr_add_observer error mgr name event stack true true).mgr name event stack
      = ⟨mgr.object, mgr, error⟩ := by
  have ht : remove_observer_event_type event = add_observer_event_type event := by
    rcases he with he | he | he <;> subst he <;> decide
  have hn := find_var_observe_none mgr name _ stack h
  have h1 : pcvarmgr_add_observer error mgr name event stack true true
      = ⟨mgr.object,
          ⟨mgr.object, mgr.var_observers ++ [⟨name, add_observer_event_type event, stack⟩]⟩,
          error⟩ := by
    simp [pcvarmgr_add_observer, hn]
  refine ⟨ht, by rw [h1], ?_⟩
  rw [h1]
  simp only [pcvarmgr_remove_observer, ht, find_var_observe_idx_append mgr name _ stack h]
  simp [List.eraseIdx_append_of_length_le]

/-- C21 fails on the code for the except labels: `pcvarmgr_remove_observer` has no case
for the `except:` family and maps such a label to the attached kind. On an empty
registry, adding the observer for the name `x` and the label `except:foo` from stack 7
registers the except entry and returns the binding object; removing it with the same
arguments returns the invalid value and leaves the entry in the registry. On a registry
that holds the attached entry of `x` for the same stack, the same add and remove take
the attached entry out and leave the except entry in. For the label `change:attached`
the add and the remove give the old registry back. -/
theorem C21_except_observer_not_removed :
    pcvarmgr_add_observer purc_clr_error ⟨1, []⟩ (chars "x") (chars "except:foo") 7 true true
      = ⟨1, ⟨1, [⟨chars "x", VAR_EVENT_TYPE_EXCEPT, 7⟩]⟩, purc_clr_error⟩
    ∧ pcvarmgr_remove_observer purc_clr_error ⟨1, [⟨chars "x", VAR_EVENT_TYPE_EXCEPT, 7⟩]⟩
        (chars "x") (chars "except:foo") 7
      = ⟨0, ⟨1, [⟨chars "x", VAR_EVENT_TYPE_EXCEPT, 7⟩]⟩, purc_clr_error⟩
    ∧ pcvarmgr_add_observer purc_clr_error ⟨1, [⟨chars "x", VAR_EVENT_TYPE_ATTACHED, 7⟩]⟩
        (chars "x") (chars "except:foo") 7 true true
      = ⟨1, ⟨1, [⟨chars "x", VAR_EVENT_TYPE_ATTACHED, 7⟩,
            ⟨chars "x", VAR_EVENT_TYPE_EXCEPT, 7⟩]⟩, purc_clr_error⟩
    ∧ pcvarmgr_remove_observer purc_clr_error
        ⟨1, [⟨chars "x", VAR_EVENT_TYPE_ATTACHED, 7⟩, ⟨chars "x", VAR_EVENT_TYPE_EXCEPT, 7⟩]⟩
        (chars "x") (chars "except:foo") 7
      = ⟨1, ⟨1, [⟨chars "x", VAR_EVENT_TYPE_EXCEPT, 7⟩]⟩, purc_clr_error⟩
    ∧ pcvarmgr_remove_observer purc_clr_error
        (pcvarmgr_add_observer purc_clr_error ⟨1, []⟩ (chars "x") EVENT_ATTACHED 7 true
          true).mgr (chars "x") EVENT_ATTACHED 7
      = ⟨1, ⟨1, []⟩, purc_clr_error⟩ :=
  ⟨by decide, by decide, by decide, by decide, by decide⟩

/-! ## C22: dispatching an exception event -/

/-- C22: when both strings can be made, `pcvarmgr_dispatch_except` returns true, leaves
the manager as it is, and the messages it dispatches are, in registration order, one
for every registered observer whose name is the given name and whose event kind is
except, and no other: each goes to the stack of that observer, has the binding object
as source, the type `change` and the given label as sub-type. -/
theorem C22_dispatch_except (mgr : pcvarmgr) (name except : List Nat) :
    pcvarmgr_dispatch_except mgr name except true true
      = ⟨true, mgr,
          (mgr.var_observers.filter
              (fun obs => decide (obs.name = name ∧ obs.type = VAR_EVENT_TYPE_EXCEPT))).map
            (fun obs => ⟨obs.stack, mgr.object, MSG_TYPE_CHANGE, except, 0⟩)⟩ := by
  have h : ∀ l : List var_observe,
      dispatch_except_loop mgr.object name except l
        = (l.filter (fun obs => decide (obs.name = name ∧ obs.type = VAR_EVENT_TYPE_EXCEPT))).map
            (fun obs => ⟨obs.stack, mgr.object, MSG_TYPE_CHANGE, except, 0⟩) := by
    intro l
    induction l with
    | nil => rfl
    | cons obs rest ih =>
      by_cases hc : name = obs.name ∧ obs.type = VAR_EVENT_TYPE_EXCEPT
      · have hc2 : obs.name = name ∧ obs.type = VAR_EVENT_TYPE_EXCEPT := ⟨hc.1.symm, hc.2⟩
        rw [dispatch_except_loop, if_pos hc, ih, List.filter_cons,
          if_pos (by simpa using hc2), List.map_cons]
      · have hc2 : ¬ (obs.name = name ∧ obs.type = VAR_EVENT_TYPE_EXCEPT) :=
          fun h2 => hc ⟨h2.1.symm, h2.2⟩
        rw [dispatch_except_loop, if_neg hc, ih, List.filter_cons,
          if_neg (by simpa using hc2)]
  simp [pcvarmgr_dispatch_except, h]

/-- The dispatch on a registry with four entries: the two except observers of `x` get
the message, in the order of their registration; the attached observer of `x` and the
except observer of `y` get none. -/
theorem C22_examples :
    pcvarmgr_dispatch_except
        ⟨1, [⟨chars "x", VAR_EVENT_TYPE_EXCEPT, 7⟩, ⟨chars "x", VAR_EVENT_TYPE_ATTACHED, 8⟩,
             ⟨chars "y", VAR_EVENT_TYPE_EXCEPT, 9⟩, ⟨chars "x", VAR_EVENT_TYPE_EXCEPT, 5⟩]⟩
        (chars "x") (chars "except:foo") true true
      = ⟨true,
          ⟨1, [⟨chars "x", VAR_EVENT_TYPE_EXCEPT, 7⟩, ⟨chars "x", VAR_EVENT_TYPE_ATTACHED, 8⟩,
               ⟨chars "y", VAR_EVENT_TYPE_EXCEPT, 9⟩, ⟨chars "x", VAR_EVENT_TYPE_EXCEPT, 5⟩]⟩,
          [⟨7, 1, chars "change", chars "except:foo", 0⟩,
           ⟨5, 1, chars "change", chars "except:foo", 0⟩]⟩ := by
  decide

/-! ## C25: termination of `pcejson_next_token` -/

theorem jumps_advance (r : Nat) (p : pcejson) : jumps_below r (.advance p) = true := rfl

theorem jumps_reconsume (r : Nat) (p : pcejson) :
    jumps_below r (.reconsume p) = decide (reconsume_rank p.state < r) := rfl

theorem jumps_ret (r : Nat) (t : Option pcejson_token) (e : Option pcejson_error)
    (p : pcejson) (u : Bool) : jumps_below r (.ret t e p u) = true := rfl

theorem step_rank (p : pcejson) (c : Nat) :
    jumps_below (reconsume_rank p.state) (step p c) = true := by
  obtain ⟨s, d, f, stk, b, b2, rs⟩ := p
  cases s <;>
    simp only [step, init_state, finished_state, object_state, after_object_state, array_state,
      after_array_state, before_name_enter, before_name_state, after_name_state,
      before_value_enter, before_value_state, after_value_state, name_unquoted_state,
      name_single_quoted_state, name_double_quoted_state, value_single_quoted_state,
      value_double_quoted_state, after_value_double_quoted_state,
      value_two_double_quoted_state, value_three_double_quoted_state, keyword_accept,
      keyword_state, after_keyword_state, byte_sequence_state, after_byte_sequence_state,
      hex_byte_sequence_state, binary_byte_sequence_state, base64_byte_sequence_state,
      value_number_state, after_value_number_state, value_number_integer_state,
      value_number_fraction_state, value_number_exponent_state,
      value_number_exponent_integer_state, value_number_suffix_integer_state,
      string_escape_state, string_escape_four_hexadecimal_digits_state,
      ADVANCE_TO, RETURN_TO, RECONSUME_IN, SWITCH_TO, RETURN_TOKEN, RECONSUME_IN_NEXT,
      PARSE_ERROR, EOF_IN_STRING, RETURN_NULL, apply_ite (jumps_below _),
      jumps_advance, jumps_reconsume, jumps_ret, reconsume_rank, Nat.reduceLT, decide_True,
      ite_self]

theorem step_reconsume_rank (p p1 : pcejson) (c : Nat) (h : step p c = .reconsume p1) :
    reconsume_rank p1.state < reconsume_rank p.state := by
  have := step_rank p c
  rw [h, jumps_reconsume] at this
  exact of_decide_eq_true this

theorem reconsume_rank_le (s : ejson_state) : reconsume_rank s ≤ 4 := by
  cases s <;> simp [reconsume_rank]

theorem dispatch_in_rank (n : Nat) (p : pcejson) (c : Nat)
    (h : reconsume_rank p.state < n) : ∀ q, dispatch n p c ≠ .reconsume q := by
  induction n generalizing p with
  | zero => omega
  | succ n ih =>
    intro q
    rw [dispatch]
    cases hs : step p c with
    | advance p1 => simp
    | ret t e p1 u => simp
    | reconsume p1 =>
      have := step_reconsume_rank p p1 c hs
      exact ih p1 (by omega) q

theorem chain_bound (n : Nat) (p : pcejson) (c : Nat) :
    ∀ s ∈ reconsume_chain n p c, reconsume_rank s ≤ reconsume_rank p.state := by
  induction n generalizing p with
  | zero => intro s hs; simp [reconsume_chain] at hs
  | succ n ih =>
    intro s hs
    rw [reconsume_chain, List.mem_cons] at hs
    rcases hs with rfl | hs
    · exact le_refl _
    · cases h : step p c with
      | advance p1 => rw [h] at hs; simp at hs
      | ret t e p1 u => rw [h] at hs; simp at hs
      | reconsume p1 =>
        rw [h] at hs
        have := ih p1 s hs
        have := step_reconsume_rank p p1 c h
        omega

theorem chain_nodup (n : Nat) (p : pcejson) (c : Nat) :
    (reconsume_chain n p c).Nodup ∧ (reconsume_chain n p c).length ≤ reconsume_rank p.state + 1 := by
  induction n generalizing p with
  | zero => simp [reconsume_chain]
  | succ n ih =>
    rw [reconsume_chain]
    cases h : step p c with
    | advance p1 => simp
    | ret t e p1 u => simp
    | reconsume p1 =>
      have hr := step_reconsume_rank p p1 c h
      have hb := chain_bound n p1 c
      obtain ⟨h1, h2⟩ := ih p1
      refine ⟨List.nodup_cons.2 ⟨?_, h1⟩, ?_⟩
      · intro hm
        have := hb _ hm
        omega
      · simp only [List.length_cons]
        omega

theorem silent_advance (p : pcejson) : silent_return (.advance p) = true := rfl

theorem silent_reconsume (p : pcejson) : silent_return (.reconsume p) = true := rfl

theorem silent_token (t : pcejson_token) (e : Option pcejson_error) (p : pcejson) (u : Bool) :
    silent_return (.ret (some t) e p u) = true := rfl

theorem silent_error (e : pcejson_error) (p : pcejson) (u : Bool) :
    silent_return (.ret none (some e) p u) = true := rfl

theorem silent_null (p : pcejson) (u : Bool) :
    silent_return (.ret none none p u)
      = (p.state == ejson_after_value_number_state
          || p.state == ejson_value_two_double_quoted_state) := rfl

theorem step_silent (p : pcejson) (c : Nat) : silent_return (step p c) = true := by
  obtain ⟨s, d, f, stk, b, b2, rs⟩ := p
  cases s <;>
    simp only [step, init_state, finished_state, object_state, after_object_state, array_state,
      after_array_state, before_name_enter, before_name_state, after_name_state,
      before_value_enter, before_value_state, after_value_state, name_unquoted_state,
      name_single_quoted_state, name_double_quoted_state, value_single_quoted_state,
      value_double_quoted_state, after_value_double_quoted_state,
      value_two_double_quoted_state, value_three_double_quoted_state, keyword_accept,
      keyword_state, after_keyword_state, byte_sequence_state, after_byte_sequence_state,
      hex_byte_sequence_state, binary_byte_sequence_state, base64_byte_sequence_state,
      value_number_state, after_value_number_state, value_number_integer_state,
      value_number_fraction_state, value_number_exponent_state,
      value_number_exponent_integer_state, value_number_suffix_integer_state,
      string_escape_state, string_escape_four_hexadecimal_digits_state,
      ADVANCE_TO, RETURN_TO, RECONSUME_IN, SWITCH_TO, RETURN_TOKEN, RECONSUME_IN_NEXT,
      PARSE_ERROR, EOF_IN_STRING, RETURN_NULL, apply_ite silent_return,
      silent_advance, silent_reconsume, silent_token, silent_error, silent_null,
      beq_self_eq_true, Bool.or_true, Bool.true_or, ite_self]

theorem dispatch_silent (n : Nat) (p : pcejson) (c : Nat) :
    silent_return (dispatch n p c) = true := by
  induction n generalizing p with
  | zero => rfl
  | succ n ih =>
    have h := step_silent p c
    rw [dispatch]
    cases hs : step p c with
    | advance p1 => rfl
    | reconsume p1 => exact ih p1
    | ret t e p1 u => rw [hs] at h; exact h

theorem next_token_outcome (rws : List Nat) (p : pcejson) :
    (∃ k, (pcejson_next_token p rws).rws = rws.drop k)
    ∧ ((pcejson_next_token p rws).token ≠ none
      ∨ (pcejson_next_token p rws).err ≠ none
      ∨ (pcejson_next_token p rws).rws = []
      ∨ (pcejson_next_token p rws).ejson.state = ejson_after_value_number_state
      ∨ (pcejson_next_token p rws).ejson.state = ejson_value_two_double_quoted_state) := by
  induction rws generalizing p with
  | nil => exact ⟨⟨0, rfl⟩, Or.inr (Or.inr (Or.inl rfl))⟩
  | cons c rws ih =>
    have hs := dispatch_silent RECONSUME_LIMIT p c
    have hr := dispatch_in_rank RECONSUME_LIMIT p c
      (Nat.lt_of_le_of_lt (reconsume_rank_le p.state) (by decide))
    rw [pcejson_next_token]
    cases hd : dispatch RECONSUME_LIMIT p c with
    | advance p1 =>
      obtain ⟨⟨k, hk⟩, h2⟩ := ih p1
      exact ⟨⟨k + 1, by simpa using hk⟩, h2⟩
    | reconsume p1 => exact absurd hd (hr p1)
    | ret t e p1 u =>
      refine ⟨?_, ?_⟩
      · cases u with
        | false => exact ⟨1, rfl⟩
        | true => exact ⟨0, rfl⟩
      · rw [hd] at hs
        cases t with
        | some t => exact Or.inl (by simp)
        | none =>
          cases e with
          | some e => exact Or.inr (Or.inl (by simp))
          | none =>
            rw [silent_null] at hs
            simp only [Bool.or_eq_true, beq_iff_eq] at hs
            exact Or.inr (Or.inr (Or.inr hs))

/-- C25 as the code has it: for every tokenizer, character and input, the `RECONSUME_IN`
jumps for one character go to a different state each time, visit no state twice and at
most five states, and end in a pass that reads the next character or returns; the call
hands back the input from some position on (it has consumed the characters before it),
and it returns a token, or no token with an error recorded, or no token and no error
with the input used up (left aside: the two states that leave the `switch` without
setting an error). -/
theorem C25_next_token_terminates (p : pcejson) (c : Nat) (rws : List Nat) :
    (∀ q, dispatch RECONSUME_LIMIT p c ≠ .reconsume q)
    ∧ (∀ p1, step p c = .reconsume p1 → p1.state ≠ p.state)
    ∧ (reconsume_chain RECONSUME_LIMIT p c).Nodup
    ∧ (reconsume_chain RECONSUME_LIMIT p c).length ≤ 5
    ∧ (∃ k, (pcejson_next_token p rws).rws = rws.drop k)
    ∧ ((pcejson_next_token p rws).token ≠ none
      ∨ (pcejson_next_token p rws).err ≠ none
      ∨ (pcejson_next_token p rws).rws = []
      ∨ (pcejson_next_token p rws).ejson.state = ejson_after_value_number_state
      ∨ (pcejson_next_token p rws).ejson.state = ejson_value_two_double_quoted_state) := by
  have hc := chain_nodup RECONSUME_LIMIT p c
  have hl := reconsume_rank_le p.state
  refine ⟨dispatch_in_rank RECONSUME_LIMIT p c (Nat.lt_of_le_of_lt hl (by decide)), ?_,
    hc.1, by omega, (next_token_outcome rws p).1, (next_token_outcome rws p).2⟩
  intro p1 h1 he
  have := step_reconsume_rank p p1 c h1
  rw [he] at this
  omega

/-- The claim does not hold when the input is used up: from a fresh parser the call on the
empty input, and the second call on the input `{`, return no token and record no error;
no EOF token is returned either. A chain of jumps as it occurs: for a closing brace
behind two double quotes the character is dispatched in three states. -/
theorem C25_counterexample :
    pcejson_next_token (pcejson_create 10 1) []
      = ⟨none, none, pcejson_create 10 1, []⟩
    ∧ pcejson_next_token (pcejson_next_token (pcejson_create 10 1) [123]).ejson
        (pcejson_next_token (pcejson_create 10 1) [123]).rws
      = ⟨none, none, ⟨ejson_before_name_state, 10, 1, [123], [], [], ejson_init_state⟩, []⟩
    ∧ reconsume_chain RECONSUME_LIMIT
        ⟨ejson_value_two_double_quoted_state, 10, 1, [58, 123], [34, 34], [],
          ejson_init_state⟩ 125
      = [ejson_value_two_double_quoted_state, ejson_after_value_state,
          ejson_after_object_state] :=
  ⟨by decide, by decide, by decide⟩


/-- C25 for a closing brace behind two double quotes: the jump out of the
value-two-double-quoted state leads to another state, the after-value state. -/
theorem C25_next_token_terminates_witness :
    step ⟨ejson_value_two_double_quoted_state, 10, 1, [58, 123], [34, 34], [],
          ejson_init_state⟩ 125
        = .reconsume ⟨ejson_after_value_state, 10, 1, [58, 123], [], [], ejson_init_state⟩
      ∧ (⟨ejson_after_value_state, 10, 1, [58, 123], [], [], ejson_init_state⟩ : pcejson).state
        ≠ (⟨ejson_value_two_double_quoted_state, 10, 1, [58, 123], [34, 34], [],
            ejson_init_state⟩ : pcejson).state :=
  ⟨by decide,
    (C25_next_token_terminates
      ⟨ejson_value_two_double_quoted_state, 10, 1, [58, 123], [34, 34], [], ejson_init_state⟩
      125 []).2.1 _ (by decide)⟩
/-! ## C26: base64 byte sequences -/

theorem base64_char_facts (c : Nat)
    (h : is_ascii_digit c = true ∨ is_ascii_alpha c = true ∨ c = 43 ∨ c = 45) :
    c < 128 ∧ c ≠ 0 ∧ is_delimiter c = false ∧ c ≠ 61 := by
  rcases h with h | h | h | h
  · have := digit_facts c h
    exact ⟨this.1, this.2.1, this.2.2.1, by omega⟩
  · simp only [is_ascii_alpha, is_ascii_lower, to_ascii_lower_unchecked, Bool.and_eq_true,
      decide_eq_true_eq] at h
    have hc : c < 128 := lt_128_of_lor_lt c (by omega)
    have h2 : 65 ≤ c := by
      by_contra hlt
      have : c < 65 := by omega
      interval_cases c <;> simp_all +decide
    have h3 : c ≠ 93 ∧ c ≠ 125 := by
      constructor <;> intro h0 <;> subst h0 <;> simp_all +decide
    exact ⟨hc, by omega, not_delimiter_of c (by omega), by omega⟩
  · subst h; decide
  · subst h; decide

theorem base64_step_pad (d : Int) (f : Nat) (stk b b2 : List Nat) (rs : ejson_state) :
    step ⟨ejson_base64_byte_sequence_state, d, f, stk, b, b2, rs⟩ 61
      = .advance ⟨ejson_base64_byte_sequence_state, d, f, stk, b ++ [61], b2, rs⟩ := by
  have hd : is_delimiter 61 = false := by decide
  simp [step, base64_byte_sequence_state, hd, ADVANCE_TO, pcejson_tmp_buff_append, utf8_bytes]

theorem base64_step_char (d : Int) (f : Nat) (stk b b2 : List Nat) (rs : ejson_state)
    (c : Nat) (h : is_ascii_digit c = true ∨ is_ascii_alpha c = true ∨ c = 43 ∨ c = 45) :
    step ⟨ejson_base64_byte_sequence_state, d, f, stk, b, b2, rs⟩ c
      = if pcejson_tmp_buff_end_with b [61] then
          .ret none (some PCEJSON_UNEXPECTED_BASE64_PARSE_ERROR)
            ⟨ejson_base64_byte_sequence_state, d, f, stk, b, b2, rs⟩ false
        else .advance ⟨ejson_base64_byte_sequence_state, d, f, stk, b ++ [c], b2, rs⟩ := by
  obtain ⟨h128, -, hd, h61⟩ := base64_char_facts c h
  by_cases he : pcejson_tmp_buff_end_with b [61] = true <;>
    simp [step, base64_byte_sequence_state, hd, h61, h, he, ADVANCE_TO, PARSE_ERROR,
      pcejson_tmp_buff_append, utf8_bytes_ascii c h128]

theorem base64_step_delimiter (d : Int) (f : Nat) (stk b b2 : List Nat) (rs : ejson_state)
    (c : Nat) (h : is_delimiter c = true) :
    step ⟨ejson_base64_byte_sequence_state, d, f, stk, b, b2, rs⟩ c
      = .reconsume ⟨ejson_after_byte_sequence_state, d, f, stk, b, b2, rs⟩ := by
  simp [step, base64_byte_sequence_state, h, RECONSUME_IN]

theorem after_byte_sequence_step (d : Int) (f : Nat) (stk b b2 : List Nat) (rs : ejson_state)
    (c : Nat) (h : is_delimiter c = true) (hz : ∀ x ∈ b, x ≠ 0) :
    step ⟨ejson_after_byte_sequence_state, d, f, stk, b, b2, rs⟩ c
      = .ret (some ⟨ejson_token_byte_squence, some b⟩) none
          ⟨ejson_after_value_state, d, f, stk, b, b2, rs⟩ true := by
  simp [step, after_byte_sequence_state, h, RECONSUME_IN_NEXT, pcejson_tmp_buff_dup,
    c_string_of_ne_zero _ hz]

/-- C26: in the base64 byte-sequence state an equals sign is always appended to the
buffer; a digit, a letter, `+` or `-` is appended exactly when the buffer does not end
with an equals sign and is otherwise rejected: no token is returned, the unexpected-base64
error is recorded and the buffer is unchanged; a delimiter ends the literal: one
BYTE_SEQUENCE token with the buffer as text is returned, the tokenizer is in the
after-value state and the delimiter stays in the stream. -/
theorem C26_base64_padding (d : Int) (f : Nat) (stk b b2 : List Nat) (rs : ejson_state)
    (c : Nat) (rest : List Nat) (hz : ∀ x ∈ b, x ≠ 0) :
    pcejson_next_token ⟨ejson_base64_byte_sequence_state, d, f, stk, b, b2, rs⟩ (61 :: rest)
      = pcejson_next_token ⟨ejson_base64_byte_sequence_state, d, f, stk, b ++ [61], b2, rs⟩
          rest
    ∧ ((is_ascii_digit c = true ∨ is_ascii_alpha c = true ∨ c = 43 ∨ c = 45) →
        (pcejson_tmp_buff_end_with b [61] = false →
          pcejson_next_token ⟨ejson_base64_byte_sequence_state, d, f, stk, b, b2, rs⟩
              (c :: rest)
            = pcejson_next_token
                ⟨ejson_base64_byte_sequence_state, d, f, stk, b ++ [c], b2, rs⟩ rest)
        ∧ (pcejson_tmp_buff_end_with b [61] = true →
          pcejson_next_token ⟨ejson_base64_byte_sequence_state, d, f, stk, b, b2, rs⟩
              (c :: rest)
            = ⟨none, some PCEJSON_UNEXPECTED_BASE64_PARSE_ERROR,
                ⟨ejson_base64_byte_sequence_state, d, f, stk, b, b2, rs⟩, rest⟩))
    ∧ (is_delimiter c = true →
        pcejson_next_token ⟨ejson_base64_byte_sequence_state, d, f, stk, b, b2, rs⟩
            (c :: rest)
          = ⟨some ⟨ejson_token_byte_squence, some b⟩, none,
              ⟨ejson_after_value_state, d, f, stk, b, b2, rs⟩, c :: rest⟩) := by
  refine ⟨nt_adv _ _ _ _ (base64_step_pad d f stk b b2 rs), ?_, ?_⟩
  · intro hc
    have hs := base64_step_char d f stk b b2 rs c hc
    refine ⟨?_, ?_⟩
    · intro he
      rw [he] at hs
      exact nt_adv _ _ _ _ hs
    · intro he
      rw [he, if_pos rfl] at hs
      rw [nt_ret _ _ _ _ _ _ _ hs]
      rfl
  · intro hd
    rw [nt_re_ret _ _ _ _ _ _ _ _ (base64_step_delimiter d f stk b b2 rs c hd)
      (after_byte_sequence_step d f stk b b2 rs c hd hz)]
    rfl

/-- C26 at the buffer `b64QQ==`: a further equals sign is appended, the letter `Q` is
rejected, and a comma ends the literal. -/
theorem C26_base64_padding_witness :
    pcejson_next_token
        ⟨ejson_base64_byte_sequence_state, 10, 1, [58, 123], chars "b64QQ==", [],
          ejson_init_state⟩ (81 :: [44])
      = ⟨none, some PCEJSON_UNEXPECTED_BASE64_PARSE_ERROR,
          ⟨ejson_base64_byte_sequence_state, 10, 1, [58, 123], chars "b64QQ==", [],
            ejson_init_state⟩, [44]⟩
    ∧ pcejson_next_token
        ⟨ejson_base64_byte_sequence_state, 10, 1, [58, 123], chars "b64QQ==", [],
          ejson_init_state⟩ (44 :: [44])
      = ⟨some ⟨ejson_token_byte_squence, some (chars "b64QQ==")⟩, none,
          ⟨ejson_after_value_state, 10, 1, [58, 123], chars "b64QQ==", [],
            ejson_init_state⟩, 44 :: [44]⟩ :=
  ⟨((C26_base64_padding 10 1 [58, 123] (chars "b64QQ==") [] ejson_init_state 81 [44]
      (by decide)).2.1 (by decide)).2 (by decide),
   (C26_base64_padding 10 1 [58, 123] (chars "b64QQ==") [] ejson_init_state 44 [44]
      (by decide)).2.2 (by decide)⟩

/-- Whole base64 literals at a value position: `b64QUJD` and `b64QQ==` give their token,
`b64QQ=Q` is rejected with the unexpected-base64 error. -/
theorem C26_examples :
    pcejson_next_token ⟨ejson_before_value_state, 10, 1, [58, 123], [], [], ejson_init_state⟩
        (chars "b64QUJD,")
      = ⟨some ⟨ejson_token_byte_squence, some (chars "b64QUJD")⟩, none,
          ⟨ejson_after_value_state, 10, 1, [58, 123], chars "b64QUJD", [], ejson_init_state⟩,
          [44]⟩
    ∧ pcejson_next_token
        ⟨ejson_before_value_state, 10, 1, [58, 123], [], [], ejson_init_state⟩
        (chars "b64QQ==,")
      = ⟨some ⟨ejson_token_byte_squence, some (chars "b64QQ==")⟩, none,
          ⟨ejson_after_value_state, 10, 1, [58, 123], chars "b64QQ==", [], ejson_init_state⟩,
          [44]⟩
    ∧ (pcejson_next_token
        ⟨ejson_before_value_state, 10, 1, [58, 123], [], [], ejson_init_state⟩
        (chars "b64QQ=Q,")).err = some PCEJSON_UNEXPECTED_BASE64_PARSE_ERROR :=
  ⟨by decide, by decide, by decide⟩

/-! ## C27: escape sequences -/

theorem escape_step_bad (d : Int) (f : Nat) (stk b b2 : List Nat) (rs : ejson_state) (c : Nat)
    (h : ¬ (c = 92 ∨ c = 47 ∨ c = 34 ∨ c = 98 ∨ c = 102 ∨ c = 110 ∨ c = 114 ∨ c = 116))
    (hu : c ≠ 117) :
    step ⟨ejson_string_escape_state, d, f, stk, b, b2, rs⟩ c
      = .ret none (some PCEJSON_BAD_JSON_STRING_ESCAPE_ENTITY_PARSE_ERROR)
          ⟨ejson_string_escape_state, d, f, stk, b, b2, rs⟩ false := by
  simp [step, string_escape_state, h, hu, PARSE_ERROR]

theorem hex4_step_bad (d : Int) (f : Nat) (stk b b2 : List Nat) (rs : ejson_state) (c : Nat)
    (h : is_ascii_hex_digit c = false) :
    step ⟨ejson_string_escape_four_hexadecimal_digits_state, d, f, stk, b, b2, rs⟩ c
      = .ret none (some PCEJSON_BAD_JSON_STRING_ESCAPE_ENTITY_PARSE_ERROR)
          ⟨ejson_string_escape_four_hexadecimal_digits_state, d, f, stk, b, b2, rs⟩ false := by
  simp [step, string_escape_four_hexadecimal_digits_state, h, PARSE_ERROR]

/-- C27: in each of the four quoted states (names and values, single and double quoted)
a backslash followed by one of `\ / " b f n r t` appends the backslash and that character
to the buffer and scanning goes on in the same quoted state; a backslash followed by any
other character except `u` returns no token and records the bad-string-escape error; a
backslash, `u` and four hex digits append these six characters to the buffer and scanning
goes on in the same quoted state; and a character that is no hex digit in the place of
one of the four digits returns no token and records the bad-string-escape error. -/
theorem C27_string_escape (s : ejson_state) (q : Nat) (hs : quoted_state s q)
    (d : Int) (f : Nat) (stk b b2 : List Nat) (rs : ejson_state) (rest : List Nat) :
    (∀ c, (c = 92 ∨ c = 47 ∨ c = 34 ∨ c = 98 ∨ c = 102 ∨ c = 110 ∨ c = 114 ∨ c = 116) →
      pcejson_next_token ⟨s, d, f, stk, b, b2, rs⟩ (92 :: c :: rest)
        = pcejson_next_token ⟨s, d, f, stk, b ++ [92, c], b2, s⟩ rest)
    ∧ (∀ c, ¬ (c = 92 ∨ c = 47 ∨ c = 34 ∨ c = 98 ∨ c = 102 ∨ c = 110 ∨ c = 114 ∨ c = 116) →
        c ≠ 117 →
      pcejson_next_token ⟨s, d, f, stk, b, b2, rs⟩ (92 :: c :: rest)
        = ⟨none, some PCEJSON_BAD_JSON_STRING_ESCAPE_ENTITY_PARSE_ERROR,
            ⟨ejson_string_escape_state, d, f, stk, b, b2, s⟩, rest⟩)
    ∧ (∀ h1 h2 h3 h4, is_ascii_hex_digit h1 = true → is_ascii_hex_digit h2 = true →
        is_ascii_hex_digit h3 = true → is_ascii_hex_digit h4 = true →
      pcejson_next_token ⟨s, d, f, stk, b, b2, rs⟩ (92 :: 117 :: h1 :: h2 :: h3 :: h4 :: rest)
        = pcejson_next_token
            ⟨s, d, f, stk, b ++ [92, 117, h1, h2, h3, h4], [h1, h2, h3, h4], s⟩ rest)
    ∧ (∀ hex x, hex.length < 4 → (∀ h ∈ hex, is_ascii_hex_digit h = true) →
        is_ascii_hex_digit x = false →
      pcejson_next_token ⟨s, d, f, stk, b, b2, rs⟩ (92 :: 117 :: hex ++ x :: rest)
        = ⟨none, some PCEJSON_BAD_JSON_STRING_ESCAPE_ENTITY_PARSE_ERROR,
            ⟨ejson_string_escape_four_hexadecimal_digits_state, d, f, stk, b, hex, s⟩,
            rest⟩) := by
  have hb := quoted_step_backslash s q hs d f stk b b2 rs
  refine ⟨?_, ?_, ?_, ?_⟩
  · intro c hc
    rw [nt_adv _ _ _ _ hb, nt_adv _ _ _ _ (escape_step d f stk b b2 s c hc)]
  · intro c hc hu
    rw [nt_adv _ _ _ _ hb, nt_ret _ _ _ _ _ _ _ (escape_step_bad d f stk b b2 s c hc hu)]
    rfl
  · intro h1 h2 h3 h4 e1 e2 e3 e4
    rw [nt_adv _ _ _ _ hb, nt_adv _ _ _ _ (escape_step_u d f stk b b2 s),
      nt_adv _ _ _ _ (hex4_step_more d f stk b [] s h1 e1 (by simp)),
      nt_adv _ _ _ _ (hex4_step_more d f stk b _ s h2 e2 (by simp)),
      nt_adv _ _ _ _ (hex4_step_more d f stk b _ s h3 e3 (by simp)),
      nt_adv _ _ _ _ (hex4_step_last d f stk b _ s h4 e4 (by simp))]
    simp
  · intro hex x hl hh hx
    rw [List.cons_append, List.cons_append, nt_adv _ _ _ _ hb,
      nt_adv _ _ _ _ (escape_step_u d f stk b b2 s)]
    have hbad := fun l => hex4_step_bad d f stk b l s x hx
    match hex, hl, hh with
    | [], _, _ =>
      rw [List.nil_append, nt_ret _ _ _ _ _ _ _ (hbad [])]
      rfl
    | [a1], _, hh =>
      rw [List.cons_append, List.nil_append,
        nt_adv _ _ _ _ (hex4_step_more d f stk b [] s a1 (hh a1 (by simp)) (by simp)),
        nt_ret _ _ _ _ _ _ _ (hbad _)]
      rfl
    | [a1, a2], _, hh =>
      rw [List.cons_append, List.cons_append, List.nil_append,
        nt_adv _ _ _ _ (hex4_step_more d f stk b [] s a1 (hh a1 (by simp)) (by simp)),
        nt_adv _ _ _ _ (hex4_step_more d f stk b _ s a2 (hh a2 (by simp)) (by simp)),
        nt_ret _ _ _ _ _ _ _ (hbad _)]
      rfl
    | [a1, a2, a3], _, hh =>
      rw [List.cons_append, List.cons_append, List.cons_append, List.nil_append,
        nt_adv _ _ _ _ (hex4_step_more d f stk b [] s a1 (hh a1 (by simp)) (by simp)),
        nt_adv _ _ _ _ (hex4_step_more d f stk b _ s a2 (hh a2 (by simp)) (by simp)),
        nt_adv _ _ _ _ (hex4_step_more d f stk b _ s a3 (hh a3 (by simp)) (by simp)),
        nt_ret _ _ _ _ _ _ _ (hbad _)]
      rfl
    | _ :: _ :: _ :: _ :: _, hl, _ => exact absurd hl (by simp)

/-- C27 in a double-quoted value with the text `x` buffered: the escape `\u00e9` is
appended, the escape `\q` is rejected. -/
theorem C27_string_escape_witness :
    pcejson_next_token
        ⟨ejson_value_double_quoted_state, 10, 1, [58, 123], [34, 120], [], ejson_init_state⟩
        (92 :: 117 :: 48 :: 48 :: 101 :: 57 :: [34, 125])
      = pcejson_next_token
          ⟨ejson_value_double_quoted_state, 10, 1, [58, 123],
            [34, 120] ++ [92, 117, 48, 48, 101, 57], [48, 48, 101, 57],
            ejson_value_double_quoted_state⟩ [34, 125]
    ∧ pcejson_next_token
        ⟨ejson_value_double_quoted_state, 10, 1, [58, 123], [34, 120], [], ejson_init_state⟩
        (92 :: 113 :: [34, 125])
      = ⟨none, some PCEJSON_BAD_JSON_STRING_ESCAPE_ENTITY_PARSE_ERROR,
          ⟨ejson_string_escape_state, 10, 1, [58, 123], [34, 120], [],
            ejson_value_double_quoted_state⟩, [34, 125]⟩ :=
  ⟨(C27_string_escape ejson_value_double_quoted_state 34 (Or.inr (Or.inr (Or.inr ⟨rfl, rfl⟩)))
      10 1 [58, 123] [34, 120] [] ejson_init_state [34, 125]).2.2.1 48 48 101 57
      (by decide) (by decide) (by decide) (by decide),
   (C27_string_escape ejson_value_double_quoted_state 34 (Or.inr (Or.inr (Or.inr ⟨rfl, rfl⟩)))
      10 1 [58, 123] [34, 120] [] ejson_init_state [34, 125]).2.1 113
      (by decide) (by decide)⟩

/-! ## C29: a comma where a key or a value is expected -/

/-- C29 as the code has it: a comma read in the before-name state or in the before-value
state, that is where a key or a value is expected, returns no token and records the
unexpected-character error; the tokenizer is left unchanged. The unexpected-comma error
is recorded by the after-value state only, for a comma behind a completed value when the
top of the container stack is none of the three markers; with one of the markers on top
the comma gives the COMMA token. -/
theorem C29_misplaced_comma (p : pcejson) (rest : List Nat) :
    ((p.state = ejson_before_name_state ∨ p.state = ejson_before_value_state) →
      pcejson_next_token p (44 :: rest)
        = ⟨none, some PCEJSON_UNEXPECTED_CHARACTER_PARSE_ERROR, p, rest⟩)
    ∧ (p.state = ejson_after_value_state →
        (pcutils_stack_top p.stack ≠ 123 ∧ pcutils_stack_top p.stack ≠ 91
          ∧ pcutils_stack_top p.stack ≠ 58 →
          pcejson_next_token p (44 :: rest)
            = ⟨none, some PCEJSON_UNEXPECTED_COMMA_PARSE_ERROR, p, rest⟩)
        ∧ (pcutils_stack_top p.stack = 123 ∨ pcutils_stack_top p.stack = 91
          ∨ pcutils_stack_top p.stack = 58 →
          (pcejson_next_token p (44 :: rest)).token = some ⟨ejson_token_comma, none⟩
          ∧ (pcejson_next_token p (44 :: rest)).err = none)) := by
  obtain ⟨s, d, f, stk, b, b2, rs⟩ := p
  have hw : is_whitespace 44 = false := by decide
  have ha : is_ascii_alpha 44 = false := by decide
  have hg : is_ascii_digit 44 = false := by decide
  refine ⟨?_, ?_⟩
  · rintro (h | h) <;> simp only at h <;> subst h
    · simp [pcejson_next_token, RECONSUME_LIMIT, dispatch, step, before_name_state, hw, ha,
        PARSE_ERROR]
    · simp [pcejson_next_token, RECONSUME_LIMIT, dispatch, step, before_value_state, hw, hg,
        PARSE_ERROR]
  · intro h
    simp only at h
    subst h
    refine ⟨?_, ?_⟩
    · rintro ⟨h1, h2, h3⟩
      simp only at h1 h2 h3
      simp [pcejson_next_token, RECONSUME_LIMIT, dispatch, step, after_value_state, hw, h1, h2,
        h3, PARSE_ERROR]
    · intro h1
      simp only at h1
      rcases h1 with h1 | h1 | h1 <;>
        simp [pcejson_next_token, RECONSUME_LIMIT, dispatch, step, after_value_state, hw, h1,
          RETURN_TOKEN, SWITCH_TO]

/-- C29 behind an opening brace: the comma is rejected with the unexpected-character
error. -/
theorem C29_misplaced_comma_witness :
    pcejson_next_token ⟨ejson_before_name_state, 10, 1, [123], [], [], ejson_init_state⟩
        (44 :: [125])
      = ⟨none, some PCEJSON_UNEXPECTED_CHARACTER_PARSE_ERROR,
          ⟨ejson_before_name_state, 10, 1, [123], [], [], ejson_init_state⟩, [125]⟩ :=
  (C29_misplaced_comma ⟨ejson_before_name_state, 10, 1, [123], [], [], ejson_init_state⟩
    [125]).1 (Or.inl rfl)

/-- The claim does not hold on the code: from a fresh parser, a comma directly behind an
opening brace, behind an opening bracket, behind the colon of a key, and behind another
comma (in an object and in an array) ends the parse with the unexpected-character error
recorded, not the unexpected-comma error. -/
theorem C29_counterexample :
    (pcejson_parse 0 (chars "\x7b,")).map (fun r => (r.error, r.rws))
      = some (some PCEJSON_UNEXPECTED_CHARACTER_PARSE_ERROR, [])
    ∧ (pcejson_parse 0 (chars "\x7b\"a\":[,")).map (fun r => (r.error, r.rws))
      = some (some PCEJSON_UNEXPECTED_CHARACTER_PARSE_ERROR, [])
    ∧ (pcejson_parse 0 (chars "\x7b\"a\":,")).map (fun r => (r.error, r.rws))
      = some (some PCEJSON_UNEXPECTED_CHARACTER_PARSE_ERROR, [])
    ∧ (pcejson_parse 0 (chars "\x7b\"a\":1,,")).map (fun r => (r.error, r.rws))
      = some (some PCEJSON_UNEXPECTED_CHARACTER_PARSE_ERROR, [])
    ∧ (pcejson_parse 0 (chars "\x7b\"a\":[1,,")).map (fun r => (r.error, r.rws))
      = some (some PCEJSON_UNEXPECTED_CHARACTER_PARSE_ERROR, []) :=
  ⟨by decide, by decide, by decide, by decide, by decide⟩
/-! ## C30: the end-of-file marker -/

/-- C30 fails on the code inside an escape sequence: when the end-of-file marker is read
right behind the backslash, or in the place of one of the four hex digits behind `u`,
no token is returned and the bad-string-escape error is recorded, because the two escape
states have no case for the marker. The other cases of the claim hold: in the four
quoted states, with two quotes read, and inside a triple-quoted text the marker gives an
EOF token with the eof-in-string error (for the text the token carries the buffer), and
in the init and the finished state it gives an EOF token with no error. -/
theorem C30_eof_in_escape (d : Int) (f : Nat) (stk b b2 : List Nat) (rs : ejson_state)
    (rest : List Nat) :
    pcejson_next_token ⟨ejson_string_escape_state, d, f, stk, b, b2, rs⟩ (0 :: rest)
      = ⟨none, some PCEJSON_BAD_JSON_STRING_ESCAPE_ENTITY_PARSE_ERROR,
          ⟨ejson_string_escape_state, d, f, stk, b, b2, rs⟩, rest⟩
    ∧ pcejson_next_token
        ⟨ejson_string_escape_four_hexadecimal_digits_state, d, f, stk, b, b2, rs⟩ (0 :: rest)
      = ⟨none, some PCEJSON_BAD_JSON_STRING_ESCAPE_ENTITY_PARSE_ERROR,
          ⟨ejson_string_escape_four_hexadecimal_digits_state, d, f, stk, b, b2, rs⟩, rest⟩
    ∧ pcejson_next_token
        ⟨ejson_value_double_quoted_state, d, f, stk, b, b2, rs⟩ (92 :: 0 :: rest)
      = ⟨none, some PCEJSON_BAD_JSON_STRING_ESCAPE_ENTITY_PARSE_ERROR,
          ⟨ejson_string_escape_state, d, f, stk, b, b2, ejson_value_double_quoted_state⟩,
          rest⟩
    ∧ (∀ s ∈ [ejson_name_single_quoted_state, ejson_name_double_quoted_state,
          ejson_value_single_quoted_state, ejson_value_double_quoted_state,
          ejson_value_two_double_quoted_state],
        pcejson_next_token ⟨s, d, f, stk, b, b2, rs⟩ (0 :: rest)
          = ⟨some ⟨ejson_token_eof, none⟩, some PCEJSON_EOF_IN_STRING_PARSE_ERROR,
              ⟨s, d, f, stk, b, b2, rs⟩, rest⟩)
    ∧ pcejson_next_token
        ⟨ejson_value_three_double_quoted_state, d, f, stk, b, b2, rs⟩ (0 :: rest)
      = ⟨some ⟨ejson_token_eof, some (pcejson_tmp_buff_dup b)⟩,
          some PCEJSON_EOF_IN_STRING_PARSE_ERROR,
          ⟨ejson_value_three_double_quoted_state, d, f, stk, b, b2, rs⟩, rest⟩
    ∧ (∀ s ∈ [ejson_init_state, ejson_finished_state],
        pcejson_next_token ⟨s, d, f, stk, b, b2, rs⟩ (0 :: rest)
          = ⟨some ⟨ejson_token_eof, none⟩, none, ⟨s, d, f, stk, b, b2, rs⟩, rest⟩) := by
  have hx : is_ascii_hex_digit 0 = false := by decide
  refine ⟨?_, ?_, ?_, ?_, ?_, ?_⟩
  · simp [pcejson_next_token, RECONSUME_LIMIT, dispatch, step, string_escape_state, PARSE_ERROR]
  · simp [pcejson_next_token, RECONSUME_LIMIT, dispatch, step,
      string_escape_four_hexadecimal_digits_state, hx, PARSE_ERROR]
  · simp [pcejson_next_token, RECONSUME_LIMIT, dispatch, step, value_double_quoted_state,
      string_escape_state, ADVANCE_TO, PARSE_ERROR]
  · intro s hs
    simp only [List.mem_cons, List.mem_singleton, List.not_mem_nil, or_false] at hs
    rcases hs with h | h | h | h | h <;> subst h <;>
      simp [pcejson_next_token, RECONSUME_LIMIT, dispatch, step, name_single_quoted_state,
        name_double_quoted_state, value_single_quoted_state, value_double_quoted_state,
        value_two_double_quoted_state, EOF_IN_STRING]
  · simp [pcejson_next_token, RECONSUME_LIMIT, dispatch, step,
      value_three_double_quoted_state, EOF_IN_STRING]
  · intro s hs
    simp only [List.mem_cons, List.mem_singleton, List.not_mem_nil, or_false] at hs
    rcases hs with h | h <;> subst h <;>
      simp [pcejson_next_token, RECONSUME_LIMIT, dispatch, step, init_state, finished_state,
        RETURN_TOKEN]

/-- The document `{"a":"x\` followed by the end-of-file marker, from a fresh parser: the
parse ends with the bad-string-escape error recorded; with the marker behind the `x` the
recorded error is eof-in-string. -/
theorem C30_examples :
    (pcejson_parse 0 (chars "\x7b\"a\":\"x" ++ [92, 0])).map (fun r => (r.error, r.ejson.state))
      = some (some PCEJSON_BAD_JSON_STRING_ESCAPE_ENTITY_PARSE_ERROR,
          ejson_string_escape_state)
    ∧ (pcejson_parse 0 (chars "\x7b\"a\":\"x" ++ [0])).map (fun r => (r.error, r.ejson.state))
      = some (some PCEJSON_EOF_IN_STRING_PARSE_ERROR, ejson_value_double_quoted_state) :=
  ⟨by decide, by decide⟩

/-! ## C23: the container stack -/

theorem keeps_advance (c : Nat) (p : pcejson) :
    keeps_invariant c (.advance p) = stack_invariant p := rfl

theorem keeps_reconsume (c : Nat) (p : pcejson) :
    keeps_invariant c (.reconsume p) = dispatch_invariant p c := rfl

theorem keeps_error (c : Nat) (t : Option pcejson_token) (e : pcejson_error) (p : pcejson)
    (u : Bool) : keeps_invariant c (.ret t (some e) p u) = true := rfl

theorem keeps_ret (c : Nat) (t : Option pcejson_token) (p : pcejson) (u : Bool) :
    keeps_invariant c (.ret t none p u) = stack_invariant p := rfl

theorem stack_ok_tail (stk : List Nat) (h : stack_ok stk = true) :
    stack_ok (pcutils_stack_pop stk) = true := by
  rcases stk with _ | ⟨x, _ | ⟨y, rest⟩⟩ <;> simp_all [stack_ok, pcutils_stack_pop]

theorem stack_ok_push_colon (stk : List Nat) (h : stack_ok stk = true)
    (ht : pcutils_stack_top stk = 123) : stack_ok (pcutils_stack_push stk 58) = true := by
  rcases stk with _ | ⟨x, rest⟩
  · simp [pcutils_stack_top] at ht
  · simp only [pcutils_stack_top, List.headD_cons] at ht
    subst ht
    simp [pcutils_stack_push, stack_ok, h]

theorem stack_ok_push_container (stk : List Nat) (m : Nat) (hm : m = 123 ∨ m = 91)
    (h : stack_ok stk = true) (ht : stk.isEmpty = true ∨ value_top stk = true) :
    stack_ok (pcutils_stack_push stk m) = true := by
  rcases stk with _ | ⟨x, rest⟩
  · rcases hm with rfl | rfl <;> simp [pcutils_stack_push, stack_ok]
  · simp only [List.isEmpty_cons, Bool.false_eq_true, false_or, value_top, pcutils_stack_top,
      List.headD_cons, Bool.or_eq_true, beq_iff_eq] at ht
    rcases hm with rfl | rfl <;> rcases ht with rfl | rfl <;>
      simp [pcutils_stack_push, stack_ok, h]

theorem value_top_after_close (stk : List Nat) (h : stack_ok stk = true)
    (ht : pcutils_stack_top stk = 123 ∨ pcutils_stack_top stk = 91)
    (hn : pcutils_stack_is_empty (pcutils_stack_pop stk) = false) :
    value_top (pcutils_stack_pop stk) = true := by
  rcases stk with _ | ⟨x, _ | ⟨y, rest⟩⟩
  · simp [pcutils_stack_top] at ht
  · simp [pcutils_stack_pop, pcutils_stack_is_empty] at hn
  · simp only [pcutils_stack_top, List.headD_cons] at ht
    simp only [stack_ok, Bool.and_eq_true, Bool.or_eq_true, beq_iff_eq] at h
    simp only [value_top, pcutils_stack_pop, List.tail_cons, pcutils_stack_top, List.headD_cons,
      Bool.or_eq_true, beq_iff_eq]
    omega

theorem key_top_after_colon (stk : List Nat) (h : stack_ok stk = true)
    (ht : pcutils_stack_top stk = 58) : pcutils_stack_top (pcutils_stack_pop stk) = 123 := by
  rcases stk with _ | ⟨x, _ | ⟨y, rest⟩⟩
  · simp [pcutils_stack_top] at ht
  · simp only [pcutils_stack_top, List.headD_cons] at ht
    subst ht
    simp [stack_ok] at h
  · simp only [pcutils_stack_top, List.headD_cons] at ht
    simp only [stack_ok, Bool.and_eq_true, Bool.or_eq_true, beq_iff_eq] at h
    simp only [pcutils_stack_pop, List.tail_cons, pcutils_stack_top, List.headD_cons]
    omega


theorem keeps_init (d : Int) (f : Nat) (stk b b2 : List Nat) (rs : ejson_state) (c : Nat)
    (h : dispatch_invariant ⟨ejson_init_state, d, f, stk, b, b2, rs⟩ c = true) :
    keeps_invariant c (step ⟨ejson_init_state, d, f, stk, b, b2, rs⟩ c) = true := by
  simp only [dispatch_invariant, stack_invariant, Bool.and_eq_true] at h
  simp only [step, init_state, ADVANCE_TO, RECONSUME_IN, RETURN_TOKEN, PARSE_ERROR,
    apply_ite (keeps_invariant c), keeps_advance, keeps_reconsume, keeps_error, keeps_ret,
    dispatch_invariant, stack_invariant, h, Bool.and_self, Bool.true_and, Bool.true_or,
    ite_self]
  split_ifs <;> simp_all

theorem keeps_object (d : Int) (f : Nat) (stk b b2 : List Nat) (rs : ejson_state) (c : Nat)
    (h : dispatch_invariant ⟨ejson_object_state, d, f, stk, b, b2, rs⟩ c = true) :
    keeps_invariant c (step ⟨ejson_object_state, d, f, stk, b, b2, rs⟩ c) = true := by
  simp only [dispatch_invariant, Bool.and_eq_true, Bool.or_eq_true, beq_iff_eq] at h
  obtain ⟨⟨h1, h2⟩, h3⟩ := h
  have f3 := stack_ok_push_container stk 123 (Or.inl rfl) h1 h3
  simp only [step, object_state, ADVANCE_TO, SWITCH_TO, RETURN_TOKEN, PARSE_ERROR,
    apply_ite (keeps_invariant c), keeps_advance, keeps_error, keeps_ret, stack_invariant, f3,
    Bool.true_and]
  split_ifs with ha hb
  · omega
  · simp [pcutils_stack_push, pcutils_stack_top]
  · rfl

theorem keeps_after_object (d : Int) (f : Nat) (stk b b2 : List Nat) (rs : ejson_state)
    (c : Nat) (h : dispatch_invariant ⟨ejson_after_object_state, d, f, stk, b, b2, rs⟩ c = true) :
    keeps_invariant c (step ⟨ejson_after_object_state, d, f, stk, b, b2, rs⟩ c) = true := by
  simp only [dispatch_invariant] at h
  have f1 := stack_ok_tail stk h
  simp only [step, after_object_state, SWITCH_TO, RETURN_TOKEN, PARSE_ERROR,
    apply_ite (keeps_invariant c), keeps_error, keeps_ret, stack_invariant, f1, Bool.true_and]
  split_ifs with ha hb hc
  · simpa [pcutils_stack_is_empty] using hc
  · exact value_top_after_close stk h (Or.inl hb) (by simpa using hc)
  · rfl
  · rfl

theorem keeps_array (d : Int) (f : Nat) (stk b b2 : List Nat) (rs : ejson_state) (c : Nat)
    (h : dispatch_invariant ⟨ejson_array_state, d, f, stk, b, b2, rs⟩ c = true) :
    keeps_invariant c (step ⟨ejson_array_state, d, f, stk, b, b2, rs⟩ c) = true := by
  simp only [dispatch_invariant, Bool.and_eq_true] at h
  have f4 := stack_ok_push_container stk 91 (Or.inr rfl) h.1 (Or.inr h.2)
  simp only [step, array_state, ADVANCE_TO, SWITCH_TO, RETURN_TOKEN, PARSE_ERROR,
    apply_ite (keeps_invariant c), keeps_advance, keeps_error, keeps_ret, stack_invariant, f4,
    h, Bool.true_and, Bool.and_self]
  split_ifs
  · rfl
  · simp [pcutils_stack_push, pcutils_stack_top, value_top]
  · rfl

theorem keeps_after_array (d : Int) (f : Nat) (stk b b2 : List Nat) (rs : ejson_state)
    (c : Nat) (h : dispatch_invariant ⟨ejson_after_array_state, d, f, stk, b, b2, rs⟩ c = true) :
    keeps_invariant c (step ⟨ejson_after_array_state, d, f, stk, b, b2, rs⟩ c) = true := by
  simp only [dispatch_invariant] at h
  have f1 := stack_ok_tail stk h
  simp only [step, after_array_state, SWITCH_TO, RETURN_TOKEN, PARSE_ERROR,
    apply_ite (keeps_invariant c), keeps_error, keeps_ret, stack_invariant, f1, Bool.true_and]
  split_ifs with ha hb hc
  · simpa [pcutils_stack_is_empty] using hc
  · exact value_top_after_close stk h (Or.inr hb) (by simpa using hc)
  · rfl
  · rfl

theorem keeps_before_name (d : Int) (f : Nat) (stk b b2 : List Nat) (rs : ejson_state)
    (c : Nat) (h : dispatch_invariant ⟨ejson_before_name_state, d, f, stk, b, b2, rs⟩ c = true) :
    keeps_invariant c (step ⟨ejson_before_name_state, d, f, stk, b, b2, rs⟩ c) = true := by
  simp only [dispatch_invariant, stack_invariant, Bool.and_eq_true, beq_iff_eq] at h
  have f2 := stack_ok_push_colon stk h.1 h.2
  have he : ∀ s, dispatch_invariant
      { before_name_enter ⟨ejson_before_name_state, d, f, stk, b, b2, rs⟩ with state := s } c
      = dispatch_invariant ⟨s, d, f, pcutils_stack_push stk 58, [], b2, rs⟩ c := by
    intro s
    simp [before_name_enter, h.2, pcejson_tmp_buff_reset]
  simp only [step, before_name_state, ADVANCE_TO, RECONSUME_IN, PARSE_ERROR,
    apply_ite (keeps_invariant c), keeps_advance, keeps_reconsume, keeps_error, he]
  simp only [dispatch_invariant, stack_invariant, f2, h, Bool.true_and, beq_self_eq_true]
  split_ifs <;> simp [pcutils_stack_push, pcutils_stack_top]


theorem keeps_after_name (d : Int) (f : Nat) (stk b b2 : List Nat) (rs : ejson_state)
    (c : Nat) (h : dispatch_invariant ⟨ejson_after_name_state, d, f, stk, b, b2, rs⟩ c = true) :
    keeps_invariant c (step ⟨ejson_after_name_state, d, f, stk, b, b2, rs⟩ c) = true := by
  simp only [dispatch_invariant, stack_invariant, Bool.and_eq_true, beq_iff_eq] at h
  have hv : value_top stk = true := by simp [value_top, h.2]
  simp only [step, after_name_state, ADVANCE_TO, SWITCH_TO, RETURN_TOKEN, PARSE_ERROR,
    apply_ite (keeps_invariant c), keeps_advance, keeps_error, keeps_ret, stack_invariant, h, hv,
    Bool.true_and, Bool.and_self, beq_self_eq_true, ite_self]

theorem keeps_before_value (d : Int) (f : Nat) (stk b b2 : List Nat) (rs : ejson_state)
    (c : Nat)
    (h : dispatch_invariant ⟨ejson_before_value_state, d, f, stk, b, b2, rs⟩ c = true) :
    keeps_invariant c (step ⟨ejson_before_value_state, d, f, stk, b, b2, rs⟩ c) = true := by
  simp only [dispatch_invariant, stack_invariant, Bool.and_eq_true] at h
  simp only [step, before_value_state, before_value_enter, ADVANCE_TO, RECONSUME_IN,
    PARSE_ERROR, apply_ite (keeps_invariant c), keeps_advance, keeps_reconsume, keeps_error,
    dispatch_invariant, stack_invariant, h, Bool.true_and, Bool.and_self, Bool.or_true]
  split_ifs <;> simp_all

theorem keeps_after_value (d : Int) (f : Nat) (stk b b2 : List Nat) (rs : ejson_state)
    (c : Nat)
    (h : dispatch_invariant ⟨ejson_after_value_state, d, f, stk, b, b2, rs⟩ c = true) :
    keeps_invariant c (step ⟨ejson_after_value_state, d, f, stk, b, b2, rs⟩ c) = true := by
  simp only [dispatch_invariant, stack_invariant, Bool.and_eq_true] at h
  have f1 := stack_ok_tail stk h.1
  simp only [step, after_value_state, ADVANCE_TO, RECONSUME_IN, SWITCH_TO, RETURN_TOKEN,
    PARSE_ERROR, apply_ite (keeps_invariant c), keeps_advance, keeps_reconsume, keeps_error,
    keeps_ret, dispatch_invariant, stack_invariant, h, f1, Bool.true_and, Bool.and_self]
  split_ifs with h1 h2 h3 h4 h5 h6 h7 h8
  all_goals first
    | rfl
    | exact beq_iff_eq.2 (key_top_after_colon stk h.1 h8)
    | (simp only [beq_iff_eq]; assumption)

theorem keeps_name_unquoted (d : Int) (f : Nat) (stk b b2 : List Nat) (rs : ejson_state)
    (c : Nat)
    (h : dispatch_invariant ⟨ejson_name_unquoted_state, d, f, stk, b, b2, rs⟩ c = true) :
    keeps_invariant c (step ⟨ejson_name_unquoted_state, d, f, stk, b, b2, rs⟩ c) = true := by
  simp only [dispatch_invariant, stack_invariant, Bool.and_eq_true] at h
  simp only [step, name_unquoted_state, ADVANCE_TO, RECONSUME_IN, PARSE_ERROR,
    apply_ite (keeps_invariant c), keeps_advance, keeps_reconsume, keeps_error,
    dispatch_invariant, stack_invariant, h, Bool.true_and, Bool.and_self, ite_self]

theorem keeps_name_single_quoted (d : Int) (f : Nat) (stk b b2 : List Nat) (rs : ejson_state)
    (c : Nat)
    (h : dispatch_invariant ⟨ejson_name_single_quoted_state, d, f, stk, b, b2, rs⟩ c = true) :
    keeps_invariant c (step ⟨ejson_name_single_quoted_state, d, f, stk, b, b2, rs⟩ c)
      = true := by
  simp only [dispatch_invariant, stack_invariant, Bool.and_eq_true] at h
  simp only [step, name_single_quoted_state, ADVANCE_TO, EOF_IN_STRING,
    apply_ite (keeps_invariant c), keeps_advance, keeps_error, stack_invariant, h,
    Bool.true_and, Bool.and_self, beq_self_eq_true, Bool.true_or, Bool.or_true, ite_self]

theorem keeps_name_double_quoted (d : Int) (f : Nat) (stk b b2 : List Nat) (rs : ejson_state)
    (c : Nat)
    (h : dispatch_invariant ⟨ejson_name_double_quoted_state, d, f, stk, b, b2, rs⟩ c = true) :
    keeps_invariant c (step ⟨ejson_name_double_quoted_state, d, f, stk, b, b2, rs⟩ c)
      = true := by
  simp only [dispatch_invariant, stack_invariant, Bool.and_eq_true] at h
  simp only [step, name_double_quoted_state, ADVANCE_TO, EOF_IN_STRING,
    apply_ite (keeps_invariant c), keeps_advance, keeps_error, stack_invariant, h,
    Bool.true_and, Bool.and_self, beq_self_eq_true, Bool.true_or, Bool.or_true, ite_self]

theorem keeps_value_single_quoted (d : Int) (f : Nat) (stk b b2 : List Nat) (rs : ejson_state)
    (c : Nat)
    (h : dispatch_invariant ⟨ejson_value_single_quoted_state, d, f, stk, b, b2, rs⟩ c = true) :
    keeps_invariant c (step ⟨ejson_value_single_quoted_state, d, f, stk, b, b2, rs⟩ c)
      = true := by
  simp only [dispatch_invariant, stack_invariant, Bool.and_eq_true] at h
  simp only [step, value_single_quoted_state, ADVANCE_TO, RECONSUME_IN, EOF_IN_STRING,
    apply_ite (keeps_invariant c), keeps_advance, keeps_reconsume, keeps_error,
    dispatch_invariant, stack_invariant, h,
    Bool.true_and, Bool.and_self, beq_self_eq_true, Bool.true_or, Bool.or_true, ite_self]
  try decide

theorem keeps_value_double_quoted (d : Int) (f : Nat) (stk b b2 : List Nat) (rs : ejson_state)
    (c : Nat)
    (h : dispatch_invariant ⟨ejson_value_double_quoted_state, d, f, stk, b, b2, rs⟩ c = true) :
    keeps_invariant c (step ⟨ejson_value_double_quoted_state, d, f, stk, b, b2, rs⟩ c)
      = true := by
  simp only [dispatch_invariant, stack_invariant, Bool.and_eq_true] at h
  simp only [step, value_double_quoted_state, ADVANCE_TO, RECONSUME_IN, EOF_IN_STRING,
    apply_ite (keeps_invariant c), keeps_advance, keeps_reconsume, keeps_error,
    dispatch_invariant, stack_invariant, h,
    Bool.true_and, Bool.and_self, beq_self_eq_true, Bool.true_or, Bool.or_true, ite_self]
  try decide

theorem keeps_string_escape (d : Int) (f : Nat) (stk b b2 : List Nat) (rs : ejson_state)
    (c : Nat)
    (h : dispatch_invariant ⟨ejson_string_escape_state, d, f, stk, b, b2, rs⟩ c = true) :
    keeps_invariant c (step ⟨ejson_string_escape_state, d, f, stk, b, b2, rs⟩ c) = true := by
  simp only [dispatch_invariant, stack_invariant, Bool.and_eq_true] at h
  have hr : stack_invariant ⟨rs, d, f, stk, b ++ [92] ++ utf8_bytes c, b2, rs⟩ = true := by
    obtain ⟨h1, h2⟩ := h
    simp only [Bool.or_eq_true, Bool.and_eq_true, beq_iff_eq] at h2
    rcases h2 with ⟨h2 | h2, h3⟩ | ⟨h2 | h2, h3⟩ <;> subst h2 <;>
      simp [stack_invariant, h1, h3]
  simp only [step, string_escape_state, ADVANCE_TO, RETURN_TO, PARSE_ERROR,
    pcejson_tmp_buff_append, apply_ite (keeps_invariant c), keeps_advance, keeps_error, hr]
  simp only [stack_invariant, h, Bool.true_and, ite_self]

theorem keeps_string_escape_hex (d : Int) (f : Nat) (stk b b2 : List Nat) (rs : ejson_state)
    (c : Nat)
    (h : dispatch_invariant
      ⟨ejson_string_escape_four_hexadecimal_digits_state, d, f, stk, b, b2, rs⟩ c = true) :
    keeps_invariant c
      (step ⟨ejson_string_escape_four_hexadecimal_digits_state, d, f, stk, b, b2, rs⟩ c)
      = true := by
  simp only [dispatch_invariant, stack_invariant, Bool.and_eq_true] at h
  have hr : ∀ x y, stack_invariant ⟨rs, d, f, stk, x, y, rs⟩ = true := by
    intro x y
    obtain ⟨h1, h2⟩ := h
    simp only [Bool.or_eq_true, Bool.and_eq_true, beq_iff_eq] at h2
    rcases h2 with ⟨h2 | h2, h3⟩ | ⟨h2 | h2, h3⟩ <;> subst h2 <;>
      simp [stack_invariant, h1, h3]
  simp only [step, string_escape_four_hexadecimal_digits_state, ADVANCE_TO, RETURN_TO,
    PARSE_ERROR, pcejson_tmp_buff_append, apply_ite (keeps_invariant c), keeps_advance,
    keeps_error, hr]
  simp only [stack_invariant, h, Bool.true_and, ite_self]


theorem step_keeps_invariant (p : pcejson) (c : Nat) (h : dispatch_invariant p c = true) :
    keeps_invariant c (step p c) = true := by
  obtain ⟨s, d, f, stk, b, b2, rs⟩ := p
  cases s
  case ejson_init_state => exact keeps_init d f stk b b2 rs c h
  case ejson_object_state => exact keeps_object d f stk b b2 rs c h
  case ejson_after_object_state => exact keeps_after_object d f stk b b2 rs c h
  case ejson_array_state => exact keeps_array d f stk b b2 rs c h
  case ejson_after_array_state => exact keeps_after_array d f stk b b2 rs c h
  case ejson_before_name_state => exact keeps_before_name d f stk b b2 rs c h
  case ejson_after_name_state => exact keeps_after_name d f stk b b2 rs c h
  case ejson_before_value_state => exact keeps_before_value d f stk b b2 rs c h
  case ejson_after_value_state => exact keeps_after_value d f stk b b2 rs c h
  case ejson_name_unquoted_state => exact keeps_name_unquoted d f stk b b2 rs c h
  case ejson_name_single_quoted_state => exact keeps_name_single_quoted d f stk b b2 rs c h
  case ejson_name_double_quoted_state => exact keeps_name_double_quoted d f stk b b2 rs c h
  case ejson_value_single_quoted_state => exact keeps_value_single_quoted d f stk b b2 rs c h
  case ejson_value_double_quoted_state => exact keeps_value_double_quoted d f stk b b2 rs c h
  case ejson_string_escape_state => exact keeps_string_escape d f stk b b2 rs c h
  case ejson_string_escape_four_hexadecimal_digits_state =>
    exact keeps_string_escape_hex d f stk b b2 rs c h
  all_goals
    simp only [dispatch_invariant, stack_invariant, Bool.and_eq_true] at h
    simp only [step, finished_state, after_value_double_quoted_state,
      value_two_double_quoted_state, value_three_double_quoted_state, keyword_accept,
      keyword_state, after_keyword_state, byte_sequence_state, after_byte_sequence_state,
      hex_byte_sequence_state, binary_byte_sequence_state, base64_byte_sequence_state,
      value_number_state, after_value_number_state, value_number_integer_state,
      value_number_fraction_state, value_number_exponent_state,
      value_number_exponent_integer_state, value_number_suffix_integer_state,
      ADVANCE_TO, RECONSUME_IN, SWITCH_TO, RETURN_TOKEN, RECONSUME_IN_NEXT,
      PARSE_ERROR, EOF_IN_STRING, RETURN_NULL, apply_ite (keeps_invariant c),
      keeps_advance, keeps_reconsume, keeps_error, keeps_ret, dispatch_invariant,
      stack_invariant, h, Bool.and_self, Bool.true_and, Bool.and_true, ite_self]

theorem dispatch_keeps_invariant (n : Nat) (p : pcejson) (c : Nat)
    (h : dispatch_invariant p c = true) :
    (∀ p1, dispatch n p c = .advance p1 → stack_invariant p1 = true)
    ∧ (∀ t p1 u, dispatch n p c = .ret t none p1 u → stack_invariant p1 = true) := by
  induction n generalizing p with
  | zero => simp [dispatch]
  | succ n ih =>
    have hs := step_keeps_invariant p c h
    rw [dispatch]
    cases hd : step p c with
    | advance p1 =>
      rw [hd, keeps_advance] at hs
      refine ⟨?_, ?_⟩
      · intro p2 h2
        cases h2
        exact hs
      · intro t p2 u h2
        cases h2
    | reconsume p1 =>
      rw [hd, keeps_reconsume] at hs
      exact ih p1 hs
    | ret t e p1 u =>
      refine ⟨?_, ?_⟩
      · intro p2 h2
        cases h2
      · intro t2 p2 u2 h2
        cases h2
        rw [hd, keeps_ret] at hs
        exact hs

theorem invariant_dispatch (p : pcejson) (c : Nat) (h : stack_invariant p = true) :
    dispatch_invariant p c = true := by
  obtain ⟨s, d, f, stk, b, b2, rs⟩ := p
  cases s <;> first
    | exact h
    | (simp [stack_invariant] at h)

theorem reachable_invariant (p : pcejson) (h : reachable p) : stack_invariant p = true := by
  induction h with
  | fresh d f => rfl
  | advance p p1 c _ hd ih =>
    exact (dispatch_keeps_invariant RECONSUME_LIMIT p c (invariant_dispatch p c ih)).1 p1 hd
  | ret p p1 c t u _ hd ih =>
    exact (dispatch_keeps_invariant RECONSUME_LIMIT p c (invariant_dispatch p c ih)).2 t p1 u hd

theorem stack_ok_iff (stk : List Nat) :
    stack_ok stk = true ↔
      (∀ m ∈ stk, m = 123 ∨ m = 91 ∨ m = 58)
      ∧ (∀ m, stk.getLast? = some m → m = 123 ∨ m = 91)
      ∧ (∀ i, stk[i]? = some 58 → stk[i + 1]? = some 123)
      ∧ (∀ i m, stk[i]? = some m → m = 123 ∨ m = 91 → i + 1 < stk.length →
          stk[i + 1]? = some 58 ∨ stk[i + 1]? = some 91) := by
  induction stk with
  | nil => simp [stack_ok]
  | cons x rest ih =>
    cases rest with
    | nil =>
      simp only [stack_ok, Bool.or_eq_true, beq_iff_eq, List.mem_singleton, forall_eq,
        List.getLast?_singleton, Option.some.injEq, forall_eq', List.length_singleton]
      constructor
      · intro h
        refine ⟨by omega, h, ?_, ?_⟩
        · intro i hi
          cases i with
          | zero => simp at hi; omega
          | succ i => simp at hi
        · intro i m _ _ hi
          omega
      · intro h
        exact h.2.1
    | cons y rest =>
      rw [stack_ok, Bool.and_eq_true, ih]
      simp only [Bool.or_eq_true, Bool.and_eq_true, beq_iff_eq]
      constructor
      · rintro ⟨hx, h1, h2, h3, h4⟩
        refine ⟨?_, ?_, ?_, ?_⟩
        · intro m hm
          rw [List.mem_cons] at hm
          rcases hm with rfl | hm
          · omega
          · exact h1 m hm
        · intro m hm
          rw [List.getLast?_cons_cons] at hm
          exact h2 m hm
        · intro i hi
          cases i with
          | zero =>
            simp only [List.getElem?_cons_zero, Option.some.injEq] at hi
            simp only [zero_add, List.getElem?_cons_succ, List.getElem?_cons_zero,
              Option.some.injEq]
            omega
          | succ i =>
            rw [List.getElem?_cons_succ] at hi ⊢
            exact h3 i hi
        · intro i m hi hm hl
          cases i with
          | zero =>
            simp only [List.getElem?_cons_zero, Option.some.injEq] at hi
            simp only [zero_add, List.getElem?_cons_succ, List.getElem?_cons_zero,
              Option.some.injEq]
            omega
          | succ i =>
            rw [List.getElem?_cons_succ] at hi ⊢
            exact h4 i m hi hm (by simpa using hl)
      · rintro ⟨h1, h2, h3, h4⟩
        refine ⟨?_, ?_, ?_, ?_, ?_⟩
        · have hx := h1 x (List.mem_cons_self _ _)
          have a3 := h3 0
          have a4 := h4 0 x (by simp) 
          simp only [List.getElem?_cons_zero, Option.some.injEq, zero_add,
            List.getElem?_cons_succ, List.length_cons] at a3 a4
          rcases hx with hx | hx | hx
          · have := a4 (Or.inl hx) (by omega)
            omega
          · have := a4 (Or.inr hx) (by omega)
            omega
          · have := a3 hx
            omega
        · intro m hm
          exact h1 m (List.mem_cons_of_mem _ hm)
        · intro m hm
          apply h2 m
          rw [List.getLast?_cons_cons]
          exact hm
        · intro i hi
          have := h3 (i + 1)
          rw [List.getElem?_cons_succ, List.getElem?_cons_succ] at this
          exact this hi
        · intro i m hi hm hl
          have := h4 (i + 1) m
          rw [List.getElem?_cons_succ, List.getElem?_cons_succ] at this
          exact this hi hm (by simpa using hl)


/-- C23: in every tokenizer that a fresh parser can become without an error, the
container stack holds only the markers `{`, `[` and `:`; its bottom entry, if any, is `{`
or `[`; directly below every `:` lies a `{`; directly below every `{` or `[` that is not
the bottom entry lies a `:` or a `[`; in the before-name state the top is `{`; in the
before-value and the after-value state the top is `:` or `[`; and the stack is empty
exactly in the init and the finished state. (The stack is written top first.) -/
theorem C23_container_stack (p : pcejson) (h : reachable p) :
    (∀ m ∈ p.stack, m = 123 ∨ m = 91 ∨ m = 58)
    ∧ (∀ m, p.stack.getLast? = some m → m = 123 ∨ m = 91)
    ∧ (∀ i, p.stack[i]? = some 58 → p.stack[i + 1]? = some 123)
    ∧ (∀ i m, p.stack[i]? = some m → m = 123 ∨ m = 91 → i + 1 < p.stack.length →
        p.stack[i + 1]? = some 58 ∨ p.stack[i + 1]? = some 91)
    ∧ (p.state = ejson_before_name_state → pcutils_stack_top p.stack = 123)
    ∧ (p.state = ejson_before_value_state ∨ p.state = ejson_after_value_state →
        pcutils_stack_top p.stack = 58 ∨ pcutils_stack_top p.stack = 91)
    ∧ (p.stack = [] ↔ p.state = ejson_init_state ∨ p.state = ejson_finished_state) := by
  have hi := reachable_invariant p h
  have hs : stack_ok p.stack = true := by
    simp only [stack_invariant, Bool.and_eq_true] at hi
    exact hi.1
  obtain ⟨h1, h2, h3, h4⟩ := (stack_ok_iff p.stack).1 hs
  refine ⟨h1, h2, h3, h4, ?_, ?_, ?_⟩
  · intro hst
    simp only [stack_invariant, hst, Bool.and_eq_true, beq_iff_eq] at hi
    exact hi.2
  · intro hst
    rcases hst with hst | hst <;>
      simp only [stack_invariant, hst, value_top, Bool.and_eq_true, Bool.or_eq_true,
        beq_iff_eq] at hi <;> exact hi.2
  · obtain ⟨s, d, f, stk, b, b2, rs⟩ := p
    cases s <;>
      simp only [stack_invariant, value_top, pcutils_stack_top, Bool.and_eq_true,
        Bool.or_eq_true, beq_iff_eq, Bool.false_eq_true, and_false] at hi <;>
      rcases stk with _ | ⟨x, r⟩ <;> simp_all

/-- C23 for the tokenizer behind the input `{"a":[`: it is reached from a fresh parser
without an error, it is in the before-value state, and the top of its stack `[ : {` is
the bracket. -/
theorem C23_container_stack_witness :
    pcutils_stack_top
        (⟨ejson_before_value_state, 10, 1, [91, 58, 123], [], [], ejson_init_state⟩ :
          pcejson).stack = 58
      ∨ pcutils_stack_top
        (⟨ejson_before_value_state, 10, 1, [91, 58, 123], [], [], ejson_init_state⟩ :
          pcejson).stack = 91 :=
  (C23_container_stack ⟨ejson_before_value_state, 10, 1, [91, 58, 123], [], [], ejson_init_state⟩
    (reachable.ret ⟨ejson_before_value_state, 10, 1, [58, 123], [97], [], ejson_init_state⟩
      _ 91 (some ⟨ejson_token_start_array, none⟩) false
      (reachable.ret ⟨ejson_after_name_state, 10, 1, [58, 123], [97], [], ejson_init_state⟩
        _ 58 (some ⟨ejson_token_key, some [97]⟩) false
        (reachable.advance
          ⟨ejson_name_double_quoted_state, 10, 1, [58, 123], [97], [], ejson_init_state⟩
          _ 34
          (reachable.advance
            ⟨ejson_name_double_quoted_state, 10, 1, [58, 123], [], [], ejson_init_state⟩
            _ 97
            (reachable.advance
              ⟨ejson_before_name_state, 10, 1, [123], [], [], ejson_init_state⟩ _ 34
              (reachable.ret (pcejson_create 10 1) _ 123
                (some ⟨ejson_token_start_object, none⟩) false (reachable.fresh 10 1)
                (by decide))
              (by decide))
            (by decide))
          (by decide))
        (by decide))
      (by decide))).2.2.2.2.2.1 (Or.inl rfl)
/-! ## C28: a closing brace or bracket that does not match -/

theorem innermost_array_top (stk : List Nat) (hok : stack_ok stk = true)
    (h : innermost_container stk = 91) :
    pcutils_stack_top stk = 91 ∧ pcutils_stack_top (pcutils_stack_pop stk) ≠ 123 := by
  rcases stk with _ | ⟨x, r⟩
  · simp [innermost_container] at h
  · have hx : x = 91 := by
      rcases r with _ | ⟨y, r⟩
      · simp only [stack_ok, Bool.or_eq_true, beq_iff_eq] at hok
        rcases hok with hx | hx
        · subst hx
          simp [innermost_container] at h
        · exact hx
      · simp only [stack_ok, Bool.and_eq_true, Bool.or_eq_true, beq_iff_eq] at hok
        rcases hok.1 with ⟨hx, hy⟩ | ⟨hx | hx, _⟩
        · subst hx
          subst hy
          simp [innermost_container] at h
        · subst hx
          simp [innermost_container] at h
        · exact hx
    subst hx
    refine ⟨rfl, ?_⟩
    rcases r with _ | ⟨y, r⟩
    · simp [pcutils_stack_top, pcutils_stack_pop]
    · simp only [stack_ok, Bool.and_eq_true, Bool.or_eq_true, beq_iff_eq] at hok
      simp only [pcutils_stack_top, pcutils_stack_pop, List.tail_cons, List.headD_cons]
      rcases hok.1 with ⟨hx, _⟩ | ⟨_, hy | hy⟩
      · simp at hx
      · omega
      · omega

theorem innermost_object_top (stk : List Nat) (h : innermost_container stk = 123) :
    pcutils_stack_top stk ≠ 91 := by
  rcases stk with _ | ⟨x, r⟩
  · simp [pcutils_stack_top]
  · intro hx
    simp only [pcutils_stack_top, List.headD_cons] at hx
    subst hx
    simp [innermost_container] at h

/-- C28 as the code has it, for a container stack of the shape the tokenizer keeps: a
closing brace read behind a completed value (after-value state) while the innermost open
container is an array returns no token and records the unexpected-right-brace error, the
top marker being popped; a closing bracket read where the value of an object member is
expected or behind such a value (before-value and after-value state) while the innermost
open container is an object returns no token and records the unexpected-right-bracket
error. A closing brace read where a value is expected (before-value state) and a closing
bracket read where a key is expected (before-name state) return no token and record the
unexpected-character error, the tokenizer unchanged. -/
theorem C28_mismatched_closer (p : pcejson) (rest : List Nat)
    (hok : stack_ok p.stack = true) :
    (p.state = ejson_after_value_state → innermost_container p.stack = 91 →
      pcejson_next_token p (125 :: rest)
        = ⟨none, some PCEJSON_UNEXPECTED_RIGHT_BRACE_PARSE_ERROR,
            { p with state := ejson_after_object_state,
                     stack := pcutils_stack_pop p.stack }, rest⟩)
    ∧ (p.state = ejson_after_value_state ∨ p.state = ejson_before_value_state →
        innermost_container p.stack = 123 →
        pcejson_next_token p (93 :: rest)
          = ⟨none, some PCEJSON_UNEXPECTED_RIGHT_BRACKET_PARSE_ERROR,
              { p with state := ejson_after_array_state }, rest⟩)
    ∧ (p.state = ejson_before_value_state →
        pcejson_next_token p (125 :: rest)
          = ⟨none, some PCEJSON_UNEXPECTED_CHARACTER_PARSE_ERROR, p, rest⟩)
    ∧ (p.state = ejson_before_name_state →
        pcejson_next_token p (93 :: rest)
          = ⟨none, some PCEJSON_UNEXPECTED_CHARACTER_PARSE_ERROR, p, rest⟩) := by
  obtain ⟨s, d, f, stk, b, b2, rs⟩ := p
  have hw : is_whitespace 125 = false := by decide
  have hw2 : is_whitespace 93 = false := by decide
  have ha : is_ascii_alpha 93 = false := by decide
  have hg : is_ascii_digit 125 = false := by decide
  have hg2 : is_ascii_digit 93 = false := by decide
  refine ⟨?_, ?_, ?_, ?_⟩
  · intro h hin
    simp only at h hin hok
    subst h
    obtain ⟨_, h2⟩ := innermost_array_top stk hok hin
    rw [nt_re_ret _ ⟨ejson_after_object_state, d, f, pcutils_stack_pop stk, b, b2, rs⟩
      ⟨ejson_after_object_state, d, f, pcutils_stack_pop stk, b, b2, rs⟩ 125 rest none
      (some PCEJSON_UNEXPECTED_RIGHT_BRACE_PARSE_ERROR) false
      (by simp [step, after_value_state, hw, RECONSUME_IN])
      (by simp [step, after_object_state, h2, PARSE_ERROR])]
    simp
  · intro h hin
    simp only at h hin
    have h2 := innermost_object_top stk hin
    rcases h with h | h <;> subst h
    · rw [nt_re_ret _ ⟨ejson_after_array_state, d, f, stk, b, b2, rs⟩
        ⟨ejson_after_array_state, d, f, stk, b, b2, rs⟩ 93 rest none
        (some PCEJSON_UNEXPECTED_RIGHT_BRACKET_PARSE_ERROR) false
        (by simp [step, after_value_state, hw2, RECONSUME_IN])
        (by simp [step, after_array_state, h2, PARSE_ERROR])]
      simp
    · rw [nt_re_ret _ ⟨ejson_after_array_state, d, f, stk, b, b2, rs⟩
        ⟨ejson_after_array_state, d, f, stk, b, b2, rs⟩ 93 rest none
        (some PCEJSON_UNEXPECTED_RIGHT_BRACKET_PARSE_ERROR) false
        (by simp [step, before_value_state, hw2, hg2, RECONSUME_IN])
        (by simp [step, after_array_state, h2, PARSE_ERROR])]
      simp
  · intro h
    simp only at h
    subst h
    simp [pcejson_next_token, RECONSUME_LIMIT, dispatch, step, before_value_state, hw, hg,
      PARSE_ERROR]
  · intro h
    simp only at h
    subst h
    simp [pcejson_next_token, RECONSUME_LIMIT, dispatch, step, before_name_state, hw2, ha,
      PARSE_ERROR]

/-- C28 behind the first element of an array that is the value of a key: the closing
brace is rejected with the unexpected-right-brace error and the bracket marker is
popped. -/
theorem C28_mismatched_closer_witness :
    stack_ok [91, 58, 123] = true
      ∧ pcejson_next_token
          ⟨ejson_after_value_state, 10, 1, [91, 58, 123], [49], [], ejson_init_state⟩
          (125 :: [])
        = ⟨none, some PCEJSON_UNEXPECTED_RIGHT_BRACE_PARSE_ERROR,
            ⟨ejson_after_object_state, 10, 1, [58, 123], [49], [], ejson_init_state⟩, []⟩ :=
  ⟨by decide,
    (C28_mismatched_closer
      ⟨ejson_after_value_state, 10, 1, [91, 58, 123], [49], [], ejson_init_state⟩ []
      (by decide)).1 rfl (by decide)⟩

/-- The claim does not hold on the code: from a fresh parser, a closing brace directly
behind an opening bracket or behind a comma of an array, and a closing bracket directly
behind an opening brace or behind a comma of an object, end the parse with the
unexpected-character error recorded, not the error of the brace or of the bracket. -/
theorem C28_counterexample :
    (pcejson_parse 0 (chars "\x7b\"a\":[\x7d")).map (fun r => (r.error, r.rws))
      = some (some PCEJSON_UNEXPECTED_CHARACTER_PARSE_ERROR, [])
    ∧ (pcejson_parse 0 (chars "\x7b\"a\":[1,\x7d")).map (fun r => (r.error, r.rws))
      = some (some PCEJSON_UNEXPECTED_CHARACTER_PARSE_ERROR, [])
    ∧ (pcejson_parse 0 (chars "\x7b]")).map (fun r => (r.error, r.rws))
      = some (some PCEJSON_UNEXPECTED_CHARACTER_PARSE_ERROR, [])
    ∧ (pcejson_parse 0 (chars "\x7b\"a\":1,]")).map (fun r => (r.error, r.rws))
      = some (some PCEJSON_UNEXPECTED_CHARACTER_PARSE_ERROR, []) :=
  ⟨by decide, by decide, by decide, by decide⟩
/-! ## C24: nesting of the container tokens and the node stack -/

theorem nest_step_advance (p p1 : pcejson) :
    nest_step p (.advance p1) = (open_containers p1.stack == open_containers p.stack) := rfl

theorem nest_step_reconsume (p p1 : pcejson) :
    nest_step p (.reconsume p1)
      = (open_containers p1.stack == open_containers p.stack || brace_refused p1) := rfl

theorem nest_step_ret (p p1 : pcejson) (t : pcejson_token) (e : Option pcejson_error)
    (u : Bool) :
    nest_step p (.ret (some t) e p1 u)
      = (nest_token (open_containers p.stack) t == some (open_containers p1.stack)) := rfl

theorem nest_step_null (p p1 : pcejson) (e : Option pcejson_error) (u : Bool) :
    nest_step p (.ret none e p1 u) = (!is_finished p1 || p.stack.isEmpty) := rfl

theorem step_nest (p : pcejson) (c : Nat) (h : dispatch_invariant p c = true) :
    nest_step p (step p c) = true := by
  obtain ⟨s, d, f, stk, b, b2, rs⟩ := p
  cases s
  all_goals
    simp only [dispatch_invariant, stack_invariant, Bool.and_eq_true] at h
    simp only [step, init_state, finished_state, object_state, after_object_state,
      array_state, after_array_state, before_name_state, after_name_state, before_value_state,
      after_value_state, name_unquoted_state, name_single_quoted_state,
      name_double_quoted_state, value_single_quoted_state, value_double_quoted_state,
      string_escape_state, string_escape_four_hexadecimal_digits_state,
      after_value_double_quoted_state,
      value_two_double_quoted_state, value_three_double_quoted_state, keyword_accept,
      keyword_state, after_keyword_state, byte_sequence_state, after_byte_sequence_state,
      hex_byte_sequence_state, binary_byte_sequence_state, base64_byte_sequence_state,
      value_number_state, after_value_number_state, value_number_integer_state,
      value_number_fraction_state, value_number_exponent_state,
      value_number_exponent_integer_state, value_number_suffix_integer_state,
      ADVANCE_TO, RETURN_TO, RECONSUME_IN, SWITCH_TO, RETURN_TOKEN, RECONSUME_IN_NEXT,
      PARSE_ERROR, EOF_IN_STRING, RETURN_NULL, apply_ite (nest_step _),
      nest_step_advance, nest_step_reconsume, nest_step_ret, nest_step_null,
      nest_token, is_finished, brace_refused, beq_self_eq_true, Bool.true_or, Bool.not_false,
      Bool.or_true, Bool.not_true, Bool.false_or, h, ite_self]
  case ejson_object_state =>
    split_ifs <;> simp [pcutils_stack_push, open_containers]
  case ejson_array_state =>
    split_ifs <;> simp [pcutils_stack_push, open_containers]
  case ejson_after_object_state =>
    rcases stk with _ | ⟨x, r⟩
    · simp [pcutils_stack_top]
    · split_ifs with h1 h2
      · simp only [pcutils_stack_top, List.headD_cons] at h2
        subst h2
        simp [open_containers, pcutils_stack_pop]
      · rfl
      · rfl
  case ejson_after_array_state =>
    rcases stk with _ | ⟨x, r⟩
    · simp [pcutils_stack_top]
    · split_ifs with h1 h2
      · simp only [pcutils_stack_top, List.headD_cons] at h2
        subst h2
        simp [open_containers, pcutils_stack_pop]
      · rfl
      · rfl
  case ejson_before_name_state =>
    have hp : open_containers (before_name_enter
        ⟨ejson_before_name_state, d, f, stk, b, b2, rs⟩).stack = open_containers stk := by
      simp only [before_name_enter, pcutils_stack_push]
      split_ifs <;> simp [open_containers]
    simp [hp]
  case ejson_before_value_state =>
    simp [before_value_enter]
  case ejson_after_value_state =>
    obtain ⟨h1, h2⟩ := h
    rcases stk with _ | ⟨x, _ | ⟨y, r⟩⟩
    · simp [value_top, pcutils_stack_top] at h2
    · simp only [stack_ok, Bool.or_eq_true, beq_iff_eq] at h1
      simp [pcutils_stack_pop, pcutils_stack_top, open_containers]
      omega
    · simp only [stack_ok, Bool.and_eq_true, Bool.or_eq_true, beq_iff_eq] at h1
      simp only [value_top, pcutils_stack_top, List.headD_cons, Bool.or_eq_true,
        beq_iff_eq] at h2
      rcases h2 with rfl | rfl
      · simp [pcutils_stack_pop, pcutils_stack_top, open_containers]
      · have hy : y ≠ 123 := by omega
        simp [pcutils_stack_pop, pcutils_stack_top, open_containers, hy]

theorem fresh_step_advance (p p1 : pcejson) :
    fresh_step p (.advance p1) = (!fresh_state p1 || fresh_state p) := rfl

theorem fresh_step_reconsume (p p1 : pcejson) :
    fresh_step p (.reconsume p1) = (!fresh_state p1 || fresh_state p) := rfl

theorem fresh_step_ret (p p1 : pcejson) (t : pcejson_token) (e : Option pcejson_error)
    (u : Bool) :
    fresh_step p (.ret (some t) e p1 u)
      = ((!fresh_state p1 || (fresh_state p && t.type == ejson_token_eof))
          && (!(container_token t && p.stack.isEmpty) || fresh_state p)
          && (!leaf_token t || !p.stack.isEmpty)
          && (e.isNone || (p1 == p && between_calls p))) := rfl

theorem fresh_step_null (p p1 : pcejson) (e : Option pcejson_error) (u : Bool) :
    fresh_step p (.ret none e p1 u) = true := rfl

theorem step_fresh (p : pcejson) (c : Nat) (h : dispatch_invariant p c = true) :
    fresh_step p (step p c) = true := by
  obtain ⟨s, d, f, stk, b, b2, rs⟩ := p
  cases s
  all_goals
    simp only [dispatch_invariant, stack_invariant, Bool.and_eq_true] at h
    simp only [step, init_state, finished_state, object_state, after_object_state,
      array_state, after_array_state, before_name_state, after_name_state, before_value_state,
      after_value_state, name_unquoted_state, name_single_quoted_state,
      name_double_quoted_state, value_single_quoted_state, value_double_quoted_state,
      string_escape_state, string_escape_four_hexadecimal_digits_state,
      after_value_double_quoted_state,
      value_two_double_quoted_state, value_three_double_quoted_state, keyword_accept,
      keyword_state, after_keyword_state, byte_sequence_state, after_byte_sequence_state,
      hex_byte_sequence_state, binary_byte_sequence_state, base64_byte_sequence_state,
      value_number_state, after_value_number_state, value_number_integer_state,
      value_number_fraction_state, value_number_exponent_state,
      value_number_exponent_integer_state, value_number_suffix_integer_state,
      before_name_enter, before_value_enter,
      ADVANCE_TO, RETURN_TO, RECONSUME_IN, SWITCH_TO, RETURN_TOKEN, RECONSUME_IN_NEXT,
      PARSE_ERROR, EOF_IN_STRING, RETURN_NULL, apply_ite (fresh_step _),
      fresh_step_advance, fresh_step_reconsume, fresh_step_ret, fresh_step_null,
      fresh_state, container_token, leaf_token, between_calls, Option.isNone_none,
      Option.isNone_some, beq_self_eq_true, Bool.true_or, Bool.not_false,
      Bool.or_true, Bool.not_true, Bool.false_or, Bool.and_true, Bool.true_and,
      Bool.false_and, Bool.and_false, Bool.or_false, Bool.and_self, h, ite_self]
  case ejson_string_escape_state =>
    have hr : fresh_state ⟨rs, d, f, stk, b, b2, rs⟩ = false := by
      simp only [Bool.and_eq_true, Bool.or_eq_true, beq_iff_eq] at h
      rcases h.2 with ⟨h1 | h1, _⟩ | ⟨h1 | h1, _⟩ <;> subst h1 <;> rfl
    simp only [fresh_state] at hr
    simp [hr]
  case ejson_string_escape_four_hexadecimal_digits_state =>
    have hr : fresh_state ⟨rs, d, f, stk, b, b2, rs⟩ = false := by
      simp only [Bool.and_eq_true, Bool.or_eq_true, beq_iff_eq] at h
      rcases h.2 with ⟨h1 | h1, _⟩ | ⟨h1 | h1, _⟩ <;> subst h1 <;> rfl
    simp only [fresh_state] at hr
    simp [hr]
  all_goals
    rcases stk with _ | ⟨x, r⟩ <;> simp_all [value_top, pcutils_stack_top]

theorem finished_step_advance (p p1 : pcejson) :
    finished_step p (.advance p1) = (!is_finished p1 || is_finished p) := rfl

theorem finished_step_reconsume (p p1 : pcejson) :
    finished_step p (.reconsume p1) = (!is_finished p1 || is_finished p) := rfl

theorem finished_step_ret (p p1 : pcejson) (t : pcejson_token) (e : Option pcejson_error)
    (u : Bool) :
    finished_step p (.ret (some t) e p1 u)
      = (!is_finished p1 || is_finished p || t.type == ejson_token_end_object
          || t.type == ejson_token_end_array) := rfl

theorem finished_step_null (p p1 : pcejson) (e : Option pcejson_error) (u : Bool) :
    finished_step p (.ret none e p1 u) = (!is_finished p1 || is_finished p) := rfl

theorem step_finished (p : pcejson) (c : Nat) (h : dispatch_invariant p c = true) :
    finished_step p (step p c) = true := by
  obtain ⟨s, d, f, stk, b, b2, rs⟩ := p
  cases s
  all_goals
    simp only [dispatch_invariant, stack_invariant, Bool.and_eq_true] at h
    simp only [step, init_state, finished_state, object_state, after_object_state,
      array_state, after_array_state, before_name_state, after_name_state, before_value_state,
      after_value_state, name_unquoted_state, name_single_quoted_state,
      name_double_quoted_state, value_single_quoted_state, value_double_quoted_state,
      string_escape_state, string_escape_four_hexadecimal_digits_state,
      after_value_double_quoted_state,
      value_two_double_quoted_state, value_three_double_quoted_state, keyword_accept,
      keyword_state, after_keyword_state, byte_sequence_state, after_byte_sequence_state,
      hex_byte_sequence_state, binary_byte_sequence_state, base64_byte_sequence_state,
      value_number_state, after_value_number_state, value_number_integer_state,
      value_number_fraction_state, value_number_exponent_state,
      value_number_exponent_integer_state, value_number_suffix_integer_state,
      before_name_enter, before_value_enter,
      ADVANCE_TO, RETURN_TO, RECONSUME_IN, SWITCH_TO, RETURN_TOKEN, RECONSUME_IN_NEXT,
      PARSE_ERROR, EOF_IN_STRING, RETURN_NULL, apply_ite (finished_step _),
      finished_step_advance, finished_step_reconsume, finished_step_ret, finished_step_null,
      is_finished, beq_self_eq_true, Bool.true_or, Bool.not_false,
      Bool.or_true, Bool.not_true, Bool.false_or, Bool.and_true, Bool.true_and,
      Bool.false_and, Bool.and_false, Bool.or_false, Bool.and_self, h, ite_self]
  all_goals
    have hr : is_finished ⟨rs, d, f, stk, b, b2, rs⟩ = false := by
      simp only [Bool.and_eq_true, Bool.or_eq_true, beq_iff_eq] at h
      rcases h.2 with ⟨h1 | h1, _⟩ | ⟨h1 | h1, _⟩ <;> subst h1 <;> rfl
    simp only [is_finished] at hr
    simp [hr]

theorem open_containers_eq_nil (stk : List Nat) (h : stack_ok stk = true) :
    open_containers stk = [] ↔ stk = [] := by
  rcases stk with _ | ⟨x, _ | ⟨y, r⟩⟩
  · simp [open_containers]
  · simp only [stack_ok, Bool.or_eq_true, beq_iff_eq] at h
    rcases h with rfl | rfl <;> simp [open_containers]
  · simp only [stack_ok, Bool.and_eq_true, Bool.or_eq_true, beq_iff_eq] at h
    rcases h.1 with ⟨rfl, rfl⟩ | ⟨rfl | rfl, _⟩ <;> simp [open_containers]

theorem dispatch_invariant_ok (p : pcejson) (c : Nat) (h : dispatch_invariant p c = true) :
    stack_ok p.stack = true := by
  obtain ⟨s, d, f, stk, b, b2, rs⟩ := p
  cases s <;> simp only [dispatch_invariant, stack_invariant, Bool.and_eq_true] at h <;>
    first
      | exact h
      | exact h.1
      | exact h.1.1

theorem dispatch_invariant_between (p : pcejson) (c : Nat) (hb : between_calls p = true) :
    dispatch_invariant p c = stack_invariant p := by
  obtain ⟨s, d, f, stk, b, b2, rs⟩ := p
  cases s <;> first
    | rfl
    | (simp [between_calls] at hb)

theorem finished_stack (p : pcejson) (c : Nat) (h : dispatch_invariant p c = true)
    (hf : is_finished p = true) : open_containers p.stack = [] := by
  obtain ⟨s, d, f, stk, b, b2, rs⟩ := p
  cases s <;> simp only [is_finished, Bool.false_eq_true] at hf
  simp only [dispatch_invariant, stack_invariant, Bool.and_eq_true, List.isEmpty_iff] at h
  simp [h.2, open_containers]

theorem step_brace_refused (p : pcejson) (c : Nat) (h : brace_refused p = true) :
    ∃ e, step p c = .ret none (some e) p false := by
  obtain ⟨s, d, f, stk, b, b2, rs⟩ := p
  cases s <;> simp only [brace_refused, Bool.false_eq_true] at h
  simp only [bne_iff_ne, ne_eq] at h
  by_cases hc : c = 125
  · exact ⟨PCEJSON_UNEXPECTED_RIGHT_BRACE_PARSE_ERROR, by
      simp [step, after_object_state, hc, h, PARSE_ERROR]⟩
  · exact ⟨PCEJSON_UNEXPECTED_CHARACTER_PARSE_ERROR, by
      simp [step, after_object_state, hc, PARSE_ERROR]⟩

theorem brace_refused_not_finished (p : pcejson) (h : brace_refused p = true) :
    is_finished p = false := by
  obtain ⟨s, d, f, stk, b, b2, rs⟩ := p
  cases s <;> first
    | rfl
    | (simp [brace_refused] at h)

theorem dispatch_sound_transfer (p p1 : pcejson) (o : Outcome)
    (ho : open_containers p1.stack = open_containers p.stack)
    (hf : fresh_state p1 = true → fresh_state p = true)
    (hd : is_finished p1 = true → is_finished p = true) (h : dispatch_sound p1 o) :
    dispatch_sound p o := by
  cases o with
  | advance p2 =>
    simp only [dispatch_sound] at h ⊢
    exact ⟨h.1, h.2.1.trans ho, fun h2 => hf (h.2.2.1 h2), fun h2 => hd (h.2.2.2 h2)⟩
  | reconsume p2 =>
    simp only [dispatch_sound] at h ⊢
    rw [← ho]
    exact fun h2 => ⟨(h h2).1, hd (h h2).2⟩
  | ret t e p2 u =>
    cases t with
    | none =>
      simp only [dispatch_sound] at h ⊢
      rw [← ho]
      exact fun h2 => ⟨(h h2).1, hd (h h2).2⟩
    | some t =>
      simp only [dispatch_sound] at h ⊢
      rw [← ho]
      refine ⟨h.1, h.2.1, fun h2 => ⟨hf (h.2.2.1 h2).1, (h.2.2.1 h2).2⟩,
        fun h2 h3 => hf (h.2.2.2.1 h2 h3), h.2.2.2.2.1, ?_⟩
      intro h2
      rcases h.2.2.2.2.2 h2 with h3 | h3
      · exact Or.inl (hd h3)
      · exact Or.inr h3

theorem step_sound (p : pcejson) (c : Nat) (h : dispatch_invariant p c = true)
    (o : Outcome) (ho : step p c = o) (hr : ∀ p1, o ≠ .reconsume p1) : dispatch_sound p o := by
  have hk := step_keeps_invariant p c h
  have hn := step_nest p c h
  have hf := step_fresh p c h
  have hd := step_finished p c h
  have hok := dispatch_invariant_ok p c h
  have hnil : p.stack.isEmpty = true ↔ open_containers p.stack = [] := by
    rw [open_containers_eq_nil p.stack hok, List.isEmpty_iff]
  rw [ho] at hk hn hf hd
  cases o with
  | advance p1 =>
    simp only [keeps_advance] at hk
    simp only [nest_step_advance, beq_iff_eq] at hn
    simp only [fresh_step_advance, Bool.or_eq_true, Bool.not_eq_true'] at hf
    simp only [finished_step_advance, Bool.or_eq_true, Bool.not_eq_true'] at hd
    refine ⟨hk, hn, ?_, ?_⟩
    · intro h1
      rcases hf with hf | hf
      · rw [h1] at hf
        cases hf
      · exact hf
    · intro h1
      rcases hd with hd | hd
      · rw [h1] at hd
        cases hd
      · exact hd
  | reconsume p1 => exact absurd rfl (hr p1)
  | ret t e p1 u =>
    cases t with
    | none =>
      simp only [nest_step_null, Bool.or_eq_true, Bool.not_eq_true'] at hn
      simp only [finished_step_null, Bool.or_eq_true, Bool.not_eq_true'] at hd
      simp only [dispatch_sound]
      intro h1
      refine ⟨?_, ?_⟩
      · rcases hn with hn | hn
        · rw [h1] at hn
          cases hn
        · exact hnil.1 hn
      · rcases hd with hd | hd
        · rw [h1] at hd
          cases hd
        · exact hd
    | some t =>
      simp only [nest_step_ret, beq_iff_eq] at hn
      simp only [fresh_step_ret, Bool.and_eq_true, Bool.or_eq_true, Bool.not_eq_true',
        beq_iff_eq, Option.isNone_iff_eq_none, Bool.and_eq_false_imp] at hf
      obtain ⟨⟨⟨f1, f2⟩, f3⟩, f4⟩ := hf
      have hinv : stack_invariant p1 = true := by
        rcases f4 with f4 | ⟨f4, f5⟩
        · subst f4
          simpa only [keeps_ret] using hk
        · subst f4
          rw [← dispatch_invariant_between p1 c f5]
          exact h
      simp only [finished_step_ret, Bool.or_eq_true, Bool.not_eq_true', beq_iff_eq] at hd
      refine ⟨hinv, hn, ?_, ?_, ?_, ?_⟩
      rotate_left 3
      · intro h1
        rcases hd with ((hd | hd) | hd) | hd
        · rw [h1] at hd
          cases hd
        · exact Or.inl hd
        · exact Or.inr (Or.inl hd)
        · exact Or.inr (Or.inr hd)
      · intro h1
        rcases f1 with f1 | f1
        · rw [h1] at f1
          cases f1
        · exact f1
      · intro h1 h2
        rcases f2 with f2 | f2
        · have := f2 h1
          rw [hnil.2 h2] at this
          cases this
        · exact f2
      · intro h1 h2
        rcases f3 with f3 | f3
        · rw [h1] at f3
          cases f3
        · rw [hnil.2 h2] at f3
          cases f3

theorem dispatch_is_sound (n : Nat) (p : pcejson) (c : Nat)
    (h : dispatch_invariant p c = true) : dispatch_sound p (dispatch n p c) := by
  induction n generalizing p with
  | zero =>
    simp only [dispatch, dispatch_sound]
    exact fun h1 => ⟨finished_stack p c h h1, h1⟩
  | succ n ih =>
    rw [dispatch]
    cases hd : step p c with
    | advance p1 => exact step_sound p c h _ hd (by simp)
    | ret t e p1 u => exact step_sound p c h _ hd (by simp)
    | reconsume p1 =>
      have hk := step_keeps_invariant p c h
      have hn := step_nest p c h
      have hf := step_fresh p c h
      have hfin := step_finished p c h
      rw [hd] at hk hn hf hfin
      simp only [finished_step_reconsume, Bool.or_eq_true, Bool.not_eq_true'] at hfin
      have hfin2 : is_finished p1 = true → is_finished p = true := by
        intro h1
        rcases hfin with hfin | hfin
        · rw [h1] at hfin
          cases hfin
        · exact hfin
      simp only [keeps_reconsume] at hk
      simp only [nest_step_reconsume, Bool.or_eq_true, beq_iff_eq] at hn
      simp only [fresh_step_reconsume, Bool.or_eq_true, Bool.not_eq_true'] at hf
      have hf2 : fresh_state p1 = true → fresh_state p = true := by
        intro h1
        rcases hf with hf | hf
        · rw [h1] at hf
          cases hf
        · exact hf
      simp only []
      rcases hn with hn | hn
      · exact dispatch_sound_transfer p p1 _ hn hf2 hfin2 (ih p1 hk)
      · have hnf := brace_refused_not_finished p1 hn
        cases n with
        | zero =>
          simp only [dispatch, dispatch_sound, hnf, Bool.false_eq_true, false_implies]
        | succ n =>
          obtain ⟨e, he⟩ := step_brace_refused p1 c hn
          simp only [dispatch, he, dispatch_sound, hnf, Bool.false_eq_true, false_implies]

theorem next_token_sound (rws : List Nat) (p : pcejson) (h : stack_invariant p = true) :
    dispatch_sound p (.ret (pcejson_next_token p rws).token (pcejson_next_token p rws).err
      (pcejson_next_token p rws).ejson false) := by
  induction rws generalizing p with
  | nil =>
    simp only [pcejson_next_token, dispatch_sound]
    exact fun h1 => ⟨finished_stack p 0 (invariant_dispatch p 0 h) h1, h1⟩
  | cons c rws ih =>
    have hs := dispatch_is_sound RECONSUME_LIMIT p c (invariant_dispatch p c h)
    rw [pcejson_next_token]
    cases hd : dispatch RECONSUME_LIMIT p c with
    | advance p1 =>
      rw [hd] at hs
      simp only [dispatch_sound] at hs
      simp only []
      exact dispatch_sound_transfer p p1 _ hs.2.1 hs.2.2.1 hs.2.2.2 (ih p1 hs.1)
    | reconsume p1 =>
      rw [hd] at hs
      exact hs
    | ret t e p1 u =>
      rw [hd] at hs
      cases t with
      | none => exact hs
      | some t => exact hs

theorem length_append_child (nodes : List pcvcm_node) (parent child : Nat) :
    (pctree_node_append_child nodes parent child).length = nodes.length := by
  induction nodes generalizing parent with
  | nil => simp [pctree_node_append_child]
  | cons nd rest ih =>
    rcases parent with _ | _ | parent
    · simp [pctree_node_append_child]
    · simp [pctree_node_append_child]
    · simp [pctree_node_append_child, ih]

theorem all_children_append_child (nodes : List pcvcm_node) (parent child : Nat)
    (h1 : 1 ≤ parent) (h2 : parent ≤ nodes.length) (q : Nat) :
    (all_children (pctree_node_append_child nodes parent child)).count q
      = (all_children nodes).count q + if q = child then 1 else 0 := by
  induction nodes generalizing parent with
  | nil =>
    simp only [List.length_nil] at h2
    omega
  | cons nd rest ih =>
    rcases parent with _ | _ | parent
    · omega
    · simp only [pctree_node_append_child, all_children, List.map_cons, List.flatten_cons,
        List.count_append, List.count_cons, List.count_nil, zero_add, beq_iff_eq]
      by_cases hq : q = child
      · subst hq
        simp only [if_true]
        omega
      · have hq2 : ¬ child = q := fun h => hq h.symm
        simp only [hq, hq2, if_false]
        omega
    · have := ih (parent + 1) (by omega) (by simpa using h2)
      simp only [all_children] at this
      simp only [pctree_node_append_child, all_children, List.map_cons, List.flatten_cons,
        List.count_append, this]
      omega

theorem getElem_append_child (nodes : List pcvcm_node) (parent child i : Nat)
    (nd : pcvcm_node) (h : (pctree_node_append_child nodes parent child)[i]? = some nd) :
    nodes[i]? = some nd
      ∨ (i + 1 = parent ∧ ∃ nd0, nodes[i]? = some nd0 ∧ nd.children = nd0.children ++ [child]) := by
  induction nodes generalizing parent i with
  | nil => simp [pctree_node_append_child] at h
  | cons nd1 rest ih =>
    rcases parent with _ | _ | parent
    · simp only [pctree_node_append_child] at h
      exact Or.inl h
    · simp only [pctree_node_append_child] at h
      cases i with
      | zero =>
        simp only [List.getElem?_cons_zero, Option.some.injEq] at h
        right
        refine ⟨rfl, nd1, by simp, ?_⟩
        rw [← h]
      | succ i =>
        rw [List.getElem?_cons_succ] at h
        left
        rw [List.getElem?_cons_succ]
        exact h
    · simp only [pctree_node_append_child] at h
      cases i with
      | zero =>
        left
        simpa using h
      | succ i =>
        rw [List.getElem?_cons_succ] at h
        rcases ih (parent + 1) i h with h3 | ⟨h3, nd0, h4, h5⟩
        · left
          rw [List.getElem?_cons_succ]
          exact h3
        · right
          refine ⟨by omega, nd0, ?_, h5⟩
          rw [List.getElem?_cons_succ]
          exact h4

theorem all_children_snoc (nodes : List pcvcm_node) (nd : pcvcm_node)
    (h : nd.children = []) : all_children (nodes ++ [nd]) = all_children nodes := by
  simp [all_children, h]

theorem attach_sound (nodes : List pcvcm_node) (ns : List Nat) (nd : pcvcm_node)
    (hc : nd.children = [])
    (hv : ∀ q ∈ ns, 1 ≤ q ∧ q ≤ nodes.length) (hroot : ns = [] → nodes = [])
    (hcount : ∀ q, (all_children nodes).count q
      = if 2 ≤ q ∧ q ≤ nodes.length then 1 else 0)
    (horder : ∀ i nd, nodes[i]? = some nd → ∀ q ∈ nd.children, i + 1 < q) :
    (attach_node nodes ns nd).length = nodes.length + 1
    ∧ (∀ q, (all_children (attach_node nodes ns nd)).count q
        = if 2 ≤ q ∧ q ≤ nodes.length + 1 then 1 else 0)
    ∧ (∀ i nd1, (attach_node nodes ns nd)[i]? = some nd1 → ∀ q ∈ nd1.children, i + 1 < q) := by
  have hsnoc : ∀ i nd1, (nodes ++ [nd])[i]? = some nd1 → ∀ q ∈ nd1.children, i + 1 < q := by
    intro i nd1 h1 q hq
    by_cases hi : i < nodes.length
    · rw [List.getElem?_append_left hi] at h1
      exact horder i nd1 h1 q hq
    · rw [List.getElem?_append_right (by omega)] at h1
      have : nd1 = nd := by
        cases hk : i - nodes.length with
        | zero =>
          rw [hk] at h1
          simpa using h1.symm
        | succ k =>
          rw [hk] at h1
          simp at h1
      rw [this, hc] at hq
      cases hq
  rcases ns with _ | ⟨par, ns⟩
  · have hn := hroot rfl
    subst hn
    simp only [attach_node, pcutils_stack_top, List.headD_nil, ne_eq, not_true_eq_false,
      false_and, if_false, List.nil_append, List.length_singleton, List.length_nil, zero_add]
    refine ⟨trivial, ?_, ?_⟩
    · intro q
      simp only [all_children, List.map_cons, hc, List.map_nil, List.flatten_cons,
        List.flatten_nil, List.append_nil, List.count_nil]
      split_ifs with h1
      · omega
      · rfl
    · intro i nd1 h1 q hq
      exact hsnoc i nd1 (by simpa using h1) q hq
  · have hp := hv par (List.mem_cons_self _ _)
    have hne : par ≠ 0 ∧ par ≠ nodes.length + 1 := ⟨by omega, by omega⟩
    simp only [attach_node, pcutils_stack_top, List.headD_cons, hne, ne_eq, not_false_eq_true,
      and_self, if_true]
    refine ⟨?_, ?_, ?_⟩
    · rw [length_append_child]
      simp
    · intro q
      rw [all_children_append_child _ _ _ hp.1 (by simp; omega), all_children_snoc _ _ hc,
        hcount q]
      split_ifs <;> omega
    · intro i nd1 h1 q hq
      rcases getElem_append_child _ _ _ _ _ h1 with h2 | ⟨h2, nd0, h3, h4⟩
      · exact hsnoc i nd1 h2 q hq
      · rw [h4, List.mem_append] at hq
        rcases hq with hq | hq
        · exact hsnoc i nd0 h3 q hq
        · simp only [List.mem_singleton] at hq
          omega

theorem token_classes (t : pcejson_token) :
    container_token t = true ∨ leaf_token t = true ∨ end_token t = true
      ∨ (t.type = ejson_token_comma ∨ t.type = ejson_token_eof) := by
  obtain ⟨ty, buf⟩ := t
  cases ty <;> simp [container_token, leaf_token, end_token]

theorem parse_token_container (b : tree_builder) (t : pcejson_token)
    (h : container_token t = true) :
    ∃ nd, nd.children = []
      ∧ parse_token b t = ⟨attach_node b.nodes b.node_stack nd,
          if b.vcm_tree = 0 then b.nodes.length + 1 else b.vcm_tree,
          (b.nodes.length + 1) :: b.node_stack⟩
      ∧ ∃ m, ∀ o, nest_token o t = some (m :: o) := by
  obtain ⟨ty, buf⟩ := t
  cases ty <;> simp only [container_token, Bool.false_eq_true] at h
  · exact ⟨pcvcm_node_new PCVCM_NODE_TYPE_OBJECT none, rfl,
      by simp [parse_token, pcejson_token_to_pcvcm_node, attach_node, pcvcm_node_new,
        pcutils_stack_push], 123, fun o => rfl⟩
  · exact ⟨pcvcm_node_new PCVCM_NODE_TYPE_ARRAY none, rfl,
      by simp [parse_token, pcejson_token_to_pcvcm_node, attach_node, pcvcm_node_new,
        pcutils_stack_push], 91, fun o => rfl⟩

theorem leaf_token_node (ns : List Nat) (t : pcejson_token) (h : leaf_token t = true) :
    ∃ ty, ty ≠ PCVCM_NODE_TYPE_OBJECT ∧ ty ≠ PCVCM_NODE_TYPE_ARRAY
      ∧ pcejson_token_to_pcvcm_node ns t = (some ⟨ty, t.buf, []⟩, ns) := by
  obtain ⟨ty, buf⟩ := t
  cases ty <;> simp only [leaf_token, Bool.false_eq_true] at h <;>
    simp [pcejson_token_to_pcvcm_node, pcvcm_node_new]

theorem parse_token_leaf_node (b : tree_builder) (t : pcejson_token)
    (h : leaf_token t = true) :
    (∃ nd, nd.children = []
      ∧ parse_token b t = ⟨attach_node b.nodes b.node_stack nd,
          if b.vcm_tree = 0 then b.nodes.length + 1 else b.vcm_tree, b.node_stack⟩)
    ∧ (∀ o, nest_token o t = some o) ∧ t.type ≠ ejson_token_eof := by
  obtain ⟨ty, h1, h2, h3⟩ := leaf_token_node b.node_stack t h
  refine ⟨⟨⟨ty, t.buf, []⟩, rfl, by simp [parse_token, h3, attach_node, h1, h2]⟩, ?_, ?_⟩
  · intro o
    obtain ⟨ty, buf⟩ := t
    cases ty <;> simp only [leaf_token, Bool.false_eq_true] at h <;> rfl
  · obtain ⟨ty, buf⟩ := t
    cases ty <;> simp only [leaf_token, Bool.false_eq_true] at h <;> simp

theorem parse_token_end (b : tree_builder) (t : pcejson_token) (h : end_token t = true) :
    parse_token b t = { b with node_stack := b.node_stack.tail }
      ∧ (∀ o o1, nest_token o t = some o1 → ∃ m, o = m :: o1)
      ∧ t.type ≠ ejson_token_eof := by
  obtain ⟨ty, buf⟩ := t
  cases ty <;> simp only [end_token, Bool.false_eq_true] at h
  · refine ⟨by simp [parse_token, pcejson_token_to_pcvcm_node, pcutils_stack_pop], ?_, by simp⟩
    intro o o1 h1
    simp only [nest_token] at h1
    split at h1
    · exact ⟨123, by simpa using h1⟩
    · cases h1
  · refine ⟨by simp [parse_token, pcejson_token_to_pcvcm_node, pcutils_stack_pop], ?_, by simp⟩
    intro o o1 h1
    simp only [nest_token] at h1
    split at h1
    · exact ⟨91, by simpa using h1⟩
    · cases h1

theorem parse_token_plain (b : tree_builder) (t : pcejson_token)
    (h : t.type = ejson_token_comma ∨ t.type = ejson_token_eof) :
    parse_token b t = b ∧ (∀ o, nest_token o t = some o)
      ∧ t.type ≠ ejson_token_end_object ∧ t.type ≠ ejson_token_end_array := by
  obtain ⟨ty, buf⟩ := t
  rcases h with h | h <;> simp only at h <;> subst h <;>
    exact ⟨rfl, fun o => rfl, by simp, by simp⟩

theorem parse_token_sound (p p1 : pcejson) (b : tree_builder) (v : Nat) (t : pcejson_token)
    (e : Option pcejson_error) (u : Bool) (hb : tree_sound p b v)
    (hs : dispatch_sound p (.ret (some t) e p1 u)) : tree_sound p1 (parse_token b t) v := by
  obtain ⟨b1, b2, b3, b4, b5, b6, b7⟩ := hb
  obtain ⟨_, s2, s3, s4, s5, s6⟩ := hs
  have hvcm : ∀ n : Nat, (b.nodes = [] → n = 0) →
      (if b.vcm_tree = 0 then n + 1 else b.vcm_tree) = if v = 0 then 1 else v := by
    intro n hn
    rw [b7]
    by_cases hv : v = 0
    · by_cases hl : b.nodes = []
      · simp [hv, hl, hn hl]
      · simp [hv, hl]
    · simp [hv]
  rcases token_classes t with hc | hc | hc | hc
  · obtain ⟨nd, hnd, hpt, m, hm⟩ := parse_token_container b t hc
    rw [hm] at s2
    have ho : open_containers p1.stack = m :: open_containers p.stack :=
      (Option.some.inj s2).symm
    have hroot : b.node_stack = [] → b.nodes = [] := by
      intro h1
      apply b3
      apply s4 hc
      apply List.eq_nil_of_length_eq_zero
      rw [← b1, h1]
      rfl
    obtain ⟨a1, a2, a3⟩ := attach_sound b.nodes b.node_stack nd hnd b2 hroot b5 b6
    rw [hpt]
    refine ⟨?_, ?_, ?_, ?_, ?_, ?_, ?_⟩
    · simp [ho, b1]
    · intro q hq
      simp only [List.mem_cons] at hq
      rw [a1]
      rcases hq with rfl | hq
      · omega
      · have := b2 q hq
        omega
    · intro h1
      have := (s3 h1).2
      obtain ⟨ty, buf⟩ := t
      simp only at this
      subst this
      simp [container_token] at hc
    · intro _ h2
      simp only at h2
      rw [h2] at a1
      simp at a1
    · simp only [a1]
      exact a2
    · exact a3
    · have hne : attach_node b.nodes b.node_stack nd ≠ [] := by
        intro h2
        rw [h2] at a1
        simp at a1
      simp only [hne, if_false]
      exact hvcm b.nodes.length (fun h => by simp [h])
  · obtain ⟨⟨nd, hnd, hpt⟩, hm, hneof⟩ := parse_token_leaf_node b t hc
    rw [hm] at s2
    have ho : open_containers p1.stack = open_containers p.stack :=
      (Option.some.inj s2).symm
    have hroot : b.node_stack = [] → b.nodes = [] := by
      intro h1
      exfalso
      apply s5 hc
      apply List.eq_nil_of_length_eq_zero
      rw [← b1, h1]
      rfl
    obtain ⟨a1, a2, a3⟩ := attach_sound b.nodes b.node_stack nd hnd b2 hroot b5 b6
    rw [hpt]
    refine ⟨?_, ?_, ?_, ?_, ?_, ?_, ?_⟩
    · simp [ho, b1]
    · intro q hq
      simp only at hq
      rw [a1]
      have := b2 q hq
      omega
    · intro h1
      exact absurd (s3 h1).2 hneof
    · intro _ h2
      simp only at h2
      rw [h2] at a1
      simp at a1
    · simp only [a1]
      exact a2
    · exact a3
    · have hne : attach_node b.nodes b.node_stack nd ≠ [] := by
        intro h2
        rw [h2] at a1
        simp at a1
      simp only [hne, if_false]
      exact hvcm b.nodes.length (fun h => by simp [h])
  · obtain ⟨hpt, hm, hneof⟩ := parse_token_end b t hc
    obtain ⟨m, ho⟩ := hm _ _ s2
    rw [hpt]
    have hlen : b.node_stack.length = (open_containers p1.stack).length + 1 := by
      rw [b1, ho]
      rfl
    refine ⟨?_, ?_, ?_, ?_, b5, b6, b7⟩
    · simp only [List.length_tail]
      omega
    · intro q hq
      exact b2 q (List.mem_of_mem_tail hq)
    · intro h1
      exact absurd (s3 h1).2 hneof
    · intro _ h2
      simp only at h2
      rcases hns : b.node_stack with _ | ⟨q, ns⟩
      · rw [hns] at hlen
        simp at hlen
      · have := b2 q (by rw [hns]; exact List.mem_cons_self _ _)
        rw [h2] at this
        simp at this
        omega
  · obtain ⟨hpt, hm, hne1, hne2⟩ := parse_token_plain b t hc
    rw [hm] at s2
    have ho : open_containers p1.stack = open_containers p.stack :=
      (Option.some.inj s2).symm
    rw [hpt]
    refine ⟨by rw [ho]; exact b1, b2, ?_, ?_, b5, b6, b7⟩
    · intro h1
      exact b3 (s3 h1).1
    · intro h1
      rcases s6 h1 with h2 | h2 | h2
      · exact b4 h2
      · exact absurd h2 hne1
      · exact absurd h2 hne2

theorem parse_loop_sound (calls : Nat) (p : pcejson) (rws : List Nat) (b : tree_builder)
    (err : Option pcejson_error) (v : Nat) (r : parse_result)
    (hi : stack_invariant p = true) (hb : tree_sound p b v)
    (h : parse_loop calls p rws b err = some r) :
    r.tree = (emitted_tokens calls p rws).foldl parse_token b
    ∧ (is_finished r.ejson = true →
        nesting (open_containers p.stack) (emitted_tokens calls p rws) = some []
        ∧ r.tree.node_stack = [] ∧ r.tree.nodes ≠ []
        ∧ (∀ q, (all_children r.tree.nodes).count q
            = if 2 ≤ q ∧ q ≤ r.tree.nodes.length then 1 else 0)
        ∧ (∀ i nd, r.tree.nodes[i]? = some nd → ∀ q ∈ nd.children, i + 1 < q)
        ∧ r.tree.vcm_tree = if v = 0 then 1 else v) := by
  induction calls generalizing p rws b err with
  | zero => simp [parse_loop] at h
  | succ calls ih =>
    have hs := next_token_sound rws p hi
    rw [parse_loop] at h
    rw [emitted_tokens]
    cases ht : (pcejson_next_token p rws).token with
    | none =>
      rw [ht] at hs
      simp only [ht, Option.some.injEq] at h
      subst h
      simp only [List.foldl_nil, nesting, true_and]
      intro hf
      obtain ⟨h1, h2⟩ := hs hf
      obtain ⟨b1, b2, b3, b4, b5, b6, b7⟩ := hb
      have hns : b.node_stack = [] := by
        apply List.eq_nil_of_length_eq_zero
        rw [b1, h1]
        rfl
      refine ⟨by rw [h1], hns, b4 h2, b5, b6, ?_⟩
      rw [b7]
      simp [b4 h2]
    | some t =>
      rw [ht] at hs
      simp only [ht] at h
      have hb1 := parse_token_sound p _ b v t _ false hb hs
      obtain ⟨i1, i2⟩ := ih _ _ _ _ hs.1 hb1 h
      simp only [List.foldl_cons, nesting, hs.2.1]
      exact ⟨i1, i2⟩

theorem finished_iff (p : pcejson) :
    is_finished p = true ↔ p.state = ejson_finished_state := by
  obtain ⟨s, d, f, stk, b, b2, rs⟩ := p
  cases s <;> simp [is_finished]

theorem tree_sound_create (v : Nat) : tree_sound (pcejson_create 10 1) ⟨[], v, []⟩ v := by
  refine ⟨rfl, ?_, fun _ => rfl, ?_, ?_, ?_, ?_⟩
  · intro q hq
    cases hq
  · intro h
    cases h
  · intro q
    have : ¬ (2 ≤ q ∧ q ≤ ([] : List pcvcm_node).length) := by
      simp only [List.length_nil]
      omega
    rw [if_neg this]
    rfl
  · intro i nd h
    simp at h
  · by_cases hv : v = 0 <;> simp [hv]

/-- C24: `pcejson_parse` returns on every input, and its tree is built from the tokens
the tokenizer emitted, in order. When the tokenizer ends in the finished state, these
tokens are properly nested: read from no open container, each end token closes the
innermost open container, which is of its kind, and no container is left open. The node
stack is then empty, at least one node exists, every pointer from the second node on
occurs exactly once among the children of all nodes and no other number occurs there, so
that every node but the first has exactly one parent and the first has none, every child
was allocated after its parent, and the root pointer is the first node when it was NULL
at entry. -/
theorem C24_nesting (vcm_tree : Nat) (rws : List Nat) :
    (∃ r, pcejson_parse vcm_tree rws = some r)
    ∧ ∀ r, pcejson_parse vcm_tree rws = some r →
        r.tree = (emitted_tokens (2 * rws.length + 2) (pcejson_create 10 1) rws).foldl
            parse_token ⟨[], vcm_tree, []⟩
        ∧ (r.ejson.state = ejson_finished_state →
            nesting [] (emitted_tokens (2 * rws.length + 2) (pcejson_create 10 1) rws)
                = some []
            ∧ r.tree.node_stack = [] ∧ r.tree.nodes ≠ []
            ∧ (∀ q, (all_children r.tree.nodes).count q
                = if 2 ≤ q ∧ q ≤ r.tree.nodes.length then 1 else 0)
            ∧ (∀ i nd, r.tree.nodes[i]? = some nd → ∀ q ∈ nd.children, i + 1 < q)
            ∧ (vcm_tree = 0 → r.tree.vcm_tree = 1)) := by
  refine ⟨?_, ?_⟩
  · obtain ⟨r, hr, _⟩ := parse_loop_total (2 * rws.length + 2) (pcejson_create 10 1) rws
      ⟨[], vcm_tree, []⟩ none (by simp [parse_measure, pcejson_create])
    exact ⟨r, hr⟩
  · intro r hr
    obtain ⟨h1, h2⟩ := parse_loop_sound (2 * rws.length + 2) (pcejson_create 10 1) rws
      ⟨[], vcm_tree, []⟩ none vcm_tree r rfl (tree_sound_create vcm_tree) hr
    refine ⟨h1, ?_⟩
    intro hf
    obtain ⟨a1, a2, a3, a4, a5, a6⟩ := h2 ((finished_iff r.ejson).2 hf)
    refine ⟨a1, a2, a3, a4, a5, ?_⟩
    intro hv
    rw [a6]
    simp [hv]

/-- C24 on the document `{"a":[1,{}]}`: the parse ends in the finished state, the emitted
tokens are properly nested, the node stack is empty and the root pointer is the first
node. -/
theorem C24_nesting_witness :
    (pcejson_parse 0 (chars "\x7b\"a\":[1,\x7b\x7d]\x7d")).map (fun r => r.ejson.state)
        = some ejson_finished_state
    ∧ nesting []
        (emitted_tokens (2 * (chars "\x7b\"a\":[1,\x7b\x7d]\x7d").length + 2)
          (pcejson_create 10 1) (chars "\x7b\"a\":[1,\x7b\x7d]\x7d")) = some []
    ∧ (pcejson_parse 0 (chars "\x7b\"a\":[1,\x7b\x7d]\x7d")).map
        (fun r => (r.tree.node_stack, r.tree.vcm_tree)) = some ([], 1) :=
  have h0 : pcejson_parse 0 (chars "\x7b\"a\":[1,\x7b\x7d]\x7d")
      = some ((pcejson_parse 0 (chars "\x7b\"a\":[1,\x7b\x7d]\x7d")).get (by decide)) :=
    (Option.some_get _).symm
  have hc := ((C24_nesting 0 (chars "\x7b\"a\":[1,\x7b\x7d]\x7d")).2 _ h0).2 (by decide)
  ⟨by decide, hc.1,
    (congrArg (Option.map (fun r => (r.tree.node_stack, r.tree.vcm_tree))) h0).trans
      (congrArg some (Prod.ext hc.2.1 (hc.2.2.2.2.2 rfl)))⟩

/-- The tokens and the tree of two documents that end in the finished state: for
`{"a":[1,{}]}` the tokens are start-object, key, start-array, number, comma,
start-object, end-object, end-array, end-object and the children of the five nodes are
2 3, none, 4 5, none, none; the document `{"a":"x`, NUL, `y"}z` ends in the finished
state with an error recorded, and its tokens start-object, key, eof, string,
end-object are properly nested as well. -/
theorem C24_examples :
    (emitted_tokens 26 (pcejson_create 10 1) (chars "\x7b\"a\":[1,\x7b\x7d]\x7d")).map
        (fun t => t.type)
      = [ejson_token_start_object, ejson_token_key, ejson_token_start_array,
          ejson_token_number, ejson_token_comma, ejson_token_start_object,
          ejson_token_end_object, ejson_token_end_array, ejson_token_end_object]
    ∧ (pcejson_parse 0 (chars "\x7b\"a\":[1,\x7b\x7d]\x7d")).map
        (fun r => r.tree.nodes.map (fun nd => nd.children))
      = some [[2, 3], [], [4, 5], [], []]
    ∧ (pcejson_parse 0 (chars "\x7b\"a\":\"x\x00y\"\x7dz")).map
        (fun r => (r.ejson.state, r.error, r.tree.node_stack))
      = some (ejson_finished_state, some PCEJSON_UNEXPECTED_CHARACTER_PARSE_ERROR, [])
    ∧ (emitted_tokens 26 (pcejson_create 10 1) (chars "\x7b\"a\":\"x\x00y\"\x7dz")).map
        (fun t => t.type)
      = [ejson_token_start_object, ejson_token_key, ejson_token_eof, ejson_token_string,
          ejson_token_end_object]
    ∧ nesting [] (emitted_tokens 26 (pcejson_create 10 1) (chars "\x7b\"a\":\"x\x00y\"\x7dz"))
      = some [] :=
  ⟨by decide, by decide, by decide, by decide, by decide⟩
/-! ## C34: the event kind of a label -/

/-- C34: `pcvarmgr_add_observer` takes the label `change:attached` for the attached kind,
`change:detached` for the detached kind, `change:displaced` for the displaced kind, every
label that begins with `except:` for the except kind and every other label for the
attached kind; when no entry with the name, that kind and the calling stack is
registered and the allocations succeed, the call returns the binding object and adds at
the end of the registry the entry with the given name, that kind and the calling
stack. -/
theorem C34_event_label (error : purc_error) (mgr : pcvarmgr) (name event : List Nat)
    (stack : Nat) :
    (event = chars "change:attached" → add_observer_event_type event = VAR_EVENT_TYPE_ATTACHED)
    ∧ (event = chars "change:detached" →
        add_observer_event_type event = VAR_EVENT_TYPE_DETACHED)
    ∧ (event = chars "change:displaced" →
        add_observer_event_type event = VAR_EVENT_TYPE_DISPLACED)
    ∧ ((∃ rest, event = chars "except:" ++ rest) →
        add_observer_event_type event = VAR_EVENT_TYPE_EXCEPT)
    ∧ (event ≠ chars "change:attached" → event ≠ chars "change:detached" →
        event ≠ chars "change:displaced" → (¬ ∃ rest, event = chars "except:" ++ rest) →
        add_observer_event_type event = VAR_EVENT_TYPE_ATTACHED)
    ∧ ((⟨name, add_observer_event_type event, stack⟩ : var_observe) ∉ mgr.var_observers →
        pcvarmgr_add_observer error mgr name event stack true true
          = ⟨mgr.object,
              ⟨mgr.object,
                mgr.var_observers ++ [⟨name, add_observer_event_type event, stack⟩]⟩,
              error⟩) := by
  refine ⟨?_, ?_, ?_, ?_, ?_, ?_⟩
  · intro h
    subst h
    decide
  · intro h
    subst h
    decide
  · intro h
    subst h
    decide
  · rintro ⟨rest, h⟩
    subst h
    have h1 : chars "except:" ++ rest ≠ EVENT_ATTACHED := by
      simp [chars, EVENT_ATTACHED]
    have h2 : chars "except:" ++ rest ≠ EVENT_DETACHED := by
      simp [chars, EVENT_DETACHED]
    have h3 : chars "except:" ++ rest ≠ EVENT_DISPLACED := by
      simp [chars, EVENT_DISPLACED]
    have h4 : (chars "except:" ++ rest).take EVENT_EXCEPT.length = EVENT_EXCEPT := by
      simp [chars, EVENT_EXCEPT]
    simp [add_observer_event_type, h1, h2, h3, h4]
  · intro h1 h2 h3 h4
    have h5 : ¬ event.take EVENT_EXCEPT.length = EVENT_EXCEPT := by
      intro h5
      apply h4
      refine ⟨event.drop EVENT_EXCEPT.length, ?_⟩
      have := List.take_append_drop EVENT_EXCEPT.length event
      rw [h5] at this
      exact this.symm
    have e1 : event ≠ EVENT_ATTACHED := h1
    have e2 : event ≠ EVENT_DETACHED := h2
    have e3 : event ≠ EVENT_DISPLACED := h3
    simp [add_observer_event_type, e1, e2, e3, h5]
  · intro h
    have hn := find_var_observe_none mgr name _ stack h
    simp [pcvarmgr_add_observer, hn]

/-- C34 for the label `except:timeout` from stack 7 on an empty registry: the entry is
registered with the except kind. -/
theorem C34_event_label_witness :
    pcvarmgr_add_observer purc_clr_error ⟨1, []⟩ (chars "x") (chars "except:timeout") 7 true
        true
      = ⟨1, ⟨1, [⟨chars "x", add_observer_event_type (chars "except:timeout"), 7⟩]⟩,
          purc_clr_error⟩
    ∧ add_observer_event_type (chars "except:timeout") = VAR_EVENT_TYPE_EXCEPT :=
  ⟨(C34_event_label purc_clr_error ⟨1, []⟩ (chars "x") (chars "except:timeout") 7).2.2.2.2.2
      (by decide),
    (C34_event_label purc_clr_error ⟨1, []⟩ (chars "x") (chars "except:timeout")
      7).2.2.2.1 ⟨chars "timeout", by decide⟩⟩

/-! ## C33: the observer registry holds no entry twice -/

theorem add_observer_nodup (error : purc_error) (mgr : pcvarmgr) (name event : List Nat)
    (stack : Nat) (malloc_ok push_ok : Bool) (h : mgr.var_observers.Nodup) :
    (pcvarmgr_add_observer error mgr name event stack malloc_ok push_ok).mgr.var_observers.Nodup
      := by
  by_cases hm : (⟨name, add_observer_event_type event, stack⟩ : var_observe)
      ∈ mgr.var_observers
  · obtain ⟨obs, ho⟩ := find_var_observe_some mgr name _ stack hm
    simp only [pcvarmgr_add_observer, ho]
    exact h
  · have hn := find_var_observe_none mgr name _ stack hm
    simp only [pcvarmgr_add_observer, hn]
    cases malloc_ok <;> cases push_ok <;> simp only [Bool.not_eq_true, if_true, if_false,
      Bool.false_eq_true, not_false_eq_true, not_true_eq_false] <;> try exact h
    rw [List.nodup_append]
    refine ⟨h, List.nodup_singleton _, ?_⟩
    intro a ha hb
    rw [List.mem_singleton] at hb
    subst hb
    exact hm ha

theorem remove_observer_spec (error : purc_error) (mgr : pcvarmgr) (name event : List Nat)
    (stack : Nat) :
    ((⟨name, remove_observer_event_type event, stack⟩ : var_observe) ∉ mgr.var_observers →
      pcvarmgr_remove_observer error mgr name event stack = ⟨0, mgr, error⟩)
    ∧ ((⟨name, remove_observer_event_type event, stack⟩ : var_observe) ∈ mgr.var_observers →
      pcvarmgr_remove_observer error mgr name event stack
        = ⟨mgr.object,
            ⟨mgr.object,
              mgr.var_observers.erase ⟨name, remove_observer_event_type event, stack⟩⟩,
            error⟩) := by
  refine ⟨?_, ?_⟩
  · intro h
    have h1 : find_var_observe_idx mgr name (remove_observer_event_type event) stack = none := by
      rw [find_var_observe_idx, List.findIdx?_eq_none_iff]
      intro x hx
      simp only [decide_eq_false_iff_not]
      rintro ⟨h1, h2, h3⟩
      apply h
      obtain ⟨n, t, s⟩ := x
      simp only at h1 h2 h3
      subst h1 h2 h3
      exact hx
    simp [pcvarmgr_remove_observer, h1]
  · intro h
    have hp : ∀ obs : var_observe,
        decide (name = obs.name ∧ obs.type = remove_observer_event_type event
          ∧ obs.stack = stack)
          = (obs == (⟨name, remove_observer_event_type event, stack⟩ : var_observe)) := by
      intro obs
      obtain ⟨n, t, s⟩ := obs
      by_cases hc : name = n ∧ t = remove_observer_event_type event ∧ s = stack
      · obtain ⟨h1, h2, h3⟩ := hc
        subst h1 h2 h3
        simp
      · have : ¬ ((⟨n, t, s⟩ : var_observe)
            = ⟨name, remove_observer_event_type event, stack⟩) := by
          intro he
          injection he with e1 e2 e3
          exact hc ⟨e1.symm, e2, e3⟩
        simp [hc, this]
    have hi : find_var_observe_idx mgr name (remove_observer_event_type event) stack
        = some (mgr.var_observers.indexOf
            (⟨name, remove_observer_event_type event, stack⟩ : var_observe)) := by
      unfold find_var_observe_idx
      simp only [hp]
      rw [List.findIdx?_eq_some_iff_findIdx_eq]
      refine ⟨?_, rfl⟩
      exact List.indexOf_lt_length.2 h
    simp only [pcvarmgr_remove_observer, hi]
    rw [List.eraseIdx_indexOf_eq_erase]

theorem remove_observer_nodup (error : purc_error) (mgr : pcvarmgr) (name event : List Nat)
    (stack : Nat) (h : mgr.var_observers.Nodup) :
    (pcvarmgr_remove_observer error mgr name event stack).mgr.var_observers.Nodup := by
  simp only [pcvarmgr_remove_observer]
  cases find_var_observe_idx mgr name (remove_observer_event_type event) stack with
  | none => exact h
  | some idx => exact h.sublist (List.eraseIdx_sublist _ _)

theorem run_observer_calls_nodup (calls : List observer_call) (error : purc_error)
    (mgr : pcvarmgr) (h : mgr.var_observers.Nodup) :
    (run_observer_calls error mgr calls).var_observers.Nodup := by
  induction calls generalizing error mgr with
  | nil => exact h
  | cons call calls ih =>
    rw [run_observer_calls]
    apply ih
    cases call with
    | add name event stack malloc_ok push_ok =>
      exact add_observer_nodup error mgr name event stack malloc_ok push_ok h
    | remove name event stack => exact remove_observer_nodup error mgr name event stack h

/-- What holds of the registry: after any sequence of `pcvarmgr_add_observer` and
`pcvarmgr_remove_observer` calls on a newly created manager, whatever their allocations
do, no entry occurs twice in the registry (an entry is its name, event kind and
requesting stack). A call of `pcvarmgr_remove_observer` on the resulting manager leaves a
sublist of the registry that is at most one entry shorter; when the registry has no
entry with the name, the event kind `pcvarmgr_remove_observer` itself derives from the
label, and the calling stack, it returns the invalid value and leaves manager and error
as they are; when it has one, it returns the binding object and that entry is taken
out. -/
theorem observer_registry_unique (object : Nat) (grow_ok shrink_ok change_ok array_ok : Bool)
    (mgr0 : pcvarmgr) (error0 : purc_error) (calls : List observer_call)
    (error : purc_error) (name event : List Nat) (stack : Nat)
    (hc : pcvarmgr_create object grow_ok shrink_ok change_ok array_ok = some mgr0) :
    (run_observer_calls error0 mgr0 calls).var_observers.Nodup
    ∧ (pcvarmgr_remove_observer error (run_observer_calls error0 mgr0 calls) name event
          stack).mgr.var_observers.Sublist (run_observer_calls error0 mgr0 calls).var_observers
    ∧ (run_observer_calls error0 mgr0 calls).var_observers.length
        ≤ (pcvarmgr_remove_observer error (run_observer_calls error0 mgr0 calls) name event
            stack).mgr.var_observers.length + 1
    ∧ ((⟨name, remove_observer_event_type event, stack⟩ : var_observe)
          ∉ (run_observer_calls error0 mgr0 calls).var_observers →
        pcvarmgr_remove_observer error (run_observer_calls error0 mgr0 calls) name event stack
          = ⟨0, run_observer_calls error0 mgr0 calls, error⟩)
    ∧ ((⟨name, remove_observer_event_type event, stack⟩ : var_observe)
          ∈ (run_observer_calls error0 mgr0 calls).var_observers →
        pcvarmgr_remove_observer error (run_observer_calls error0 mgr0 calls) name event stack
          = ⟨(run_observer_calls error0 mgr0 calls).object,
              ⟨(run_observer_calls error0 mgr0 calls).object,
                (run_observer_calls error0 mgr0 calls).var_observers.erase
                  ⟨name, remove_observer_event_type event, stack⟩⟩, error⟩) := by
  have h0 : mgr0.var_observers.Nodup := by
    simp only [pcvarmgr_create] at hc
    split_ifs at hc
    cases hc
    exact List.nodup_nil
  have hs := remove_observer_spec error (run_observer_calls error0 mgr0 calls) name event stack
  refine ⟨run_observer_calls_nodup calls error0 mgr0 h0, ?_, ?_, hs.1, hs.2⟩
  · simp only [pcvarmgr_remove_observer]
    cases find_var_observe_idx (run_observer_calls error0 mgr0 calls) name
        (remove_observer_event_type event) stack with
    | none => exact List.Sublist.refl _
    | some idx => exact List.eraseIdx_sublist _ _
  · simp only [pcvarmgr_remove_observer]
    cases find_var_observe_idx (run_observer_calls error0 mgr0 calls) name
        (remove_observer_event_type event) stack with
    | none => exact Nat.le_succ _
    | some idx =>
      simp only [List.length_eraseIdx]
      split_ifs <;> omega

/-- The registry of a new manager with binding object 1 after the calls add `x` attached from
stack 7, add it again, add `x` detached from stack 7 with a failing allocation, add `y`
except from stack 8, remove `x` attached from stack 7: the registry holds the one entry
of `y`, and removing `x` attached from stack 7 once more returns the invalid value. -/
theorem observer_registry_example :
    run_observer_calls purc_clr_error ⟨1, []⟩
        [.add (chars "x") EVENT_ATTACHED 7 true true, .add (chars "x") EVENT_ATTACHED 7 true true,
         .add (chars "x") EVENT_DETACHED 7 false true, .add (chars "y") (chars "except:e") 8 true true,
         .remove (chars "x") EVENT_ATTACHED 7]
      = ⟨1, [⟨chars "y", VAR_EVENT_TYPE_EXCEPT, 8⟩]⟩
    ∧ pcvarmgr_remove_observer purc_clr_error
        (run_observer_calls purc_clr_error ⟨1, []⟩
          [.add (chars "x") EVENT_ATTACHED 7 true true, .add (chars "x") EVENT_ATTACHED 7 true true,
           .add (chars "x") EVENT_DETACHED 7 false true,
           .add (chars "y") (chars "except:e") 8 true true,
           .remove (chars "x") EVENT_ATTACHED 7]) (chars "x") EVENT_ATTACHED 7
      = ⟨0, run_observer_calls purc_clr_error ⟨1, []⟩
          [.add (chars "x") EVENT_ATTACHED 7 true true, .add (chars "x") EVENT_ATTACHED 7 true true,
           .add (chars "x") EVENT_DETACHED 7 false true,
           .add (chars "y") (chars "except:e") 8 true true,
           .remove (chars "x") EVENT_ATTACHED 7], purc_clr_error⟩ :=
  ⟨by decide,
    (observer_registry_unique 1 true true true true ⟨1, []⟩ purc_clr_error
      [.add (chars "x") EVENT_ATTACHED 7 true true, .add (chars "x") EVENT_ATTACHED 7 true true,
       .add (chars "x") EVENT_DETACHED 7 false true,
       .add (chars "y") (chars "except:e") 8 true true,
       .remove (chars "x") EVENT_ATTACHED 7] purc_clr_error (chars "x") EVENT_ATTACHED 7
      rfl).2.2.2.1 (by decide)⟩

/-- C33 fails on the code for the labels of the `except:` family, for which
`pcvarmgr_remove_observer` has no case. On a newly created manager with the binding
object 1, after the one call that adds the observer of `x` for `change:attached` from
stack 7, the registry holds the entry (x, attached, 7) and no entry of the except kind,
which is the kind `pcvarmgr_add_observer` takes the label `except:foo` for. The call of
`pcvarmgr_remove_observer` for `x`, `except:foo` and stack 7 does not return the invalid
value and does not leave the registry unchanged: it returns the binding object and takes
the attached entry out. With the label `change:detached`, for which no entry exists
either, it returns the invalid value and changes nothing. That no entry occurs twice and
that at most one entry is removed holds for every run (`observer_registry_unique`). -/
theorem C33_remove_except_label :
    pcvarmgr_create 1 true true true true = some ⟨1, []⟩
    ∧ run_observer_calls purc_clr_error ⟨1, []⟩ [.add (chars "x") EVENT_ATTACHED 7 true true]
      = ⟨1, [⟨chars "x", VAR_EVENT_TYPE_ATTACHED, 7⟩]⟩
    ∧ add_observer_event_type (chars "except:foo") = VAR_EVENT_TYPE_EXCEPT
    ∧ (⟨chars "x", VAR_EVENT_TYPE_EXCEPT, 7⟩ : var_observe)
        ∉ (run_observer_calls purc_clr_error ⟨1, []⟩
            [.add (chars "x") EVENT_ATTACHED 7 true true]).var_observers
    ∧ pcvarmgr_remove_observer purc_clr_error
        (run_observer_calls purc_clr_error ⟨1, []⟩
          [.add (chars "x") EVENT_ATTACHED 7 true true]) (chars "x") (chars "except:foo") 7
      = ⟨1, ⟨1, []⟩, purc_clr_error⟩
    ∧ pcvarmgr_remove_observer purc_clr_error
        (run_observer_calls purc_clr_error ⟨1, []⟩
          [.add (chars "x") EVENT_ATTACHED 7 true true]) (chars "x") EVENT_DETACHED 7
      = ⟨0, ⟨1, [⟨chars "x", VAR_EVENT_TYPE_ATTACHED, 7⟩]⟩, purc_clr_error⟩ :=
  ⟨by decide, by decide, by decide, by decide, by decide, by decide⟩

/-! ## C35: the three listeners -/

theorem listener_loop_eq (source : Nat) (name sub_type : List Nat) (type : var_event_type)
    (l : List var_observe) :
    listener_loop source (some name) sub_type type l
      = some ((l.filter (fun obs => decide (obs.name = name ∧ obs.type = type))).map
          (fun obs => ⟨obs.stack, source, MSG_TYPE_CHANGE, sub_type, 0⟩)) := by
  induction l with
  | nil => rfl
  | cons obs rest ih =>
    by_cases hc : name = obs.name ∧ obs.type = type
    · have hc2 : obs.name = name ∧ obs.type = type := ⟨hc.1.symm, hc.2⟩
      rw [listener_loop]
      simp only [if_pos hc, ih, Option.map_some', List.filter_cons]
      rw [if_pos (by simpa using hc2), List.map_cons]
    · have hc2 : ¬ (obs.name = name ∧ obs.type = type) := fun h2 => hc ⟨h2.1.symm, h2.2⟩
      rw [listener_loop]
      simp only [if_neg hc, ih, List.filter_cons]
      rw [if_neg (by simpa using hc2)]

/-- A listener that fires with a first argument that is no string: on an empty registry
it returns true and dispatches nothing; on a registry with an entry it calls `strcmp`
with NULL in the first pass of its loop. -/
theorem listeners_without_name (heap : List purc_variant) (source : Nat) (mgr : pcvarmgr)
    (argv : List Nat) (hs : purc_variant_is_string heap (argv.headD 0) = false) :
    (mgr.var_observers = [] →
      mgr_grow_handler heap source (some mgr) argv true true = some ⟨true, some mgr, []⟩
      ∧ mgr_shrink_handler heap source (some mgr) argv true true = some ⟨true, some mgr, []⟩
      ∧ mgr_change_handler heap source (some mgr) argv true true = some ⟨true, some mgr, []⟩)
    ∧ (mgr.var_observers ≠ [] →
      mgr_grow_handler heap source (some mgr) argv true true = none
      ∧ mgr_shrink_handler heap source (some mgr) argv true true = none
      ∧ mgr_change_handler heap source (some mgr) argv true true = none) := by
  obtain ⟨o, l⟩ := mgr
  have hname : string_const_or_null heap (argv.headD 0) = none := by
    unfold string_const_or_null
    rw [hs]
    rfl
  refine ⟨?_, ?_⟩
  · intro h
    simp only at h
    subst h
    simp only [mgr_grow_handler, mgr_shrink_handler, mgr_change_handler, listener_loop,
      not_true_eq_false, if_false, Option.map_some', and_self]
  · intro h
    cases l with
    | nil => exact absurd rfl h
    | cons x rest =>
      simp only [mgr_grow_handler, mgr_shrink_handler, mgr_change_handler, hname,
        listener_loop, not_true_eq_false, if_false, Option.map_none', and_self]

/-- C35: when the grow listener of a manager fires for the variable name `n` (its first
argument is a string variant with the text `n`) and its two strings can be made, it
returns true, leaves the manager as it is, and the messages it dispatches are, in
registration order, one for every registered observer whose name is `n` and whose event
kind is attached, and no other: each goes to the stack of that observer and has the type
`change` and the sub-type `attached`. The shrink listener does the same for the kind
detached with the sub-type `detached`, the change listener for the kind displaced with
the sub-type `displaced`. -/
theorem C35_listeners (heap : List purc_variant) (source : Nat) (mgr : pcvarmgr)
    (argv : List Nat) (n : List Nat)
    (hs : purc_variant_is_string heap (argv.headD 0) = true)
    (hn : purc_variant_get_string_const heap (argv.headD 0) = n) :
    mgr_grow_handler heap source (some mgr) argv true true
      = some ⟨true, some mgr,
          (mgr.var_observers.filter (fun obs =>
              decide (obs.name = n ∧ obs.type = VAR_EVENT_TYPE_ATTACHED))).map
            (fun obs => ⟨obs.stack, source, chars "change", chars "attached", 0⟩)⟩
    ∧ mgr_shrink_handler heap source (some mgr) argv true true
      = some ⟨true, some mgr,
          (mgr.var_observers.filter (fun obs =>
              decide (obs.name = n ∧ obs.type = VAR_EVENT_TYPE_DETACHED))).map
            (fun obs => ⟨obs.stack, source, chars "change", chars "detached", 0⟩)⟩
    ∧ mgr_change_handler heap source (some mgr) argv true true
      = some ⟨true, some mgr,
          (mgr.var_observers.filter (fun obs =>
              decide (obs.name = n ∧ obs.type = VAR_EVENT_TYPE_DISPLACED))).map
            (fun obs => ⟨obs.stack, source, chars "change", chars "displaced", 0⟩)⟩ := by
  have hname : string_const_or_null heap (argv.headD 0) = some n := by
    unfold string_const_or_null
    rw [hs, if_pos rfl, hn]
  refine ⟨?_, ?_, ?_⟩
  · simp only [mgr_grow_handler, hname, listener_loop_eq, not_true_eq_false, if_false,
      Option.map_some']
    rfl
  · simp only [mgr_shrink_handler, hname, listener_loop_eq, not_true_eq_false, if_false,
      Option.map_some']
    rfl
  · simp only [mgr_change_handler, hname, listener_loop_eq, not_true_eq_false, if_false,
      Option.map_some']
    rfl

/-- C35 on a registry with five entries, the listeners fired for the variable `x` (the
string variant 2): each reaches the observers of `x` with its own kind, in the order of
their registration, and no other. -/
theorem C35_listeners_witness :
    mgr_grow_handler
        [⟨PURC_VARIANT_TYPE_OBJECT, [], []⟩, ⟨PURC_VARIANT_TYPE_STRING, chars "x", []⟩] 1
        (some ⟨1, [⟨chars "x", VAR_EVENT_TYPE_ATTACHED, 7⟩,
          ⟨chars "x", VAR_EVENT_TYPE_DETACHED, 8⟩, ⟨chars "y", VAR_EVENT_TYPE_ATTACHED, 9⟩,
          ⟨chars "x", VAR_EVENT_TYPE_ATTACHED, 5⟩, ⟨chars "x", VAR_EVENT_TYPE_DISPLACED, 6⟩]⟩)
        [2] true true
      = some ⟨true,
          some ⟨1, [⟨chars "x", VAR_EVENT_TYPE_ATTACHED, 7⟩,
            ⟨chars "x", VAR_EVENT_TYPE_DETACHED, 8⟩, ⟨chars "y", VAR_EVENT_TYPE_ATTACHED, 9⟩,
            ⟨chars "x", VAR_EVENT_TYPE_ATTACHED, 5⟩,
            ⟨chars "x", VAR_EVENT_TYPE_DISPLACED, 6⟩]⟩,
          [⟨7, 1, chars "change", chars "attached", 0⟩,
            ⟨5, 1, chars "change", chars "attached", 0⟩]⟩ :=
  (C35_listeners
    [⟨PURC_VARIANT_TYPE_OBJECT, [], []⟩, ⟨PURC_VARIANT_TYPE_STRING, chars "x", []⟩] 1
    ⟨1, [⟨chars "x", VAR_EVENT_TYPE_ATTACHED, 7⟩, ⟨chars "x", VAR_EVENT_TYPE_DETACHED, 8⟩,
      ⟨chars "y", VAR_EVENT_TYPE_ATTACHED, 9⟩, ⟨chars "x", VAR_EVENT_TYPE_ATTACHED, 5⟩,
      ⟨chars "x", VAR_EVENT_TYPE_DISPLACED, 6⟩]⟩
    [2] (chars "x") (by decide) (by decide)).1.trans (by decide)

/-- The shrink and the change listener on the same registry, and the grow listener fired
with a number as first argument: it has no defined result. -/
theorem C35_examples :
    (mgr_shrink_handler
        [⟨PURC_VARIANT_TYPE_OBJECT, [], []⟩, ⟨PURC_VARIANT_TYPE_STRING, chars "x", []⟩] 1
        (some ⟨1, [⟨chars "x", VAR_EVENT_TYPE_ATTACHED, 7⟩,
          ⟨chars "x", VAR_EVENT_TYPE_DETACHED, 8⟩, ⟨chars "y", VAR_EVENT_TYPE_ATTACHED, 9⟩,
          ⟨chars "x", VAR_EVENT_TYPE_ATTACHED, 5⟩, ⟨chars "x", VAR_EVENT_TYPE_DISPLACED, 6⟩]⟩)
        [2] true true).map (fun r => r.messages)
      = some [⟨8, 1, chars "change", chars "detached", 0⟩]
    ∧ (mgr_change_handler
        [⟨PURC_VARIANT_TYPE_OBJECT, [], []⟩, ⟨PURC_VARIANT_TYPE_STRING, chars "x", []⟩] 1
        (some ⟨1, [⟨chars "x", VAR_EVENT_TYPE_ATTACHED, 7⟩,
          ⟨chars "x", VAR_EVENT_TYPE_DETACHED, 8⟩, ⟨chars "y", VAR_EVENT_TYPE_ATTACHED, 9⟩,
          ⟨chars "x", VAR_EVENT_TYPE_ATTACHED, 5⟩, ⟨chars "x", VAR_EVENT_TYPE_DISPLACED, 6⟩]⟩)
        [2] true true).map (fun r => r.messages)
      = some [⟨6, 1, chars "change", chars "displaced", 0⟩]
    ∧ mgr_grow_handler
        [⟨PURC_VARIANT_TYPE_OBJECT, [], []⟩, ⟨PURC_VARIANT_TYPE_NUMBER, chars "1", []⟩] 1
        (some ⟨1, [⟨chars "x", VAR_EVENT_TYPE_ATTACHED, 7⟩]⟩) [2] true true
      = none :=
  ⟨by decide, by decide, by decide⟩

/-! ## C36: binding at the element with a given id -/

theorem match_id_eq (heap : List purc_variant) (error : purc_error) (elem : pcvdom_element)
    (id : List Nat) : (match_id heap error elem id).1 = id_matches heap elem id := by
  obtain ⟨t, sv, eid⟩ := elem
  simp only [match_id, id_matches]
  by_cases ht : t = PCVDOM_NODE_DOCUMENT
  · simp [ht]
  · cases eid with
    | none => simp [ht]
    | some v =>
      by_cases hv : v = 0
      · simp [ht, hv]
      · by_cases hs : purc_variant_is_string heap v = true
        · by_cases he : purc_variant_get_string_const heap v = id
          · simp [ht, hv, hs, he]
          · simp [ht, hv, hs, he]
        · simp [ht, hv, hs]

theorem find_dest_hit (heap : List purc_variant) (error : purc_error)
    (pre : List pcvdom_element) (e : pcvdom_element) (post : List pcvdom_element)
    (id : List Nat) (hpre : ∀ x ∈ pre, id_matches heap x id = false)
    (he : id_matches heap e id = true) :
    (find_dest heap error (pre ++ e :: post) id).1 = e :: post := by
  induction pre generalizing error with
  | nil =>
    simp only [List.nil_append, find_dest]
    rw [match_id_eq, he]
    rfl
  | cons x pre ih =>
    simp only [List.cons_append, find_dest]
    rw [match_id_eq, hpre x (List.mem_cons_self _ _)]
    simp only [Bool.false_eq_true, if_false]
    exact ih _ (fun y hy => hpre y (List.mem_cons_of_mem _ hy))

theorem find_dest_miss (heap : List purc_variant) (error : purc_error)
    (pos : List pcvdom_element) (id : List Nat)
    (h : ∀ x ∈ pos, id_matches heap x id = false) : (find_dest heap error pos id).1 = [] := by
  induction pos generalizing error with
  | nil => rfl
  | cons x pos ih =>
    simp only [find_dest]
    rw [match_id_eq, h x (List.mem_cons_self _ _)]
    simp only [Bool.false_eq_true, if_false]
    exact ih _ (fun y hy => h y (List.mem_cons_of_mem _ hy))

theorem id_matches_not_document (heap : List purc_variant) (e : pcvdom_element)
    (id : List Nat) (h : id_matches heap e id = true) : e.type ≠ PCVDOM_NODE_DOCUMENT := by
  simp only [id_matches, Bool.and_eq_true, bne_iff_ne, ne_eq] at h
  exact h.1

/-- C36: let `at` be a string that begins with `#`, and `id` the rest of it. When an
element of the chain that starts at the frame's position and goes up through its parents
has an id attribute that evaluates to a string equal to `id`, and no element before it
has, `pcintr_bind_named_variable` binds the name to the value at that element (one
binding call, whose success decides between the results 0 and -1); the document node
counts as having no such id. When no element of the chain has such an id and the frame
is not marked silently, the function makes no binding call, returns -1 and records the
entity-not-found error. -/
theorem C36_bind_by_id (heap : List purc_variant) (error : purc_error)
    (bind_ok : bind_call → Bool) (frame : pcintr_stack_frame) (name id : List Nat)
    (at_value v : Nat) (level : Option Nat)
    (hat : purc_variant_is_string heap at_value = true)
    (hid : purc_variant_get_string_const heap at_value = 35 :: id) :
    (∀ pre e post, frame.pos = pre ++ e :: post →
      (∀ x ∈ pre, id_matches heap x id = false) → id_matches heap e id = true →
      (pcintr_bind_named_variable heap error bind_ok frame name at_value v level).call
          = some ⟨.at_element (e :: post), name, v⟩
        ∧ (pcintr_bind_named_variable heap error bind_ok frame name at_value v level).ret
          = if bind_ok ⟨.at_element (e :: post), name, v⟩ then 0 else -1)
    ∧ (∀ e, id_matches heap e id = true → e.type ≠ PCVDOM_NODE_DOCUMENT)
    ∧ ((∀ x ∈ frame.pos, id_matches heap x id = false) → frame.silently = false →
      pcintr_bind_named_variable heap error bind_ok frame name at_value v level
        = ⟨-1, none,
            purc_set_error_with_info PURC_ERROR_ENTITY_NOT_FOUND
              (chars "no vdom element exists")⟩) := by
  have h0 : at_value ≠ 0 := by
    intro h
    subst h
    simp [purc_variant_is_string, variant_at] at hat
  have hb : pcintr_bind_named_variable heap error bind_ok frame name at_value v level
      = bind_by_elem_id heap error bind_ok frame id name v := by
    simp [pcintr_bind_named_variable, h0, hat, hid]
  refine ⟨?_, fun e he => id_matches_not_document heap e id he, ?_⟩
  · intro pre e post hpos hpre he
    have hd := find_dest_hit heap error pre e post id hpre he
    have hnd := id_matches_not_document heap e id he
    rw [hb]
    simp only [bind_by_elem_id, hpos, hd]
    simp [hnd, bind_at_element]
  · intro hall hs
    have hd := find_dest_miss heap error frame.pos id hall
    rw [hb]
    simp only [bind_by_elem_id, hd]
    simp [hs, no_vdom_element_exists]

/-- C36 for `at` = `#top` at a frame whose position is an element without id, below an
element with the id `top`, below the document node: the binding is made at the second
element. -/
theorem C36_bind_by_id_witness :
    (pcintr_bind_named_variable
        [⟨PURC_VARIANT_TYPE_STRING, chars "#top", []⟩, ⟨PURC_VARIANT_TYPE_STRING, chars "top", []⟩]
        purc_clr_error (fun _ => true)
        ⟨[], [⟨PCVDOM_NODE_ELEMENT, none, none⟩] ++ ⟨PCVDOM_NODE_ELEMENT, none, some 2⟩
          :: [⟨PCVDOM_NODE_DOCUMENT, none, none⟩], false, 0⟩
        (chars "x") 1 5 none).call
      = some ⟨.at_element (⟨PCVDOM_NODE_ELEMENT, none, some 2⟩
          :: [⟨PCVDOM_NODE_DOCUMENT, none, none⟩]), chars "x", 5⟩ :=
  ((C36_bind_by_id
      [⟨PURC_VARIANT_TYPE_STRING, chars "#top", []⟩, ⟨PURC_VARIANT_TYPE_STRING, chars "top", []⟩]
      purc_clr_error (fun _ => true)
      ⟨[], [⟨PCVDOM_NODE_ELEMENT, none, none⟩] ++ ⟨PCVDOM_NODE_ELEMENT, none, some 2⟩
        :: [⟨PCVDOM_NODE_DOCUMENT, none, none⟩], false, 0⟩
      (chars "x") (chars "top") 1 5 none (by decide) (by decide)).1
    [⟨PCVDOM_NODE_ELEMENT, none, none⟩] ⟨PCVDOM_NODE_ELEMENT, none, some 2⟩
    [⟨PCVDOM_NODE_DOCUMENT, none, none⟩] rfl (by decide) (by decide)).1

/-! ## C38: unbinding a named variable -/

theorem remove_bound (heap : List purc_variant) (error : purc_error) (obj : Nat)
    (name : List Nat) (h : purc_variant_object_get_by_ckey heap obj name ≠ 0) :
    purc_variant_object_remove_by_static_ckey heap error obj name false
      = ⟨true, unbind_at heap obj name, error⟩ := by
  simp only [purc_variant_object_get_by_ckey] at h
  cases hx : variant_at heap obj with
  | none => simp [hx] at h
  | some x =>
    rw [hx] at h
    simp only at h
    by_cases ht : x.type = PURC_VARIANT_TYPE_OBJECT
    · rw [if_pos ht] at h
      simp [purc_variant_object_remove_by_static_ckey, unbind_at, hx, ht, h]
    · rw [if_neg ht] at h
      exact absurd rfl h

theorem object_get_of_not_object (heap : List purc_variant) (obj : Nat) (name : List Nat)
    (h : purc_variant_is_object heap obj = false) :
    purc_variant_object_get_by_ckey heap obj name = 0 := by
  simp only [purc_variant_is_object] at h
  simp only [purc_variant_object_get_by_ckey]
  cases hx : variant_at heap obj with
  | none => rfl
  | some x =>
    rw [hx] at h
    simp only [beq_eq_false_iff_ne, ne_eq] at h
    simp [h]

theorem unbind_temp_spec (heap : List purc_variant) (error : purc_error)
    (frames : List pcintr_stack_frame) (name : List Nat) :
    _unbind_named_temp_var heap error frames name
      = match (frames.map (fun p => p.exclamation_var)).find?
            (fun o => purc_variant_object_get_by_ckey heap o name != 0) with
        | some o => ⟨true, unbind_at heap o name, error⟩
        | none => ⟨false, heap, error⟩ := by
  induction frames with
  | nil => rfl
  | cons p parent ih =>
    simp only [_unbind_named_temp_var, List.map_cons, List.find?_cons]
    by_cases h0 : p.exclamation_var = 0
    · have hg : purc_variant_object_get_by_ckey heap p.exclamation_var name = 0 := by
        rw [h0]
        simp [purc_variant_object_get_by_ckey, variant_at]
      simp only [h0, if_true]
      rw [h0] at hg
      simp only [hg, bne_self_eq_false]
      exact ih
    · by_cases ho : purc_variant_is_object heap p.exclamation_var = false
      · have hg := object_get_of_not_object heap p.exclamation_var name ho
        simp only [h0, if_false, ho, if_true, hg, bne_self_eq_false]
        exact ih
      · by_cases hg : purc_variant_object_get_by_ckey heap p.exclamation_var name = 0
        · simp only [h0, if_false, ho, hg, if_true, bne_self_eq_false]
          exact ih
        · have hb : (purc_variant_object_get_by_ckey heap p.exclamation_var name != 0) = true := by
            simpa using hg
          simp only [h0, if_false, ho, hg, hb]
          exact remove_bound heap error _ name hg

theorem unbind_scope_spec (heap : List purc_variant) (error : purc_error)
    (pos : List pcvdom_element) (name : List Nat) :
    ∃ error1, _unbind_named_scope_var heap error pos name
      = match (pos.map scope_object).find?
            (fun o => purc_variant_object_get_by_ckey heap o name != 0) with
        | some o => ⟨true, unbind_at heap o name, error⟩
        | none => ⟨false, heap, error1⟩ := by
  induction pos with
  | nil => exact ⟨error, rfl⟩
  | cons elem parent ih =>
    have hget : pcintr_get_scope_variable heap elem name
        = purc_variant_object_get_by_ckey heap (scope_object elem) name := by
      simp only [pcintr_get_scope_variable, scope_object]
      cases elem.scope_variables with
      | none => simp [purc_variant_object_get_by_ckey, variant_at]
      | some mgr => rfl
    rw [_unbind_named_scope_var.eq_def, List.map_cons, List.find?_cons]
    simp only []
    by_cases hg : purc_variant_object_get_by_ckey heap (scope_object elem) name = 0
    · have hb : (purc_variant_object_get_by_ckey heap (scope_object elem) name != 0)
          = false := by
        rw [hg]
        rfl
      have hg1 : pcintr_get_scope_variable heap elem name = 0 := by
        rw [hget]
        exact hg
      simp only [hg1, ne_eq, not_true_eq_false, if_false, hb]
      cases parent with
      | nil => exact ⟨purc_clr_error, rfl⟩
      | cons e2 rest => exact ih
    · have hb : (purc_variant_object_get_by_ckey heap (scope_object elem) name != 0)
          = true := by
        simpa using hg
      have hg1 : pcintr_get_scope_variable heap elem name ≠ 0 := by
        rw [hget]
        exact hg
      simp only [hg1, ne_eq, not_false_eq_true, if_true, hb]
      refine ⟨error, ?_⟩
      cases hs : elem.scope_variables with
      | none =>
        rw [pcintr_get_scope_variable, hs] at hg1
        exact absurd rfl hg1
      | some mgr =>
        have hso : scope_object elem = mgr.object := by
          simp [scope_object, hs]
        rw [hso] at hg ⊢
        simp only [pcintr_unbind_scope_variable, hs]
        exact remove_bound heap error _ name hg

theorem unbind_doc_spec (heap : List purc_variant) (error : purc_error)
    (vdom : Option pcvarmgr) (name : List Nat) :
    _unbind_doc_buildin_var heap error vdom name
      = match (document_objects vdom).find?
            (fun o => purc_variant_object_get_by_ckey heap o name != 0) with
        | some o => ⟨true, unbind_at heap o name, error⟩
        | none => ⟨false, heap, error⟩ := by
  cases vdom with
  | none => rfl
  | some vdom =>
    simp only [_unbind_doc_buildin_var, pcvdom_document_get_variable, document_objects,
      List.find?_cons, List.find?_nil]
    by_cases hg : purc_variant_object_get_by_ckey heap vdom.object name = 0
    · simp [hg]
    · have hb : (purc_variant_object_get_by_ckey heap vdom.object name != 0) = true := by
        simpa using hg
      simp only [hg, ne_eq, not_false_eq_true, if_true, hb, pcvdom_document_unbind_variable]
      exact remove_bound heap error _ name hg

theorem unbind_at_spec (heap : List purc_variant) (obj : Nat) (name : List Nat) :
    purc_variant_object_get_by_ckey (unbind_at heap obj name) obj name = 0
    ∧ (∀ o key, key ≠ name →
        purc_variant_object_get_by_ckey (unbind_at heap obj name) o key
          = purc_variant_object_get_by_ckey heap o key)
    ∧ (∀ o, o ≠ obj → variant_at (unbind_at heap obj name) o = variant_at heap o) := by
  simp only [unbind_at]
  cases hx : variant_at heap obj with
  | none =>
    simp only [and_true, implies_true]
    simp [purc_variant_object_get_by_ckey, hx]
  | some x =>
    have h0 := variant_at_ne_zero heap obj x hx
    simp only
    refine ⟨?_, ?_, ?_⟩
    · simp only [purc_variant_object_get_by_ckey, variant_at_set_self heap obj x _ hx]
      split_ifs
      · exact members_get_remove_same _ _
      · rfl
    · intro o key hk
      by_cases ho : o = obj
      · subst ho
        simp only [purc_variant_object_get_by_ckey, variant_at_set_self heap o x _ hx, hx]
        split_ifs
        · exact members_get_remove_other _ _ _ hk
        · rfl
      · exact object_get_congr _ _ _ _ (variant_at_set_other heap obj o _ h0 ho)
    · intro o ho
      exact variant_at_set_other heap obj o _ h0 ho

theorem unbind_named_var_spec (heap : List purc_variant) (error : purc_error)
    (stack : pcintr_stack) (name : List Nat) :
    ∃ error1, pcintr_unbind_named_var heap error stack name
      = match (unbind_search stack).find?
            (fun o => purc_variant_object_get_by_ckey heap o name != 0) with
        | some o => ⟨PURC_ERROR_OK, unbind_at heap o name, error1⟩
        | none => ⟨PCVARIANT_ERROR_NOT_FOUND, heap, name_not_found name⟩ := by
  have hpos : (match stack.bottom_frame with
      | [] => []
      | f :: _ => f.pos) = bottom_pos stack.bottom_frame := rfl
  obtain ⟨e1, hs⟩ := unbind_scope_spec heap error (bottom_pos stack.bottom_frame) name
  have ht := unbind_temp_spec heap error stack.bottom_frame name
  simp only [pcintr_unbind_named_var, unbind_search, List.find?_append, hpos]
  cases hA : (stack.bottom_frame.map (fun p => p.exclamation_var)).find?
      (fun o => purc_variant_object_get_by_ckey heap o name != 0) with
  | some o =>
    rw [hA] at ht
    simp only [ht, if_true, Option.or]
    exact ⟨error, rfl⟩
  | none =>
    rw [hA] at ht
    simp only [ht, Bool.false_eq_true, if_false, Option.or]
    cases hB : ((bottom_pos stack.bottom_frame).map scope_object).find?
        (fun o => purc_variant_object_get_by_ckey heap o name != 0) with
    | some o =>
      rw [hB] at hs
      simp only [hs, if_true, Option.or]
      exact ⟨error, rfl⟩
    | none =>
      rw [hB] at hs
      simp only [hs, Bool.false_eq_true, if_false, Option.or]
      have hd := unbind_doc_spec heap e1 stack.vdom name
      cases hC : (document_objects stack.vdom).find?
          (fun o => purc_variant_object_get_by_ckey heap o name != 0) with
      | some o =>
        rw [hC] at hd
        simp only [hd, if_true]
        exact ⟨e1, rfl⟩
      | none =>
        rw [hC] at hd
        simp only [hd, Bool.false_eq_true, if_false]
        exact ⟨error, trivial⟩

theorem find_first (l : List Nat) (p : Nat → Bool) (pre : List Nat) (o : Nat)
    (post : List Nat) (hl : l = pre ++ o :: post) (hpre : ∀ x ∈ pre, p x = false)
    (ho : p o = true) : l.find? p = some o := by
  subst hl
  induction pre with
  | nil => simp [List.find?_cons, ho]
  | cons x pre ih =>
    rw [List.cons_append, List.find?_cons, hpre x (List.mem_cons_self _ _)]
    exact ih (fun y hy => hpre y (List.mem_cons_of_mem _ hy))

/-- C38: `pcintr_unbind_named_var` looks for a binding of the name in the temporary
variables of the bottom frame and of the frames behind it, then in the variables of the
element at the bottom frame's position and of its ancestors, then in the variables of
the document. When one of these objects binds the name and none before it does, the
function returns OK and the name is unbound in that object and nowhere else: the object
no longer binds the name, every other variant is as before, and no object changes what
it binds to another name. When none of them binds the name, the function returns the
not-found code, changes nothing and records the not-found error with the name. The
variables of the instance are not among the objects looked into. -/
theorem C38_unbind_named_var (heap : List purc_variant) (error : purc_error)
    (stack : pcintr_stack) (name : List Nat) :
    (∀ pre o post, unbind_search stack = pre ++ o :: post →
      (∀ x ∈ pre, purc_variant_object_get_by_ckey heap x name = 0) →
      purc_variant_object_get_by_ckey heap o name ≠ 0 →
      (pcintr_unbind_named_var heap error stack name).ret = PURC_ERROR_OK
      ∧ (pcintr_unbind_named_var heap error stack name).heap = unbind_at heap o name
      ∧ purc_variant_object_get_by_ckey
          (pcintr_unbind_named_var heap error stack name).heap o name = 0
      ∧ (∀ w, w ≠ o →
          variant_at (pcintr_unbind_named_var heap error stack name).heap w
            = variant_at heap w))
    ∧ ((∀ x ∈ unbind_search stack, purc_variant_object_get_by_ckey heap x name = 0) →
      pcintr_unbind_named_var heap error stack name
        = ⟨PCVARIANT_ERROR_NOT_FOUND, heap,
            purc_set_error_with_info PCVARIANT_ERROR_NOT_FOUND (chars "name:" ++ name)⟩)
    ∧ (∀ w key, key ≠ name →
        purc_variant_object_get_by_ckey (pcintr_unbind_named_var heap error stack name).heap
            w key
          = purc_variant_object_get_by_ckey heap w key)
    ∧ ((pcintr_unbind_named_var heap error stack name).ret = PURC_ERROR_OK
        ∨ (pcintr_unbind_named_var heap error stack name).ret = PCVARIANT_ERROR_NOT_FOUND)
    ∧ ((pcintr_unbind_named_var heap error stack name).ret = PURC_ERROR_OK ↔
        ∃ o ∈ unbind_search stack, purc_variant_object_get_by_ckey heap o name ≠ 0) := by
  obtain ⟨e1, hs⟩ := unbind_named_var_spec heap error stack name
  refine ⟨?_, ?_, ?_, ?_, ?_⟩
  · intro pre o post hl hpre ho
    have hf := find_first (unbind_search stack)
      (fun o => purc_variant_object_get_by_ckey heap o name != 0) pre o post hl
      (fun x hx => by simp [hpre x hx]) (by simpa using ho)
    rw [hf] at hs
    rw [hs]
    have hu := unbind_at_spec heap o name
    exact ⟨rfl, rfl, hu.1, hu.2.2⟩
  · intro hall
    have hf : (unbind_search stack).find?
        (fun o => purc_variant_object_get_by_ckey heap o name != 0) = none := by
      rw [List.find?_eq_none]
      intro x hx
      simp [hall x hx]
    rw [hf] at hs
    rw [hs]
    rfl
  · intro w key hk
    cases hf : (unbind_search stack).find?
        (fun o => purc_variant_object_get_by_ckey heap o name != 0) with
    | some o =>
      rw [hf] at hs
      rw [hs]
      exact (unbind_at_spec heap o name).2.1 w key hk
    | none =>
      rw [hf] at hs
      rw [hs]
  · cases hf : (unbind_search stack).find?
        (fun o => purc_variant_object_get_by_ckey heap o name != 0) with
    | some o =>
      rw [hf] at hs
      rw [hs]
      exact Or.inl rfl
    | none =>
      rw [hf] at hs
      rw [hs]
      exact Or.inr rfl
  · cases hf : (unbind_search stack).find?
        (fun o => purc_variant_object_get_by_ckey heap o name != 0) with
    | some o =>
      rw [hf] at hs
      rw [hs]
      have h1 := List.find?_some hf
      have h2 := List.mem_of_find?_eq_some hf
      simp only [bne_iff_ne, ne_eq] at h1
      exact ⟨fun _ => ⟨o, h2, h1⟩, fun _ => rfl⟩
    | none =>
      rw [hf] at hs
      rw [hs]
      rw [List.find?_eq_none] at hf
      constructor
      · intro h
        cases h
      · rintro ⟨o, ho, hb⟩
        have := hf o ho
        simp only [bne_iff_ne, ne_eq, Decidable.not_not] at this
        exact absurd this hb

/-- C38 on a stack of two frames: the bottom frame has no temporary variable and stands
at an element whose variables (object 2) bind `y` only, the frame behind it has the
temporary object 1 that binds `x`, and the document (object 3) binds `x` as well.
Unbinding `x` returns OK and takes the binding out of the temporary object; the binding
of the document stays. -/
theorem C38_unbind_named_var_witness :
    (pcintr_unbind_named_var
        [⟨PURC_VARIANT_TYPE_OBJECT, [], [(chars "x", 4)]⟩,
         ⟨PURC_VARIANT_TYPE_OBJECT, [], [(chars "y", 4)]⟩,
         ⟨PURC_VARIANT_TYPE_OBJECT, [], [(chars "x", 4)]⟩,
         ⟨PURC_VARIANT_TYPE_NUMBER, [49], []⟩]
        purc_clr_error
        ⟨[⟨[], [⟨PCVDOM_NODE_ELEMENT, some ⟨2, []⟩, none⟩], false, 0⟩, ⟨[], [], false, 1⟩],
          some ⟨3, []⟩⟩ (chars "x")).ret = PURC_ERROR_OK
    ∧ (pcintr_unbind_named_var
        [⟨PURC_VARIANT_TYPE_OBJECT, [], [(chars "x", 4)]⟩,
         ⟨PURC_VARIANT_TYPE_OBJECT, [], [(chars "y", 4)]⟩,
         ⟨PURC_VARIANT_TYPE_OBJECT, [], [(chars "x", 4)]⟩,
         ⟨PURC_VARIANT_TYPE_NUMBER, [49], []⟩]
        purc_clr_error
        ⟨[⟨[], [⟨PCVDOM_NODE_ELEMENT, some ⟨2, []⟩, none⟩], false, 0⟩, ⟨[], [], false, 1⟩],
          some ⟨3, []⟩⟩ (chars "x")).heap
      = [⟨PURC_VARIANT_TYPE_OBJECT, [], []⟩,
         ⟨PURC_VARIANT_TYPE_OBJECT, [], [(chars "y", 4)]⟩,
         ⟨PURC_VARIANT_TYPE_OBJECT, [], [(chars "x", 4)]⟩,
         ⟨PURC_VARIANT_TYPE_NUMBER, [49], []⟩] :=
  have h := (C38_unbind_named_var
      [⟨PURC_VARIANT_TYPE_OBJECT, [], [(chars "x", 4)]⟩,
       ⟨PURC_VARIANT_TYPE_OBJECT, [], [(chars "y", 4)]⟩,
       ⟨PURC_VARIANT_TYPE_OBJECT, [], [(chars "x", 4)]⟩,
       ⟨PURC_VARIANT_TYPE_NUMBER, [49], []⟩]
      purc_clr_error
      ⟨[⟨[], [⟨PCVDOM_NODE_ELEMENT, some ⟨2, []⟩, none⟩], false, 0⟩, ⟨[], [], false, 1⟩],
        some ⟨3, []⟩⟩ (chars "x")).1 [0] 1 [2, 3] (by decide) (by decide) (by decide)
  ⟨h.1, h.2.1.trans (by decide)⟩

/-! ## C39: the event object of a named variable -/

theorem match_observe_native (heap : List purc_variant)
    (obs : pcvarmgr_named_variables_observe) (val : Nat)
    (h : purc_variant_is_native heap (purc_variant_object_get_by_ckey heap val KEY_MGR) = true) :
    match_observe heap obs val ≠ some true := by
  simp only [match_observe, h, or_true, if_true]
  split_ifs <;> simp

/-- C39 fails on the code. For a stack whose document has the binding object 1 (the
manager at address 1) and for the name `x`, `pcintr_get_named_var_for_event` builds the
object 2 with two members: the flag under `__name_observe` and, under the key `name`,
the native variant of the manager, which has taken the place of the name string; there
is no member `mgr`. On this object `match_observe`, asked by the observer entity made for
the same name, stack and element, compares the name with a value that is no string
(the result `none`), and it does not return true for the observer of another name
either. On the object the claim describes (variant 6 below, with the flag, the name
string and the native variant of the manager under `mgr`) `match_observe` returns false:
it refuses a member `mgr` that is a native variant. -/
theorem C39_event_object_not_matched :
    pcintr_get_named_var_for_event [⟨PURC_VARIANT_TYPE_OBJECT, [], []⟩] ⟨[], some ⟨1, []⟩⟩
        (chars "x")
      = ([⟨PURC_VARIANT_TYPE_OBJECT, [], []⟩,
          ⟨PURC_VARIANT_TYPE_OBJECT, [], [(chars "__name_observe", 3), (chars "name", 5)]⟩,
          ⟨PURC_VARIANT_TYPE_BOOLEAN, [1], []⟩,
          ⟨PURC_VARIANT_TYPE_STRING, chars "x", []⟩,
          ⟨PURC_VARIANT_TYPE_NATIVE, [], [([], 1)]⟩], 2)
    ∧ match_observe
        (pcintr_get_named_var_for_event [⟨PURC_VARIANT_TYPE_OBJECT, [], []⟩]
          ⟨[], some ⟨1, []⟩⟩ (chars "x")).1
        (pcintr_get_named_var_for_observed ⟨[], some ⟨1, []⟩⟩ (chars "x")
          [⟨PCVDOM_NODE_ELEMENT, none, none⟩])
        (pcintr_get_named_var_for_event [⟨PURC_VARIANT_TYPE_OBJECT, [], []⟩]
          ⟨[], some ⟨1, []⟩⟩ (chars "x")).2
      = none
    ∧ match_observe
        (pcintr_get_named_var_for_event [⟨PURC_VARIANT_TYPE_OBJECT, [], []⟩]
          ⟨[], some ⟨1, []⟩⟩ (chars "x")).1
        (pcintr_get_named_var_for_observed ⟨[], some ⟨1, []⟩⟩ (chars "y")
          [⟨PCVDOM_NODE_ELEMENT, none, none⟩])
        (pcintr_get_named_var_for_event [⟨PURC_VARIANT_TYPE_OBJECT, [], []⟩]
          ⟨[], some ⟨1, []⟩⟩ (chars "x")).2
      = none
    ∧ match_observe
        [⟨PURC_VARIANT_TYPE_OBJECT, [], []⟩, ⟨PURC_VARIANT_TYPE_BOOLEAN, [1], []⟩,
          ⟨PURC_VARIANT_TYPE_STRING, chars "x", []⟩, ⟨PURC_VARIANT_TYPE_NATIVE, [], [([], 1)]⟩,
          ⟨PURC_VARIANT_TYPE_OBJECT, [], []⟩,
          ⟨PURC_VARIANT_TYPE_OBJECT, [],
            [(chars "__name_observe", 2), (chars "name", 3), (chars "mgr", 4)]⟩]
        (pcintr_get_named_var_for_observed ⟨[], some ⟨1, []⟩⟩ (chars "x")
          [⟨PCVDOM_NODE_ELEMENT, none, none⟩]) 6
      = some false :=
  ⟨by decide, by decide, by decide, by decide⟩

/-! ## C37: resetting the parser -/

/-- What `pcejson_reset` does: the state is init, depth and flags are the given ones,
both buffers are empty; the container stack and the return state are the old ones, so
the parser is the one `pcejson_create` produces exactly when the container stack was
empty and the return state was the first state. -/
theorem pcejson_reset_spec (parser : pcejson) (depth : Int) (flags : Nat) :
    pcejson_reset parser depth flags
      = ⟨ejson_init_state, depth, flags, parser.stack, [], [], parser.return_state⟩
    ∧ (pcejson_reset parser depth flags = pcejson_create depth flags ↔
        parser.stack = [] ∧ parser.return_state = ejson_init_state) := by
  obtain ⟨s, d, f, stk, b, b2, rs⟩ := parser
  refine ⟨rfl, ?_⟩
  simp [pcejson_reset, pcejson_create, pcejson_tmp_buff_reset]

/-- C37 fails on the code: `pcejson_reset` leaves the container stack as it is. The
parser that has read `{"a":[` holds the markers `[`, `:`, `{`; after the reset it is in
the init state with empty buffers and still holds them, so it is not the parser
`pcejson_create` produces. On the input `{}]` the parser after the reset emits
start-object, end-object and end-array, a freshly created parser emits start-object and
end-object and then stops with the unexpected-character error; on the input `{}` the
parser after the reset ends in the after-value state, a fresh one in the finished
state. -/
theorem C37_reset_keeps_stack :
    (pcejson_parse 0 (chars "\x7b\"a\":[")).map (fun r => pcejson_reset r.ejson 10 1)
      = some ⟨ejson_init_state, 10, 1, [91, 58, 123], [], [], ejson_init_state⟩
    ∧ pcejson_create 10 1 = ⟨ejson_init_state, 10, 1, [], [], [], ejson_init_state⟩
    ∧ (emitted_tokens 10
          ⟨ejson_init_state, 10, 1, [91, 58, 123], [], [], ejson_init_state⟩
          (chars "\x7b\x7d]")).map (fun t => t.type)
      = [ejson_token_start_object, ejson_token_end_object, ejson_token_end_array]
    ∧ (emitted_tokens 10 (pcejson_create 10 1) (chars "\x7b\x7d]")).map (fun t => t.type)
      = [ejson_token_start_object, ejson_token_end_object]
    ∧ (parse_loop 10 (pcejson_create 10 1) (chars "\x7b\x7d]") ⟨[], 0, []⟩ none).map
        (fun r => (r.ejson.state, r.error))
      = some (ejson_finished_state, some PCEJSON_UNEXPECTED_CHARACTER_PARSE_ERROR)
    ∧ (parse_loop 10 ⟨ejson_init_state, 10, 1, [91, 58, 123], [], [], ejson_init_state⟩
          (chars "\x7b\x7d") ⟨[], 0, []⟩ none).map (fun r => (r.ejson.state, r.ejson.stack))
      = some (ejson_after_value_state, [91, 58, 123])
    ∧ (parse_loop 10 (pcejson_create 10 1) (chars "\x7b\x7d") ⟨[], 0, []⟩ none).map
        (fun r => (r.ejson.state, r.ejson.stack))
      = some (ejson_finished_state, []) :=
  ⟨by decide, by decide, by decide, by decide, by decide, by decide, by decide⟩

/-! ## C32: one token for a numeric literal -/

/-- C32 fails on the code for an exponent literal with the suffix `FL`: the
exponent-integer state returns the LONG_DOUBLE token and switches to the
after-value-number state (the fraction state and the suffix state switch to the
after-value state), and there the delimiter that follows gives a NUMBER token with the
same text. For the document `{"a":1e5FL}` the tokenizer emits start-object, key,
long-double `1e5FL`, number `1e5FL`, end-object, and `pcejson_parse` builds a
LONG_DOUBLE and a NUMBER node behind the key. The documents `{"a":1.5FL}`,
`{"a":15UL}` and `{"a":1e5}` give one token for the literal. -/
theorem C32_exponent_suffix_twice :
    step ⟨ejson_value_number_exponent_integer_state, 10, 1, [58, 123], [49, 101, 53, 70], [],
          ejson_init_state⟩ 76
      = .ret (some ⟨ejson_token_long_double, some [49, 101, 53, 70, 76]⟩) none
          ⟨ejson_after_value_number_state, 10, 1, [58, 123], [49, 101, 53, 70, 76], [],
            ejson_init_state⟩ false
    ∧ pcejson_next_token
        ⟨ejson_after_value_number_state, 10, 1, [58, 123], [49, 101, 53, 70, 76], [],
          ejson_init_state⟩ [125]
      = ⟨some ⟨ejson_token_number, some [49, 101, 53, 70, 76]⟩, none,
          ⟨ejson_after_value_state, 10, 1, [58, 123], [49, 101, 53, 70, 76], [],
            ejson_init_state⟩, [125]⟩
    ∧ emitted_tokens 30 (pcejson_create 10 1) (chars "\x7b\"a\":1e5FL\x7d")
      = [⟨ejson_token_start_object, none⟩, ⟨ejson_token_key, some (chars "a")⟩,
          ⟨ejson_token_long_double, some (chars "1e5FL")⟩,
          ⟨ejson_token_number, some (chars "1e5FL")⟩, ⟨ejson_token_end_object, none⟩]
    ∧ (pcejson_parse 0 (chars "\x7b\"a\":1e5FL\x7d")).map
        (fun r => (r.tree.nodes, r.ejson.state, r.error))
      = some ([⟨PCVCM_NODE_TYPE_OBJECT, none, [2, 3, 4]⟩,
          ⟨PCVCM_NODE_TYPE_KEY, some (chars "a"), []⟩,
          ⟨PCVCM_NODE_TYPE_LONG_DOUBLE, some (chars "1e5FL"), []⟩,
          ⟨PCVCM_NODE_TYPE_NUMBER, some (chars "1e5FL"), []⟩], ejson_finished_state, none)
    ∧ emitted_tokens 30 (pcejson_create 10 1) (chars "\x7b\"a\":1.5FL\x7d")
      = [⟨ejson_token_start_object, none⟩, ⟨ejson_token_key, some (chars "a")⟩,
          ⟨ejson_token_long_double, some (chars "1.5FL")⟩, ⟨ejson_token_end_object, none⟩]
    ∧ emitted_tokens 30 (pcejson_create 10 1) (chars "\x7b\"a\":15UL\x7d")
      = [⟨ejson_token_start_object, none⟩, ⟨ejson_token_key, some (chars "a")⟩,
          ⟨ejson_token_ulong_int, some (chars "15UL")⟩, ⟨ejson_token_end_object, none⟩]
    ∧ emitted_tokens 30 (pcejson_create 10 1) (chars "\x7b\"a\":1e5\x7d")
      = [⟨ejson_token_start_object, none⟩, ⟨ejson_token_key, some (chars "a")⟩,
          ⟨ejson_token_number, some (chars "1e5")⟩, ⟨ejson_token_end_object, none⟩] :=
  ⟨by decide, by decide, by decide, by decide, by decide, by decide, by decide⟩

/-! ## C31: the text of a byte-sequence token -/

theorem binary_step_digit (d : Int) (f : Nat) (stk b b2 : List Nat) (rs : ejson_state)
    (c : Nat) (h : c = 48 ∨ c = 49) :
    step ⟨ejson_binary_byte_sequence_state, d, f, stk, b, b2, rs⟩ c
      = .advance ⟨ejson_binary_byte_sequence_state, d, f, stk, b ++ [c], b2, rs⟩ := by
  rcases h with rfl | rfl <;>
    simp [step, binary_byte_sequence_state, is_delimiter, is_whitespace, is_ascii_binary_digit,
      ADVANCE_TO, pcejson_tmp_buff_append, utf8_bytes]

theorem binary_step_dot (d : Int) (f : Nat) (stk b b2 : List Nat) (rs : ejson_state) :
    step ⟨ejson_binary_byte_sequence_state, d, f, stk, b, b2, rs⟩ 46
      = .advance ⟨ejson_binary_byte_sequence_state, d, f, stk, b, b2, rs⟩ := by
  simp [step, binary_byte_sequence_state, is_delimiter, is_whitespace, is_ascii_binary_digit,
    ADVANCE_TO]

theorem binary_scan (d : Int) (f : Nat) (stk b2 : List Nat) (rs : ejson_state)
    (rest : List Nat) (l : List Nat) :
    ∀ b : List Nat, (∀ c ∈ l, c = 48 ∨ c = 49 ∨ c = 46) →
      pcejson_next_token ⟨ejson_binary_byte_sequence_state, d, f, stk, b, b2, rs⟩ (l ++ rest)
        = pcejson_next_token
            ⟨ejson_binary_byte_sequence_state, d, f, stk, b ++ l.filter (fun x => x != 46), b2,
              rs⟩ rest := by
  induction l with
  | nil =>
    intro b _
    simp
  | cons c cs ih =>
    intro b hl
    have hcs : ∀ x ∈ cs, x = 48 ∨ x = 49 ∨ x = 46 :=
      fun x hx => hl x (List.mem_cons_of_mem _ hx)
    rcases hl c (List.mem_cons_self _ _) with h | h | h
    · rw [List.cons_append, nt_adv _ _ _ _ (binary_step_digit d f stk b b2 rs c (Or.inl h)),
        ih _ hcs]
      subst h
      simp
    · rw [List.cons_append, nt_adv _ _ _ _ (binary_step_digit d f stk b b2 rs c (Or.inr h)),
        ih _ hcs]
      subst h
      simp
    · subst h
      rw [List.cons_append, nt_adv _ _ _ _ (binary_step_dot d f stk b b2 rs), ih _ hcs]
      simp

theorem binary_open (d : Int) (f : Nat) (stk b b2 : List Nat) (rs : ejson_state)
    (cs : List Nat) :
    pcejson_next_token ⟨ejson_before_value_state, d, f, stk, b, b2, rs⟩ (98 :: 98 :: cs)
      = pcejson_next_token ⟨ejson_binary_byte_sequence_state, d, f, stk, [98, 98], b2, rs⟩
          cs := by
  simp [pcejson_next_token, RECONSUME_LIMIT, dispatch, step, before_value_state,
    before_value_enter, byte_sequence_state, is_whitespace, RECONSUME_IN, ADVANCE_TO,
    pcejson_tmp_buff_reset, pcejson_tmp_buff_is_empty, pcejson_tmp_buff_append, utf8_bytes]

theorem base64_open (d : Int) (f : Nat) (stk b b2 : List Nat) (rs : ejson_state)
    (cs : List Nat) :
    pcejson_next_token ⟨ejson_before_value_state, d, f, stk, b, b2, rs⟩ (98 :: 54 :: cs)
      = pcejson_next_token ⟨ejson_base64_byte_sequence_state, d, f, stk, [98, 54], b2, rs⟩
          cs := by
  simp [pcejson_next_token, RECONSUME_LIMIT, dispatch, step, before_value_state,
    before_value_enter, byte_sequence_state, is_whitespace, RECONSUME_IN, ADVANCE_TO,
    pcejson_tmp_buff_reset, pcejson_tmp_buff_is_empty, pcejson_tmp_buff_append, utf8_bytes]

theorem base64_scan_chars (d : Int) (f : Nat) (stk b2 : List Nat) (rs : ejson_state)
    (rest : List Nat) (l : List Nat) :
    ∀ b : List Nat, pcejson_tmp_buff_end_with b [61] = false →
      (∀ c ∈ l, is_ascii_digit c = true ∨ is_ascii_alpha c = true ∨ c = 43 ∨ c = 45) →
      pcejson_next_token ⟨ejson_base64_byte_sequence_state, d, f, stk, b, b2, rs⟩ (l ++ rest)
        = pcejson_next_token ⟨ejson_base64_byte_sequence_state, d, f, stk, b ++ l, b2, rs⟩
            rest := by
  induction l with
  | nil =>
    intro b _ _
    simp
  | cons c cs ih =>
    intro b hb hl
    have hc := hl c (List.mem_cons_self _ _)
    have hs := base64_step_char d f stk b b2 rs c hc
    rw [hb] at hs
    simp only [Bool.false_eq_true, if_false] at hs
    have h61 := (base64_char_facts c hc).2.2.2
    have hb1 : pcejson_tmp_buff_end_with (b ++ [c]) [61] = false := by
      rw [end_with_append b [c] [61] rfl]
      simp [h61]
    rw [List.cons_append, nt_adv _ _ _ _ hs,
      ih _ hb1 (fun x hx => hl x (List.mem_cons_of_mem _ hx))]
    simp

theorem base64_scan_pads (d : Int) (f : Nat) (stk b2 : List Nat) (rs : ejson_state)
    (rest : List Nat) (l : List Nat) :
    ∀ b : List Nat, (∀ c ∈ l, c = 61) →
      pcejson_next_token ⟨ejson_base64_byte_sequence_state, d, f, stk, b, b2, rs⟩ (l ++ rest)
        = pcejson_next_token ⟨ejson_base64_byte_sequence_state, d, f, stk, b ++ l, b2, rs⟩
            rest := by
  induction l with
  | nil =>
    intro b _
    simp
  | cons c cs ih =>
    intro b hl
    have hc := hl c (List.mem_cons_self _ _)
    subst hc
    rw [List.cons_append, nt_adv _ _ _ _ (base64_step_pad d f stk b b2 rs),
      ih _ (fun x hx => hl x (List.mem_cons_of_mem _ hx))]
    simp

theorem byte_sequence_close (s : ejson_state) (d : Int) (f : Nat) (stk b b2 : List Nat)
    (rs : ejson_state) (c : Nat) (rest : List Nat)
    (hs : s = ejson_hex_byte_sequence_state ∨ s = ejson_binary_byte_sequence_state
      ∨ s = ejson_base64_byte_sequence_state)
    (hd : is_delimiter c = true) (hz : ∀ x ∈ b, x ≠ 0) :
    pcejson_next_token ⟨s, d, f, stk, b, b2, rs⟩ (c :: rest)
      = ⟨some ⟨ejson_token_byte_squence, some b⟩, none,
          ⟨ejson_after_value_state, d, f, stk, b, b2, rs⟩, c :: rest⟩ := by
  have h1 : step ⟨s, d, f, stk, b, b2, rs⟩ c
      = .reconsume ⟨ejson_after_byte_sequence_state, d, f, stk, b, b2, rs⟩ := by
    rcases hs with rfl | rfl | rfl
    · simp [step, hex_byte_sequence_state, hd, RECONSUME_IN]
    · simp [step, binary_byte_sequence_state, hd, RECONSUME_IN]
    · simp [step, base64_byte_sequence_state, hd, RECONSUME_IN]
  rw [nt_re_ret _ _ _ _ _ _ _ _ h1 (after_byte_sequence_step d f stk b b2 rs c hd hz)]
  rfl

/-- C31 as the code has it: at a value position, a byte-sequence literal followed by a
delimiter gives one BYTE_SEQUENCE token, and the delimiter stays in the stream. For `bx`
followed by hex digits and for `b6` followed by digits, letters, `+` and `-` and then
by equals signs the text of the token is the source characters of the literal; for `bb`
followed by the digits 0 and 1 and by dots the text is the source characters without
the dots. -/
theorem C31_byte_sequence_text (p : pcejson) (c : Nat) (rest : List Nat)
    (hp : p.state = ejson_before_value_state) (hd : is_delimiter c = true) :
    (∀ h, (∀ x ∈ h, is_ascii_hex_digit x = true) →
      pcejson_next_token p (98 :: 120 :: h ++ c :: rest)
        = ⟨some ⟨ejson_token_byte_squence, some (98 :: 120 :: h)⟩, none,
            { p with state := ejson_after_value_state, tmp_buff := 98 :: 120 :: h },
            c :: rest⟩)
    ∧ (∀ l, (∀ x ∈ l, x = 48 ∨ x = 49 ∨ x = 46) →
      pcejson_next_token p (98 :: 98 :: l ++ c :: rest)
        = ⟨some ⟨ejson_token_byte_squence, some (98 :: 98 :: l.filter (fun x => x != 46))⟩,
            none,
            { p with state := ejson_after_value_state,
                     tmp_buff := 98 :: 98 :: l.filter (fun x => x != 46) },
            c :: rest⟩)
    ∧ (∀ l1 l2,
      (∀ x ∈ l1, is_ascii_digit x = true ∨ is_ascii_alpha x = true ∨ x = 43 ∨ x = 45) →
      (∀ x ∈ l2, x = 61) →
      pcejson_next_token p (98 :: 54 :: (l1 ++ l2) ++ c :: rest)
        = ⟨some ⟨ejson_token_byte_squence, some (98 :: 54 :: (l1 ++ l2))⟩, none,
            { p with state := ejson_after_value_state, tmp_buff := 98 :: 54 :: (l1 ++ l2) },
            c :: rest⟩) := by
  obtain ⟨s, d, f, stk, b, b2, rs⟩ := p
  simp only at hp
  subst hp
  refine ⟨?_, ?_, ?_⟩
  · intro h hh
    have hz : ∀ x ∈ 98 :: 120 :: h, x ≠ 0 := by
      intro x hx
      simp only [List.mem_cons] at hx
      rcases hx with rfl | rfl | hx
      · decide
      · decide
      · exact (hex_digit_facts x (hh x hx)).2.1
    rw [List.cons_append, List.cons_append, byte_sequence_open, hex_scan _ _ _ _ _ _ _ _ hh]
    exact byte_sequence_close _ d f stk _ b2 rs c rest (Or.inl rfl) hd hz
  · intro l hl
    have hz : ∀ x ∈ 98 :: 98 :: l.filter (fun x => x != 46), x ≠ 0 := by
      intro x hx
      simp only [List.mem_cons, List.mem_filter] at hx
      rcases hx with rfl | rfl | ⟨hx, _⟩
      · decide
      · decide
      · rcases hl x hx with h | h | h <;> omega
    rw [List.cons_append, List.cons_append, binary_open, binary_scan _ _ _ _ _ _ _ _ hl]
    exact byte_sequence_close _ d f stk _ b2 rs c rest (Or.inr (Or.inl rfl)) hd hz
  · intro l1 l2 h1 h2
    have hz : ∀ x ∈ 98 :: 54 :: (l1 ++ l2), x ≠ 0 := by
      intro x hx
      simp only [List.mem_cons, List.mem_append] at hx
      rcases hx with rfl | rfl | hx | hx
      · decide
      · decide
      · exact (base64_char_facts x (h1 x hx)).2.1
      · have := h2 x hx
        omega
    rw [List.cons_append, List.cons_append, base64_open, List.append_assoc,
      base64_scan_chars _ _ _ _ _ _ _ _ (by decide) h1, base64_scan_pads _ _ _ _ _ _ _ _ h2]
    have : [98, 54] ++ l1 ++ l2 = 98 :: 54 :: (l1 ++ l2) := by simp
    rw [this]
    exact byte_sequence_close _ d f stk _ b2 rs c rest (Or.inr (Or.inr rfl)) hd hz

/-- C31 at the literal `bb0101.1100` followed by a comma: the text of the token is
`bb01011100`. -/
theorem C31_byte_sequence_text_witness :
    pcejson_next_token ⟨ejson_before_value_state, 10, 1, [58, 123], [], [], ejson_init_state⟩
        (98 :: 98 :: chars "0101.1100" ++ 44 :: [])
      = ⟨some ⟨ejson_token_byte_squence,
            some (98 :: 98 :: (chars "0101.1100").filter (fun x => x != 46))⟩, none,
          ⟨ejson_after_value_state, 10, 1, [58, 123],
            98 :: 98 :: (chars "0101.1100").filter (fun x => x != 46), [], ejson_init_state⟩,
          44 :: []⟩ :=
  (C31_byte_sequence_text ⟨ejson_before_value_state, 10, 1, [58, 123], [], [], ejson_init_state⟩
    44 [] rfl (by decide)).2.1 (chars "0101.1100") (by decide)

/-- The claim does not hold for a binary literal with separators: in the document
`{"a":bb0101.1100}` the token of the literal has the text `bb01011100`, not the source
characters `bb0101.1100`. -/
theorem C31_counterexample :
    (emitted_tokens 40 (pcejson_create 10 1) (chars "\x7b\"a\":bb0101.1100\x7d")).map
        (fun t => (t.type, t.buf))
      = [(ejson_token_start_object, none), (ejson_token_key, some (chars "a")),
          (ejson_token_byte_squence, some (chars "bb01011100")), (ejson_token_end_object, none)]
    ∧ chars "bb01011100" ≠ chars "bb0101.1100" :=
  ⟨by decide, by decide⟩

/-! ## C40: the helpers are applied inside their domain -/

theorem no_nul_iff (b : List Nat) : no_nul b = true ↔ ∀ x ∈ b, x ≠ 0 := by
  simp [no_nul]

theorem no_nul_nil : no_nul [] = true := rfl

theorem no_nul_reset (b : List Nat) : no_nul (pcejson_tmp_buff_reset b) = true := rfl

theorem no_nul_append (b l : List Nat) :
    no_nul (pcejson_tmp_buff_append b l) = (no_nul b && no_nul l) := by
  simp [no_nul, pcejson_tmp_buff_append]

theorem no_nul_utf8 (c : Nat) (hc : c ≠ 0) : no_nul (utf8_bytes c) = true :=
  (no_nul_iff _).2 (utf8_bytes_ne_zero c hc)

theorem no_nul_take (b : List Nat) (n : Nat) (h : no_nul b = true) :
    no_nul (b.take n) = true := by
  rw [no_nul_iff] at h ⊢
  exact fun x hx => h x (List.mem_of_mem_take hx)

theorem no_nul_c_string (b : List Nat) (h : no_nul b = true) : c_string b = b :=
  c_string_of_ne_zero b ((no_nul_iff b).1 h)

theorem no_nul_remove (b : List Nat) (first last : Nat) (h : no_nul b = true) :
    no_nul (pcejson_tmp_buff_remove_first_last b first last) = true := by
  unfold pcejson_tmp_buff_remove_first_last pcejson_tmp_buff_dup
  rw [no_nul_c_string b h]
  rw [no_nul_iff] at h ⊢
  exact fun x hx => h x (List.mem_of_mem_drop (List.mem_of_mem_take hx))

theorem bottom_brace_pop (stk : List Nat) (h : bottom_brace stk = true) :
    bottom_brace (pcutils_stack_pop stk) = true := by
  rcases stk with _ | ⟨x, _ | ⟨y, rest⟩⟩
  · rfl
  · rfl
  · simpa [bottom_brace, pcutils_stack_pop, List.getLastD] using h

theorem bottom_brace_push (stk : List Nat) (m : Nat) (h : bottom_brace stk = true)
    (hm : stk.isEmpty = false ∨ m = 123) :
    bottom_brace (pcutils_stack_push stk m) = true := by
  rcases stk with _ | ⟨x, rest⟩
  · rcases hm with hm | hm
    · simp at hm
    · subst hm
      rfl
  · simpa [bottom_brace, pcutils_stack_push, List.getLastD] using h

theorem pop_not_empty (stk : List Nat) (h : stack_ok stk = true) (hv : value_top stk = true)
    (hb : bottom_brace stk = true) : (pcutils_stack_pop stk).isEmpty = false := by
  rcases stk with _ | ⟨x, _ | ⟨y, rest⟩⟩
  · simp [value_top, pcutils_stack_top] at hv
  · simp only [value_top, pcutils_stack_top, List.headD_cons, Bool.or_eq_true, beq_iff_eq] at hv
    simp only [bottom_brace, List.getLastD, List.getLast_singleton, beq_iff_eq] at hb
    omega
  · rfl

theorem value_top_not_empty (stk : List Nat) (hv : value_top stk = true) :
    stk.isEmpty = false := by
  rcases stk with _ | ⟨x, rest⟩
  · simp [value_top, pcutils_stack_top] at hv
  · rfl

theorem top_not_empty (stk : List Nat) (m : Nat) (hm : m ≠ 0) (h : pcutils_stack_top stk = m) :
    stk.isEmpty = false := by
  rcases stk with _ | ⟨x, rest⟩
  · simp only [pcutils_stack_top, List.headD_nil] at h
    omega
  · rfl

theorem append_utf8_not_empty (b : List Nat) (c : Nat) :
    (pcejson_tmp_buff_append b (utf8_bytes c)).isEmpty = false := by
  have := utf8_bytes_ne_nil c
  simp [pcejson_tmp_buff_append, List.isEmpty_iff, this]

theorem append_cons_not_empty (b : List Nat) (x : Nat) (l : List Nat) :
    (pcejson_tmp_buff_append b (x :: l)).isEmpty = false := by
  simp [pcejson_tmp_buff_append, List.isEmpty_iff]

theorem no_nul_cons (x : Nat) (l : List Nat) : no_nul (x :: l) = (x != 0 && no_nul l) := by
  simp [no_nul]

theorem domain_advance (c : Nat) (p : pcejson) :
    keeps_domain c (.advance p) = domain_between p := rfl

theorem domain_reconsume (c : Nat) (p : pcejson) :
    keeps_domain c (.reconsume p) = domain_invariant p c := rfl

theorem domain_error (c : Nat) (t : Option pcejson_token) (e : pcejson_error) (p : pcejson)
    (u : Bool) : keeps_domain c (.ret t (some e) p u) = true := rfl

theorem domain_ret (c : Nat) (t : Option pcejson_token) (p : pcejson) (u : Bool) :
    keeps_domain c (.ret t none p u) = domain_between p := rfl

theorem dom_object (d : Int) (f : Nat) (stk b b2 : List Nat) (rs : ejson_state) (c : Nat)
    (hd : domain_invariant ⟨ejson_object_state, d, f, stk, b, b2, rs⟩ c = true) :
    keeps_domain c (step ⟨ejson_object_state, d, f, stk, b, b2, rs⟩ c) = true := by
  simp only [domain_invariant, state_domain, Bool.and_eq_true, Bool.and_true] at hd
  obtain ⟨⟨hb, hb2⟩, hbb⟩ := hd
  have f1 := bottom_brace_push stk 123 hbb (Or.inr rfl)
  simp only [step, object_state, ADVANCE_TO, SWITCH_TO, RETURN_TOKEN, PARSE_ERROR,
    apply_ite (keeps_domain c), domain_advance, domain_error, domain_ret, domain_between,
    state_domain_between, no_nul_reset, hb, hb2, hbb, f1, Bool.and_self, ite_self]

theorem dom_array (d : Int) (f : Nat) (stk b b2 : List Nat) (rs : ejson_state) (c : Nat)
    (h : dispatch_invariant ⟨ejson_array_state, d, f, stk, b, b2, rs⟩ c = true)
    (hd : domain_invariant ⟨ejson_array_state, d, f, stk, b, b2, rs⟩ c = true) :
    keeps_domain c (step ⟨ejson_array_state, d, f, stk, b, b2, rs⟩ c) = true := by
  simp only [domain_invariant, state_domain, Bool.and_eq_true, Bool.and_true] at hd
  obtain ⟨⟨hb, hb2⟩, hbb⟩ := hd
  simp only [dispatch_invariant, Bool.and_eq_true] at h
  have f1 := bottom_brace_push stk 91 hbb (Or.inl (value_top_not_empty stk h.2))
  simp only [step, array_state, ADVANCE_TO, SWITCH_TO, RETURN_TOKEN, PARSE_ERROR,
    apply_ite (keeps_domain c), domain_advance, domain_error, domain_ret, domain_between,
    state_domain_between, no_nul_reset, hb, hb2, hbb, f1, Bool.and_self, ite_self]

theorem dom_after_object (d : Int) (f : Nat) (stk b b2 : List Nat) (rs : ejson_state)
    (c : Nat)
    (hd : domain_invariant ⟨ejson_after_object_state, d, f, stk, b, b2, rs⟩ c = true) :
    keeps_domain c (step ⟨ejson_after_object_state, d, f, stk, b, b2, rs⟩ c) = true := by
  simp only [domain_invariant, state_domain, Bool.and_eq_true] at hd
  obtain ⟨⟨⟨hb, hb2⟩, hbb⟩, -⟩ := hd
  have f1 := bottom_brace_pop stk hbb
  simp only [step, after_object_state, SWITCH_TO, RETURN_TOKEN, PARSE_ERROR,
    apply_ite (keeps_domain c), domain_error, domain_ret, domain_between,
    state_domain_between, hb, hb2, f1, Bool.and_self, ite_self]

theorem dom_after_array (d : Int) (f : Nat) (stk b b2 : List Nat) (rs : ejson_state)
    (c : Nat)
    (hd : domain_invariant ⟨ejson_after_array_state, d, f, stk, b, b2, rs⟩ c = true) :
    keeps_domain c (step ⟨ejson_after_array_state, d, f, stk, b, b2, rs⟩ c) = true := by
  simp only [domain_invariant, state_domain, Bool.and_eq_true] at hd
  obtain ⟨⟨⟨hb, hb2⟩, hbb⟩, -⟩ := hd
  have f1 := bottom_brace_pop stk hbb
  simp only [step, after_array_state, SWITCH_TO, RETURN_TOKEN, PARSE_ERROR,
    apply_ite (keeps_domain c), domain_error, domain_ret, domain_between,
    state_domain_between, hb, hb2, f1, Bool.and_self, ite_self]

theorem dom_before_name (d : Int) (f : Nat) (stk b b2 : List Nat) (rs : ejson_state)
    (c : Nat)
    (h : dispatch_invariant ⟨ejson_before_name_state, d, f, stk, b, b2, rs⟩ c = true)
    (hd : domain_invariant ⟨ejson_before_name_state, d, f, stk, b, b2, rs⟩ c = true) :
    keeps_domain c (step ⟨ejson_before_name_state, d, f, stk, b, b2, rs⟩ c) = true := by
  simp only [domain_invariant, state_domain, Bool.and_eq_true, Bool.and_true] at hd
  obtain ⟨⟨hb, hb2⟩, hbb⟩ := hd
  simp only [dispatch_invariant, stack_invariant, Bool.and_eq_true, beq_iff_eq] at h
  have hne := top_not_empty stk 123 (by decide) h.2
  have f1 := bottom_brace_push stk 58 hbb (Or.inl hne)
  simp only [step, before_name_state, before_name_enter, h.2, if_true, ADVANCE_TO,
    RECONSUME_IN, PARSE_ERROR, apply_ite (keeps_domain c), domain_advance, domain_reconsume,
    domain_error, domain_invariant, domain_between, state_domain, state_domain_between,
    no_nul_reset, hb, hb2, hbb, f1, hne, Bool.not_false, Bool.and_self, ite_self]

theorem dom_before_value (d : Int) (f : Nat) (stk b b2 : List Nat) (rs : ejson_state)
    (c : Nat)
    (h : dispatch_invariant ⟨ejson_before_value_state, d, f, stk, b, b2, rs⟩ c = true)
    (hd : domain_invariant ⟨ejson_before_value_state, d, f, stk, b, b2, rs⟩ c = true) :
    keeps_domain c (step ⟨ejson_before_value_state, d, f, stk, b, b2, rs⟩ c) = true := by
  simp only [domain_invariant, state_domain, Bool.and_eq_true, Bool.and_true] at hd
  obtain ⟨⟨hb, hb2⟩, hbb⟩ := hd
  simp only [dispatch_invariant, stack_invariant, Bool.and_eq_true] at h
  have hne := value_top_not_empty stk h.2
  simp only [step, before_value_state, before_value_enter, ADVANCE_TO, RECONSUME_IN,
    PARSE_ERROR, apply_ite (keeps_domain c), domain_advance, domain_reconsume, domain_error,
    domain_invariant, domain_between, state_domain, state_domain_between, no_nul_reset, hb,
    hb2, hbb, hne, Bool.not_false, Bool.and_self, Bool.true_and, ite_self]
  split_ifs with h1 h2 h3 h4 h5 h6
  all_goals first
    | rfl
    | (rcases h6 with h6 | h6 <;> simp [h6])

theorem dom_after_value (d : Int) (f : Nat) (stk b b2 : List Nat) (rs : ejson_state)
    (c : Nat)
    (h : dispatch_invariant ⟨ejson_after_value_state, d, f, stk, b, b2, rs⟩ c = true)
    (hd : domain_invariant ⟨ejson_after_value_state, d, f, stk, b, b2, rs⟩ c = true) :
    keeps_domain c (step ⟨ejson_after_value_state, d, f, stk, b, b2, rs⟩ c) = true := by
  simp only [domain_invariant, state_domain, Bool.and_eq_true, Bool.and_true] at hd
  obtain ⟨⟨hb, hb2⟩, hbb⟩ := hd
  simp only [dispatch_invariant, stack_invariant, Bool.and_eq_true] at h
  have hne := value_top_not_empty stk h.2
  have f1 := bottom_brace_pop stk hbb
  have f2 := pop_not_empty stk h.1 h.2 hbb
  simp only [step, after_value_state, ADVANCE_TO, RECONSUME_IN, SWITCH_TO, RETURN_TOKEN,
    PARSE_ERROR, apply_ite (keeps_domain c), domain_advance, domain_reconsume, domain_error,
    domain_ret, domain_invariant, domain_between, state_domain, state_domain_between, hb,
    hb2, hbb, hne, f1, f2, Bool.not_false, Bool.and_self, ite_self]

theorem dom_value_double_quoted (d : Int) (f : Nat) (stk b b2 : List Nat) (rs : ejson_state)
    (c : Nat) (hc : c ≠ 0)
    (hd : domain_invariant ⟨ejson_value_double_quoted_state, d, f, stk, b, b2, rs⟩ c = true) :
    keeps_domain c (step ⟨ejson_value_double_quoted_state, d, f, stk, b, b2, rs⟩ c)
      = true := by
  simp only [domain_invariant, state_domain, Bool.and_eq_true, Bool.and_true] at hd
  obtain ⟨⟨hb, hb2⟩, hbb⟩ := hd
  have hu := no_nul_utf8 c hc
  simp only [step, value_double_quoted_state, ADVANCE_TO, RECONSUME_IN, EOF_IN_STRING,
    apply_ite (keeps_domain c), domain_advance, domain_reconsume, domain_error,
    domain_invariant, domain_between, state_domain, state_domain_between, no_nul_append, hb,
    hb2, hbb, hu, Bool.and_self, Bool.true_and, ite_self]
  split_ifs with h1 h2 h3
  · rfl
  · simp only [pcejson_tmp_buff_equal, no_nul_c_string b hb, beq_iff_eq] at h3
    subst h1 h3
    rfl
  · simp only [pcejson_tmp_buff_is_empty, beq_iff_eq] at h2
    rcases b with _ | ⟨x, l⟩
    · simp at h2
    · rfl
  · rfl

theorem dom_after_value_double_quoted (d : Int) (f : Nat) (stk b b2 : List Nat)
    (rs : ejson_state) (c : Nat)
    (hd : domain_invariant ⟨ejson_after_value_double_quoted_state, d, f, stk, b, b2, rs⟩ c
      = true) :
    keeps_domain c (step ⟨ejson_after_value_double_quoted_state, d, f, stk, b, b2, rs⟩ c)
      = true := by
  simp only [domain_invariant, state_domain, Bool.and_eq_true] at hd
  obtain ⟨⟨⟨hb, hb2⟩, hbb⟩, -⟩ := hd
  have f1 := no_nul_remove b 1 0 hb
  simp only [step, after_value_double_quoted_state, RECONSUME_IN, PARSE_ERROR,
    apply_ite (keeps_domain c), domain_reconsume, domain_error, domain_invariant,
    state_domain, hb2, hbb, f1, Bool.and_self, ite_self]

theorem dom_value_two_double_quoted (d : Int) (f : Nat) (stk b b2 : List Nat)
    (rs : ejson_state) (c : Nat)
    (hd : domain_invariant ⟨ejson_value_two_double_quoted_state, d, f, stk, b, b2, rs⟩ c
      = true) :
    keeps_domain c (step ⟨ejson_value_two_double_quoted_state, d, f, stk, b, b2, rs⟩ c)
      = true := by
  simp only [domain_invariant, state_domain, Bool.and_eq_true, Bool.or_eq_true,
    beq_iff_eq] at hd
  obtain ⟨⟨⟨hb, hb2⟩, hbb⟩, hs⟩ := hd
  have f1 := no_nul_remove b 1 1 hb
  simp only [step, value_two_double_quoted_state, ADVANCE_TO, RECONSUME_IN, EOF_IN_STRING,
    RETURN_NULL, apply_ite (keeps_domain c), domain_advance, domain_reconsume, domain_error,
    domain_ret, domain_invariant, domain_between, state_domain, state_domain_between, hb,
    hb2, hbb, f1, no_nul_append, Bool.and_self, Bool.true_and, ite_self]
  rcases hs with hs | ⟨hs1, hs2⟩
  · subst hs
    split_ifs <;> first | rfl | (simp_all +decide [pcejson_tmp_buff_equal, c_string])
  · subst hs1 hs2
    decide

theorem dom_value_three_double_quoted (d : Int) (f : Nat) (stk b b2 : List Nat)
    (rs : ejson_state) (c : Nat) (hc : c ≠ 0)
    (hd : domain_invariant ⟨ejson_value_three_double_quoted_state, d, f, stk, b, b2, rs⟩ c
      = true) :
    keeps_domain c (step ⟨ejson_value_three_double_quoted_state, d, f, stk, b, b2, rs⟩ c)
      = true := by
  simp only [domain_invariant, state_domain, Bool.and_eq_true, Bool.and_true] at hd
  obtain ⟨⟨hb, hb2⟩, hbb⟩ := hd
  have hu := no_nul_utf8 c hc
  have f0 : no_nul (pcejson_tmp_buff_append b (utf8_bytes c)) = true := by
    rw [no_nul_append, hb, hu]
    rfl
  have f1 := no_nul_remove _ 3 3 f0
  simp only [step, value_three_double_quoted_state, ADVANCE_TO, SWITCH_TO, RETURN_TOKEN,
    EOF_IN_STRING, apply_ite (keeps_domain c), domain_advance, domain_error, domain_ret,
    domain_between, state_domain_between, hb, hb2, hbb, f0, f1, Bool.and_self, ite_self]

theorem dom_value_number (d : Int) (f : Nat) (stk b b2 : List Nat) (rs : ejson_state)
    (c : Nat) (hc : c ≠ 0)
    (hd : domain_invariant ⟨ejson_value_number_state, d, f, stk, b, b2, rs⟩ c = true) :
    keeps_domain c (step ⟨ejson_value_number_state, d, f, stk, b, b2, rs⟩ c) = true := by
  simp only [domain_invariant, state_domain, Bool.and_eq_true, Bool.or_eq_true,
    beq_iff_eq] at hd
  obtain ⟨⟨⟨hb, hb2⟩, hbb⟩, hs⟩ := hd
  have hu := no_nul_utf8 c hc
  have hnd : is_delimiter c = false := by
    rcases hs with hs | hs
    · exact (digit_facts c hs).2.2.1
    · subst hs
      decide
  simp only [step, value_number_state, hnd, Bool.false_eq_true, if_false, ADVANCE_TO,
    RECONSUME_IN, PARSE_ERROR, apply_ite (keeps_domain c), domain_advance, domain_reconsume,
    domain_error, domain_invariant, domain_between, state_domain, state_domain_between,
    no_nul_append, append_utf8_not_empty, hb, hb2, hbb, hu, Bool.not_false, Bool.and_self,
    ite_self]
  split_ifs with h1
  · simp [h1]
  · rfl

theorem dom_value_number_integer (d : Int) (f : Nat) (stk b b2 : List Nat)
    (rs : ejson_state) (c : Nat) (hc : c ≠ 0)
    (hd : domain_invariant ⟨ejson_value_number_integer_state, d, f, stk, b, b2, rs⟩ c
      = true) :
    keeps_domain c (step ⟨ejson_value_number_integer_state, d, f, stk, b, b2, rs⟩ c)
      = true := by
  simp only [domain_invariant, state_domain, Bool.and_eq_true, Bool.or_eq_true] at hd
  obtain ⟨⟨⟨hb, hb2⟩, hbb⟩, hs⟩ := hd
  have hu := no_nul_utf8 c hc
  simp only [step, value_number_integer_state, ADVANCE_TO, RECONSUME_IN, PARSE_ERROR,
    apply_ite (keeps_domain c), domain_advance, domain_reconsume, domain_error,
    domain_invariant, domain_between, state_domain, state_domain_between, no_nul_append,
    append_utf8_not_empty, append_cons_not_empty, no_nul_cons, no_nul_nil, hb, hb2, hbb, hu,
    Bool.not_false, Bool.and_self, Bool.true_and, ite_self]
  split_ifs with h1 h2 h3 h4 h5
  all_goals first
    | rfl
    | (rcases hs with hs | hs
       · exact hs
       · have := (digit_facts c hs).2.2.1
         simp_all)

theorem dom_value_number_fraction (d : Int) (f : Nat) (stk b b2 : List Nat)
    (rs : ejson_state) (c : Nat) (hc : c ≠ 0)
    (hd : domain_invariant ⟨ejson_value_number_fraction_state, d, f, stk, b, b2, rs⟩ c
      = true) :
    keeps_domain c (step ⟨ejson_value_number_fraction_state, d, f, stk, b, b2, rs⟩ c)
      = true := by
  simp only [domain_invariant, state_domain, Bool.and_eq_true] at hd
  obtain ⟨⟨⟨hb, hb2⟩, hbb⟩, hs⟩ := hd
  have hu := no_nul_utf8 c hc
  have h101 : (101 != 0) = true := rfl
  simp only [step, value_number_fraction_state, ADVANCE_TO, RECONSUME_IN, SWITCH_TO,
    RETURN_TOKEN, PARSE_ERROR, apply_ite (keeps_domain c), domain_advance, domain_reconsume,
    domain_error, domain_ret, domain_invariant, domain_between, state_domain,
    state_domain_between, no_nul_append, append_utf8_not_empty, append_cons_not_empty,
    no_nul_cons, no_nul_nil, hb, hb2, hbb, hu, hs, h101, Bool.not_false, Bool.and_self,
    Bool.true_and, ite_self]

theorem dom_string_escape (d : Int) (f : Nat) (stk b b2 : List Nat) (rs : ejson_state)
    (c : Nat) (hc : c ≠ 0)
    (h : dispatch_invariant ⟨ejson_string_escape_state, d, f, stk, b, b2, rs⟩ c = true)
    (hd : domain_invariant ⟨ejson_string_escape_state, d, f, stk, b, b2, rs⟩ c = true) :
    keeps_domain c (step ⟨ejson_string_escape_state, d, f, stk, b, b2, rs⟩ c) = true := by
  simp only [domain_invariant, state_domain, Bool.and_eq_true, Bool.and_true] at hd
  obtain ⟨⟨hb, hb2⟩, hbb⟩ := hd
  simp only [dispatch_invariant, stack_invariant, Bool.and_eq_true] at h
  have hu := no_nul_utf8 c hc
  have h92 : (92 != 0) = true := rfl
  have hr : ∀ x, no_nul x = true → domain_between ⟨rs, d, f, stk, x, b2, rs⟩ = true := by
    intro x hx
    obtain ⟨h1, h2⟩ := h
    simp only [Bool.or_eq_true, Bool.and_eq_true, beq_iff_eq] at h2
    rcases h2 with ⟨h2 | h2, h3⟩ | ⟨h2 | h2, h3⟩ <;> subst h2 <;>
      simp [domain_between, state_domain_between, hx, hb2, hbb]
  have f1 : no_nul (pcejson_tmp_buff_append (pcejson_tmp_buff_append b [92]) (utf8_bytes c))
      = true := by
    simp only [no_nul_append, no_nul_cons, no_nul_nil, hb, hu, h92, Bool.and_self]
  simp only [step, string_escape_state, ADVANCE_TO, RETURN_TO, PARSE_ERROR,
    apply_ite (keeps_domain c), domain_advance, domain_error, hr _ f1]
  simp only [domain_between, state_domain_between, no_nul_reset, hb, hbb, Bool.and_self,
    ite_self]

theorem dom_string_escape_hex (d : Int) (f : Nat) (stk b b2 : List Nat) (rs : ejson_state)
    (c : Nat) (hc : c ≠ 0)
    (h : dispatch_invariant
      ⟨ejson_string_escape_four_hexadecimal_digits_state, d, f, stk, b, b2, rs⟩ c = true)
    (hd : domain_invariant
      ⟨ejson_string_escape_four_hexadecimal_digits_state, d, f, stk, b, b2, rs⟩ c = true) :
    keeps_domain c
      (step ⟨ejson_string_escape_four_hexadecimal_digits_state, d, f, stk, b, b2, rs⟩ c)
      = true := by
  simp only [domain_invariant, state_domain, Bool.and_eq_true, Bool.and_true] at hd
  obtain ⟨⟨hb, hb2⟩, hbb⟩ := hd
  simp only [dispatch_invariant, stack_invariant, Bool.and_eq_true] at h
  have hu := no_nul_utf8 c hc
  have f2 : no_nul (pcejson_tmp_buff_append b2 (utf8_bytes c)) = true := by
    rw [no_nul_append, hb2, hu]
    rfl
  have hr : ∀ x, no_nul x = true →
      domain_between ⟨rs, d, f, stk, x, pcejson_tmp_buff_append b2 (utf8_bytes c), rs⟩
        = true := by
    intro x hx
    obtain ⟨h1, h2⟩ := h
    simp only [Bool.or_eq_true, Bool.and_eq_true, beq_iff_eq] at h2
    rcases h2 with ⟨h2 | h2, h3⟩ | ⟨h2 | h2, h3⟩ <;> subst h2 <;>
      simp [domain_between, state_domain_between, hx, f2, hbb]
  have f1 : no_nul (pcejson_tmp_buff_append (pcejson_tmp_buff_append b [92, 117])
      ((pcejson_tmp_buff_append b2 (utf8_bytes c)).take 4)) = true := by
    have h92 : (92 != 0) = true := rfl
    have h117 : (117 != 0) = true := rfl
    simp only [no_nul_append, no_nul_cons, no_nul_nil, hb, h92, h117, no_nul_take _ 4 f2,
      Bool.and_self]
  simp only [step, string_escape_four_hexadecimal_digits_state, ADVANCE_TO, RETURN_TO,
    PARSE_ERROR, apply_ite (keeps_domain c), domain_advance, domain_error, hr _ f1]
  simp only [domain_between, state_domain_between, hb, f2, hbb, Bool.and_self, ite_self]

theorem step_keeps_domain_char (p : pcejson) (c : Nat) (hc : c ≠ 0)
    (h : dispatch_invariant p c = true) (hd : domain_invariant p c = true) :
    keeps_domain c (step p c) = true := by
  obtain ⟨s, d, f, stk, b, b2, rs⟩ := p
  cases s
  case ejson_object_state => exact dom_object d f stk b b2 rs c hd
  case ejson_after_object_state => exact dom_after_object d f stk b b2 rs c hd
  case ejson_array_state => exact dom_array d f stk b b2 rs c h hd
  case ejson_after_array_state => exact dom_after_array d f stk b b2 rs c hd
  case ejson_before_name_state => exact dom_before_name d f stk b b2 rs c h hd
  case ejson_before_value_state => exact dom_before_value d f stk b b2 rs c h hd
  case ejson_after_value_state => exact dom_after_value d f stk b b2 rs c h hd
  case ejson_value_double_quoted_state => exact dom_value_double_quoted d f stk b b2 rs c hc hd
  case ejson_after_value_double_quoted_state =>
    exact dom_after_value_double_quoted d f stk b b2 rs c hd
  case ejson_value_two_double_quoted_state =>
    exact dom_value_two_double_quoted d f stk b b2 rs c hd
  case ejson_value_three_double_quoted_state =>
    exact dom_value_three_double_quoted d f stk b b2 rs c hc hd
  case ejson_value_number_state => exact dom_value_number d f stk b b2 rs c hc hd
  case ejson_value_number_integer_state =>
    exact dom_value_number_integer d f stk b b2 rs c hc hd
  case ejson_value_number_fraction_state =>
    exact dom_value_number_fraction d f stk b b2 rs c hc hd
  case ejson_string_escape_state => exact dom_string_escape d f stk b b2 rs c hc h hd
  case ejson_string_escape_four_hexadecimal_digits_state =>
    exact dom_string_escape_hex d f stk b b2 rs c hc h hd
  all_goals
    have hu := no_nul_utf8 c hc
    simp only [domain_invariant, Bool.and_eq_true] at hd
    obtain ⟨⟨⟨hb, hb2⟩, hbb⟩, hs⟩ := hd
    simp only [state_domain] at hs
    simp only [step, init_state, finished_state, name_unquoted_state,
      name_single_quoted_state, name_double_quoted_state, value_single_quoted_state,
      after_name_state, keyword_accept,
      keyword_state, after_keyword_state, byte_sequence_state, after_byte_sequence_state,
      hex_byte_sequence_state, binary_byte_sequence_state, base64_byte_sequence_state,
      after_value_number_state, value_number_exponent_state,
      value_number_exponent_integer_state, value_number_suffix_integer_state,
      ADVANCE_TO, RECONSUME_IN, SWITCH_TO, RETURN_TOKEN, RECONSUME_IN_NEXT,
      PARSE_ERROR, EOF_IN_STRING, RETURN_NULL, apply_ite (keeps_domain c),
      domain_advance, domain_reconsume, domain_error, domain_ret, domain_invariant,
      domain_between, state_domain, state_domain_between, no_nul_append, no_nul_reset,
      hb, hb2, hbb, hu, hs, no_nul_nil, append_utf8_not_empty, append_cons_not_empty,
      no_nul_cons, Bool.not_false,
      Bool.and_self, Bool.true_and, Bool.and_true, ite_self]

theorem step_keeps_domain_zero (p : pcejson) (hd : domain_invariant p 0 = true) :
    keeps_domain 0 (step p 0) = true := by
  obtain ⟨s, d, f, stk, b, b2, rs⟩ := p
  simp only [domain_invariant, Bool.and_eq_true] at hd
  obtain ⟨⟨⟨hb, hb2⟩, hbb⟩, hs⟩ := hd
  cases s
  all_goals
    simp only [state_domain] at hs
    simp +decide [step, init_state, finished_state, object_state, after_object_state,
      array_state, after_array_state, before_name_state, after_name_state,
      before_value_state, after_value_state, name_unquoted_state,
      name_single_quoted_state, name_double_quoted_state, value_single_quoted_state,
      value_double_quoted_state, after_value_double_quoted_state,
      value_two_double_quoted_state, value_three_double_quoted_state, keyword_accept,
      keyword_state, after_keyword_state, byte_sequence_state, after_byte_sequence_state,
      hex_byte_sequence_state, binary_byte_sequence_state, base64_byte_sequence_state,
      value_number_state, after_value_number_state, value_number_integer_state,
      value_number_fraction_state, value_number_exponent_state,
      value_number_exponent_integer_state, value_number_suffix_integer_state,
      string_escape_state, string_escape_four_hexadecimal_digits_state,
      is_whitespace, is_delimiter, is_ascii_digit, is_ascii_alpha, is_ascii_lower,
      is_ascii_hex_digit, is_ascii_binary_digit, to_ascii_lower_unchecked,
      ADVANCE_TO, RECONSUME_IN, SWITCH_TO, RETURN_TOKEN, RECONSUME_IN_NEXT,
      PARSE_ERROR, EOF_IN_STRING, RETURN_NULL, keeps_domain, domain_between,
      state_domain_between, hb, hb2, hbb, hs]

theorem step_keeps_domain (p : pcejson) (c : Nat) (h : dispatch_invariant p c = true)
    (hd : domain_invariant p c = true) : keeps_domain c (step p c) = true := by
  by_cases hc : c = 0
  · subst hc
    exact step_keeps_domain_zero p hd
  · exact step_keeps_domain_char p c hc h hd

theorem c_string_length_le (b : List Nat) : (c_string b).length ≤ b.length :=
  (List.takeWhile_sublist _).length_le

theorem not_empty_length (b : List Nat) (h : (!b.isEmpty) = true) : 1 ≤ b.length := by
  rcases b with _ | ⟨x, l⟩
  · simp at h
  · simp

theorem helpers_of_invariant (p : pcejson) (c : Nat) (h : dispatch_invariant p c = true)
    (hd : domain_invariant p c = true) : helpers_in_domain p c = true := by
  obtain ⟨s, d, f, stk, b, b2, rs⟩ := p
  simp only [domain_invariant, Bool.and_eq_true] at hd
  obtain ⟨⟨⟨hb, hb2⟩, hbb⟩, hs⟩ := hd
  cases s
  case ejson_before_name_state =>
    simp only [dispatch_invariant, stack_invariant, Bool.and_eq_true, beq_iff_eq] at h
    have hne := top_not_empty stk 123 (by decide) h.2
    simp only [helpers_in_domain, stack_domain, pcutils_stack_is_empty, hne, Bool.not_false,
      ite_self]
  case ejson_after_value_state =>
    simp only [dispatch_invariant, stack_invariant, Bool.and_eq_true] at h
    have hne := value_top_not_empty stk h.2
    simp only [helpers_in_domain, stack_domain, pcutils_stack_is_empty, hne, Bool.not_false,
      ite_self]
  case ejson_after_value_double_quoted_state =>
    simp only [state_domain] at hs
    have hl := not_empty_length b hs
    simp only [helpers_in_domain, remove_first_last_domain, pcejson_tmp_buff_dup,
      pcejson_tmp_buff_length, no_nul_c_string b hb]
    split_ifs
    · simpa using hl
    · rfl
  case ejson_value_two_double_quoted_state =>
    simp only [state_domain, Bool.or_eq_true, Bool.and_eq_true, beq_iff_eq] at hs
    simp only [helpers_in_domain, remove_first_last_domain, pcejson_tmp_buff_dup,
      pcejson_tmp_buff_length, no_nul_c_string b hb]
    split_ifs with h1 h2
    · rfl
    · rfl
    · rcases hs with hs | ⟨hs, -⟩
      · subst hs
        rfl
      · exact absurd hs h1
  case ejson_value_three_double_quoted_state =>
    simp only [helpers_in_domain, remove_first_last_domain, end_with_domain,
      pcejson_tmp_buff_dup, pcejson_tmp_buff_length]
    split_ifs with h1 h2 h3
    · subst h1
      have hq : no_nul (pcejson_tmp_buff_append b (utf8_bytes 34)) = true := by
        rw [no_nul_append, hb]
        rfl
      simp only [no_nul_c_string _ hq, List.length_cons, List.length_nil, Bool.and_eq_true,
        decide_eq_true_eq]
      omega
    · simp only [List.length_cons, List.length_nil, Bool.and_true, decide_eq_true_eq]
      omega
    · rfl
    · rfl
  case ejson_value_number_suffix_integer_state =>
    simp only [state_domain] at hs
    have hl := not_empty_length b hs
    simp only [helpers_in_domain, last_char_domain, end_with_domain, pcejson_tmp_buff_length,
      pcejson_tmp_buff_append, List.length_append, List.length_cons, List.length_nil]
    have h1 : decide (1 ≤ b.length) = true := by simpa using hl
    have h2 : decide (0 + 1 + 1 ≤ b.length + (utf8_bytes c).length) = true := by
      have := List.length_pos.2 (utf8_bytes_ne_nil c)
      simp only [decide_eq_true_eq]
      omega
    have h3 : decide (0 + 1 ≤ b.length + (utf8_bytes c).length) = true := by
      simp only [decide_eq_true_eq]
      omega
    simp only [h1, h2, h3, Bool.true_and, Bool.or_true, Bool.and_self, ite_self]
  case ejson_after_object_state =>
    simp only [state_domain] at hs
    simp only [helpers_in_domain, stack_domain, pcutils_stack_is_empty, hs, ite_self]
  case ejson_after_array_state =>
    simp only [state_domain] at hs
    simp only [helpers_in_domain, stack_domain, pcutils_stack_is_empty, hs, ite_self]
  all_goals
    simp only [state_domain] at hs
    first
      | rfl
      | (have hl := not_empty_length b hs
         have h1 : decide (1 ≤ b.length) = true := by simpa using hl
         simp only [helpers_in_domain, end_with_domain, pcejson_tmp_buff_length,
           List.length_cons, List.length_nil, Nat.zero_add, h1, Bool.true_and, Bool.or_true,
           Bool.and_self, ite_self])

theorem invariant_domain (p : pcejson) (c : Nat) (h : domain_between p = true) :
    domain_invariant p c = true := by
  obtain ⟨s, d, f, stk, b, b2, rs⟩ := p
  simp only [domain_between, Bool.and_eq_true] at h
  obtain ⟨⟨⟨hb, hb2⟩, hbb⟩, hs⟩ := h
  cases s <;>
    simp_all [domain_invariant, state_domain, state_domain_between]

theorem dispatch_keeps_domain (n : Nat) (p : pcejson) (c : Nat)
    (h : dispatch_invariant p c = true) (hd : domain_invariant p c = true) :
    dispatch_in_domain n p c = true
    ∧ (∀ p1, dispatch n p c = .advance p1 → domain_between p1 = true)
    ∧ (∀ t p1 u, dispatch n p c = .ret t none p1 u → domain_between p1 = true) := by
  induction n generalizing p with
  | zero => simp [dispatch, dispatch_in_domain]
  | succ n ih =>
    have hs := step_keeps_invariant p c h
    have hk := step_keeps_domain p c h hd
    have hh := helpers_of_invariant p c h hd
    rw [dispatch, dispatch_in_domain, hh, Bool.true_and]
    cases hst : step p c with
    | advance p1 =>
      rw [hst, domain_advance] at hk
      refine ⟨rfl, ?_, ?_⟩
      · intro p2 h2
        cases h2
        exact hk
      · intro t p2 u h2
        cases h2
    | reconsume p1 =>
      rw [hst, keeps_reconsume] at hs
      rw [hst, domain_reconsume] at hk
      exact ih p1 hs hk
    | ret t e p1 u =>
      refine ⟨rfl, ?_, ?_⟩
      · intro p2 h2
        cases h2
      · intro t2 p2 u2 h2
        cases h2
        rw [hst, domain_ret] at hk
        exact hk

theorem next_token_keeps_domain (rws : List Nat) (p : pcejson)
    (h : stack_invariant p = true) (hd : domain_between p = true) :
    next_token_in_domain p rws = true
    ∧ ((pcejson_next_token p rws).err = none →
        stack_invariant (pcejson_next_token p rws).ejson = true
        ∧ domain_between (pcejson_next_token p rws).ejson = true) := by
  induction rws generalizing p with
  | nil => exact ⟨rfl, fun _ => ⟨h, hd⟩⟩
  | cons c rws ih =>
    have hi := invariant_dispatch p c h
    have h1 := dispatch_keeps_invariant RECONSUME_LIMIT p c hi
    have h2 := dispatch_keeps_domain RECONSUME_LIMIT p c hi (invariant_domain p c hd)
    have hr := dispatch_in_rank RECONSUME_LIMIT p c
      (Nat.lt_of_le_of_lt (reconsume_rank_le p.state) (by decide))
    rw [pcejson_next_token, next_token_in_domain, h2.1, Bool.true_and]
    cases hdp : dispatch RECONSUME_LIMIT p c with
    | advance p1 => exact ih p1 (h1.1 p1 hdp) (h2.2.1 p1 hdp)
    | reconsume p1 => exact absurd hdp (hr p1)
    | ret t e p1 u =>
      refine ⟨rfl, ?_⟩
      intro he
      simp only at he
      subst he
      exact ⟨h1.2 t p1 u hdp, h2.2.2 t p1 u hdp⟩

theorem calls_keep_domain (n : Nat) (rws : List Nat) (p : pcejson)
    (h : stack_invariant p = true) (hd : domain_between p = true) :
    calls_in_domain n p rws = true := by
  induction n generalizing p rws with
  | zero => rfl
  | succ n ih =>
    have h1 := next_token_keeps_domain rws p h hd
    rw [calls_in_domain, h1.1, Bool.true_and]
    simp only []
    cases he : (pcejson_next_token p rws).err with
    | some e => rfl
    | none => exact ih _ _ (h1.2 he).1 (h1.2 he).2

theorem reachable_domain (p : pcejson) (h : reachable p) : domain_between p = true := by
  induction h with
  | fresh d f => rfl
  | advance p p1 c hp hdp ih =>
    have hi := invariant_dispatch p c (reachable_invariant p hp)
    exact (dispatch_keeps_domain RECONSUME_LIMIT p c hi (invariant_domain p c ih)).2.1 p1 hdp
  | ret p p1 c t u hp hdp ih =>
    have hi := invariant_dispatch p c (reachable_invariant p hp)
    exact (dispatch_keeps_domain RECONSUME_LIMIT p c hi (invariant_domain p c ih)).2.2 t p1 u hdp

/-- C40: on every run of `pcejson_next_token` from a freshly created parser, whatever
the depth, the flags, the stream and the number of calls, up to and including the first
call that records an error, every pass through the state switch applies the helpers
inside their domain: `pcejson_tmp_buff_last_char` to a non-empty buffer,
`pcejson_tmp_buff_end_with` to a buffer at least as long as the suffix,
`pcejson_tmp_buff_remove_first_last` with `first + last` not above the length of the
buffer and of its C string, and the top of the container stack is read or popped only
when the stack is not empty. The same holds for every character dispatched in a
tokenizer that a fresh parser can become without an error. -/
theorem C40_helpers_in_domain (depth : Int) (flags : Nat) (rws : List Nat) (calls : Nat) :
    calls_in_domain calls (pcejson_create depth flags) rws = true
    ∧ ∀ p, reachable p → ∀ wc, dispatch_in_domain RECONSUME_LIMIT p wc = true :=
  ⟨calls_keep_domain calls rws (pcejson_create depth flags) rfl rfl,
   fun p hp wc =>
    (dispatch_keeps_domain RECONSUME_LIMIT p wc
      (invariant_dispatch p wc (reachable_invariant p hp))
      (invariant_domain p wc (reachable_domain p hp))).1⟩


/-- C40 at the document `{"a":[1UL,""],'b':1.5e3,c:"""t"""}` read by at most forty
calls, and at an opening brace dispatched in a fresh parser. -/
theorem C40_helpers_in_domain_witness :
    calls_in_domain 40 (pcejson_create 10 1)
        (chars "\x7b\"a\":[1UL,\"\"],'b':1.5e3,c:\"\"\"t\"\"\"\x7d") = true
    ∧ dispatch_in_domain RECONSUME_LIMIT (pcejson_create 10 1) 123 = true :=
  ⟨(C40_helpers_in_domain 10 1
      (chars "\x7b\"a\":[1UL,\"\"],'b':1.5e3,c:\"\"\"t\"\"\"\x7d") 40).1,
   (C40_helpers_in_domain 10 1 [] 0).2 (pcejson_create 10 1) (reachable.fresh 10 1) 123⟩

/-- The check of the helper domains is not empty: it fails in tokenizers that no run from
a fresh parser reaches. The suffix state with an empty buffer reads the last character of
nothing; the after-value state with an empty stack pops it; with the single marker `[` on
the stack a closing brace pops the marker and reads the top of the empty stack; the state
behind two double quotes with the one-byte buffer `"` removes two bytes; the after-number
state with an empty buffer compares one byte. -/
theorem helpers_in_domain_examples :
    helpers_in_domain
        ⟨ejson_value_number_suffix_integer_state, 10, 1, [58, 123], [], [], ejson_init_state⟩
        76 = false
    ∧ helpers_in_domain ⟨ejson_after_value_state, 10, 1, [], [], [], ejson_init_state⟩ 125
      = false
    ∧ helpers_in_domain ⟨ejson_after_value_state, 10, 1, [91], [], [], ejson_init_state⟩ 125
      = true
    ∧ dispatch_in_domain RECONSUME_LIMIT
        ⟨ejson_after_value_state, 10, 1, [91], [], [], ejson_init_state⟩ 125 = false
    ∧ calls_in_domain 1 ⟨ejson_after_value_state, 10, 1, [91], [], [], ejson_init_state⟩
        (chars " \x7d") = false
    ∧ helpers_in_domain
        ⟨ejson_value_two_double_quoted_state, 10, 1, [58, 123], [34], [], ejson_init_state⟩
        120 = false
    ∧ helpers_in_domain
        ⟨ejson_after_value_number_state, 10, 1, [58, 123], [], [], ejson_init_state⟩ 44
      = false :=
  ⟨by decide, by decide, by decide, by decide, by decide, by decide, by decide⟩

end PurC
